import Mathlib

/-!
# GuC error-capture (i915, drm-kmod): ring reader, capture-group parser, ADS cache

Shallow embedding of `drivers/gpu/drm/i915/gt/uc/intel_guc_capture.c`, and of the helper
set-up and tear-down of `drivers/gpu/drm/drm_self_refresh_helper.c`.

Conventions of the embedding:

* `u32` / `int` / `size_t` quantities are natural numbers (statuses are integers).  The ring
  offsets and register counts of the driver stay far below `2^31`, where no operation of
  the code wraps; narrowing conversions that the source performs on purpose (the `u16`
  record count of `guc_capture_list_init`, the bit-field macros) are written out.
* The ring memory is a function from byte offsets to bytes; a `u32` load is little-endian.
* A C pointer that may be `NULL` is an `Option`; a `NULL`-terminated table is a `List`.
* Out-parameters are passed in with their old value and returned with the new one.
* In the parser, `kzalloc`/`kcalloc` outcomes come from an oracle `oom : Nat → Bool` indexed
  by the number of allocation attempts made so far (`true` = the allocation fails); in
  `intel_guc_capture_getlist` the single `kzalloc` is a function from the requested size to
  the address of the zeroed buffer, or `none` when it fails.
-/

namespace DrmKmod

/-! ## Constants and bit-field macros -/

/-- Modelled from the spec: the errno values are not under `src/`; the spec names the
statuses ("not found", "I/O error", "out of memory", "no device").  `ENODATA`. -/
def ENODATA : Int := 61

/-- Modelled from the spec: "I/O error" status (`errno.h` is not under `src/`). -/
def EIO : Int := 5

/-- Modelled from the spec: "out of memory" status (`errno.h` is not under `src/`). -/
def ENOMEM : Int := 12

/-- Modelled from the spec: status of a device without capture support (`errno.h` is not
under `src/`). -/
def ENODEV : Int := 19

/-- `BIT(n)`. -/
def BIT (n : Nat) : Nat := 2 ^ n

/-- `GENMASK(h, l)`: the bits `l .. h` set. -/
def GENMASK (h l : Nat) : Nat := (2 ^ (h + 1) - 1) - (2 ^ l - 1)

/-- Index of the lowest set bit among the first `fuel` bits (0 when there is none). -/
def bf_shf_aux : Nat → Nat → Nat
  | 0, _ => 0
  | fuel + 1, m => if m % 2 = 1 then 0 else 1 + bf_shf_aux fuel (m / 2)

/-- `__bf_shf(mask)`: shift of a bit-field mask. -/
def __bf_shf (mask : Nat) : Nat := if mask = 0 then 0 else bf_shf_aux 64 mask

/-- `FIELD_GET(mask, reg)`. -/
def FIELD_GET (mask reg : Nat) : Nat := (reg &&& mask) >>> __bf_shf mask

/-- `FIELD_PREP(mask, val)`. -/
def FIELD_PREP (mask val : Nat) : Nat := (val <<< __bf_shf mask) &&& mask

/-- `GUC_CAPTURELISTHDR_NUMDESCR` of `guc_capture_fwif.h`. -/
def GUC_CAPTURELISTHDR_NUMDESCR : Nat := GENMASK 15 0

/-- `enum guc_capture_type`. -/
def GUC_CAPTURE_LIST_TYPE_GLOBAL : Nat := 0

/-- `enum guc_capture_type`. -/
def GUC_CAPTURE_LIST_TYPE_ENGINE_CLASS : Nat := 1

/-- `enum guc_capture_type`. -/
def GUC_CAPTURE_LIST_TYPE_ENGINE_INSTANCE : Nat := 2

/-- `enum guc_capture_type`. -/
def GUC_CAPTURE_LIST_TYPE_MAX : Nat := 3

/-- Bit-field masks of the firmware records (`intel_guc_fwif.h`, not under `src/`): they
are parameters of the embedding.  The decoded counts and type tags are kept as naturals;
the C code holds them in `int`s, which is the same for masks below `2^31`. -/
structure guc_fwif where
  CAP_GRP_HDR_NUM_CAPTURES : Nat
  CAP_GRP_HDR_CAPTURE_TYPE : Nat
  CAP_HDR_CAPTURE_VFID : Nat
  CAP_HDR_CAPTURE_TYPE : Nat
  CAP_HDR_ENGINE_CLASS : Nat
  CAP_HDR_ENGINE_INSTANCE : Nat
  CAP_HDR_NUM_MMIOS : Nat

/-- A concrete mask layout (the one of the upstream firmware interface), used for concrete
evaluations. -/
def fwif_upstream : guc_fwif where
  CAP_GRP_HDR_NUM_CAPTURES := GENMASK 7 0
  CAP_GRP_HDR_CAPTURE_TYPE := GENMASK 15 8
  CAP_HDR_CAPTURE_VFID := GENMASK 7 0
  CAP_HDR_CAPTURE_TYPE := GENMASK 3 0
  CAP_HDR_ENGINE_CLASS := GENMASK 7 4
  CAP_HDR_ENGINE_INSTANCE := GENMASK 11 8
  CAP_HDR_NUM_MMIOS := GENMASK 9 0

/-! ## Firmware records -/

/-- `struct guc_state_capture_group_header_t` (two dwords). -/
structure guc_state_capture_group_header_t where
  owner : Nat
  info : Nat
deriving DecidableEq, Repr

/-- `struct guc_state_capture_header_t` (five dwords). -/
structure guc_state_capture_header_t where
  owner : Nat
  info : Nat
  lrca : Nat
  guc_id : Nat
  num_mmios : Nat
deriving DecidableEq, Repr

/-- `struct guc_mmio_reg` (four dwords). -/
structure guc_mmio_reg where
  offset : Nat
  value : Nat
  flags : Nat
  mask : Nat
deriving DecidableEq, Repr

/-! ## Ring buffer reader -/

/-- `struct __guc_capture_bufstate`: cursor over the ring (`data` is the borrowed byte
region). -/
structure __guc_capture_bufstate where
  size : Nat
  data : Nat → Nat
  rd : Nat
  wr : Nat

/-- Little-endian `u32` load `*(u32 *)(data + off)`. -/
def get_u32 (data : Nat → Nat) (off : Nat) : Nat :=
  data off + 256 * data (off + 1) + 65536 * data (off + 2) + 16777216 * data (off + 3)

/-- `guc_capture_buf_cnt`. -/
def guc_capture_buf_cnt (buf : __guc_capture_bufstate) : Nat :=
  if buf.wr ≥ buf.rd then buf.wr - buf.rd else (buf.size - buf.rd) + buf.wr

/-- `guc_capture_buf_cnt_to_end`. -/
def guc_capture_buf_cnt_to_end (buf : __guc_capture_bufstate) : Nat :=
  if buf.rd > buf.wr then buf.size - buf.rd else buf.wr - buf.rd

/-- Result of `guc_capture_log_remove_dw`: bytes read, the dword behind `dw`, the cursor. -/
structure dw_result where
  ret : Nat
  dw : Nat
  buf : __guc_capture_bufstate

/-- The `while (tries--)` loop of `guc_capture_log_remove_dw`. -/
def remove_dw_tries : Nat → __guc_capture_bufstate → Nat → dw_result
  | 0, buf, dw => ⟨0, dw, buf⟩
  | tries + 1, buf, dw =>
    if guc_capture_buf_cnt_to_end buf ≥ 4 then
      ⟨4, get_u32 buf.data buf.rd, { buf with rd := buf.rd + 4 }⟩
    else
      remove_dw_tries tries { buf with rd := 0 } dw

/-- `guc_capture_log_remove_dw`. -/
def guc_capture_log_remove_dw (buf : __guc_capture_bufstate) (dw : Nat) : dw_result :=
  if guc_capture_buf_cnt buf = 0 then ⟨0, dw, buf⟩ else remove_dw_tries 2 buf dw

/-- `guc_capture_data_extracted`: on success the image of the `size` copied bytes and the
advanced cursor; `none` when fewer than `size` contiguous bytes remain. -/
def guc_capture_data_extracted (b : __guc_capture_bufstate) (size : Nat) :
    Option ((Nat → Nat) × __guc_capture_bufstate) :=
  if guc_capture_buf_cnt_to_end b ≥ size then
    some (fun j => b.data (b.rd + j), { b with rd := b.rd + size })
  else
    none

/-- Result of a typed-record reader: status, the record behind the out-pointer, cursor. -/
structure rec_result (α : Type) where
  ret : Int
  val : α
  buf : __guc_capture_bufstate

/-- `guc_capture_log_get_group_hdr`. -/
def guc_capture_log_get_group_hdr (buf : __guc_capture_bufstate)
    (ghdr : guc_state_capture_group_header_t) : rec_result guc_state_capture_group_header_t :=
  if 8 > guc_capture_buf_cnt buf then ⟨-1, ghdr, buf⟩
  else
    match guc_capture_data_extracted buf 8 with
    | some (img, buf1) => ⟨0, ⟨get_u32 img 0, get_u32 img 4⟩, buf1⟩
    | none =>
      let r1 := guc_capture_log_remove_dw buf ghdr.owner
      let r2 := guc_capture_log_remove_dw r1.buf ghdr.info
      ⟨if r1.ret + r2.ret ≠ 8 then -1 else 0, ⟨r1.dw, r2.dw⟩, r2.buf⟩

/-- `guc_capture_log_get_data_hdr`. -/
def guc_capture_log_get_data_hdr (buf : __guc_capture_bufstate)
    (hdr : guc_state_capture_header_t) : rec_result guc_state_capture_header_t :=
  if 20 > guc_capture_buf_cnt buf then ⟨-1, hdr, buf⟩
  else
    match guc_capture_data_extracted buf 20 with
    | some (img, buf1) =>
      ⟨0, ⟨get_u32 img 0, get_u32 img 4, get_u32 img 8, get_u32 img 12, get_u32 img 16⟩, buf1⟩
    | none =>
      let r1 := guc_capture_log_remove_dw buf hdr.owner
      let r2 := guc_capture_log_remove_dw r1.buf hdr.info
      let r3 := guc_capture_log_remove_dw r2.buf hdr.lrca
      let r4 := guc_capture_log_remove_dw r3.buf hdr.guc_id
      let r5 := guc_capture_log_remove_dw r4.buf hdr.num_mmios
      ⟨if r1.ret + r2.ret + r3.ret + r4.ret + r5.ret ≠ 20 then -1 else 0,
        ⟨r1.dw, r2.dw, r3.dw, r4.dw, r5.dw⟩, r5.buf⟩

/-- `guc_capture_log_get_register`. -/
def guc_capture_log_get_register (buf : __guc_capture_bufstate)
    (reg : guc_mmio_reg) : rec_result guc_mmio_reg :=
  if 16 > guc_capture_buf_cnt buf then ⟨-1, reg, buf⟩
  else
    match guc_capture_data_extracted buf 16 with
    | some (img, buf1) =>
      ⟨0, ⟨get_u32 img 0, get_u32 img 4, get_u32 img 8, get_u32 img 12⟩, buf1⟩
    | none =>
      let r1 := guc_capture_log_remove_dw buf reg.offset
      let r2 := guc_capture_log_remove_dw r1.buf reg.value
      let r3 := guc_capture_log_remove_dw r2.buf reg.flags
      let r4 := guc_capture_log_remove_dw r3.buf reg.mask
      ⟨if r1.ret + r2.ret + r3.ret + r4.ret ≠ 16 then -1 else 0,
        ⟨r1.dw, r2.dw, r3.dw, r4.dw⟩, r4.buf⟩

/-! ## Parsed output nodes -/

/-- `struct gcap_reg_list_info`: one register slot of a node (`regs = none` is `NULL`). -/
structure gcap_reg_list_info where
  vfid : Nat
  num_regs : Nat
  regs : Option (List guc_mmio_reg)
deriving DecidableEq, Repr

/-- `struct __guc_capture_parsed_output` without its list link: `reginfo` is the array
`reginfo[GUC_CAPTURE_LIST_TYPE_MAX]`. -/
structure __guc_capture_parsed_output where
  is_partial : Bool
  eng_class : Nat
  eng_inst : Nat
  guc_id : Nat
  lrca : Nat
  reginfo : List gcap_reg_list_info
deriving DecidableEq, Repr

/-- `GCAP_PARSED_REGLIST_INDEX_GLOBAL`. -/
def GCAP_PARSED_REGLIST_INDEX_GLOBAL : Nat := BIT GUC_CAPTURE_LIST_TYPE_GLOBAL

/-- `GCAP_PARSED_REGLIST_INDEX_ENGCLASS`. -/
def GCAP_PARSED_REGLIST_INDEX_ENGCLASS : Nat := BIT GUC_CAPTURE_LIST_TYPE_ENGINE_CLASS

/-- An all-zero register record (`kcalloc`ed memory). -/
def zero_reg : guc_mmio_reg := ⟨0, 0, 0, 0⟩

/-- An all-zero register slot. -/
def zero_reginfo : gcap_reg_list_info := ⟨0, 0, none⟩

/-- A freshly `kzalloc`ed node. -/
def zero_node : __guc_capture_parsed_output :=
  ⟨false, 0, 0, 0, 0, [zero_reginfo, zero_reginfo, zero_reginfo]⟩

/-- `node->reginfo[i]`. -/
def reginfo_at (node : __guc_capture_parsed_output) (i : Nat) : gcap_reg_list_info :=
  node.reginfo.getD i zero_reginfo

/-- `guc_capture_alloc_one_node`: the node (or `NULL`) and the allocation counter. -/
def guc_capture_alloc_one_node (oom : Nat → Bool) (k : Nat) :
    Option __guc_capture_parsed_output × Nat :=
  if oom k then (none, k + 1) else (some zero_node, k + 1)

/-- The `memcpy` of `n` register records out of an array that may be `NULL`. -/
def copy_regs (src : Option (List guc_mmio_reg)) (n : Nat) : List guc_mmio_reg :=
  (List.range n).map (fun j => (src.getD []).getD j zero_reg)

/-- The `for` loop of `guc_capture_clone_node` from index `i` on, `n` indices left;
`none` is the `bail_clone` exit.  A successful `kcalloc` of zero records is a non-`NULL`
empty array. -/
def clone_reglists (oom : Nat → Bool) (keep_reglist_mask : Nat)
    (original : __guc_capture_parsed_output) :
    Nat → Nat → __guc_capture_parsed_output → Nat → Option __guc_capture_parsed_output × Nat
  | 0, _, new, k => (some new, k)
  | n + 1, i, new, k =>
    if keep_reglist_mask &&& BIT i ≠ 0 then
      if oom k then (none, k + 1)
      else
        let o := reginfo_at original i
        let new1 := { new with
          reginfo := new.reginfo.set i ⟨o.vfid, o.num_regs, some (copy_regs o.regs o.num_regs)⟩ }
        let new2 :=
          if i = GUC_CAPTURE_LIST_TYPE_ENGINE_CLASS then
            { new1 with eng_class := original.eng_class }
          else if i = GUC_CAPTURE_LIST_TYPE_ENGINE_INSTANCE then
            { new1 with eng_inst := original.eng_inst, guc_id := original.guc_id,
                        lrca := original.lrca }
          else new1
        clone_reglists oom keep_reglist_mask original n (i + 1) new2 (k + 1)
    else
      clone_reglists oom keep_reglist_mask original n (i + 1) new k

/-- `guc_capture_clone_node`. -/
def guc_capture_clone_node (oom : Nat → Bool) (k : Nat)
    (original : Option __guc_capture_parsed_output) (keep_reglist_mask : Nat) :
    Option __guc_capture_parsed_output × Nat :=
  match guc_capture_alloc_one_node oom k with
  | (none, k1) => (none, k1)
  | (some new, k1) =>
    match original with
    | none => (some new, k1)
    | some orig =>
      clone_reglists oom keep_reglist_mask orig GUC_CAPTURE_LIST_TYPE_MAX 0
        { new with is_partial := orig.is_partial } k1

/-! ## Capture-group parser -/

/-- Local state of `guc_capture_extract_reglists` together with the output list
`guc->capture->outlist` and the allocation counter. -/
structure extract_state where
  buf : __guc_capture_bufstate
  hdr : guc_state_capture_header_t
  node : Option __guc_capture_parsed_output
  outlist : List __guc_capture_parsed_output
  nalloc : Nat
  ret : Int

/-- The skip loop of an unknown capture type (`while (numregs--)` at line 1093): cursor
and `ret` afterwards.  The scratch record `tmp` is never read. -/
def skip_regs : Nat → __guc_capture_bufstate → Int → __guc_capture_bufstate × Int
  | 0, buf, ret => (buf, ret)
  | numregs + 1, buf, ret =>
    let r := guc_capture_log_get_register buf zero_reg
    if r.ret ≠ 0 then (r.buf, - EIO) else skip_regs numregs r.buf ret

/-- Result of the fill loop: cursor, the register array, `ret`. -/
structure fill_result where
  buf : __guc_capture_bufstate
  regs : List guc_mmio_reg
  ret : Int

/-- The fill loop of a known capture type (`while (numregs--)` at line 1167), reading into
`regs[i++]`. -/
def fill_regs : Nat → Nat → __guc_capture_bufstate → List guc_mmio_reg → Int → fill_result
  | 0, _, buf, regs, ret => ⟨buf, regs, ret⟩
  | numregs + 1, i, buf, regs, ret =>
    let r := guc_capture_log_get_register buf (regs.getD i zero_reg)
    if r.ret ≠ 0 then ⟨r.buf, regs.set i r.val, - EIO⟩
    else fill_regs numregs (i + 1) r.buf (regs.set i r.val) ret

/-- The `else if (node)` block (lines 1100-1127): the node carried on, the output list and
the allocation counter. -/
def node_continuity (oom : Nat → Bool) (datatype : Nat)
    (node : Option __guc_capture_parsed_output)
    (outlist : List __guc_capture_parsed_output) (k : Nat) :
    Option __guc_capture_parsed_output × List __guc_capture_parsed_output × Nat :=
  match node with
  | none => (none, outlist, k)
  | some nd =>
    if datatype = GUC_CAPTURE_LIST_TYPE_GLOBAL then
      (none, outlist ++ [nd], k)
    else if datatype = GUC_CAPTURE_LIST_TYPE_ENGINE_CLASS ∧
        (reginfo_at nd GUC_CAPTURE_LIST_TYPE_ENGINE_CLASS).regs ≠ none then
      let c := guc_capture_clone_node oom k (some nd) GCAP_PARSED_REGLIST_INDEX_GLOBAL
      (c.1, outlist ++ [nd], c.2)
    else if datatype = GUC_CAPTURE_LIST_TYPE_ENGINE_INSTANCE ∧
        (reginfo_at nd GUC_CAPTURE_LIST_TYPE_ENGINE_INSTANCE).regs ≠ none then
      let c := guc_capture_clone_node oom k (some nd)
        (GCAP_PARSED_REGLIST_INDEX_GLOBAL ||| GCAP_PARSED_REGLIST_INDEX_ENGCLASS)
      (c.1, outlist ++ [nd], c.2)
    else
      (some nd, outlist, k)

/-- Lines 1139-1153: `is_partial`, the slot's `vfid` and the scalars set from the header. -/
def set_node_header (fw : guc_fwif) ( is_partial : Bool) (datatype : Nat)
    (hdr : guc_state_capture_header_t) (node : __guc_capture_parsed_output) :
    __guc_capture_parsed_output :=
  let n1 := { node with is_partial := is_partial }
  let n2 := { n1 with
    reginfo := n1.reginfo.set datatype
      { reginfo_at n1 datatype with vfid := FIELD_GET fw.CAP_HDR_CAPTURE_VFID hdr.owner } }
  if datatype = GUC_CAPTURE_LIST_TYPE_ENGINE_INSTANCE then
    { n2 with eng_class := FIELD_GET fw.CAP_HDR_ENGINE_CLASS hdr.info,
              eng_inst := FIELD_GET fw.CAP_HDR_ENGINE_INSTANCE hdr.info,
              lrca := hdr.lrca, guc_id := hdr.guc_id }
  else if datatype = GUC_CAPTURE_LIST_TYPE_ENGINE_CLASS then
    { n2 with eng_class := FIELD_GET fw.CAP_HDR_ENGINE_CLASS hdr.info }
  else n2

/-- Lines 1164-1165: `node->reginfo[datatype].num_regs = numregs; .regs = regs`. -/
def set_node_regs (datatype numregs : Nat) (regs : Option (List guc_mmio_reg))
    (node : __guc_capture_parsed_output) : __guc_capture_parsed_output :=
  { node with
    reginfo := node.reginfo.set datatype
      { reginfo_at node datatype with num_regs := numregs, regs := regs } }

/-- Lines 1129-1172 for a known capture type, once the node to continue with is decided:
the flag is `true` when the iteration leaves the loop by `break`, and the state is the one
at that point (or at the end of the iteration). -/
def fill_node (fw : guc_fwif) (oom : Nat → Bool) ( is_partial : Bool) (datatype : Nat)
    (s : extract_state) : Bool × extract_state :=
  let a := match s.node with
    | some nd => (some nd, s.nalloc)
    | none => guc_capture_alloc_one_node oom s.nalloc
  match a.1 with
  | none => (true, { s with node := none, nalloc := a.2, ret := - ENOMEM })
  | some nd =>
    let nd1 := set_node_header fw is_partial datatype s.hdr nd
    let numregs := FIELD_GET fw.CAP_HDR_NUM_MMIOS s.hdr.num_mmios
    if numregs ≠ 0 ∧ oom a.2 = true then
      (true, { s with node := some nd1, nalloc := a.2 + 1, ret := - ENOMEM })
    else
      let k := if numregs ≠ 0 then a.2 + 1 else a.2
      let f := fill_regs numregs 0 s.buf (List.replicate numregs zero_reg) s.ret
      let regs := if numregs ≠ 0 then some f.regs else none
      (false, { s with buf := f.buf, node := some (set_node_regs datatype numregs regs nd1),
                       nalloc := k, ret := f.ret })

/-- The `while (numlists--)` loop (lines 1083-1173); the result is the state at the label
`bailout`. -/
def extract_loop (fw : guc_fwif) (oom : Nat → Bool) ( is_partial : Bool) :
    Nat → extract_state → extract_state
  | 0, s => s
  | numlists + 1, s =>
    let rh := guc_capture_log_get_data_hdr s.buf s.hdr
    if rh.ret ≠ 0 then { s with buf := rh.buf, hdr := rh.val, ret := - EIO }
    else
      let datatype := FIELD_GET fw.CAP_HDR_CAPTURE_TYPE rh.val.info
      if datatype > GUC_CAPTURE_LIST_TYPE_ENGINE_INSTANCE then
        let sk := skip_regs (FIELD_GET fw.CAP_HDR_NUM_MMIOS rh.val.num_mmios) rh.buf s.ret
        extract_loop fw oom is_partial numlists
          { s with buf := sk.1, hdr := rh.val, ret := sk.2 }
      else
        let c := node_continuity oom datatype s.node s.outlist s.nalloc
        let r := fill_node fw oom is_partial datatype
          { s with buf := rh.buf, hdr := rh.val, node := c.1, outlist := c.2.1,
                   nalloc := c.2.2 }
        if r.1 then r.2 else extract_loop fw oom is_partial numlists r.2

/-- The label `bailout` (lines 1175-1188): the node in progress is appended when one of its
slots has a register array, and freed otherwise. -/
def extract_bailout (node : Option __guc_capture_parsed_output)
    (outlist : List __guc_capture_parsed_output) : List __guc_capture_parsed_output :=
  match node with
  | none => outlist
  | some nd =>
    if ((List.range GUC_CAPTURE_LIST_TYPE_MAX).any
        (fun i => (reginfo_at nd i).regs.isSome)) then outlist ++ [nd] else outlist

/-- What one call of `guc_capture_extract_reglists` leaves behind. -/
structure extract_result where
  ret : Int
  buf : __guc_capture_bufstate
  outlist : List __guc_capture_parsed_output
  nalloc : Nat

/-- `guc_capture_extract_reglists`. -/
def guc_capture_extract_reglists (fw : guc_fwif) (oom : Nat → Bool) (k : Nat)
    (buf : __guc_capture_bufstate) (outlist : List __guc_capture_parsed_output) :
    extract_result :=
  let i := guc_capture_buf_cnt buf
  if i = 0 then ⟨- ENODATA, buf, outlist, k⟩
  else if i % 4 ≠ 0 then ⟨- EIO, buf, extract_bailout none outlist, k⟩
  else
    let g := guc_capture_log_get_group_hdr buf ⟨0, 0⟩
    if g.ret ≠ 0 then ⟨- EIO, g.buf, extract_bailout none outlist, k⟩
    else
      let is_partial := decide (FIELD_GET fw.CAP_GRP_HDR_CAPTURE_TYPE g.val.info ≠ 0)
      let numlists := FIELD_GET fw.CAP_GRP_HDR_NUM_CAPTURES g.val.info
      let s := extract_loop fw oom is_partial numlists
        ⟨g.buf, ⟨0, 0, 0, 0, 0⟩, none, outlist, k, 0⟩
      ⟨s.ret, s.buf, extract_bailout s.node s.outlist, s.nalloc⟩

/-! ## Specification-side notions -/

/-- Little-endian bytes of a dword sequence. -/
def le_bytes : List Nat → List Nat
  | [] => []
  | d :: ds => d % 256 :: d / 256 % 256 :: d / 65536 % 256 :: d / 16777216 % 256 :: le_bytes ds

/-- A ring of `size` bytes whose logical content, starting at read offset `rd` and wrapping
at the end of the ring, is the byte sequence `bytes`; the write offset is right after it. -/
def ring_with (size rd : Nat) (bytes : List Nat) : __guc_capture_bufstate where
  size := size
  data := fun a => bytes.getD ((a + size - rd % size) % size) 0
  rd := rd
  wr := (rd + bytes.length) % size

/-- A group of one Global capture with two registers. -/
def example_group_hdr : guc_state_capture_group_header_t := ⟨7, 1⟩

/-- The records of the example group. -/
def example_recs : List (guc_state_capture_header_t × List guc_mmio_reg) :=
  [(⟨9, 0, 4369, 8738, 2⟩, [⟨100, 101, 102, 103⟩, ⟨200, 201, 202, 203⟩])]

/-- A dword-aligned cursor inside its ring. -/
def ring_aligned (b : __guc_capture_bufstate) : Prop :=
  b.size % 4 = 0 ∧ b.rd % 4 = 0 ∧ b.wr % 4 = 0 ∧ b.rd ≤ b.size ∧ b.wr ≤ b.size

/-- The `k`-th dword of the logical content of the ring, counted from the read offset. -/
def ring_dw (b : __guc_capture_bufstate) (k : Nat) : Nat :=
  get_u32 b.data ((b.rd + 4 * k) % b.size)

/-- The cursor `b'` is `b` advanced by `n` logical bytes over the same ring. -/
def ring_adv (b b' : __guc_capture_bufstate) (n : Nat) : Prop :=
  b'.size = b.size ∧ b'.data = b.data ∧ b'.wr = b.wr ∧ ring_aligned b' ∧
    b'.rd % b.size = (b.rd + n) % b.size ∧
    guc_capture_buf_cnt b' + n = guc_capture_buf_cnt b

/-- Dwords of a group header, in stream order. -/
def enc_ghdr (g : guc_state_capture_group_header_t) : List Nat := [g.owner, g.info]

/-- Dwords of a data header, in stream order. -/
def enc_hdr (h : guc_state_capture_header_t) : List Nat :=
  [h.owner, h.info, h.lrca, h.guc_id, h.num_mmios]

/-- Dwords of a register record, in stream order. -/
def enc_reg (r : guc_mmio_reg) : List Nat := [r.offset, r.value, r.flags, r.mask]

/-- Dwords of a register block. -/
def enc_regs : List guc_mmio_reg → List Nat
  | [] => []
  | r :: rs => enc_reg r ++ enc_regs rs

/-- Dwords of a list of captures (data header, then its register block). -/
def enc_recs : List (guc_state_capture_header_t × List guc_mmio_reg) → List Nat
  | [] => []
  | r :: rs => enc_hdr r.1 ++ enc_regs r.2 ++ enc_recs rs

/-- Dwords of a whole capture group. -/
def enc_group (g : guc_state_capture_group_header_t)
    (recs : List (guc_state_capture_header_t × List guc_mmio_reg)) : List Nat :=
  enc_ghdr g ++ enc_recs recs

/-- The logical content of the ring starts with the dwords `dws`. -/
def ring_holds (b : __guc_capture_bufstate) (dws : List Nat) : Prop :=
  4 * dws.length ≤ guc_capture_buf_cnt b ∧ ∀ k, k < dws.length → ring_dw b k = dws.getD k 0

/-- The node a known-type record is written to when no allocation fails. -/
def node_for_record (fw : guc_fwif) (oom : Nat → Bool) (ip : Bool) (s : extract_state)
    (h : guc_state_capture_header_t) (rs : List guc_mmio_reg) : __guc_capture_parsed_output :=
  set_node_regs (FIELD_GET fw.CAP_HDR_CAPTURE_TYPE h.info) rs.length
    (if rs.length ≠ 0 then some rs else none)
    (set_node_header fw ip (FIELD_GET fw.CAP_HDR_CAPTURE_TYPE h.info) h
      ((node_continuity oom (FIELD_GET fw.CAP_HDR_CAPTURE_TYPE h.info)
        s.node s.outlist s.nalloc).1.getD zero_node))

/-- The register slot a node gets from a record with header `h` and registers `rs`
(no array is allocated for an empty register block). -/
def slot_of (fw : guc_fwif) (h : guc_state_capture_header_t) (rs : List guc_mmio_reg) :
    gcap_reg_list_info :=
  ⟨FIELD_GET fw.CAP_HDR_CAPTURE_VFID h.owner, rs.length,
    if rs.length ≠ 0 then some rs else none⟩

/-- Effect of one complete record on the node in progress and the output list when no
allocation fails: lines 1089-1165 of `guc_capture_extract_reglists` with the registers
`r.2` already read. -/
def record_step (fw : guc_fwif) (ip : Bool)
    (st : Option __guc_capture_parsed_output × List __guc_capture_parsed_output)
    (r : guc_state_capture_header_t × List guc_mmio_reg) :
    Option __guc_capture_parsed_output × List __guc_capture_parsed_output :=
  if FIELD_GET fw.CAP_HDR_CAPTURE_TYPE r.1.info > GUC_CAPTURE_LIST_TYPE_ENGINE_INSTANCE then st
  else
    (some (set_node_regs (FIELD_GET fw.CAP_HDR_CAPTURE_TYPE r.1.info) r.2.length
        (if r.2.length ≠ 0 then some r.2 else none)
        (set_node_header fw ip (FIELD_GET fw.CAP_HDR_CAPTURE_TYPE r.1.info) r.1
          ((node_continuity (fun _ => false) (FIELD_GET fw.CAP_HDR_CAPTURE_TYPE r.1.info)
            st.1 st.2 0).1.getD zero_node))),
      (node_continuity (fun _ => false) (FIELD_GET fw.CAP_HDR_CAPTURE_TYPE r.1.info)
        st.1 st.2 0).2.1)


/-- Header of an example group of five captures (partial-capture bit set). -/
def example5_group_hdr : guc_state_capture_group_header_t := ⟨7, 261⟩

/-- Records Global, Class, Instance, Class, Instance of the example group, one register
each. -/
def example5_recs : List (guc_state_capture_header_t × List guc_mmio_reg) :=
  [(⟨9, 0, 0, 0, 1⟩, [⟨100, 101, 102, 103⟩]),
   (⟨9, 17, 0, 0, 1⟩, [⟨110, 111, 112, 113⟩]),
   (⟨9, 530, 170, 187, 1⟩, [⟨120, 121, 122, 123⟩]),
   (⟨9, 33, 0, 0, 1⟩, [⟨130, 131, 132, 133⟩]),
   (⟨9, 802, 204, 221, 1⟩, [⟨140, 141, 142, 143⟩])]

/-- A 256-byte ring holding the example group from read offset 200 on (wrapping). -/
def example5_ring : __guc_capture_bufstate :=
  ring_with 256 200 (le_bytes (enc_group example5_group_hdr example5_recs))


/-- `n` successive calls of `guc_capture_log_remove_dw`: the (bytes read, dword) results in
order, and the cursor afterwards. -/
def read_dwords : Nat → __guc_capture_bufstate → List (Nat × Nat) × __guc_capture_bufstate
  | 0, b => ([], b)
  | n + 1, b =>
    (((guc_capture_log_remove_dw b 0).ret, (guc_capture_log_remove_dw b 0).dw) ::
        (read_dwords n (guc_capture_log_remove_dw b 0).buf).1,
      (read_dwords n (guc_capture_log_remove_dw b 0).buf).2)

/-- The non-wrapping reference buffer `data[rd..size) ++ data[0..wr)` of a wrapped ring. -/
def ref_bytes (b : __guc_capture_bufstate) : List Nat :=
  (List.range' b.rd (b.size - b.rd)).map b.data ++ (List.range' 0 b.wr).map b.data

/-- The little-endian dwords of a byte sequence. -/
def dwords_of : List Nat → List Nat
  | a :: b :: c :: d :: rest => (a + 256 * b + 65536 * c + 16777216 * d) :: dwords_of rest
  | _ => []

/-- A 16-byte ring whose content wraps: read offset 8, write offset 4. -/
def example_wrap_ring : __guc_capture_bufstate := ⟨16, fun a => a + 1, 8, 4⟩


/-- Logical byte `j` of the ring content, counted from the read offset. -/
def ring_byte (b : __guc_capture_bufstate) (j : Nat) : Nat := b.data ((b.rd + j) % b.size)

/-- The 20 bytes `1, 2, ..., 20` of an example data header. -/
def example_hdr_bytes : List Nat := (List.range 20).map (· + 1)

/-! ## Register-list catalog and ADS cache -/

/-- Modelled from the spec: `PAGE_ALIGN` is not under `src/`; the spec gives the list size
as `align_up(header_size + num_regs * register_record_size, page_size)`, the smallest
multiple of the page size that is not below its argument. -/
def PAGE_ALIGN (PAGE_SIZE x : Nat) : Nat := (x + PAGE_SIZE - 1) / PAGE_SIZE * PAGE_SIZE

/-- `struct __guc_mmio_reg_descr` (`reg` is the offset inside `i915_reg_t`). -/
structure __guc_mmio_reg_descr where
  reg : Nat
  flags : Nat
  mask : Nat
  regname : String
deriving DecidableEq, Repr

/-- `struct __guc_mmio_reg_descr_group`, with the `extlist` member used by the code;
`list = none` / `extlist = none` is the `NULL` that ends a table. -/
structure __guc_mmio_reg_descr_group where
  list : Option (List __guc_mmio_reg_descr)
  num_regs : Nat
  owner : Nat
  type : Nat
  engine : Nat
  extlist : Option (List __guc_mmio_reg_descr)
deriving DecidableEq, Repr

/-- The `for` loop of `guc_capture_get_one_list` over the table entries. -/
def get_one_list_scan (owner type id : Nat) :
    List __guc_mmio_reg_descr_group → Option __guc_mmio_reg_descr_group
  | [] => none
  | g :: rest =>
    if g.list.isNone then none
    else if g.owner = owner ∧ g.type = type ∧
        (g.engine = id ∨ g.type = GUC_CAPTURE_LIST_TYPE_GLOBAL) then some g
    else get_one_list_scan owner type id rest

/-- `guc_capture_get_one_list`. -/
def guc_capture_get_one_list (reglists : Option (List __guc_mmio_reg_descr_group))
    (owner type id : Nat) : Option __guc_mmio_reg_descr_group :=
  match reglists with
  | none => none
  | some l => get_one_list_scan owner type id l

/-- The `for` loop of `guc_capture_get_one_ext_list` over the table entries. -/
def get_one_ext_list_scan (owner type id : Nat) :
    List __guc_mmio_reg_descr_group → Option __guc_mmio_reg_descr_group
  | [] => none
  | g :: rest =>
    if g.extlist.isNone then none
    else if g.owner = owner ∧ g.type = type ∧
        (g.engine = id ∨ g.type = GUC_CAPTURE_LIST_TYPE_GLOBAL) then some g
    else get_one_ext_list_scan owner type id rest

/-- `guc_capture_get_one_ext_list`. -/
def guc_capture_get_one_ext_list (reglists : Option (List __guc_mmio_reg_descr_group))
    (owner type id : Nat) : Option __guc_mmio_reg_descr_group :=
  match reglists with
  | none => none
  | some l => get_one_ext_list_scan owner type id l

/-- A register-list buffer handed to the firmware: the address `kzalloc` returned and the
content as 32-bit cells (cell `i` is the `u32` at byte offset `4 * i`; every access of the
code is an aligned `u32` store). -/
structure caplist_buf where
  addr : Nat
  dw : Nat → Nat

/-- `struct __guc_capture_ads_cache`. -/
structure __guc_capture_ads_cache where
  is_valid : Bool
  ptr : Option caplist_buf
  size : Nat
  status : Int

/-- `struct intel_guc_state_capture`: the catalog, the steering extension lists and the
array `ads_cache[owner][type][class]`. -/
structure intel_guc_state_capture where
  reglists : Option (List __guc_mmio_reg_descr_group)
  extlists : Option (List __guc_mmio_reg_descr_group)
  ads_cache : Nat → Nat → Nat → __guc_capture_ads_cache

/-- Store `v` into the 32-bit cell `i`. -/
def set_cell (mem : Nat → Nat) (i v : Nat) : Nat → Nat := fun a => if a = i then v else mem a

/-- The four stores `ptr[i].offset`, `.value`, `.flags`, `.mask` of `guc_capture_list_init`,
the array `ptr` starting at cell `base`. -/
def write_descr (mem : Nat → Nat) (base i : Nat) (d : __guc_mmio_reg_descr) : Nat → Nat :=
  set_cell (set_cell (set_cell (set_cell mem (base + 4 * i) d.reg)
    (base + 4 * i + 1) 3735941133) (base + 4 * i + 2) d.flags) (base + 4 * i + 3) d.mask

/-- The descriptor `list[i]` of a descriptor array. -/
def descr_at (l : Option (List __guc_mmio_reg_descr)) (i : Nat) : __guc_mmio_reg_descr :=
  (l.getD []).getD i ⟨0, 0, 0, ""⟩

/-- `guc_capture_list_init`: status and the memory behind `ptr` (an array of
`struct guc_mmio_reg` starting at cell `base`).  The first loop runs for
`i < min num_entries match->num_regs`; the second for `i = match->num_regs + j` with
`i < num_entries`, `i < match->num_regs + matchext->num_regs` and `j < matchext->num_regs`. -/
def guc_capture_list_init (gc : intel_guc_state_capture) (owner type classid : Nat)
    (mem : Nat → Nat) (base : Nat) (num_entries : Nat) : Int × (Nat → Nat) :=
  match gc.reglists with
  | none => (- ENODEV, mem)
  | some reglists =>
    match guc_capture_get_one_list (some reglists) owner type classid with
    | none => (- ENODATA, mem)
    | some m =>
      let mem1 := (List.range (min num_entries m.num_regs)).foldl
        (fun acc i => write_descr acc base i (descr_at m.list i)) mem
      match guc_capture_get_one_ext_list gc.extlists owner type classid with
      | none => (0, mem1)
      | some x =>
        (0, (List.range (min (min num_entries (m.num_regs + x.num_regs) - m.num_regs)
            x.num_regs)).foldl
          (fun acc j => write_descr acc base (m.num_regs + j) (descr_at x.extlist j)) mem1)

/-- `guc_cap_list_num_regs`. -/
def guc_cap_list_num_regs (gc : intel_guc_state_capture) (owner type classid : Nat) : Nat :=
  match guc_capture_get_one_list gc.reglists owner type classid with
  | none => 0
  | some m =>
    match guc_capture_get_one_ext_list gc.extlists owner type classid with
    | none => m.num_regs
    | some x => m.num_regs + x.num_regs

/-- Result of `intel_guc_capture_getlistsize`: status, the value stored through `size`
(`none` when nothing is stored) and the capture state afterwards. -/
structure getlistsize_result where
  ret : Int
  size : Option Nat
  gc : intel_guc_state_capture

/-- `intel_guc_capture_getlistsize` (`sizeof(struct guc_debug_capture_list)` is 4 and
`sizeof(struct guc_mmio_reg)` is 16). -/
def intel_guc_capture_getlistsize (PAGE_SIZE : Nat) (gc : intel_guc_state_capture)
    (owner type classid : Nat) : getlistsize_result :=
  if gc.reglists.isNone then ⟨- ENODEV, none, gc⟩
  else if (gc.ads_cache owner type classid).is_valid then
    ⟨(gc.ads_cache owner type classid).status, some (gc.ads_cache owner type classid).size, gc⟩
  else if guc_cap_list_num_regs gc owner type classid = 0 then ⟨- ENODATA, none, gc⟩
  else ⟨0, some (PAGE_ALIGN PAGE_SIZE (4 + guc_cap_list_num_regs gc owner type classid * 16)),
    gc⟩

/-- Assignment to `ads_cache[owner][type][classid]`. -/
def ads_cache_set (f : Nat → Nat → Nat → __guc_capture_ads_cache) (owner type classid : Nat)
    (v : __guc_capture_ads_cache) : Nat → Nat → Nat → __guc_capture_ads_cache :=
  fun o t c => if o = owner ∧ t = type ∧ c = classid then v else f o t c

/-- Result of `intel_guc_capture_getlist`: status, the value stored through `outptr`
(`none` when nothing is stored; `some none` is a stored `NULL`) and the capture state. -/
structure getlist_result where
  ret : Int
  outptr : Option (Option caplist_buf)
  gc : intel_guc_state_capture

/-- `intel_guc_capture_getlist`; `kzalloc size` is the address of the zeroed buffer or
`none` when the allocation fails. -/
def intel_guc_capture_getlist (PAGE_SIZE : Nat) (gc : intel_guc_state_capture)
    (owner type classid : Nat) (kzalloc : Nat → Option Nat) : getlist_result :=
  if gc.reglists.isNone then ⟨- ENODEV, none, gc⟩
  else if (gc.ads_cache owner type classid).is_valid then
    ⟨(gc.ads_cache owner type classid).status, some (gc.ads_cache owner type classid).ptr, gc⟩
  else
    let r := intel_guc_capture_getlistsize PAGE_SIZE gc owner type classid
    if r.ret ≠ 0 then
      ⟨r.ret, none,
        { gc with ads_cache := (ads_cache_set gc.ads_cache owner type classid
            ⟨true, none, 0, r.ret⟩) }⟩
    else
      match kzalloc (r.size.getD 0) with
      | none => ⟨- ENOMEM, none, gc⟩
      | some addr =>
        let num_regs := guc_cap_list_num_regs gc owner type classid
        let caplist : caplist_buf :=
          ⟨addr, (guc_capture_list_init gc owner type classid
            (set_cell (fun _ => 0) 0
              (FIELD_PREP GUC_CAPTURELISTHDR_NUMDESCR (num_regs % 4294967296)))
            1 (num_regs % 65536)).2⟩
        ⟨0, some (some caplist),
          { gc with ads_cache := (ads_cache_set gc.ads_cache owner type classid
              ⟨true, some caplist, r.size.getD 0, 0⟩) }⟩

/-- A sequence of `intel_guc_capture_getlist` calls, each with its key and allocator. -/
def run_getlists (PAGE_SIZE : Nat) :
    List (Nat × Nat × Nat × (Nat → Option Nat)) → intel_guc_state_capture →
      intel_guc_state_capture
  | [], gc => gc
  | (o, t, c, kz) :: rest, gc =>
    run_getlists PAGE_SIZE rest (intel_guc_capture_getlist PAGE_SIZE gc o t c kz).gc

/-- An example catalog: a Global list of two registers, a render-class list of one register
and an empty video-class list (owner PF = 0; classes render = 0, video = 1). -/
def example_catalog : List __guc_mmio_reg_descr_group :=
  [⟨some [⟨41352, 0, 0, "FORCEWAKE"⟩, ⟨19312, 0, 0, "GEN8_FAULT_TLB_DATA0"⟩], 2, 0, 0, 0, none⟩,
   ⟨some [⟨8368, 0, 0, "EIR"⟩], 1, 0, 1, 0, none⟩,
   ⟨some [], 0, 0, 1, 1, none⟩]

/-- Example steering extension lists: two steered registers for the render class. -/
def example_extlists : List __guc_mmio_reg_descr_group :=
  [⟨none, 2, 0, 1, 0,
    some [⟨57616, 1052672, 0, "GEN7_SAMPLER_INSTDONE"⟩, ⟨57620, 1052672, 0, "GEN7_ROW_INSTDONE"⟩]⟩]

/-- A capture state over the example catalog with an empty ADS cache. -/
def example_capture : intel_guc_state_capture :=
  ⟨some example_catalog, some example_extlists, fun _ _ _ => ⟨false, none, 0, 0⟩⟩

/-- An allocator that always succeeds (at address 65536). -/
def example_kzalloc : Nat → Option Nat := fun _ => some 65536

/-! ## Specification-side notions for the lookup and the cursor -/

/-- The entries of a catalog that come before its terminating entry (the first entry without
a `list`). -/
def catalog_entries (l : List __guc_mmio_reg_descr_group) : List __guc_mmio_reg_descr_group :=
  l.takeWhile (fun g => g.list.isSome)

/-- The entry `g` answers the request `(owner, type, id)`: same owner and type, and the same
engine class unless the entry is of type Global. -/
def entry_matches (owner type id : Nat) (g : __guc_mmio_reg_descr_group) : Bool :=
  decide (g.owner = owner ∧ g.type = type ∧
    (g.engine = id ∨ g.type = GUC_CAPTURE_LIST_TYPE_GLOBAL))

/-- The nodes one parse pass over the cursor finalizes, in stream order: what the pass
leaves in a store that was empty before. -/
def pass_nodes (fw : guc_fwif) (oom : Nat → Bool) (k : Nat) (b : __guc_capture_bufstate) :
    List __guc_capture_parsed_output :=
  (guc_capture_extract_reglists fw oom k b []).outlist

/-- The cursor is over the ring of `size` bytes with write offset `wr`, and both offsets lie
within the ring, its end included (what `__guc_capture_process_output` ensures). -/
def cursor_in_ring (size wr : Nat) (b : __guc_capture_bufstate) : Prop :=
  b.size = size ∧ b.wr = wr ∧ b.rd ≤ size ∧ wr ≤ size

/-- The spec's closed form `(write - read) mod size` of the available byte count. -/
def mod_available (b : __guc_capture_bufstate) : Int :=
  ((b.wr : Int) - (b.rd : Int)) % (b.size : Int)

/-- A 16-byte ring holding one dword: read offset 4, write offset 8. -/
def example_short_ring : __guc_capture_bufstate := ⟨16, fun a => a + 1, 4, 8⟩

/-- A 16-byte ring with two bytes left before its end: read offset 14, write offset 8. -/
def example_tail_ring : __guc_capture_bufstate := ⟨16, fun a => a + 1, 14, 8⟩

/-- The whole-buffer cursor of a 16-byte ring: read offset 0, write offset 16. -/
def example_full_ring : __guc_capture_bufstate := ⟨16, fun a => a + 1, 0, 16⟩

/-- A record with a capture type of the known range (Global, EngineClass, EngineInstance). -/
def known_type (fw : guc_fwif) (r : guc_state_capture_header_t × List guc_mmio_reg) : Bool :=
  decide (FIELD_GET fw.CAP_HDR_CAPTURE_TYPE r.1.info ≤ GUC_CAPTURE_LIST_TYPE_ENGINE_INSTANCE)

/-- Header of an example group of two captures. -/
def example_drift_group_hdr : guc_state_capture_group_header_t := ⟨7, 2⟩

/-- A record of the unknown capture type 3 with one register, followed by the records of
the example group. -/
def example_drift_recs : List (guc_state_capture_header_t × List guc_mmio_reg) :=
  (⟨9, 3, 0, 0, 1⟩, [⟨300, 301, 302, 303⟩]) :: example_recs

/-- A 128-byte ring holding the two-capture example group from read offset 100 on
(wrapping). -/
def example_drift_ring : __guc_capture_bufstate :=
  ring_with 128 100 (le_bytes (enc_group example_drift_group_hdr example_drift_recs))

/-! ## Output-buffer size estimate -/

/-- `GUC_CAPTURE_OVERBUFFER_MULTIPLIER`. -/
def GUC_CAPTURE_OVERBUFFER_MULTIPLIER : Nat := 3

/-- The locals `worst_min_size`, `num_regs` and `tmp` of
`intel_guc_capture_output_min_size_est`. -/
structure min_size_locals where
  worst_min_size : Nat
  num_regs : Nat
  tmp : Nat
deriving DecidableEq, Repr

/-- One statement `if (!intel_guc_capture_getlistsize(guc, 0, type, classid, &tmp))
num_regs += tmp;` of the engine loop. -/
def min_size_add (PAGE_SIZE : Nat) (gc : intel_guc_state_capture) (type classid : Nat)
    (st : min_size_locals) : min_size_locals :=
  let r := intel_guc_capture_getlistsize PAGE_SIZE gc 0 type classid
  let tmp := r.size.getD st.tmp
  if r.ret = 0 then { st with num_regs := st.num_regs + tmp, tmp := tmp }
  else { st with tmp := tmp }

/-- Body of the `for_each_engine` loop for an engine of class `engine_class`
(`sizeof(struct guc_state_capture_group_header_t)` is 8 and
`sizeof(struct guc_state_capture_header_t)` is 20). -/
def min_size_engine (PAGE_SIZE : Nat) (gc : intel_guc_state_capture) (st : min_size_locals)
    (engine_class : Nat) : min_size_locals :=
  min_size_add PAGE_SIZE gc GUC_CAPTURE_LIST_TYPE_ENGINE_INSTANCE engine_class
    (min_size_add PAGE_SIZE gc GUC_CAPTURE_LIST_TYPE_ENGINE_CLASS engine_class
      (min_size_add PAGE_SIZE gc GUC_CAPTURE_LIST_TYPE_GLOBAL 0
        { st with worst_min_size := st.worst_min_size + (8 + 3 * 20) }))

/-- `intel_guc_capture_output_min_size_est`: `capture` is `guc->capture`, and `engines` lists
the classes of the engines that `for_each_engine` visits, in order
(`sizeof(struct guc_mmio_reg)` is 16). -/
def intel_guc_capture_output_min_size_est (PAGE_SIZE : Nat)
    (capture : Option intel_guc_state_capture) (engines : List Nat) : Int :=
  match capture with
  | none => - ENODEV
  | some gc =>
    ((((engines.foldl (min_size_engine PAGE_SIZE gc) ⟨0, 0, 0⟩).worst_min_size +
        (engines.foldl (min_size_engine PAGE_SIZE gc) ⟨0, 0, 0⟩).num_regs * 16) *
      GUC_CAPTURE_OVERBUFFER_MULTIPLIER : Nat) : Int)

/-- The estimate in the spec's words: 3 times the sum over the engines of the group-header
size, three data-header sizes and the register-record size times the number of registers
of the Global list, of the engine's class list and of its instance list. -/
def min_size_est_by_count (gc : intel_guc_state_capture) (engines : List Nat) : Int :=
  ((3 * (engines.map (fun c => 8 + 3 * 20 + 16 *
    (guc_cap_list_num_regs gc 0 GUC_CAPTURE_LIST_TYPE_GLOBAL 0 +
      guc_cap_list_num_regs gc 0 GUC_CAPTURE_LIST_TYPE_ENGINE_CLASS c +
      guc_cap_list_num_regs gc 0 GUC_CAPTURE_LIST_TYPE_ENGINE_INSTANCE c))).sum : Nat) : Int)

/-! ## Steering extension lists -/

/-- Constants of the steering lists that are not under `src/`: the owner index of the PF
and the render class of the firmware interface, the steering bit-fields of the register
flags, the offsets of the steered registers and the value of `IP_VER(12, 55)`. -/
structure steer_consts where
  GUC_CAPTURE_LIST_INDEX_PF : Nat
  GUC_RENDER_CLASS : Nat
  GUC_REGSET_STEERING_GROUP : Nat
  GUC_REGSET_STEERING_INSTANCE : Nat
  GEN7_SAMPLER_INSTDONE : Nat
  GEN7_ROW_INSTDONE : Nat
  XEHPG_INSTDONE_GEOM_SVG : Nat
  IP_VER_12_55 : Nat

/-- Concrete constants (the values of the upstream kernel headers), used for concrete
evaluations. -/
def steer_upstream : steer_consts where
  GUC_CAPTURE_LIST_INDEX_PF := 0
  GUC_RENDER_CLASS := 0
  GUC_REGSET_STEERING_GROUP := GENMASK 15 12
  GUC_REGSET_STEERING_INSTANCE := GENMASK 23 20
  GEN7_SAMPLER_INSTDONE := 57696
  GEN7_ROW_INSTDONE := 57700
  XEHPG_INSTDONE_GEOM_SVG := 26220
  IP_VER_12_55 := 3127

/-- `struct __ext_steer_reg`. -/
structure __ext_steer_reg where
  name : String
  reg : Nat
deriving DecidableEq, Repr

/-- The table `xe_extregs`. -/
def xe_extregs (p : steer_consts) : List __ext_steer_reg :=
  [⟨"GEN7_SAMPLER_INSTDONE", p.GEN7_SAMPLER_INSTDONE⟩,
   ⟨"GEN7_ROW_INSTDONE", p.GEN7_ROW_INSTDONE⟩]

/-- The table `xehpg_extregs`. -/
def xehpg_extregs (p : steer_consts) : List __ext_steer_reg :=
  [⟨"XEHPG_INSTDONE_GEOM_SVG", p.XEHPG_INSTDONE_GEOM_SVG⟩]

/-- `__has_xehpg_extregs`. -/
def __has_xehpg_extregs (p : steer_consts) (ipver : Nat) : Bool :=
  decide (ipver ≥ p.IP_VER_12_55)

/-- A zeroed `struct __guc_mmio_reg_descr` (an element of a `kcalloc` array). -/
def zero_descr : __guc_mmio_reg_descr := ⟨0, 0, 0, ""⟩

/-- A zeroed `struct __guc_mmio_reg_descr_group` (an element of a `kcalloc` array). -/
def zero_group : __guc_mmio_reg_descr_group := ⟨none, 0, 0, 0, 0, none⟩

/-- `__fill_ext_reg`. -/
def __fill_ext_reg (p : steer_consts) (ext : __guc_mmio_reg_descr)
    (extlist : __ext_steer_reg) (slice_id subslice_id : Nat) : __guc_mmio_reg_descr :=
  { ext with
    reg := extlist.reg,
    flags := FIELD_PREP p.GUC_REGSET_STEERING_GROUP slice_id |||
      FIELD_PREP p.GUC_REGSET_STEERING_INSTANCE subslice_id,
    regname := extlist.name }

/-- `__alloc_ext_regs`: status and `*newlist`; `failed` tells whether the `kcalloc` of the
descriptor array fails. -/
def __alloc_ext_regs (failed : Bool) (newlist rootlist : __guc_mmio_reg_descr_group)
    (num_regs : Nat) : Int × __guc_mmio_reg_descr_group :=
  if failed then (- ENOMEM, newlist)
  else
    (0, { newlist with
      extlist := some (List.replicate num_regs zero_descr),
      num_regs := num_regs,
      owner := rootlist.owner,
      engine := rootlist.engine,
      type := rootlist.type })

/-- One loop `for (i = 0; i < n; ++i) { __fill_ext_reg(extarray, &tmpl[i], slice, subslice);
++extarray; }` over a template table: `pos` is the index `extarray` points to. -/
def fill_templates (p : steer_consts) (slice subslice : Nat) :
    List __ext_steer_reg → Nat → List __guc_mmio_reg_descr →
      Nat × List __guc_mmio_reg_descr
  | [], pos, arr => (pos, arr)
  | t :: ts, pos, arr =>
    fill_templates p slice subslice ts (pos + 1)
      (arr.set pos (__fill_ext_reg p (arr.getD pos zero_descr) t slice subslice))

/-- The fill loop of `guc_capture_alloc_steered_lists_xe_lpd` over the (slice, subslice)
pairs that `for_each_instdone_slice_subslice` enumerates. -/
def fill_steered_xe_lpd (p : steer_consts) :
    List (Nat × Nat) → Nat → List __guc_mmio_reg_descr → List __guc_mmio_reg_descr
  | [], _, arr => arr
  | q :: rest, pos, arr =>
    fill_steered_xe_lpd p rest
      (fill_templates p q.1 q.2 (xe_extregs p) pos arr).1
      (fill_templates p q.1 q.2 (xe_extregs p) pos arr).2

/-- The fill loop of `guc_capture_alloc_steered_lists_xe_hpg` over the (slice, subslice)
pairs that `for_each_instdone_gslice_dss_xehp` enumerates. -/
def fill_steered_xe_hpg (p : steer_consts) (ipver : Nat) :
    List (Nat × Nat) → Nat → List __guc_mmio_reg_descr → List __guc_mmio_reg_descr
  | [], _, arr => arr
  | q :: rest, pos, arr =>
    let r := fill_templates p q.1 q.2 (xe_extregs p) pos arr
    let r2 := if __has_xehpg_extregs p ipver then
        fill_templates p q.1 q.2 (xehpg_extregs p) r.1 r.2
      else r
    fill_steered_xe_hpg p ipver rest r2.1 r2.2

/-- `guc_capture_alloc_steered_lists_xe_lpd`: the capture state afterwards.  `lists` is the
catalog passed in, `pairs` the (slice, subslice) pairs of the hardware enumeration (the
macro `for_each_instdone_slice_subslice` is not under `src/`), and `oom` the allocation
oracle starting at attempt `k`. -/
def guc_capture_alloc_steered_lists_xe_lpd (p : steer_consts) (oom : Nat → Bool) (k : Nat)
    (gc : intel_guc_state_capture) (lists : Option (List __guc_mmio_reg_descr_group))
    (pairs : List (Nat × Nat)) : intel_guc_state_capture :=
  match guc_capture_get_one_list lists p.GUC_CAPTURE_LIST_INDEX_PF
      GUC_CAPTURE_LIST_TYPE_ENGINE_CLASS p.GUC_RENDER_CLASS with
  | none => gc
  | some list =>
    if gc.extlists.isSome then gc
    else
      let num_steer_regs := (xe_extregs p).length
      let num_tot_regs := pairs.foldl (fun n _ => n + num_steer_regs) 0
      if num_tot_regs = 0 then gc
      else if oom k then gc
      else
        let a := __alloc_ext_regs (oom (k + 1)) zero_group list num_tot_regs
        if a.1 ≠ 0 then gc
        else
          { gc with extlists := (some
              [{ a.2 with extlist :=
                  (some (fill_steered_xe_lpd p pairs 0 (a.2.extlist.getD []))) },
                zero_group]) }

/-- `guc_capture_alloc_steered_lists_xe_hpg`: the capture state afterwards.  `pairs` are the
(slice, subslice) pairs that `for_each_instdone_gslice_dss_xehp` enumerates. -/
def guc_capture_alloc_steered_lists_xe_hpg (p : steer_consts) (oom : Nat → Bool) (k : Nat)
    (gc : intel_guc_state_capture) (lists : Option (List __guc_mmio_reg_descr_group))
    (ipver : Nat) (pairs : List (Nat × Nat)) : intel_guc_state_capture :=
  match guc_capture_get_one_list lists p.GUC_CAPTURE_LIST_INDEX_PF
      GUC_CAPTURE_LIST_TYPE_ENGINE_CLASS p.GUC_RENDER_CLASS with
  | none => gc
  | some list =>
    if gc.extlists.isSome then gc
    else
      let num_steer_regs := (xe_extregs p).length +
        (if __has_xehpg_extregs p ipver then (xehpg_extregs p).length else 0)
      let num_tot_regs := pairs.foldl (fun n _ => n + num_steer_regs) 0
      if num_tot_regs = 0 then gc
      else if oom k then gc
      else
        let a := __alloc_ext_regs (oom (k + 1)) zero_group list num_tot_regs
        if a.1 ≠ 0 then gc
        else
          { gc with extlists := (some
              [{ a.2 with extlist :=
                  (some (fill_steered_xe_hpg p ipver pairs 0 (a.2.extlist.getD []))) },
                zero_group]) }

/-- The steering-register templates of the `xe_hpg` generation with IP version `ipver`. -/
def xe_hpg_templates (p : steer_consts) (ipver : Nat) : List __ext_steer_reg :=
  xe_extregs p ++ (if __has_xehpg_extregs p ipver then xehpg_extregs p else [])

/-- The descriptor of template `t` steered to the pair `q`: the template's register and
name, the slice in the steering-group field and the subslice in the steering-instance field
of the flags, and a zero mask. -/
def steered_descr (p : steer_consts) (q : Nat × Nat) (t : __ext_steer_reg) :
    __guc_mmio_reg_descr :=
  ⟨t.reg, FIELD_PREP p.GUC_REGSET_STEERING_GROUP q.1 |||
    FIELD_PREP p.GUC_REGSET_STEERING_INSTANCE q.2, 0, t.name⟩

/-- The extension table `ext` consists of one group for the root list `root`, followed by
the end marker, whose descriptor array holds exactly `|pairs| * |tmpl|` descriptors, those
of the `k`-th pair at the indices `k * |tmpl| .. k * |tmpl| + |tmpl| - 1` in template
order. -/
def steered_table (p : steer_consts) (root : __guc_mmio_reg_descr_group)
    (tmpl : List __ext_steer_reg) (pairs : List (Nat × Nat))
    (ext : Option (List __guc_mmio_reg_descr_group)) : Prop :=
  ∃ descrs : List __guc_mmio_reg_descr,
    ext = some [⟨none, pairs.length * tmpl.length, root.owner, root.type, root.engine,
      some descrs⟩, zero_group] ∧
    descrs.length = pairs.length * tmpl.length ∧
    ∀ k i, k < pairs.length → i < tmpl.length →
      descrs.get? (k * tmpl.length + i) =
        some (steered_descr p (pairs.getD k (0, 0)) (tmpl.getD i ⟨"", 0⟩))

/-- The number of descriptors in the first group of an extension table. -/
def ext_descr_count (ext : Option (List __guc_mmio_reg_descr_group)) : Option Nat :=
  match ext with
  | some (e :: _) => e.extlist.map List.length
  | _ => none

/-- The descriptors of all pairs, pair by pair, each pair in template order. -/
def steered_descrs (p : steer_consts) (tmpl : List __ext_steer_reg) :
    List (Nat × Nat) → List __guc_mmio_reg_descr
  | [] => []
  | q :: rest => tmpl.map (steered_descr p q) ++ steered_descrs p tmpl rest

/-- A capture state over the example catalog without extension lists. -/
def example_capture_noext : intel_guc_state_capture :=
  ⟨some example_catalog, none, fun _ _ _ => ⟨false, none, 0, 0⟩⟩

/-! ## Self-refresh helper (`drivers/gpu/drm/drm_self_refresh_helper.c`) -/

/-- The errno value `EINVAL` (`errno.h` is not under `src/`). -/
def EINVAL : Int := 22

/-- `struct drm_self_refresh_data`: the entry delay.  The back pointer `crtc` always names
the owning crtc and the delayed work `entry_work` is idle after `INIT_DELAYED_WORK`; neither
is read by `drm_self_refresh_helper_init` or `drm_self_refresh_helper_cleanup`. -/
structure drm_self_refresh_data where
  entry_delay_ms : Nat
deriving DecidableEq, Repr

/-- The member `self_refresh_data` of `struct drm_crtc`. -/
structure drm_crtc where
  self_refresh_data : Option drm_self_refresh_data
deriving DecidableEq, Repr

/-- `drm_self_refresh_helper_init`: status and the crtc afterwards; `kzalloc_ok` tells
whether the allocation of the helper data succeeds. -/
def drm_self_refresh_helper_init (crtc : drm_crtc) (entry_delay_ms : Nat)
    (kzalloc_ok : Bool) : Int × drm_crtc :=
  match crtc.self_refresh_data with
  | some _ => (- EINVAL, crtc)
  | none =>
    if !kzalloc_ok then (- ENOMEM, crtc)
    else (0, { crtc with self_refresh_data := some ⟨entry_delay_ms⟩ })

/-- `drm_self_refresh_helper_cleanup`: the crtc afterwards.  The source returns at once
when `sr_data` is not `NULL` (`if (sr_data) return;`); with `sr_data == NULL` it stores
`NULL` and then passes `&sr_data->entry_work` to `cancel_delayed_work_sync`, a `NULL`
dereference, for which the result is `none`. -/
def drm_self_refresh_helper_cleanup (crtc : drm_crtc) : Option drm_crtc :=
  match crtc.self_refresh_data with
  | some _ => some crtc
  | none => none


/-! ## Specification-side notions for the node rules -/

/-- A 32-byte ring whose 24 available bytes wrap: read offset 24, write offset 16. -/
def example_straddle_ring : __guc_capture_bufstate := ⟨32, fun a => a + 1, 24, 16⟩

/-- The node that holds nothing but the registers of one Global record. -/
def global_node (fw : guc_fwif) (ip : Bool)
    (r : guc_state_capture_header_t × List guc_mmio_reg) : __guc_capture_parsed_output :=
  ⟨ip, 0, 0, 0, 0,
    [⟨FIELD_GET fw.CAP_HDR_CAPTURE_VFID r.1.owner, r.2.length, some r.2⟩, zero_reginfo,
      zero_reginfo]⟩

/-- The copy of a register slot that `guc_capture_clone_node` makes. -/
def cloned_slot (original : __guc_capture_parsed_output) (i : Nat) : gcap_reg_list_info :=
  ⟨(reginfo_at original i).vfid, (reginfo_at original i).num_regs,
    some (copy_regs (reginfo_at original i).regs (reginfo_at original i).num_regs)⟩

/-- An example node with all three slots filled (engine class 3, instance 1). -/
def example_node : __guc_capture_parsed_output :=
  ⟨true, 3, 1, 5, 7,
    [⟨9, 1, some [⟨100, 101, 102, 103⟩]⟩, ⟨9, 1, some [⟨110, 111, 112, 113⟩]⟩,
      ⟨9, 1, some [⟨120, 121, 122, 123⟩]⟩]⟩

/-- Header of an example group of four captures. -/
def example4_group_hdr : guc_state_capture_group_header_t := ⟨7, 4⟩

/-- Records Global, Class, Instance, Instance of an example group, one register each. -/
def example4_recs : List (guc_state_capture_header_t × List guc_mmio_reg) :=
  [(⟨9, 0, 0, 0, 1⟩, [⟨100, 101, 102, 103⟩]),
   (⟨9, 17, 0, 0, 1⟩, [⟨110, 111, 112, 113⟩]),
   (⟨9, 530, 170, 187, 1⟩, [⟨120, 121, 122, 123⟩]),
   (⟨9, 802, 204, 221, 1⟩, [⟨140, 141, 142, 143⟩])]

/-- A 256-byte ring holding the four-capture example group from read offset 200 on
(wrapping). -/
def example4_ring : __guc_capture_bufstate :=
  ring_with 256 200 (le_bytes (enc_group example4_group_hdr example4_recs))

/-- Header of an example group of three captures. -/
def example3_group_hdr : guc_state_capture_group_header_t := ⟨7, 3⟩

/-- Records Global, Class, Class of an example group, one register each. -/
def example3_recs : List (guc_state_capture_header_t × List guc_mmio_reg) :=
  [(⟨9, 0, 0, 0, 1⟩, [⟨100, 101, 102, 103⟩]),
   (⟨9, 17, 0, 0, 1⟩, [⟨110, 111, 112, 113⟩]),
   (⟨9, 33, 0, 0, 1⟩, [⟨130, 131, 132, 133⟩])]

/-- A 256-byte ring holding the three-capture example group from read offset 200 on
(wrapping). -/
def example3_ring : __guc_capture_bufstate :=
  ring_with 256 200 (le_bytes (enc_group example3_group_hdr example3_recs))

/-- Two Global records, with one and two registers. -/
def example_globals : List (guc_state_capture_header_t × List guc_mmio_reg) :=
  [(⟨9, 0, 0, 0, 1⟩, [⟨100, 101, 102, 103⟩]),
   (⟨9, 0, 0, 0, 2⟩, [⟨110, 111, 112, 113⟩, ⟨120, 121, 122, 123⟩])]

/-- A 128-byte ring holding a group of the two Global records from read offset 100 on
(wrapping). -/
def example_globals_ring : __guc_capture_bufstate :=
  ring_with 128 100 (le_bytes (enc_group example_drift_group_hdr example_globals))

/-- A 64-byte ring holding a group of one EngineClass record that declares no register. -/
def example_empty_ring : __guc_capture_bufstate :=
  ring_with 64 52 (le_bytes (enc_group example_group_hdr [(⟨9, 17, 0, 0, 0⟩, [])]))

/-! ## Ring accesses and the processing loop -/

/-- Ring offsets loaded by the `while (tries--)` loop of `guc_capture_log_remove_dw`: the
four bytes of `*(u32 *)(buf->data + buf->rd)` when a dword is read, nothing otherwise. -/
def remove_dw_tries_reads : Nat → __guc_capture_bufstate → List Nat
  | 0, _ => []
  | tries + 1, buf =>
    if guc_capture_buf_cnt_to_end buf ≥ 4 then List.range' buf.rd 4
    else remove_dw_tries_reads tries { buf with rd := 0 }

/-- Ring offsets loaded by `guc_capture_log_remove_dw`. -/
def remove_dw_reads (buf : __guc_capture_bufstate) : List Nat :=
  if guc_capture_buf_cnt buf = 0 then [] else remove_dw_tries_reads 2 buf

/-- Ring offsets loaded by `guc_capture_data_extracted`: the `size` bytes of
`memcpy(dest, b->data + b->rd, size)` when the copy is made. -/
def data_extracted_reads (b : __guc_capture_bufstate) (size : Nat) : List Nat :=
  if guc_capture_buf_cnt_to_end b ≥ size then List.range' b.rd size else []

/-- Ring offsets loaded by `guc_capture_log_get_group_hdr`. -/
def get_group_hdr_reads (buf : __guc_capture_bufstate)
    (ghdr : guc_state_capture_group_header_t) : List Nat :=
  if 8 > guc_capture_buf_cnt buf then []
  else
    match guc_capture_data_extracted buf 8 with
    | some _ => data_extracted_reads buf 8
    | none =>
      let r1 := guc_capture_log_remove_dw buf ghdr.owner
      remove_dw_reads buf ++ remove_dw_reads r1.buf

/-- Ring offsets loaded by `guc_capture_log_get_data_hdr`. -/
def get_data_hdr_reads (buf : __guc_capture_bufstate)
    (hdr : guc_state_capture_header_t) : List Nat :=
  if 20 > guc_capture_buf_cnt buf then []
  else
    match guc_capture_data_extracted buf 20 with
    | some _ => data_extracted_reads buf 20
    | none =>
      let r1 := guc_capture_log_remove_dw buf hdr.owner
      let r2 := guc_capture_log_remove_dw r1.buf hdr.info
      let r3 := guc_capture_log_remove_dw r2.buf hdr.lrca
      let r4 := guc_capture_log_remove_dw r3.buf hdr.guc_id
      remove_dw_reads buf ++ (remove_dw_reads r1.buf ++ (remove_dw_reads r2.buf ++
        (remove_dw_reads r3.buf ++ remove_dw_reads r4.buf)))

/-- Ring offsets loaded by `guc_capture_log_get_register`. -/
def get_register_reads (buf : __guc_capture_bufstate) (reg : guc_mmio_reg) : List Nat :=
  if 16 > guc_capture_buf_cnt buf then []
  else
    match guc_capture_data_extracted buf 16 with
    | some _ => data_extracted_reads buf 16
    | none =>
      let r1 := guc_capture_log_remove_dw buf reg.offset
      let r2 := guc_capture_log_remove_dw r1.buf reg.value
      let r3 := guc_capture_log_remove_dw r2.buf reg.flags
      remove_dw_reads buf ++ (remove_dw_reads r1.buf ++ (remove_dw_reads r2.buf ++
        remove_dw_reads r3.buf))

/-- An 18-byte ring that is not dword-aligned: read offset 16, write offset 6. -/
def example_odd_ring : __guc_capture_bufstate := ⟨18, fun a => a + 1, 16, 6⟩

/-- No dword can be read any more: nothing is available, or the read offset is 0 with fewer
than 4 bytes before the write offset. -/
def drained (b : __guc_capture_bufstate) : Prop :=
  guc_capture_buf_cnt b = 0 ∨ (b.rd = 0 ∧ b.wr < 4)

/-- A bound on the available byte count that successful dword reads never raise: the
available count itself while the content wraps (`rd > wr`), and `wr - 4` once the read
offset is in `[4, wr]`. -/
def cnt_bound (b : __guc_capture_bufstate) : Nat :=
  if b.rd > b.wr then b.size - b.rd + b.wr
  else if b.rd ≥ 4 then b.wr - 4
  else b.wr - b.rd

/-- In the iteration of the record loop run from state `s`, the data header is read and a
register read then fails, in the skip loop of an unknown capture type or in the fill loop
of a known one. -/
def reg_read_fails (fw : guc_fwif) (oom : Nat → Bool) (ip : Bool) (s : extract_state) :
    Prop :=
  (guc_capture_log_get_data_hdr s.buf s.hdr).ret = 0 ∧
    if FIELD_GET fw.CAP_HDR_CAPTURE_TYPE (guc_capture_log_get_data_hdr s.buf s.hdr).val.info >
        GUC_CAPTURE_LIST_TYPE_ENGINE_INSTANCE then
      (skip_regs (FIELD_GET fw.CAP_HDR_NUM_MMIOS
        (guc_capture_log_get_data_hdr s.buf s.hdr).val.num_mmios)
        (guc_capture_log_get_data_hdr s.buf s.hdr).buf 0).2 ≠ 0
    else
      (fill_node fw oom ip
        (FIELD_GET fw.CAP_HDR_CAPTURE_TYPE (guc_capture_log_get_data_hdr s.buf s.hdr).val.info)
        { s with buf := (guc_capture_log_get_data_hdr s.buf s.hdr).buf,
                 hdr := (guc_capture_log_get_data_hdr s.buf s.hdr).val,
                 node := (node_continuity oom (FIELD_GET fw.CAP_HDR_CAPTURE_TYPE
                   (guc_capture_log_get_data_hdr s.buf s.hdr).val.info)
                   s.node s.outlist s.nalloc).1,
                 outlist := (node_continuity oom (FIELD_GET fw.CAP_HDR_CAPTURE_TYPE
                   (guc_capture_log_get_data_hdr s.buf s.hdr).val.info)
                   s.node s.outlist s.nalloc).2.1,
                 nalloc := (node_continuity oom (FIELD_GET fw.CAP_HDR_CAPTURE_TYPE
                   (guc_capture_log_get_data_hdr s.buf s.hdr).val.info)
                   s.node s.outlist s.nalloc).2.2 }).1 = false ∧
      (fill_regs (FIELD_GET fw.CAP_HDR_NUM_MMIOS
          (guc_capture_log_get_data_hdr s.buf s.hdr).val.num_mmios) 0
        (guc_capture_log_get_data_hdr s.buf s.hdr).buf
        (List.replicate (FIELD_GET fw.CAP_HDR_NUM_MMIOS
          (guc_capture_log_get_data_hdr s.buf s.hdr).val.num_mmios) zero_reg) 0).ret ≠ 0

/-- The loop `do { ret = guc_capture_extract_reglists(guc, &buf); } while (ret >= 0);` of
`__guc_capture_process_output`, run for at most `fuel` passes: the number of passes made and
the result of the last pass, or `none` when `fuel` passes do not end the loop. -/
def process_output_loop (fw : guc_fwif) (oom : Nat → Bool) :
    Nat → Nat → __guc_capture_bufstate → List __guc_capture_parsed_output →
      Option (Nat × extract_result)
  | 0, _, _, _ => none
  | fuel + 1, k, buf, outlist =>
    if (guc_capture_extract_reglists fw oom k buf outlist).ret ≥ 0 then
      match process_output_loop fw oom fuel
          (guc_capture_extract_reglists fw oom k buf outlist).nalloc
          (guc_capture_extract_reglists fw oom k buf outlist).buf
          (guc_capture_extract_reglists fw oom k buf outlist).outlist with
      | none => none
      | some (n, last) => some (n + 1, last)
    else some (1, guc_capture_extract_reglists fw oom k buf outlist)

/-- A 64-byte ring holding, from read offset 52 on (wrapping), a group header declaring one
capture, a Global data header declaring two registers, and one register record only. -/
def example_trunc_ring : __guc_capture_bufstate :=
  ring_with 64 52 (le_bytes (enc_ghdr example_group_hdr ++ enc_hdr ⟨9, 0, 4369, 8738, 2⟩ ++
    enc_reg ⟨100, 101, 102, 103⟩))

/-- The state of the record loop of a pass over the truncated example ring, right after the
group header. -/
def example_trunc_state : extract_state :=
  ⟨(guc_capture_log_get_group_hdr example_trunc_ring ⟨0, 0⟩).buf, ⟨0, 0, 0, 0, 0⟩, none, [], 0,
    0⟩

/-! ## Example states of the record loop -/

/-- A state of the record loop right after the group header of the ring of Global records,
with the example node (an EngineClass and EngineInstance capture) in progress. -/
def example_node_state : extract_state :=
  ⟨(guc_capture_log_get_group_hdr example_globals_ring ⟨0, 0⟩).buf, ⟨0, 0, 0, 0, 0⟩,
    some example_node, [], 0, 0⟩

/-- The state of the record loop after the records Global, Class1, Instance1 of the
four-record example group, when only the fifth allocation of the pass fails. -/
def example4_state : extract_state :=
  extract_loop fwif_upstream (fun i => decide (i = 4)) false 3
    ⟨(guc_capture_log_get_group_hdr example4_ring ⟨0, 0⟩).buf, ⟨0, 0, 0, 0, 0⟩, none, [], 0,
      0⟩

/-! ## Lemmas on the ring reader and the record loop -/

theorem cnt_aligned {b : __guc_capture_bufstate} (h : ring_aligned b) :
    guc_capture_buf_cnt b % 4 = 0 := by
  obtain ⟨h1, h2, h3, h4, h5⟩ := h
  unfold guc_capture_buf_cnt
  split <;> omega

theorem rd_mod_cases {b : __guc_capture_bufstate} (h : ring_aligned b)
    (hc : guc_capture_buf_cnt b ≠ 0) :
    (b.rd < b.size ∧ b.rd % b.size = b.rd) ∨
      (b.rd = b.size ∧ b.rd % b.size = 0 ∧ 4 ≤ b.wr ∧ b.wr < b.size) := by
  obtain ⟨h1, h2, h3, h4, h5⟩ := h
  unfold guc_capture_buf_cnt at hc
  rcases Nat.lt_or_ge b.rd b.size with hlt | hge
  · exact Or.inl ⟨hlt, Nat.mod_eq_of_lt hlt⟩
  · have he : b.rd = b.size := by omega
    refine Or.inr ⟨he, ?_, ?_, ?_⟩
    · rw [he]; exact Nat.mod_self _
    · split at hc <;> omega
    · split at hc <;> omega

theorem remove_dw_aligned {b : __guc_capture_bufstate} (dw : Nat) (h : ring_aligned b)
    (hc : guc_capture_buf_cnt b ≠ 0) :
    guc_capture_log_remove_dw b dw =
      ⟨4, ring_dw b 0, { b with rd := b.rd % b.size + 4 }⟩ := by
  have hcases := rd_mod_cases h hc
  obtain ⟨h1, h2, h3, h4, h5⟩ := h
  unfold guc_capture_log_remove_dw
  rw [if_neg hc]
  unfold guc_capture_buf_cnt at hc
  rcases hcases with ⟨hlt, hmod⟩ | ⟨he, hmod, hw, hws⟩
  · have hce : guc_capture_buf_cnt_to_end b ≥ 4 := by
      unfold guc_capture_buf_cnt_to_end
      split at hc <;> split <;> omega
    simp only [remove_dw_tries, if_pos hce, ring_dw, Nat.mul_zero, Nat.add_zero, hmod]
  · have hce : ¬ guc_capture_buf_cnt_to_end b ≥ 4 := by
      unfold guc_capture_buf_cnt_to_end
      split <;> omega
    have hce2 : guc_capture_buf_cnt_to_end { b with rd := 0 } ≥ 4 := by
      unfold guc_capture_buf_cnt_to_end
      simp only
      split <;> omega
    simp only [remove_dw_tries, if_neg hce, if_pos hce2, ring_dw, Nat.mul_zero, Nat.add_zero,
      hmod]

theorem ring_adv_dw {b : __guc_capture_bufstate} (h : ring_aligned b)
    (hc : guc_capture_buf_cnt b ≠ 0) :
    ring_adv b { b with rd := b.rd % b.size + 4 } 4 := by
  have hcases := rd_mod_cases h hc
  obtain ⟨h1, h2, h3, h4, h5⟩ := h
  have hcm := cnt_aligned ⟨h1, h2, h3, h4, h5⟩
  unfold guc_capture_buf_cnt at hc hcm
  refine ⟨rfl, rfl, rfl, ?_, ?_, ?_⟩
  · rcases hcases with ⟨hlt, hmod⟩ | ⟨he, hmod, hw, hws⟩
    · refine ⟨h1, ?_, h3, ?_, h5⟩
      all_goals simp only [hmod]
      all_goals omega
    · refine ⟨h1, ?_, h3, ?_, h5⟩
      all_goals simp only [hmod]
      all_goals omega
  · simp only [Nat.mod_add_mod]
  · unfold guc_capture_buf_cnt
    rcases hcases with ⟨hlt, hmod⟩ | ⟨he, hmod, hw, hws⟩
    · simp only [hmod]
      split at hc <;> split <;> omega
    · simp only [hmod]
      split <;> split <;> omega

theorem ring_adv_aligned {b b' : __guc_capture_bufstate} {n : Nat} (h : ring_adv b b' n) :
    ring_aligned b' := h.2.2.2.1

theorem ring_adv_trans {b b1 b2 : __guc_capture_bufstate} {n m : Nat}
    (h1 : ring_adv b b1 n) (h2 : ring_adv b1 b2 m) : ring_adv b b2 (n + m) := by
  obtain ⟨a1, a2, a3, a4, a5, a6⟩ := h1
  obtain ⟨c1, c2, c3, c4, c5, c6⟩ := h2
  refine ⟨c1.trans a1, c2.trans a2, c3.trans a3, c4, ?_, by omega⟩
  rw [a1] at c5
  rw [c5, Nat.add_mod, a5, ← Nat.add_mod, Nat.add_assoc]

theorem ring_dw_adv {b b' : __guc_capture_bufstate} {j : Nat} (h : ring_adv b b' (4 * j))
    (k : Nat) : ring_dw b' k = ring_dw b (j + k) := by
  obtain ⟨a1, a2, a3, a4, a5, a6⟩ := h
  unfold ring_dw
  rw [a1, a2, Nat.add_mod, a5, ← Nat.add_mod]
  congr 2
  omega

theorem get_u32_img (data : Nat → Nat) (rd off : Nat) :
    get_u32 (fun j => data (rd + j)) off = get_u32 data (rd + off) := by
  simp only [get_u32, Nat.add_assoc]

theorem data_extracted_aligned {b : __guc_capture_bufstate} {m : Nat} (h : ring_aligned b)
    (hm : 0 < m) (hce : guc_capture_buf_cnt_to_end b ≥ 4 * m) :
    ring_adv b { b with rd := b.rd + 4 * m } (4 * m) ∧
      ∀ i, i < m → get_u32 b.data (b.rd + 4 * i) = ring_dw b i := by
  obtain ⟨h1, h2, h3, h4, h5⟩ := h
  unfold guc_capture_buf_cnt_to_end at hce
  refine ⟨⟨rfl, rfl, rfl, ?_, rfl, ?_⟩, ?_⟩
  · refine ⟨h1, ?_, h3, ?_, h5⟩ <;> simp only <;> split at hce <;> omega
  · unfold guc_capture_buf_cnt
    simp only
    split at hce <;> split <;> split <;> omega
  · intro i hi
    unfold ring_dw
    rw [Nat.mod_eq_of_lt]
    split at hce <;> omega

/-- Two successive dword reads on an aligned ring. -/
theorem remove_dw_step {b : __guc_capture_bufstate} (dw : Nat) (h : ring_aligned b)
    (hc : 4 ≤ guc_capture_buf_cnt b) :
    (guc_capture_log_remove_dw b dw).ret = 4 ∧
      (guc_capture_log_remove_dw b dw).dw = ring_dw b 0 ∧
      ring_adv b (guc_capture_log_remove_dw b dw).buf 4 := by
  have hc0 : guc_capture_buf_cnt b ≠ 0 := by omega
  rw [remove_dw_aligned dw h hc0]
  exact ⟨rfl, rfl, ring_adv_dw h hc0⟩

theorem get_data_hdr_aligned {b : __guc_capture_bufstate} (hdr : guc_state_capture_header_t)
    (h : ring_aligned b) (hc : 20 ≤ guc_capture_buf_cnt b) :
    (guc_capture_log_get_data_hdr b hdr).ret = 0 ∧
      (guc_capture_log_get_data_hdr b hdr).val =
        ⟨ring_dw b 0, ring_dw b 1, ring_dw b 2, ring_dw b 3, ring_dw b 4⟩ ∧
      ring_adv b (guc_capture_log_get_data_hdr b hdr).buf 20 := by
  unfold guc_capture_log_get_data_hdr
  rw [if_neg (by omega)]
  unfold guc_capture_data_extracted
  by_cases hce : guc_capture_buf_cnt_to_end b ≥ 20
  · rw [if_pos hce]
    obtain ⟨hadv, hv⟩ := data_extracted_aligned (m := 5) h (by omega) hce
    refine ⟨rfl, ?_, hadv⟩
    simp only [get_u32_img]
    rw [← hv 0 (by omega), ← hv 1 (by omega), ← hv 2 (by omega), ← hv 3 (by omega),
      ← hv 4 (by omega)]
  · rw [if_neg hce]
    simp only
    obtain ⟨e1, v1, a1⟩ := remove_dw_step hdr.owner h (by omega)
    obtain ⟨e2, v2, a2⟩ := remove_dw_step hdr.info (ring_adv_aligned a1)
      (by have := a1.2.2.2.2.2; omega)
    have a12 := ring_adv_trans a1 a2
    obtain ⟨e3, v3, a3⟩ := remove_dw_step hdr.lrca (ring_adv_aligned a12)
      (by have := a12.2.2.2.2.2; omega)
    have a13 := ring_adv_trans a12 a3
    obtain ⟨e4, v4, a4⟩ := remove_dw_step hdr.guc_id (ring_adv_aligned a13)
      (by have := a13.2.2.2.2.2; omega)
    have a14 := ring_adv_trans a13 a4
    obtain ⟨e5, v5, a5⟩ := remove_dw_step hdr.num_mmios (ring_adv_aligned a14)
      (by have := a14.2.2.2.2.2; omega)
    have a15 := ring_adv_trans a14 a5
    refine ⟨?_, ?_, a15⟩
    · rw [e1, e2, e3, e4, e5]; rfl
    · rw [v1, v2, v3, v4, v5, ring_dw_adv (j := 1) a1, ring_dw_adv (j := 2) a12,
        ring_dw_adv (j := 3) a13, ring_dw_adv (j := 4) a14]

theorem get_group_hdr_aligned {b : __guc_capture_bufstate}
    (ghdr : guc_state_capture_group_header_t)
    (h : ring_aligned b) (hc : 8 ≤ guc_capture_buf_cnt b) :
    (guc_capture_log_get_group_hdr b ghdr).ret = 0 ∧
      (guc_capture_log_get_group_hdr b ghdr).val = ⟨ring_dw b 0, ring_dw b 1⟩ ∧
      ring_adv b (guc_capture_log_get_group_hdr b ghdr).buf 8 := by
  unfold guc_capture_log_get_group_hdr
  rw [if_neg (by omega)]
  unfold guc_capture_data_extracted
  by_cases hce : guc_capture_buf_cnt_to_end b ≥ 8
  · rw [if_pos hce]
    obtain ⟨hadv, hv⟩ := data_extracted_aligned (m := 2) h (by omega) hce
    refine ⟨rfl, ?_, hadv⟩
    simp only [get_u32_img]
    rw [← hv 0 (by omega), ← hv 1 (by omega)]
  · rw [if_neg hce]
    simp only
    obtain ⟨e1, v1, a1⟩ := remove_dw_step ghdr.owner h (by omega)
    obtain ⟨e2, v2, a2⟩ := remove_dw_step ghdr.info (ring_adv_aligned a1)
      (by have := a1.2.2.2.2.2; omega)
    have a12 := ring_adv_trans a1 a2
    refine ⟨?_, ?_, a12⟩
    · rw [e1, e2]; rfl
    · rw [v1, v2, ring_dw_adv (j := 1) a1]

theorem get_register_aligned {b : __guc_capture_bufstate} (reg : guc_mmio_reg)
    (h : ring_aligned b) (hc : 16 ≤ guc_capture_buf_cnt b) :
    (guc_capture_log_get_register b reg).ret = 0 ∧
      (guc_capture_log_get_register b reg).val =
        ⟨ring_dw b 0, ring_dw b 1, ring_dw b 2, ring_dw b 3⟩ ∧
      ring_adv b (guc_capture_log_get_register b reg).buf 16 := by
  unfold guc_capture_log_get_register
  rw [if_neg (by omega)]
  unfold guc_capture_data_extracted
  by_cases hce : guc_capture_buf_cnt_to_end b ≥ 16
  · rw [if_pos hce]
    obtain ⟨hadv, hv⟩ := data_extracted_aligned (m := 4) h (by omega) hce
    refine ⟨rfl, ?_, hadv⟩
    simp only [get_u32_img]
    rw [← hv 0 (by omega), ← hv 1 (by omega), ← hv 2 (by omega), ← hv 3 (by omega)]
  · rw [if_neg hce]
    simp only
    obtain ⟨e1, v1, a1⟩ := remove_dw_step reg.offset h (by omega)
    obtain ⟨e2, v2, a2⟩ := remove_dw_step reg.value (ring_adv_aligned a1)
      (by have := a1.2.2.2.2.2; omega)
    have a12 := ring_adv_trans a1 a2
    obtain ⟨e3, v3, a3⟩ := remove_dw_step reg.flags (ring_adv_aligned a12)
      (by have := a12.2.2.2.2.2; omega)
    have a13 := ring_adv_trans a12 a3
    obtain ⟨e4, v4, a4⟩ := remove_dw_step reg.mask (ring_adv_aligned a13)
      (by have := a13.2.2.2.2.2; omega)
    have a14 := ring_adv_trans a13 a4
    refine ⟨?_, ?_, a14⟩
    · rw [e1, e2, e3, e4]; rfl
    · rw [v1, v2, v3, v4, ring_dw_adv (j := 1) a1, ring_dw_adv (j := 2) a12,
        ring_dw_adv (j := 3) a13]

theorem ring_holds_adv {b b' : __guc_capture_bufstate} {l1 l2 : List Nat}
    (h : ring_holds b (l1 ++ l2)) (ha : ring_adv b b' (4 * l1.length)) : ring_holds b' l2 := by
  obtain ⟨hl, hv⟩ := h
  have hcnt := ha.2.2.2.2.2
  rw [List.length_append] at hl
  refine ⟨by omega, ?_⟩
  intro k hk
  rw [ring_dw_adv ha k, hv (l1.length + k) (by rw [List.length_append]; omega),
    List.getD_append_right _ _ _ _ (by omega)]
  congr 1
  omega

theorem ring_holds_get_data_hdr {b : __guc_capture_bufstate} {h : guc_state_capture_header_t}
    {rest : List Nat} (old : guc_state_capture_header_t) (hal : ring_aligned b)
    (hh : ring_holds b (enc_hdr h ++ rest)) :
    (guc_capture_log_get_data_hdr b old).ret = 0 ∧
      (guc_capture_log_get_data_hdr b old).val = h ∧
      ring_adv b (guc_capture_log_get_data_hdr b old).buf 20 ∧
      ring_holds (guc_capture_log_get_data_hdr b old).buf rest := by
  have hlen : 20 ≤ guc_capture_buf_cnt b := by
    have := hh.1
    simp only [List.length_append, enc_hdr, List.length_cons, List.length_nil] at this
    omega
  obtain ⟨e, v, a⟩ := get_data_hdr_aligned old hal hlen
  refine ⟨e, ?_, a, ring_holds_adv hh a⟩
  rw [v]
  have h0 := hh.2 0 (by simp [enc_hdr])
  have h1 := hh.2 1 (by simp [enc_hdr])
  have h2 := hh.2 2 (by simp [enc_hdr])
  have h3 := hh.2 3 (by simp [enc_hdr])
  have h4 := hh.2 4 (by simp [enc_hdr])
  simp [enc_hdr] at h0 h1 h2 h3 h4
  rw [h0, h1, h2, h3, h4]

theorem ring_holds_get_group_hdr {b : __guc_capture_bufstate}
    {g : guc_state_capture_group_header_t}
    {rest : List Nat} (old : guc_state_capture_group_header_t) (hal : ring_aligned b)
    (hh : ring_holds b (enc_ghdr g ++ rest)) :
    (guc_capture_log_get_group_hdr b old).ret = 0 ∧
      (guc_capture_log_get_group_hdr b old).val = g ∧
      ring_adv b (guc_capture_log_get_group_hdr b old).buf 8 ∧
      ring_holds (guc_capture_log_get_group_hdr b old).buf rest := by
  have hlen : 8 ≤ guc_capture_buf_cnt b := by
    have := hh.1
    simp only [List.length_append, enc_ghdr, List.length_cons, List.length_nil] at this
    omega
  obtain ⟨e, v, a⟩ := get_group_hdr_aligned old hal hlen
  refine ⟨e, ?_, a, ring_holds_adv hh a⟩
  rw [v]
  have h0 := hh.2 0 (by simp [enc_ghdr])
  have h1 := hh.2 1 (by simp [enc_ghdr])
  simp [enc_ghdr] at h0 h1
  rw [h0, h1]

theorem ring_holds_get_register {b : __guc_capture_bufstate} {r : guc_mmio_reg}
    {rest : List Nat} (old : guc_mmio_reg) (hal : ring_aligned b)
    (hh : ring_holds b (enc_reg r ++ rest)) :
    (guc_capture_log_get_register b old).ret = 0 ∧
      (guc_capture_log_get_register b old).val = r ∧
      ring_adv b (guc_capture_log_get_register b old).buf 16 ∧
      ring_holds (guc_capture_log_get_register b old).buf rest := by
  have hlen : 16 ≤ guc_capture_buf_cnt b := by
    have := hh.1
    simp only [List.length_append, enc_reg, List.length_cons, List.length_nil] at this
    omega
  obtain ⟨e, v, a⟩ := get_register_aligned old hal hlen
  refine ⟨e, ?_, a, ring_holds_adv hh a⟩
  rw [v]
  have h0 := hh.2 0 (by simp [enc_reg])
  have h1 := hh.2 1 (by simp [enc_reg])
  have h2 := hh.2 2 (by simp [enc_reg])
  have h3 := hh.2 3 (by simp [enc_reg])
  simp [enc_reg] at h0 h1 h2 h3
  rw [h0, h1, h2, h3]

theorem ring_adv_refl {b : __guc_capture_bufstate} (h : ring_aligned b) : ring_adv b b 0 :=
  ⟨rfl, rfl, rfl, h, rfl, rfl⟩

theorem skip_regs_holds {rs : List guc_mmio_reg} :
    ∀ {b : __guc_capture_bufstate} {rest : List Nat} (ret : Int), ring_aligned b →
      ring_holds b (enc_regs rs ++ rest) →
      (skip_regs rs.length b ret).2 = ret ∧
        ring_adv b (skip_regs rs.length b ret).1 (16 * rs.length) ∧
        ring_holds (skip_regs rs.length b ret).1 rest := by
  induction rs with
  | nil =>
    intro b rest ret hal hh
    exact ⟨rfl, ring_adv_refl hal, hh⟩
  | cons r rs ih =>
    intro b rest ret hal hh
    simp only [enc_regs, List.append_assoc] at hh
    obtain ⟨e, _, a, hh1⟩ := ring_holds_get_register zero_reg hal hh
    simp only [List.length_cons, skip_regs, e, ne_eq, not_true_eq_false, if_false]
    obtain ⟨e2, a2, hh2⟩ := ih ret (ring_adv_aligned a) hh1
    refine ⟨e2, ?_, hh2⟩
    have := ring_adv_trans a a2
    rw [show 16 * (rs.length + 1) = 16 + 16 * rs.length by omega]
    exact this

theorem set_length_append {α : Type} (pre : List α) (x y : α) (tl : List α) :
    (pre ++ x :: tl).set pre.length y = pre ++ y :: tl := by
  induction pre with
  | nil => rfl
  | cons a pre ih => simp only [List.cons_append, List.length_cons, List.set_cons_succ, ih]

theorem fill_regs_holds {rs : List guc_mmio_reg} :
    ∀ {b : __guc_capture_bufstate} {rest : List Nat} (pre post : List guc_mmio_reg) (ret : Int),
      ring_aligned b → ring_holds b (enc_regs rs ++ rest) →
      (fill_regs rs.length pre.length b
          (pre ++ (List.replicate rs.length zero_reg ++ post)) ret).ret = ret ∧
        (fill_regs rs.length pre.length b
          (pre ++ (List.replicate rs.length zero_reg ++ post)) ret).regs = pre ++ (rs ++ post) ∧
        ring_adv b (fill_regs rs.length pre.length b
          (pre ++ (List.replicate rs.length zero_reg ++ post)) ret).buf (16 * rs.length) ∧
        ring_holds (fill_regs rs.length pre.length b
          (pre ++ (List.replicate rs.length zero_reg ++ post)) ret).buf rest := by
  induction rs with
  | nil =>
    intro b rest pre post ret hal hh
    exact ⟨rfl, rfl, ring_adv_refl hal, hh⟩
  | cons r rs ih =>
    intro b rest pre post ret hal hh
    simp only [enc_regs, List.append_assoc] at hh
    simp only [List.length_cons, fill_regs, List.replicate_succ, List.cons_append,
      set_length_append]
    generalize (pre ++ zero_reg :: (List.replicate rs.length zero_reg ++ post)).getD pre.length
      zero_reg = old
    obtain ⟨e, v, a, hh1⟩ := ring_holds_get_register old hal hh
    simp only [e, v, ne_eq, not_true_eq_false, if_false]
    have ih1 := ih (pre ++ [r]) post ret (ring_adv_aligned a) hh1
    simp only [List.length_append, List.length_cons, List.length_nil, Nat.zero_add,
      List.append_assoc, List.singleton_append] at ih1
    obtain ⟨e2, v2, a2, hh2⟩ := ih1
    refine ⟨e2, v2, ?_, hh2⟩
    have := ring_adv_trans a a2
    rw [show 16 * (rs.length + 1) = 16 + 16 * rs.length by omega]
    exact this

theorem enc_regs_length (rs : List guc_mmio_reg) : (enc_regs rs).length = 4 * rs.length := by
  induction rs with
  | nil => rfl
  | cons r rs ih => simp only [enc_regs, enc_reg, List.length_append, List.length_cons,
      List.length_nil, ih]; omega

/-- One iteration of the record loop on a record of unknown capture type. -/
theorem extract_loop_unknown (fw : guc_fwif) (oom : Nat → Bool) (ip : Bool) (n : Nat)
    (s : extract_state) {h : guc_state_capture_header_t} {rs : List guc_mmio_reg}
    {rest : List Nat} (hal : ring_aligned s.buf)
    (hh : ring_holds s.buf (enc_hdr h ++ (enc_regs rs ++ rest)))
    (ht : FIELD_GET fw.CAP_HDR_CAPTURE_TYPE h.info > GUC_CAPTURE_LIST_TYPE_ENGINE_INSTANCE)
    (hn : FIELD_GET fw.CAP_HDR_NUM_MMIOS h.num_mmios = rs.length) :
    ∃ b', ring_adv s.buf b' (20 + 16 * rs.length) ∧ ring_holds b' rest ∧
      extract_loop fw oom ip (n + 1) s =
        extract_loop fw oom ip n { s with buf := b', hdr := h } := by
  obtain ⟨e, v, a, hh1⟩ := ring_holds_get_data_hdr s.hdr hal hh
  obtain ⟨e2, a2, hh2⟩ := skip_regs_holds s.ret (ring_adv_aligned a) hh1
  refine ⟨_, ring_adv_trans a a2, hh2, ?_⟩
  simp only [extract_loop, e, v, ne_eq, not_true_eq_false, if_false, ht, if_true, hn, e2]

/-- One iteration of the record loop on a record of known capture type, allocations
succeeding. -/
theorem extract_loop_known (fw : guc_fwif) (oom : Nat → Bool) (ip : Bool) (n : Nat)
    (s : extract_state) {h : guc_state_capture_header_t} {rs : List guc_mmio_reg}
    {rest : List Nat} (hoom : ∀ i, oom i = false) (hal : ring_aligned s.buf)
    (hh : ring_holds s.buf (enc_hdr h ++ (enc_regs rs ++ rest)))
    (ht : ¬ FIELD_GET fw.CAP_HDR_CAPTURE_TYPE h.info > GUC_CAPTURE_LIST_TYPE_ENGINE_INSTANCE)
    (hn : FIELD_GET fw.CAP_HDR_NUM_MMIOS h.num_mmios = rs.length) :
    ∃ b' k', ring_adv s.buf b' (20 + 16 * rs.length) ∧ ring_holds b' rest ∧
      extract_loop fw oom ip (n + 1) s =
        extract_loop fw oom ip n
          ⟨b', h, some (node_for_record fw oom ip s h rs),
            (node_continuity oom (FIELD_GET fw.CAP_HDR_CAPTURE_TYPE h.info)
              s.node s.outlist s.nalloc).2.1, k', s.ret⟩ := by
  obtain ⟨e, v, a, hh1⟩ := ring_holds_get_data_hdr s.hdr hal hh
  obtain ⟨e2, v2, a2, hh2⟩ := fill_regs_holds [] [] s.ret (ring_adv_aligned a) hh1
  simp only [List.length_nil, List.nil_append, List.append_nil] at e2 v2 a2 hh2
  simp only [node_for_record]
  generalize hc : node_continuity oom (FIELD_GET fw.CAP_HDR_CAPTURE_TYPE h.info)
    s.node s.outlist s.nalloc = c
  obtain ⟨c1, c2, c3⟩ := c
  cases c1 with
  | none =>
    refine ⟨_, if rs.length ≠ 0 then c3 + 1 + 1 else c3 + 1, ring_adv_trans a a2, hh2, ?_⟩
    simp only [extract_loop, e, v, ne_eq, not_true_eq_false, if_false, ht, hc,
      fill_node, guc_capture_alloc_one_node, hoom, Bool.false_eq_true, hn,
      and_false, not_false_eq_true, e2, v2, Option.getD_none]
  | some nd =>
    refine ⟨_, if rs.length ≠ 0 then c3 + 1 else c3, ring_adv_trans a a2, hh2, ?_⟩
    simp only [extract_loop, e, v, ne_eq, not_true_eq_false, if_false, ht, hc,
      fill_node, hoom, Bool.false_eq_true, hn,
      and_false, not_false_eq_true, e2, v2, Option.getD_some]

theorem copy_regs_self (l : List guc_mmio_reg) : copy_regs (some l) l.length = l := by
  unfold copy_regs
  apply List.ext_getElem
  · simp
  · intro i h1 h2
    simp only [List.length_map, List.length_range] at h1
    simp [List.getD_eq_getElem, h2]

/-- Cloning with the Global mask when no allocation fails. -/
theorem clone_node_global (oom : Nat → Bool) (k : Nat) (hoom : ∀ i, oom i = false)
    (orig : __guc_capture_parsed_output) :
    guc_capture_clone_node oom k (some orig) GCAP_PARSED_REGLIST_INDEX_GLOBAL =
      (some { zero_node with
          is_partial := orig.is_partial
          reginfo := [⟨(reginfo_at orig 0).vfid, (reginfo_at orig 0).num_regs,
              some (copy_regs (reginfo_at orig 0).regs (reginfo_at orig 0).num_regs)⟩,
            zero_reginfo, zero_reginfo] }, k + 2) := by
  have m0 : GCAP_PARSED_REGLIST_INDEX_GLOBAL &&& BIT 0 ≠ 0 := by decide
  have m1 : ¬ GCAP_PARSED_REGLIST_INDEX_GLOBAL &&& BIT 1 ≠ 0 := by decide
  have m2 : ¬ GCAP_PARSED_REGLIST_INDEX_GLOBAL &&& BIT 2 ≠ 0 := by decide
  simp only [guc_capture_clone_node, guc_capture_alloc_one_node, hoom, Bool.false_eq_true,
    if_false, GUC_CAPTURE_LIST_TYPE_MAX, clone_reglists, m0, m1, m2, if_true, not_false_eq_true,
    GUC_CAPTURE_LIST_TYPE_ENGINE_CLASS, GUC_CAPTURE_LIST_TYPE_ENGINE_INSTANCE, zero_node,
    List.set_cons_zero, Nat.zero_ne_one, OfNat.zero_ne_ofNat]
  rw [if_pos m0]

/-- Cloning with the Global and EngineClass mask when no allocation fails. -/
theorem clone_node_global_class (oom : Nat → Bool) (k : Nat) (hoom : ∀ i, oom i = false)
    (orig : __guc_capture_parsed_output) :
    guc_capture_clone_node oom k (some orig)
        (GCAP_PARSED_REGLIST_INDEX_GLOBAL ||| GCAP_PARSED_REGLIST_INDEX_ENGCLASS) =
      (some { zero_node with
          is_partial := orig.is_partial
          eng_class := orig.eng_class
          reginfo := [⟨(reginfo_at orig 0).vfid, (reginfo_at orig 0).num_regs,
              some (copy_regs (reginfo_at orig 0).regs (reginfo_at orig 0).num_regs)⟩,
            ⟨(reginfo_at orig 1).vfid, (reginfo_at orig 1).num_regs,
              some (copy_regs (reginfo_at orig 1).regs (reginfo_at orig 1).num_regs)⟩,
            zero_reginfo] }, k + 3) := by
  have m0 : (GCAP_PARSED_REGLIST_INDEX_GLOBAL ||| GCAP_PARSED_REGLIST_INDEX_ENGCLASS) &&&
      BIT 0 ≠ 0 := by decide
  have m1 : (GCAP_PARSED_REGLIST_INDEX_GLOBAL ||| GCAP_PARSED_REGLIST_INDEX_ENGCLASS) &&&
      BIT 1 ≠ 0 := by decide
  have m2 : ¬ (GCAP_PARSED_REGLIST_INDEX_GLOBAL ||| GCAP_PARSED_REGLIST_INDEX_ENGCLASS) &&&
      BIT 2 ≠ 0 := by decide
  simp only [guc_capture_clone_node, guc_capture_alloc_one_node, hoom, Bool.false_eq_true,
    if_false, GUC_CAPTURE_LIST_TYPE_MAX, clone_reglists, m0, m1, m2, if_true, not_false_eq_true,
    GUC_CAPTURE_LIST_TYPE_ENGINE_CLASS, GUC_CAPTURE_LIST_TYPE_ENGINE_INSTANCE, zero_node,
    List.set_cons_zero, List.set_cons_succ, Nat.zero_ne_one, OfNat.zero_ne_ofNat, Nat.zero_add]
  rw [if_pos m0, if_pos m1]

theorem node_continuity_ok (oom : Nat → Bool) (hoom : ∀ i, oom i = false) (dt : Nat)
    (node : Option __guc_capture_parsed_output) (out : List __guc_capture_parsed_output)
    (k : Nat) :
    (node_continuity oom dt node out k).1 = (node_continuity (fun _ => false) dt node out 0).1 ∧
      (node_continuity oom dt node out k).2.1 =
        (node_continuity (fun _ => false) dt node out 0).2.1 := by
  cases node with
  | none => exact ⟨rfl, rfl⟩
  | some nd =>
    simp only [node_continuity, clone_node_global oom k hoom,
      clone_node_global (fun _ => false) 0 (fun _ => rfl),
      clone_node_global_class oom k hoom,
      clone_node_global_class (fun _ => false) 0 (fun _ => rfl)]
    split
    · exact ⟨rfl, rfl⟩
    · split
      · exact ⟨rfl, rfl⟩
      · split <;> exact ⟨rfl, rfl⟩

theorem record_step_known (fw : guc_fwif) (oom : Nat → Bool) (ip : Bool)
    (hoom : ∀ i, oom i = false) (s : extract_state)
    (r : guc_state_capture_header_t × List guc_mmio_reg)
    (ht : ¬ FIELD_GET fw.CAP_HDR_CAPTURE_TYPE r.1.info > GUC_CAPTURE_LIST_TYPE_ENGINE_INSTANCE) :
    (some (node_for_record fw oom ip s r.1 r.2),
        (node_continuity oom (FIELD_GET fw.CAP_HDR_CAPTURE_TYPE r.1.info)
          s.node s.outlist s.nalloc).2.1) =
      record_step fw ip (s.node, s.outlist) r := by
  obtain ⟨h1, h2⟩ := node_continuity_ok oom hoom (FIELD_GET fw.CAP_HDR_CAPTURE_TYPE r.1.info)
    s.node s.outlist s.nalloc
  simp only [record_step, if_neg ht, node_for_record, h1, h2]

/-- The record loop over a run of complete records, allocations succeeding: `ret` is kept,
the cursor advances by the size of the run, and the node in progress and the output list
are those of `record_step` folded over the records. -/
theorem extract_loop_group (fw : guc_fwif) (oom : Nat → Bool) (ip : Bool)
    (hoom : ∀ i, oom i = false) :
    ∀ (recs : List (guc_state_capture_header_t × List guc_mmio_reg)) (s : extract_state)
      (rest : List Nat), ring_aligned s.buf → ring_holds s.buf (enc_recs recs ++ rest) →
      (∀ r ∈ recs, FIELD_GET fw.CAP_HDR_NUM_MMIOS r.1.num_mmios = r.2.length) →
      (extract_loop fw oom ip recs.length s).ret = s.ret ∧
        ring_adv s.buf (extract_loop fw oom ip recs.length s).buf
          (recs.map (fun r => 20 + 16 * r.2.length)).sum ∧
        ring_holds (extract_loop fw oom ip recs.length s).buf rest ∧
        ((extract_loop fw oom ip recs.length s).node,
            (extract_loop fw oom ip recs.length s).outlist) =
          recs.foldl (record_step fw ip) (s.node, s.outlist) := by
  intro recs
  induction recs with
  | nil =>
    intro s rest hal hh _
    exact ⟨rfl, ring_adv_refl hal, hh, rfl⟩
  | cons r recs ih =>
    intro s rest hal hh hn
    simp only [enc_recs, List.append_assoc] at hh
    have hn0 := hn r (List.mem_cons_self _ _)
    have hn1 : ∀ r' ∈ recs, FIELD_GET fw.CAP_HDR_NUM_MMIOS r'.1.num_mmios = r'.2.length :=
      fun r' hr' => hn r' (List.mem_cons_of_mem _ hr')
    simp only [List.length_cons, List.map_cons, List.sum_cons, List.foldl_cons]
    by_cases ht : FIELD_GET fw.CAP_HDR_CAPTURE_TYPE r.1.info >
        GUC_CAPTURE_LIST_TYPE_ENGINE_INSTANCE
    · obtain ⟨b', a, hh1, e⟩ := extract_loop_unknown fw oom ip recs.length s hal hh ht hn0
      rw [e]
      obtain ⟨e2, a2, hh2, f2⟩ := ih { s with buf := b', hdr := r.1 } rest
        (ring_adv_aligned a) hh1 hn1
      refine ⟨e2, ring_adv_trans a a2, hh2, ?_⟩
      rw [f2]
      simp only [record_step, if_pos ht]
    · obtain ⟨b', k', a, hh1, e⟩ :=
        extract_loop_known fw oom ip recs.length s hoom hal hh ht hn0
      rw [e]
      obtain ⟨e2, a2, hh2, f2⟩ := ih
        ⟨b', r.1, some (node_for_record fw oom ip s r.1 r.2),
          (node_continuity oom (FIELD_GET fw.CAP_HDR_CAPTURE_TYPE r.1.info)
            s.node s.outlist s.nalloc).2.1, k', s.ret⟩
        rest (ring_adv_aligned a) hh1 hn1
      refine ⟨e2, ring_adv_trans a a2, hh2, ?_⟩
      rw [f2, record_step_known fw oom ip hoom s r ht]

/-- A whole parse pass over a dword-aligned ring that holds a complete capture group,
allocations succeeding: status 0, the cursor advanced by the size of the group, and the
output list obtained by folding `record_step` over the records and finalising. -/
theorem extract_reglists_complete (fw : guc_fwif) (oom : Nat → Bool) (k : Nat)
    (b : __guc_capture_bufstate) (outlist : List __guc_capture_parsed_output)
    (g : guc_state_capture_group_header_t)
    (recs : List (guc_state_capture_header_t × List guc_mmio_reg))
    (hal : ring_aligned b) (hoom : ∀ i, oom i = false)
    (hN : FIELD_GET fw.CAP_GRP_HDR_NUM_CAPTURES g.info = recs.length)
    (hn : ∀ r ∈ recs, FIELD_GET fw.CAP_HDR_NUM_MMIOS r.1.num_mmios = r.2.length)
    (hh : ring_holds b (enc_group g recs)) :
    (guc_capture_extract_reglists fw oom k b outlist).ret = 0 ∧
      ring_adv b (guc_capture_extract_reglists fw oom k b outlist).buf
        (8 + (recs.map (fun r => 20 + 16 * r.2.length)).sum) ∧
      (guc_capture_extract_reglists fw oom k b outlist).outlist =
        extract_bailout
          (recs.foldl (record_step fw
            (decide (FIELD_GET fw.CAP_GRP_HDR_CAPTURE_TYPE g.info ≠ 0))) (none, outlist)).1
          (recs.foldl (record_step fw
            (decide (FIELD_GET fw.CAP_GRP_HDR_CAPTURE_TYPE g.info ≠ 0))) (none, outlist)).2 := by
  have hcnt : 8 ≤ guc_capture_buf_cnt b := by
    have := hh.1
    simp only [enc_group, enc_ghdr, List.length_append, List.length_cons,
      List.length_nil] at this
    omega
  have hc4 := cnt_aligned hal
  obtain ⟨e, v, a, hh1⟩ := ring_holds_get_group_hdr ⟨0, 0⟩ hal hh
  have hh1' : ring_holds (guc_capture_log_get_group_hdr b ⟨0, 0⟩).buf (enc_recs recs ++ []) := by
    rw [List.append_nil]; exact hh1
  simp only [guc_capture_extract_reglists, show guc_capture_buf_cnt b ≠ 0 by omega, hc4, e, v,
    hN, ne_eq, not_true_eq_false, if_false]
  obtain ⟨e2, a2, _, f2⟩ := extract_loop_group fw oom
    (decide (¬ FIELD_GET fw.CAP_GRP_HDR_CAPTURE_TYPE g.info = 0)) hoom recs
    ⟨(guc_capture_log_get_group_hdr b ⟨0, 0⟩).buf, ⟨0, 0, 0, 0, 0⟩, none, outlist, k, 0⟩ []
    (ring_adv_aligned a) hh1' hn
  simp only at f2
  refine ⟨e2, ring_adv_trans a a2, ?_⟩
  rw [← f2]
theorem record_step_unknown (fw : guc_fwif) (ip : Bool)
    (st : Option __guc_capture_parsed_output × List __guc_capture_parsed_output)
    (h : guc_state_capture_header_t) (rs : List guc_mmio_reg)
    (ht : FIELD_GET fw.CAP_HDR_CAPTURE_TYPE h.info > GUC_CAPTURE_LIST_TYPE_ENGINE_INSTANCE) :
    record_step fw ip st (h, rs) = st := by
  simp only [record_step, if_pos ht]

theorem record_step_global_none (fw : guc_fwif) (ip : Bool)
    (out : List __guc_capture_parsed_output)
    (h : guc_state_capture_header_t) (rs : List guc_mmio_reg)
    (ht : FIELD_GET fw.CAP_HDR_CAPTURE_TYPE h.info = GUC_CAPTURE_LIST_TYPE_GLOBAL) :
    record_step fw ip (none, out) (h, rs) =
      (some ⟨ip, 0, 0, 0, 0, [slot_of fw h rs, zero_reginfo, zero_reginfo]⟩, out) := by
  simp [record_step, ht, GUC_CAPTURE_LIST_TYPE_GLOBAL, GUC_CAPTURE_LIST_TYPE_ENGINE_CLASS,
    GUC_CAPTURE_LIST_TYPE_ENGINE_INSTANCE, node_continuity, set_node_regs, set_node_header, zero_node, reginfo_at, slot_of,
    zero_reginfo]

theorem record_step_global_some (fw : guc_fwif) (ip : Bool)
    (nd : __guc_capture_parsed_output) (out : List __guc_capture_parsed_output)
    (h : guc_state_capture_header_t) (rs : List guc_mmio_reg)
    (ht : FIELD_GET fw.CAP_HDR_CAPTURE_TYPE h.info = GUC_CAPTURE_LIST_TYPE_GLOBAL) :
    record_step fw ip (some nd, out) (h, rs) =
      (some ⟨ip, 0, 0, 0, 0, [slot_of fw h rs, zero_reginfo, zero_reginfo]⟩, out ++ [nd]) := by
  simp [record_step, ht, GUC_CAPTURE_LIST_TYPE_GLOBAL, GUC_CAPTURE_LIST_TYPE_ENGINE_CLASS,
    GUC_CAPTURE_LIST_TYPE_ENGINE_INSTANCE, node_continuity, set_node_regs, set_node_header, zero_node, reginfo_at, slot_of,
    zero_reginfo]

theorem record_step_class_none (fw : guc_fwif) (ip : Bool)
    (out : List __guc_capture_parsed_output)
    (h : guc_state_capture_header_t) (rs : List guc_mmio_reg)
    (ht : FIELD_GET fw.CAP_HDR_CAPTURE_TYPE h.info = GUC_CAPTURE_LIST_TYPE_ENGINE_CLASS) :
    record_step fw ip (none, out) (h, rs) =
      (some ⟨ip, FIELD_GET fw.CAP_HDR_ENGINE_CLASS h.info, 0, 0, 0,
        [zero_reginfo, slot_of fw h rs, zero_reginfo]⟩, out) := by
  simp [record_step, ht, GUC_CAPTURE_LIST_TYPE_GLOBAL, GUC_CAPTURE_LIST_TYPE_ENGINE_CLASS,
    GUC_CAPTURE_LIST_TYPE_ENGINE_INSTANCE, node_continuity, set_node_regs, set_node_header, zero_node, reginfo_at, slot_of,
    zero_reginfo]

theorem record_step_class_cont (fw : guc_fwif) (ip p : Bool) (c i gid lr : Nat)
    (s0 s1 s2 : gcap_reg_list_info) (out : List __guc_capture_parsed_output)
    (h : guc_state_capture_header_t) (rs : List guc_mmio_reg)
    (ht : FIELD_GET fw.CAP_HDR_CAPTURE_TYPE h.info = GUC_CAPTURE_LIST_TYPE_ENGINE_CLASS)
    (hs : s1.regs = none) :
    record_step fw ip (some ⟨p, c, i, gid, lr, [s0, s1, s2]⟩, out) (h, rs) =
      (some ⟨ip, FIELD_GET fw.CAP_HDR_ENGINE_CLASS h.info, i, gid, lr,
        [s0, slot_of fw h rs, s2]⟩, out) := by
  simp [record_step, ht, GUC_CAPTURE_LIST_TYPE_GLOBAL, GUC_CAPTURE_LIST_TYPE_ENGINE_CLASS,
    GUC_CAPTURE_LIST_TYPE_ENGINE_INSTANCE, node_continuity, set_node_regs, set_node_header, reginfo_at, slot_of, hs]

theorem record_step_class_split (fw : guc_fwif) (ip p : Bool) (c i gid lr : Nat)
    (s0 s1 s2 : gcap_reg_list_info) (out : List __guc_capture_parsed_output)
    (h : guc_state_capture_header_t) (rs : List guc_mmio_reg)
    (ht : FIELD_GET fw.CAP_HDR_CAPTURE_TYPE h.info = GUC_CAPTURE_LIST_TYPE_ENGINE_CLASS)
    (hs : s1.regs ≠ none) :
    record_step fw ip (some ⟨p, c, i, gid, lr, [s0, s1, s2]⟩, out) (h, rs) =
      (some ⟨ip, FIELD_GET fw.CAP_HDR_ENGINE_CLASS h.info, 0, 0, 0,
        [⟨s0.vfid, s0.num_regs, some (copy_regs s0.regs s0.num_regs)⟩, slot_of fw h rs,
          zero_reginfo]⟩, out ++ [⟨p, c, i, gid, lr, [s0, s1, s2]⟩]) := by
  simp [record_step, ht, GUC_CAPTURE_LIST_TYPE_GLOBAL, GUC_CAPTURE_LIST_TYPE_ENGINE_CLASS,
    GUC_CAPTURE_LIST_TYPE_ENGINE_INSTANCE, node_continuity, set_node_regs, set_node_header, reginfo_at, slot_of, hs,
    clone_node_global (fun _ => false) 0 (fun _ => rfl), zero_node, zero_reginfo]

theorem record_step_inst_none (fw : guc_fwif) (ip : Bool)
    (out : List __guc_capture_parsed_output)
    (h : guc_state_capture_header_t) (rs : List guc_mmio_reg)
    (ht : FIELD_GET fw.CAP_HDR_CAPTURE_TYPE h.info = GUC_CAPTURE_LIST_TYPE_ENGINE_INSTANCE) :
    record_step fw ip (none, out) (h, rs) =
      (some ⟨ip, FIELD_GET fw.CAP_HDR_ENGINE_CLASS h.info,
        FIELD_GET fw.CAP_HDR_ENGINE_INSTANCE h.info, h.guc_id, h.lrca,
        [zero_reginfo, zero_reginfo, slot_of fw h rs]⟩, out) := by
  simp [record_step, ht, GUC_CAPTURE_LIST_TYPE_GLOBAL, GUC_CAPTURE_LIST_TYPE_ENGINE_CLASS,
    GUC_CAPTURE_LIST_TYPE_ENGINE_INSTANCE, node_continuity, set_node_regs, set_node_header, zero_node, reginfo_at, slot_of,
    zero_reginfo]

theorem record_step_inst_cont (fw : guc_fwif) (ip p : Bool) (c i gid lr : Nat)
    (s0 s1 s2 : gcap_reg_list_info) (out : List __guc_capture_parsed_output)
    (h : guc_state_capture_header_t) (rs : List guc_mmio_reg)
    (ht : FIELD_GET fw.CAP_HDR_CAPTURE_TYPE h.info = GUC_CAPTURE_LIST_TYPE_ENGINE_INSTANCE)
    (hs : s2.regs = none) :
    record_step fw ip (some ⟨p, c, i, gid, lr, [s0, s1, s2]⟩, out) (h, rs) =
      (some ⟨ip, FIELD_GET fw.CAP_HDR_ENGINE_CLASS h.info,
        FIELD_GET fw.CAP_HDR_ENGINE_INSTANCE h.info, h.guc_id, h.lrca,
        [s0, s1, slot_of fw h rs]⟩, out) := by
  simp [record_step, ht, GUC_CAPTURE_LIST_TYPE_GLOBAL, GUC_CAPTURE_LIST_TYPE_ENGINE_CLASS,
    GUC_CAPTURE_LIST_TYPE_ENGINE_INSTANCE, node_continuity, set_node_regs, set_node_header, reginfo_at, slot_of, hs]

theorem record_step_inst_split (fw : guc_fwif) (ip p : Bool) (c i gid lr : Nat)
    (s0 s1 s2 : gcap_reg_list_info) (out : List __guc_capture_parsed_output)
    (h : guc_state_capture_header_t) (rs : List guc_mmio_reg)
    (ht : FIELD_GET fw.CAP_HDR_CAPTURE_TYPE h.info = GUC_CAPTURE_LIST_TYPE_ENGINE_INSTANCE)
    (hs : s2.regs ≠ none) :
    record_step fw ip (some ⟨p, c, i, gid, lr, [s0, s1, s2]⟩, out) (h, rs) =
      (some ⟨ip, FIELD_GET fw.CAP_HDR_ENGINE_CLASS h.info,
        FIELD_GET fw.CAP_HDR_ENGINE_INSTANCE h.info, h.guc_id, h.lrca,
        [⟨s0.vfid, s0.num_regs, some (copy_regs s0.regs s0.num_regs)⟩,
          ⟨s1.vfid, s1.num_regs, some (copy_regs s1.regs s1.num_regs)⟩,
          slot_of fw h rs]⟩, out ++ [⟨p, c, i, gid, lr, [s0, s1, s2]⟩]) := by
  simp [record_step, ht, GUC_CAPTURE_LIST_TYPE_GLOBAL, GUC_CAPTURE_LIST_TYPE_ENGINE_CLASS,
    GUC_CAPTURE_LIST_TYPE_ENGINE_INSTANCE, node_continuity, set_node_regs, set_node_header, reginfo_at, slot_of, hs,
    clone_node_global_class (fun _ => false) 0 (fun _ => rfl), zero_node, zero_reginfo]

theorem slot_of_regs (fw : guc_fwif) (h : guc_state_capture_header_t)
    (rs : List guc_mmio_reg) (hp : 0 < rs.length) :
    slot_of fw h rs = ⟨FIELD_GET fw.CAP_HDR_CAPTURE_VFID h.owner, rs.length, some rs⟩ := by
  simp only [slot_of, show rs.length ≠ 0 by omega, ne_eq, not_false_eq_true, if_true]

theorem extract_bailout_global (nd : __guc_capture_parsed_output)
    (out : List __guc_capture_parsed_output) (h : (reginfo_at nd 0).regs ≠ none) :
    extract_bailout (some nd) out = out ++ [nd] := by
  cases hr : (reginfo_at nd 0).regs with
  | none => exact absurd hr h
  | some l =>
    simp [extract_bailout, GUC_CAPTURE_LIST_TYPE_MAX, List.range_succ, hr]


theorem read_dwords_aligned : ∀ (j : Nat) (b : __guc_capture_bufstate), ring_aligned b →
    4 * j ≤ guc_capture_buf_cnt b →
    (read_dwords j b).1 = (List.range j).map (fun i => (4, ring_dw b i)) ∧
      ring_adv b (read_dwords j b).2 (4 * j) := by
  intro j
  induction j with
  | zero =>
    intro b hal _
    exact ⟨rfl, ring_adv_refl hal⟩
  | succ j ih =>
    intro b hal hc
    obtain ⟨e, v, a⟩ := remove_dw_step 0 hal (by omega)
    obtain ⟨l, a2⟩ := ih (guc_capture_log_remove_dw b 0).buf (ring_adv_aligned a)
      (by have := a.2.2.2.2.2; omega)
    refine ⟨?_, ?_⟩
    · simp only [read_dwords, e, v, l, List.range_succ_eq_map, List.map_cons, List.map_map]
      congr 1
      apply List.map_congr_left
      intro i _
      simp only [Function.comp, ring_dw_adv (j := 1) a i, Nat.succ_eq_add_one, Nat.add_comm]
    · have := ring_adv_trans a a2
      rw [show 4 * (j + 1) = 4 + 4 * j by omega]
      simp only [read_dwords]
      exact this

theorem dwords_of_bytes (data : Nat → Nat) : ∀ (m s : Nat) (rest : List Nat),
    dwords_of ((List.range' s (4 * m)).map data ++ rest) =
      (List.range m).map (fun i => get_u32 data (s + 4 * i)) ++ dwords_of rest := by
  intro m
  induction m with
  | zero => intro s rest; rfl
  | succ m ih =>
    intro s rest
    rw [show 4 * (m + 1) = 4 * m + 1 + 1 + 1 + 1 by omega]
    simp only [List.range'_succ, List.map_cons, List.cons_append]
    rw [dwords_of, ih, List.range_succ_eq_map, List.map_cons, List.map_map, List.cons_append]
    congr 1
    congr 1
    apply List.map_congr_left
    intro i _
    simp only [Function.comp, Nat.succ_eq_add_one]
    congr 1
    omega

theorem dwords_of_ref {b : __guc_capture_bufstate} (hal : ring_aligned b)
    (hw : b.wr < b.rd) :
    dwords_of (ref_bytes b) =
      (List.range (guc_capture_buf_cnt b / 4)).map (fun i => ring_dw b i) := by
  obtain ⟨h1, h2, h3, h4, h5⟩ := hal
  have hcnt : guc_capture_buf_cnt b = (b.size - b.rd) + b.wr := by
    unfold guc_capture_buf_cnt
    rw [if_neg (by omega)]
  have e1 : b.size - b.rd = 4 * ((b.size - b.rd) / 4) := by omega
  have e2 : b.wr = 4 * (b.wr / 4) := by omega
  have e3 : guc_capture_buf_cnt b / 4 = (b.size - b.rd) / 4 + b.wr / 4 := by omega
  unfold ref_bytes
  rw [e3, List.range_add, List.map_append, List.map_map]
  conv_lhs => rw [e1, e2]
  rw [dwords_of_bytes, ← List.append_nil (List.map b.data (List.range' 0 (4 * (b.wr / 4)))),
    dwords_of_bytes]
  simp only [dwords_of, List.append_nil]
  congr 1
  · apply List.map_congr_left
    intro i hi
    rw [List.mem_range] at hi
    unfold ring_dw
    rw [Nat.mod_eq_of_lt (by omega)]
  · apply List.map_congr_left
    intro i hi
    rw [List.mem_range] at hi
    simp only [Function.comp, ring_dw]
    rw [show b.rd + 4 * ((b.size - b.rd) / 4 + i) = b.size + 4 * i by omega,
      Nat.add_mod_left, Nat.mod_eq_of_lt (by omega), Nat.zero_add]


theorem ring_dw_bytes {b : __guc_capture_bufstate} (hal : ring_aligned b) (hpos : 0 < b.size)
    (i : Nat) :
    ring_dw b i = ring_byte b (4 * i) + 256 * ring_byte b (4 * i + 1) +
      65536 * ring_byte b (4 * i + 2) + 16777216 * ring_byte b (4 * i + 3) := by
  obtain ⟨h1, h2, h3, h4, h5⟩ := hal
  have hx : (b.rd + 4 * i) % b.size % 4 = 0 := by
    rw [Nat.mod_mod_of_dvd _ (Nat.dvd_of_mod_eq_zero h1)]
    omega
  have hlt : (b.rd + 4 * i) % b.size < b.size := Nat.mod_lt _ hpos
  have key : ∀ t, t < 4 → (b.rd + (4 * i + t)) % b.size = (b.rd + 4 * i) % b.size + t := by
    intro t ht
    rw [← Nat.add_assoc, Nat.add_mod, Nat.mod_eq_of_lt (a := t) (by omega)]
    exact Nat.mod_eq_of_lt (by omega)
  simp only [ring_dw, get_u32, ring_byte, key 1 (by omega), key 2 (by omega), key 3 (by omega)]


theorem getlist_cached (PAGE_SIZE : Nat) (gc : intel_guc_state_capture)
    (owner type classid : Nat) (kzalloc : Nat → Option Nat)
    (hcat : gc.reglists.isNone = false)
    (hv : (gc.ads_cache owner type classid).is_valid = true) :
    intel_guc_capture_getlist PAGE_SIZE gc owner type classid kzalloc =
      ⟨(gc.ads_cache owner type classid).status, some (gc.ads_cache owner type classid).ptr,
        gc⟩ := by
  simp only [intel_guc_capture_getlist, hcat, hv, Bool.false_eq_true, if_false, if_true]

theorem ads_cache_set_same (f : Nat → Nat → Nat → __guc_capture_ads_cache)
    (o t c : Nat) (v : __guc_capture_ads_cache) : ads_cache_set f o t c v o t c = v := by
  simp only [ads_cache_set, and_self, if_true]

/-- The outcomes of a `get_list` call on a configured catalog whose cache entry for the key
is not valid yet: a recorded catalog miss, an unrecorded allocation failure, or a recorded
fresh buffer. -/
theorem getlist_fresh (PAGE_SIZE : Nat) (gc : intel_guc_state_capture)
    (owner type classid : Nat) (kzalloc : Nat → Option Nat)
    (hcat : gc.reglists.isNone = false)
    (hv : (gc.ads_cache owner type classid).is_valid = false) :
    (guc_cap_list_num_regs gc owner type classid = 0 ∧
      intel_guc_capture_getlist PAGE_SIZE gc owner type classid kzalloc =
        ⟨- ENODATA, none, { gc with ads_cache := (ads_cache_set gc.ads_cache owner type classid
          ⟨true, none, 0, - ENODATA⟩) }⟩) ∨
    (guc_cap_list_num_regs gc owner type classid ≠ 0 ∧
      kzalloc (PAGE_ALIGN PAGE_SIZE (4 + guc_cap_list_num_regs gc owner type classid * 16))
        = none ∧
      intel_guc_capture_getlist PAGE_SIZE gc owner type classid kzalloc =
        ⟨- ENOMEM, none, gc⟩) ∨
    (guc_cap_list_num_regs gc owner type classid ≠ 0 ∧
      ∃ buf : caplist_buf,
        kzalloc (PAGE_ALIGN PAGE_SIZE (4 + guc_cap_list_num_regs gc owner type classid * 16))
          = some buf.addr ∧
        buf.dw = (guc_capture_list_init gc owner type classid
            (set_cell (fun _ => 0) 0 (FIELD_PREP GUC_CAPTURELISTHDR_NUMDESCR
              (guc_cap_list_num_regs gc owner type classid % 4294967296)))
            1 (guc_cap_list_num_regs gc owner type classid % 65536)).2 ∧
        intel_guc_capture_getlist PAGE_SIZE gc owner type classid kzalloc =
          ⟨0, some (some buf),
            { gc with ads_cache := (ads_cache_set gc.ads_cache owner type classid
              ⟨true, some buf,
                PAGE_ALIGN PAGE_SIZE (4 + guc_cap_list_num_regs gc owner type classid * 16),
                0⟩) }⟩) := by
  have hne : (- ENODATA : Int) ≠ 0 := by decide
  by_cases hn : guc_cap_list_num_regs gc owner type classid = 0
  · left
    refine ⟨hn, ?_⟩
    simp only [intel_guc_capture_getlist, intel_guc_capture_getlistsize, hcat, hv, hn,
      Bool.false_eq_true, if_false, if_true, ne_eq, hne, not_false_eq_true]
  · right
    cases hk : kzalloc (PAGE_ALIGN PAGE_SIZE
        (4 + guc_cap_list_num_regs gc owner type classid * 16)) with
    | none =>
      left
      refine ⟨hn, rfl, ?_⟩
      simp only [intel_guc_capture_getlist, intel_guc_capture_getlistsize, hcat, hv, hn,
        Bool.false_eq_true, if_false, ne_eq, not_true_eq_false, Option.getD_some, hk]
    | some addr =>
      right
      refine ⟨hn, ⟨addr, _⟩, rfl, rfl, ?_⟩
      simp only [intel_guc_capture_getlist, intel_guc_capture_getlistsize, hcat, hv, hn,
        Bool.false_eq_true, if_false, ne_eq, not_true_eq_false, Option.getD_some, hk]


/-- A `get_list` call never changes the catalog nor a cache entry that is already valid. -/
theorem getlist_preserves (PAGE_SIZE : Nat) (gc : intel_guc_state_capture)
    (o' t' c' : Nat) (kz : Nat → Option Nat) :
    (intel_guc_capture_getlist PAGE_SIZE gc o' t' c' kz).gc.reglists = gc.reglists ∧
      ∀ o t c, (gc.ads_cache o t c).is_valid = true →
        (intel_guc_capture_getlist PAGE_SIZE gc o' t' c' kz).gc.ads_cache o t c =
          gc.ads_cache o t c := by
  obtain ⟨rl0, xl0, cache0⟩ := gc
  cases hcat : rl0.isNone with
  | true =>
    simp only [intel_guc_capture_getlist, hcat, if_true]
    exact ⟨trivial, fun _ _ _ _ => trivial⟩
  | false =>
    cases hv : (cache0 o' t' c').is_valid with
    | true =>
      rw [getlist_cached PAGE_SIZE ⟨rl0, xl0, cache0⟩ o' t' c' kz hcat hv]
      exact ⟨rfl, fun _ _ _ _ => rfl⟩
    | false =>
      have key : ∀ (v : __guc_capture_ads_cache) o t c, (cache0 o t c).is_valid = true →
          ads_cache_set cache0 o' t' c' v o t c = cache0 o t c := by
        intro v o t c h
        unfold ads_cache_set
        split
        · rename_i heq
          obtain ⟨rfl, rfl, rfl⟩ := heq
          rw [hv] at h
          exact absurd h (by decide)
        · rfl
      rcases getlist_fresh PAGE_SIZE ⟨rl0, xl0, cache0⟩ o' t' c' kz hcat hv with
        ⟨_, e⟩ | ⟨_, _, e⟩ | ⟨_, buf, _, _, e⟩
      · rw [e]; exact ⟨rfl, key _⟩
      · rw [e]; exact ⟨rfl, fun _ _ _ _ => rfl⟩
      · rw [e]; exact ⟨rfl, key _⟩

theorem run_getlists_preserves (PAGE_SIZE : Nat) :
    ∀ (ops : List (Nat × Nat × Nat × (Nat → Option Nat))) (gc : intel_guc_state_capture),
      (run_getlists PAGE_SIZE ops gc).reglists = gc.reglists ∧
        ∀ o t c, (gc.ads_cache o t c).is_valid = true →
          (run_getlists PAGE_SIZE ops gc).ads_cache o t c = gc.ads_cache o t c := by
  intro ops
  induction ops with
  | nil => intro gc; exact ⟨rfl, fun _ _ _ _ => rfl⟩
  | cons op ops ih =>
    intro gc
    obtain ⟨o', t', c', kz⟩ := op
    obtain ⟨h1, h2⟩ := getlist_preserves PAGE_SIZE gc o' t' c' kz
    obtain ⟨h3, h4⟩ := ih (intel_guc_capture_getlist PAGE_SIZE gc o' t' c' kz).gc
    refine ⟨by simp only [run_getlists, h3, h1], ?_⟩
    intro o t c hv
    simp only [run_getlists]
    rw [h4 o t c (by rw [h2 o t c hv]; exact hv), h2 o t c hv]


theorem page_align_spec (PAGE_SIZE x : Nat) (hp : 0 < PAGE_SIZE) :
    PAGE_SIZE ∣ PAGE_ALIGN PAGE_SIZE x ∧ x ≤ PAGE_ALIGN PAGE_SIZE x ∧
      ∀ y, PAGE_SIZE ∣ y → x ≤ y → PAGE_ALIGN PAGE_SIZE x ≤ y := by
  unfold PAGE_ALIGN
  refine ⟨Nat.dvd_mul_left _ _, ?_, ?_⟩
  · have h1 := Nat.div_add_mod (x + PAGE_SIZE - 1) PAGE_SIZE
    have h2 := Nat.mod_lt (x + PAGE_SIZE - 1) hp
    rw [Nat.mul_comm] at h1
    omega
  · rintro y ⟨k, rfl⟩ hxy
    rw [Nat.mul_comm PAGE_SIZE k]
    apply Nat.mul_le_mul_right
    have h3 : (x + PAGE_SIZE - 1) / PAGE_SIZE < k + 1 := by
      rw [Nat.div_lt_iff_lt_mul hp]
      have h : (k + 1) * PAGE_SIZE = PAGE_SIZE * k + PAGE_SIZE := by
        rw [Nat.add_mul, Nat.one_mul, Nat.mul_comm]
      omega
    omega
theorem field_prep_numdescr (v : Nat) :
    FIELD_PREP GUC_CAPTURELISTHDR_NUMDESCR v = v % 65536 := by
  have hs : __bf_shf GUC_CAPTURELISTHDR_NUMDESCR = 0 := by decide
  have hm : GUC_CAPTURELISTHDR_NUMDESCR = 2 ^ 16 - 1 := by decide
  unfold FIELD_PREP
  rw [hs, Nat.shiftLeft_zero, hm, Nat.and_pow_two_sub_one_eq_mod]

theorem write_descr_apply (mem : Nat → Nat) (base i : Nat) (d : __guc_mmio_reg_descr)
    (a : Nat) :
    write_descr mem base i d a =
      if a = base + 4 * i + 3 then d.mask
      else if a = base + 4 * i + 2 then d.flags
      else if a = base + 4 * i + 1 then 3735941133
      else if a = base + 4 * i then d.reg
      else mem a := rfl

/-- Memory after a run of `write_descr` stores at the indices `off, ..., off + c - 1`. -/
theorem foldl_write_descr (base off : Nat) (f : Nat → __guc_mmio_reg_descr) :
    ∀ (c : Nat) (mem : Nat → Nat),
      (∀ j, j < c →
        (List.range c).foldl (fun acc j => write_descr acc base (off + j) (f j)) mem
            (base + 4 * (off + j)) = (f j).reg ∧
          (List.range c).foldl (fun acc j => write_descr acc base (off + j) (f j)) mem
            (base + 4 * (off + j) + 1) = 3735941133 ∧
          (List.range c).foldl (fun acc j => write_descr acc base (off + j) (f j)) mem
            (base + 4 * (off + j) + 2) = (f j).flags ∧
          (List.range c).foldl (fun acc j => write_descr acc base (off + j) (f j)) mem
            (base + 4 * (off + j) + 3) = (f j).mask) ∧
      ∀ a, (a < base + 4 * off ∨ base + 4 * (off + c) ≤ a) →
        (List.range c).foldl (fun acc j => write_descr acc base (off + j) (f j)) mem a =
          mem a := by
  intro c
  induction c with
  | zero =>
    intro mem
    exact ⟨fun j hj => absurd hj (Nat.not_lt_zero j), fun _ _ => rfl⟩
  | succ c ih =>
    intro mem
    obtain ⟨h1, h2⟩ := ih mem
    simp only [List.range_succ, List.foldl_append, List.foldl_cons, List.foldl_nil]
    refine ⟨?_, ?_⟩
    · intro j hj
      rcases Nat.lt_or_ge j c with hlt | hge
      · obtain ⟨a1, a2, a3, a4⟩ := h1 j hlt
        refine ⟨?_, ?_, ?_, ?_⟩
        · rw [write_descr_apply, if_neg (by omega), if_neg (by omega), if_neg (by omega),
            if_neg (by omega)]
          exact a1
        · rw [write_descr_apply, if_neg (by omega), if_neg (by omega), if_neg (by omega),
            if_neg (by omega)]
          exact a2
        · rw [write_descr_apply, if_neg (by omega), if_neg (by omega), if_neg (by omega),
            if_neg (by omega)]
          exact a3
        · rw [write_descr_apply, if_neg (by omega), if_neg (by omega), if_neg (by omega),
            if_neg (by omega)]
          exact a4
      · have hjc : j = c := by omega
        subst hjc
        refine ⟨?_, ?_, ?_, ?_⟩
        · rw [write_descr_apply, if_neg (by omega), if_neg (by omega), if_neg (by omega),
            if_pos rfl]
        · rw [write_descr_apply, if_neg (by omega), if_neg (by omega), if_pos rfl]
        · rw [write_descr_apply, if_neg (by omega), if_pos rfl]
        · rw [write_descr_apply, if_pos rfl]
    · intro a ha
      rw [write_descr_apply, if_neg (by omega), if_neg (by omega), if_neg (by omega),
        if_neg (by omega)]
      exact h2 a (by omega)

theorem num_regs_eq (gc : intel_guc_state_capture) (owner type classid : Nat)
    (m : __guc_mmio_reg_descr_group) (e : Nat)
    (hm : guc_capture_get_one_list gc.reglists owner type classid = some m)
    (he : (guc_capture_get_one_ext_list gc.extlists owner type classid = none ∧ e = 0) ∨
      ∃ x, guc_capture_get_one_ext_list gc.extlists owner type classid = some x ∧
        e = x.num_regs) :
    guc_cap_list_num_regs gc owner type classid = m.num_regs + e := by
  unfold guc_cap_list_num_regs
  rw [hm]
  rcases he with ⟨h, rfl⟩ | ⟨x, h, rfl⟩
  · rw [h]; rfl
  · rw [h]

theorem descr_at_some (l : List __guc_mmio_reg_descr) (i : Nat) (hi : i < l.length) :
    descr_at (some l) i = l[i] := by
  simp only [descr_at, Option.getD_some, List.getD_eq_getElem _ _ hi]

/-- The memory written by `guc_capture_list_init` when the record count covers the base
list `bl` and the extension list `el` exactly. -/
theorem list_init_mem (gc : intel_guc_state_capture) (owner type classid : Nat)
    (m : __guc_mmio_reg_descr_group) (bl el : List __guc_mmio_reg_descr) (mem : Nat → Nat)
    (hcat : gc.reglists.isNone = false)
    (hm : guc_capture_get_one_list gc.reglists owner type classid = some m)
    (hbl : m.list = some bl) (hb : m.num_regs = bl.length)
    (hx : (guc_capture_get_one_ext_list gc.extlists owner type classid = none ∧ el = []) ∨
      ∃ x, guc_capture_get_one_ext_list gc.extlists owner type classid = some x ∧
        x.extlist = some el ∧ x.num_regs = el.length) :
    (∀ i (hi : i < bl.length),
      (guc_capture_list_init gc owner type classid mem 1 (bl.length + el.length)).2
          (1 + 4 * i) = bl[i].reg ∧
        (guc_capture_list_init gc owner type classid mem 1 (bl.length + el.length)).2
          (1 + 4 * i + 1) = 3735941133 ∧
        (guc_capture_list_init gc owner type classid mem 1 (bl.length + el.length)).2
          (1 + 4 * i + 2) = bl[i].flags ∧
        (guc_capture_list_init gc owner type classid mem 1 (bl.length + el.length)).2
          (1 + 4 * i + 3) = bl[i].mask) ∧
    (∀ j (hj : j < el.length),
      (guc_capture_list_init gc owner type classid mem 1 (bl.length + el.length)).2
          (1 + 4 * (bl.length + j)) = el[j].reg ∧
        (guc_capture_list_init gc owner type classid mem 1 (bl.length + el.length)).2
          (1 + 4 * (bl.length + j) + 1) = 3735941133 ∧
        (guc_capture_list_init gc owner type classid mem 1 (bl.length + el.length)).2
          (1 + 4 * (bl.length + j) + 2) = el[j].flags ∧
        (guc_capture_list_init gc owner type classid mem 1 (bl.length + el.length)).2
          (1 + 4 * (bl.length + j) + 3) = el[j].mask) ∧
    ∀ a, (a < 1 ∨ 1 + 4 * (bl.length + el.length) ≤ a) →
      (guc_capture_list_init gc owner type classid mem 1 (bl.length + el.length)).2 a =
        mem a := by
  obtain ⟨rl0, xl0, cache0⟩ := gc
  cases rl0 with
  | none => simp at hcat
  | some rl =>
    simp only at hm hx
    obtain ⟨b1, b2⟩ := foldl_write_descr 1 0 (fun i => descr_at m.list i) bl.length mem
    simp only [Nat.zero_add] at b1 b2
    rcases hx with ⟨hnone, rfl⟩ | ⟨x, hsome, hel, hxn⟩
    · simp only [guc_capture_list_init, hm, hnone, hb, List.length_nil, Nat.add_zero,
        Nat.min_self]
      refine ⟨?_, fun j hj => absurd hj (Nat.not_lt_zero j), ?_⟩
      · intro i hi
        have := b1 i hi
        rw [hbl, descr_at_some bl i hi] at this
        rw [hbl]
        exact this
      · intro a ha
        exact b2 a (by omega)
    · obtain ⟨c1, c2⟩ := foldl_write_descr 1 bl.length (fun j => descr_at x.extlist j)
        el.length ((List.range bl.length).foldl
          (fun acc i => write_descr acc 1 i (descr_at m.list i)) mem)
      have hmin1 : min (bl.length + el.length) bl.length = bl.length := by omega
      have hmin2 : min (min (bl.length + el.length) (bl.length + el.length) - bl.length)
          el.length = el.length := by omega
      simp only [guc_capture_list_init, hm, hsome, hb, hxn, hmin1, hmin2]
      refine ⟨?_, ?_, ?_⟩
      · intro i hi
        have := b1 i hi
        rw [hbl, descr_at_some bl i hi] at this
        rw [c2 _ (by omega), c2 _ (by omega), c2 _ (by omega), c2 _ (by omega), hbl]
        exact this
      · intro j hj
        have := c1 j hj
        rw [hel, descr_at_some el j hj] at this
        rw [hel]
        exact this
      · intro a ha
        rw [c2 a (by omega)]
        exact b2 a (by omega)

/-! ## Lemmas on the lookup, the output store and the cursor bounds -/

theorem get_one_list_scan_find (owner type id : Nat) :
    ∀ l : List __guc_mmio_reg_descr_group,
      get_one_list_scan owner type id l =
        (catalog_entries l).find? (entry_matches owner type id)
  | [] => rfl
  | g :: rest => by
    have ih := get_one_list_scan_find owner type id rest
    unfold get_one_list_scan catalog_entries
    rw [List.takeWhile_cons]
    cases hl : g.list with
    | none => simp
    | some d =>
      simp only [Option.isNone_some, Bool.false_eq_true, if_false, Option.isSome_some, if_true]
      by_cases hm : g.owner = owner ∧ g.type = type ∧
          (g.engine = id ∨ g.type = GUC_CAPTURE_LIST_TYPE_GLOBAL)
      · rw [if_pos hm, List.find?_cons_of_pos]
        exact decide_eq_true hm
      · rw [if_neg hm, List.find?_cons_of_neg]
        · exact ih
        · intro h
          exact hm (of_decide_eq_true h)

theorem entry_matches_global (owner c1 c2 : Nat) (g : __guc_mmio_reg_descr_group) :
    entry_matches owner GUC_CAPTURE_LIST_TYPE_GLOBAL c1 g =
      entry_matches owner GUC_CAPTURE_LIST_TYPE_GLOBAL c2 g := by
  unfold entry_matches
  by_cases h : g.type = GUC_CAPTURE_LIST_TYPE_GLOBAL <;> simp [h]

theorem extract_bailout_append (node : Option __guc_capture_parsed_output)
    (pre out : List __guc_capture_parsed_output) :
    extract_bailout node (pre ++ out) = pre ++ extract_bailout node out := by
  cases node with
  | none => rfl
  | some nd =>
    simp only [extract_bailout]
    split
    · rw [List.append_assoc]
    · rfl

theorem node_continuity_append (oom : Nat → Bool) (dt : Nat)
    (node : Option __guc_capture_parsed_output)
    (pre out : List __guc_capture_parsed_output) (k : Nat) :
    node_continuity oom dt node (pre ++ out) k =
      ((node_continuity oom dt node out k).1, pre ++ (node_continuity oom dt node out k).2.1,
        (node_continuity oom dt node out k).2.2) := by
  cases node with
  | none => rfl
  | some nd =>
    simp only [node_continuity]
    split
    · simp
    · split
      · simp
      · split
        · simp
        · rfl

theorem fill_node_outlist (fw : guc_fwif) (oom : Nat → Bool) (ip : Bool) (dt : Nat)
    (buf : __guc_capture_bufstate) (hdr : guc_state_capture_header_t)
    (node : Option __guc_capture_parsed_output) (out o : List __guc_capture_parsed_output)
    (k : Nat) (ret : Int) :
    fill_node fw oom ip dt ⟨buf, hdr, node, o, k, ret⟩ =
      ((fill_node fw oom ip dt ⟨buf, hdr, node, out, k, ret⟩).1,
        { (fill_node fw oom ip dt ⟨buf, hdr, node, out, k, ret⟩).2 with outlist := o }) := by
  unfold fill_node
  simp only
  split
  · rfl
  · split <;> rfl

theorem fill_node_outlist_eq (fw : guc_fwif) (oom : Nat → Bool) (ip : Bool) (dt : Nat)
    (s : extract_state) : (fill_node fw oom ip dt s).2.outlist = s.outlist := by
  unfold fill_node
  simp only
  split
  · rfl
  · split <;> rfl

theorem extract_loop_outlist (fw : guc_fwif) (oom : Nat → Bool) (ip : Bool) :
    ∀ (n : Nat) (buf : __guc_capture_bufstate) (hdr : guc_state_capture_header_t)
      (node : Option __guc_capture_parsed_output)
      (pre out : List __guc_capture_parsed_output) (k : Nat) (ret : Int),
      extract_loop fw oom ip n ⟨buf, hdr, node, pre ++ out, k, ret⟩ =
        ⟨(extract_loop fw oom ip n ⟨buf, hdr, node, out, k, ret⟩).buf,
          (extract_loop fw oom ip n ⟨buf, hdr, node, out, k, ret⟩).hdr,
          (extract_loop fw oom ip n ⟨buf, hdr, node, out, k, ret⟩).node,
          pre ++ (extract_loop fw oom ip n ⟨buf, hdr, node, out, k, ret⟩).outlist,
          (extract_loop fw oom ip n ⟨buf, hdr, node, out, k, ret⟩).nalloc,
          (extract_loop fw oom ip n ⟨buf, hdr, node, out, k, ret⟩).ret⟩
  | 0, buf, hdr, node, pre, out, k, ret => rfl
  | n + 1, buf, hdr, node, pre, out, k, ret => by
    unfold extract_loop
    simp only
    split
    · rfl
    · split
      · exact extract_loop_outlist fw oom ip n _ _ _ pre out _ _
      · rw [node_continuity_append]
        simp only
        generalize node_continuity oom (FIELD_GET fw.CAP_HDR_CAPTURE_TYPE
          (guc_capture_log_get_data_hdr buf hdr).val.info) node out k = c
        rw [fill_node_outlist fw oom ip _ _ _ _ c.2.1 (pre ++ c.2.1)]
        simp only
        generalize hr : fill_node fw oom ip (FIELD_GET fw.CAP_HDR_CAPTURE_TYPE
          (guc_capture_log_get_data_hdr buf hdr).val.info)
          ⟨(guc_capture_log_get_data_hdr buf hdr).buf, (guc_capture_log_get_data_hdr buf hdr).val,
            c.1, c.2.1, c.2.2, ret⟩ = r
        have ho : r.2.outlist = c.2.1 := by
          rw [← hr, fill_node_outlist_eq]
        obtain ⟨brk, rb, rh, rn, ro, rk, rr⟩ := r
        simp only at ho
        subst ho
        split
        · rfl
        · exact extract_loop_outlist fw oom ip n _ _ _ pre _ _ _

theorem remove_dw_tries_in_ring (S W : Nat) : ∀ (n : Nat) (b : __guc_capture_bufstate) (dw : Nat),
    cursor_in_ring S W b → cursor_in_ring S W (remove_dw_tries n b dw).buf
  | 0, b, dw, h => h
  | n + 1, b, dw, h => by
    unfold remove_dw_tries
    split
    · rename_i hc
      unfold guc_capture_buf_cnt_to_end at hc
      unfold cursor_in_ring at h ⊢
      simp only
      split at hc <;> omega
    · apply remove_dw_tries_in_ring S W n
      unfold cursor_in_ring at h ⊢
      simp only
      omega

theorem remove_dw_in_ring {S W : Nat} (b : __guc_capture_bufstate) (dw : Nat)
    (h : cursor_in_ring S W b) :
    cursor_in_ring S W (guc_capture_log_remove_dw b dw).buf := by
  unfold guc_capture_log_remove_dw
  split
  · exact h
  · exact remove_dw_tries_in_ring S W 2 b dw h

theorem data_extracted_in_ring {S W : Nat} (b : __guc_capture_bufstate) (n : Nat)
    (h : cursor_in_ring S W b)
    (img : Nat → Nat) (b1 : __guc_capture_bufstate)
    (he : guc_capture_data_extracted b n = some (img, b1)) : cursor_in_ring S W b1 := by
  unfold guc_capture_data_extracted at he
  split at he
  · rename_i hc
    simp only [Option.some.injEq, Prod.mk.injEq] at he
    rw [← he.2]
    unfold guc_capture_buf_cnt_to_end at hc
    unfold cursor_in_ring at h ⊢
    simp only
    split at hc <;> omega
  · exact absurd he (by simp)

theorem get_group_hdr_in_ring {S W : Nat} (b : __guc_capture_bufstate)
    (g : guc_state_capture_group_header_t) (h : cursor_in_ring S W b) :
    cursor_in_ring S W (guc_capture_log_get_group_hdr b g).buf := by
  unfold guc_capture_log_get_group_hdr
  split
  · exact h
  · split
    · rename_i img b1 he
      exact data_extracted_in_ring b 8 h img b1 he
    · simp only
      have h1 := remove_dw_in_ring b g.owner h
      exact remove_dw_in_ring _ g.info h1

theorem get_data_hdr_in_ring {S W : Nat} (b : __guc_capture_bufstate)
    (hdr : guc_state_capture_header_t) (h : cursor_in_ring S W b) :
    cursor_in_ring S W (guc_capture_log_get_data_hdr b hdr).buf := by
  unfold guc_capture_log_get_data_hdr
  split
  · exact h
  · split
    · rename_i img b1 he
      exact data_extracted_in_ring b 20 h img b1 he
    · simp only
      have h1 := remove_dw_in_ring b hdr.owner h
      have h2 := remove_dw_in_ring _ hdr.info h1
      have h3 := remove_dw_in_ring _ hdr.lrca h2
      have h4 := remove_dw_in_ring _ hdr.guc_id h3
      exact remove_dw_in_ring _ hdr.num_mmios h4

theorem get_register_in_ring {S W : Nat} (b : __guc_capture_bufstate)
    (reg : guc_mmio_reg) (h : cursor_in_ring S W b) :
    cursor_in_ring S W (guc_capture_log_get_register b reg).buf := by
  unfold guc_capture_log_get_register
  split
  · exact h
  · split
    · rename_i img b1 he
      exact data_extracted_in_ring b 16 h img b1 he
    · simp only
      have h1 := remove_dw_in_ring b reg.offset h
      have h2 := remove_dw_in_ring _ reg.value h1
      have h3 := remove_dw_in_ring _ reg.flags h2
      exact remove_dw_in_ring _ reg.mask h3

theorem skip_regs_in_ring (S W : Nat) : ∀ (n : Nat) (b : __guc_capture_bufstate) (ret : Int),
    cursor_in_ring S W b → cursor_in_ring S W (skip_regs n b ret).1
  | 0, b, ret, h => h
  | n + 1, b, ret, h => by
    unfold skip_regs
    simp only
    split
    · exact get_register_in_ring b zero_reg h
    · exact skip_regs_in_ring S W n _ ret (get_register_in_ring b zero_reg h)

theorem fill_regs_in_ring (S W : Nat) : ∀ (n i : Nat) (b : __guc_capture_bufstate)
    (regs : List guc_mmio_reg) (ret : Int),
    cursor_in_ring S W b → cursor_in_ring S W (fill_regs n i b regs ret).buf
  | 0, i, b, regs, ret, h => h
  | n + 1, i, b, regs, ret, h => by
    unfold fill_regs
    simp only
    split
    · exact get_register_in_ring b _ h
    · exact fill_regs_in_ring S W n _ _ _ ret (get_register_in_ring b _ h)

theorem fill_node_in_ring {S W : Nat} (fw : guc_fwif) (oom : Nat → Bool) (ip : Bool) (dt : Nat)
    (s : extract_state) (h : cursor_in_ring S W s.buf) :
    cursor_in_ring S W (fill_node fw oom ip dt s).2.buf := by
  unfold fill_node
  simp only
  split
  · exact h
  · split
    · exact h
    · exact fill_regs_in_ring S W _ _ _ _ _ h

theorem extract_loop_in_ring (S W : Nat) (fw : guc_fwif) (oom : Nat → Bool) (ip : Bool) :
    ∀ (n : Nat) (s : extract_state), cursor_in_ring S W s.buf →
      cursor_in_ring S W (extract_loop fw oom ip n s).buf
  | 0, s, h => h
  | n + 1, s, h => by
    unfold extract_loop
    simp only
    split
    · exact get_data_hdr_in_ring s.buf s.hdr h
    · split
      · exact extract_loop_in_ring S W fw oom ip n _
          (skip_regs_in_ring S W _ _ _ (get_data_hdr_in_ring s.buf s.hdr h))
      · split
        · exact fill_node_in_ring fw oom ip _ _ (get_data_hdr_in_ring s.buf s.hdr h)
        · exact extract_loop_in_ring S W fw oom ip n _
            (fill_node_in_ring fw oom ip _ _ (get_data_hdr_in_ring s.buf s.hdr h))

theorem extract_reglists_in_ring {S W : Nat} (fw : guc_fwif) (oom : Nat → Bool) (k : Nat)
    (b : __guc_capture_bufstate) (outlist : List __guc_capture_parsed_output)
    (h : cursor_in_ring S W b) :
    cursor_in_ring S W (guc_capture_extract_reglists fw oom k b outlist).buf := by
  unfold guc_capture_extract_reglists
  simp only
  split
  · exact h
  · split
    · exact h
    · split
      · exact get_group_hdr_in_ring b _ h
      · exact extract_loop_in_ring S W fw oom _ _ _ (get_group_hdr_in_ring b _ h)

/-! ## Lemmas on unknown capture types and on the steering lists -/

theorem foldl_filter_known (fw : guc_fwif) (ip : Bool) :
    ∀ (recs : List (guc_state_capture_header_t × List guc_mmio_reg))
      (st : Option __guc_capture_parsed_output × List __guc_capture_parsed_output),
      recs.foldl (record_step fw ip) st =
        (recs.filter (known_type fw)).foldl (record_step fw ip) st
  | [], _ => rfl
  | r :: rest, st => by
    by_cases hk : FIELD_GET fw.CAP_HDR_CAPTURE_TYPE r.1.info ≤
        GUC_CAPTURE_LIST_TYPE_ENGINE_INSTANCE
    · have hk' : known_type fw r = true := decide_eq_true hk
      rw [List.filter_cons_of_pos hk', List.foldl_cons, List.foldl_cons]
      exact foldl_filter_known fw ip rest _
    · have hk' : ¬ known_type fw r = true := fun h => hk (of_decide_eq_true h)
      rw [List.filter_cons_of_neg hk', List.foldl_cons,
        record_step_unknown fw ip st r.1 r.2 (by omega)]
      exact foldl_filter_known fw ip rest st

theorem filter_known_mmios (fw : guc_fwif)
    (recs : List (guc_state_capture_header_t × List guc_mmio_reg))
    (hn : ∀ r ∈ recs, FIELD_GET fw.CAP_HDR_NUM_MMIOS r.1.num_mmios = r.2.length) :
    ∀ r ∈ recs.filter (known_type fw),
      FIELD_GET fw.CAP_HDR_NUM_MMIOS r.1.num_mmios = r.2.length :=
  fun r hr => hn r (List.mem_filter.mp hr).1

theorem steer_count (t : Nat) : ∀ (pairs : List (Nat × Nat)) (c : Nat),
    pairs.foldl (fun n _ => n + t) c = c + pairs.length * t
  | [], c => by simp
  | _ :: rest, c => by
    rw [List.foldl_cons, steer_count t rest, List.length_cons, Nat.succ_mul]
    omega

theorem fill_templates_spec (p : steer_consts) (s ss : Nat) :
    ∀ (ts : List __ext_steer_reg) (pre post : List __guc_mmio_reg_descr),
      fill_templates p s ss ts pre.length
          (pre ++ (List.replicate ts.length zero_descr ++ post)) =
        (pre.length + ts.length, pre ++ (ts.map (steered_descr p (s, ss)) ++ post))
  | [], pre, post => rfl
  | t :: ts, pre, post => by
    simp only [List.length_cons, fill_templates, List.replicate_succ, List.cons_append,
      set_length_append]
    have hg : (pre ++ zero_descr :: (List.replicate ts.length zero_descr ++ post)).getD
        pre.length zero_descr = zero_descr := by
      rw [List.getD_eq_getElem?_getD, List.getElem?_append_right (Nat.le_refl _),
        Nat.sub_self, List.getElem?_cons_zero, Option.getD_some]
    rw [hg]
    have ih := fill_templates_spec p s ss ts (pre ++ [steered_descr p (s, ss) t]) post
    simp only [List.length_append, List.length_cons, List.length_nil, Nat.zero_add,
      List.append_assoc, List.singleton_append] at ih
    rw [show __fill_ext_reg p zero_descr t s ss = steered_descr p (s, ss) t from rfl, ih,
      List.map_cons, List.cons_append]
    simp only [Nat.add_assoc, Nat.add_comm 1]

theorem steered_descrs_length (p : steer_consts) (tmpl : List __ext_steer_reg) :
    ∀ pairs : List (Nat × Nat),
      (steered_descrs p tmpl pairs).length = pairs.length * tmpl.length
  | [] => by simp [steered_descrs]
  | q :: rest => by
    rw [steered_descrs, List.length_append, List.length_map, steered_descrs_length p tmpl rest,
      List.length_cons, Nat.succ_mul]
    omega

theorem steered_descrs_get (p : steer_consts) (tmpl : List __ext_steer_reg) :
    ∀ (pairs : List (Nat × Nat)) (k i : Nat), k < pairs.length → i < tmpl.length →
      (steered_descrs p tmpl pairs).get? (k * tmpl.length + i) =
        some (steered_descr p (pairs.getD k (0, 0)) (tmpl.getD i ⟨"", 0⟩))
  | [], k, i, hk, _ => absurd hk (by simp)
  | q :: rest, 0, i, _, hi => by
    rw [steered_descrs, Nat.zero_mul, Nat.zero_add, List.get?_eq_getElem?,
      List.getElem?_append_left (by rw [List.length_map]; exact hi)]
    simp [List.getD_eq_getElem?_getD, List.getElem?_eq_getElem hi]
  | q :: rest, k + 1, i, hk, hi => by
    have ih := steered_descrs_get p tmpl rest k i
      (by simpa using hk) hi
    rw [steered_descrs, List.get?_eq_getElem?,
      List.getElem?_append_right (by rw [List.length_map, Nat.succ_mul]; omega),
      List.length_map]
    rw [List.get?_eq_getElem?] at ih
    rw [show (k + 1) * tmpl.length + i - tmpl.length = k * tmpl.length + i by
      rw [Nat.succ_mul]; omega, ih]
    simp

theorem fill_steered_xe_lpd_spec (p : steer_consts) :
    ∀ (pairs : List (Nat × Nat)) (pre post : List __guc_mmio_reg_descr),
      fill_steered_xe_lpd p pairs pre.length
          (pre ++ (List.replicate (pairs.length * (xe_extregs p).length) zero_descr ++ post)) =
        pre ++ (steered_descrs p (xe_extregs p) pairs ++ post)
  | [], pre, post => by simp [fill_steered_xe_lpd, steered_descrs]
  | q :: rest, pre, post => by
    rw [fill_steered_xe_lpd, List.length_cons, Nat.succ_mul, Nat.add_comm,
      List.replicate_add, List.append_assoc, fill_templates_spec]
    simp only
    have ih := fill_steered_xe_lpd_spec p rest
      (pre ++ (xe_extregs p).map (steered_descr p (q.1, q.2))) post
    simp only [List.length_append, List.length_map, List.append_assoc] at ih
    rw [ih, steered_descrs, List.append_assoc]

theorem fill_steered_xe_hpg_spec (p : steer_consts) (ipver : Nat) :
    ∀ (pairs : List (Nat × Nat)) (pre post : List __guc_mmio_reg_descr),
      fill_steered_xe_hpg p ipver pairs pre.length
          (pre ++ (List.replicate (pairs.length * (xe_hpg_templates p ipver).length)
            zero_descr ++ post)) =
        pre ++ (steered_descrs p (xe_hpg_templates p ipver) pairs ++ post)
  | [], pre, post => by simp [fill_steered_xe_hpg, steered_descrs]
  | q :: rest, pre, post => by
    have ih := fill_steered_xe_hpg_spec p ipver rest
      (pre ++ (xe_hpg_templates p ipver).map (steered_descr p (q.1, q.2))) post
    simp only [List.length_append, List.length_map, List.append_assoc] at ih
    rw [fill_steered_xe_hpg, List.length_cons, Nat.succ_mul, Nat.add_comm,
      List.replicate_add, List.append_assoc]
    by_cases hx : __has_xehpg_extregs p ipver = true
    · have ht : xe_hpg_templates p ipver = xe_extregs p ++ xehpg_extregs p := by
        simp [xe_hpg_templates, hx]
      rw [if_pos hx]
      rw [ht] at ih ⊢
      rw [List.length_append, List.replicate_add, List.append_assoc, fill_templates_spec]
      simp only
      have h2 := fill_templates_spec p q.1 q.2 (xehpg_extregs p)
        (pre ++ (xe_extregs p).map (steered_descr p (q.1, q.2)))
        (List.replicate (rest.length * ((xe_extregs p).length + (xehpg_extregs p).length))
          zero_descr ++ post)
      simp only [List.length_append, List.length_map, List.append_assoc] at h2
      rw [h2]
      simp only [List.map_append, List.append_assoc, List.length_append, Nat.add_assoc] at ih
      simp only [Nat.add_assoc]
      rw [ih, steered_descrs, List.map_append, List.append_assoc, List.append_assoc]
    · have ht : xe_hpg_templates p ipver = xe_extregs p := by
        simp [xe_hpg_templates, hx]
      rw [if_neg hx]
      rw [ht] at ih ⊢
      rw [fill_templates_spec]
      simp only
      rw [ih, steered_descrs, List.append_assoc]

theorem alloc_steered_xe_lpd_table (p : steer_consts) (oom : Nat → Bool) (k : Nat)
    (gc : intel_guc_state_capture) (lists : Option (List __guc_mmio_reg_descr_group))
    (pairs : List (Nat × Nat)) (root : __guc_mmio_reg_descr_group)
    (hroot : guc_capture_get_one_list lists p.GUC_CAPTURE_LIST_INDEX_PF
      GUC_CAPTURE_LIST_TYPE_ENGINE_CLASS p.GUC_RENDER_CLASS = some root)
    (hnone : gc.extlists = none) (hp : pairs ≠ []) (hoom : ∀ i, oom i = false) :
    steered_table p root (xe_extregs p) pairs
      (guc_capture_alloc_steered_lists_xe_lpd p oom k gc lists pairs).extlists := by
  have hlen : 0 < pairs.length := List.length_pos.mpr hp
  have ht : 0 < (xe_extregs p).length := Nat.succ_pos 1
  have hpos : pairs.length * (xe_extregs p).length ≠ 0 :=
    Nat.pos_iff_ne_zero.mp (Nat.mul_pos hlen ht)
  have hfill := fill_steered_xe_lpd_spec p pairs [] []
  simp only [List.nil_append, List.append_nil, List.length_nil] at hfill
  unfold guc_capture_alloc_steered_lists_xe_lpd
  rw [hroot]
  simp only [hnone, Option.isSome_none, Bool.false_eq_true, if_false, steer_count,
    Nat.zero_add, hpos, hoom, __alloc_ext_regs, ne_eq, not_true_eq_false, Option.getD_some,
    hfill]
  exact ⟨steered_descrs p (xe_extregs p) pairs, rfl, steered_descrs_length p _ pairs,
    steered_descrs_get p _ pairs⟩

theorem alloc_steered_xe_hpg_table (p : steer_consts) (oom : Nat → Bool) (k : Nat)
    (gc : intel_guc_state_capture) (lists : Option (List __guc_mmio_reg_descr_group))
    (ipver : Nat) (pairs : List (Nat × Nat)) (root : __guc_mmio_reg_descr_group)
    (hroot : guc_capture_get_one_list lists p.GUC_CAPTURE_LIST_INDEX_PF
      GUC_CAPTURE_LIST_TYPE_ENGINE_CLASS p.GUC_RENDER_CLASS = some root)
    (hnone : gc.extlists = none) (hp : pairs ≠ []) (hoom : ∀ i, oom i = false) :
    steered_table p root (xe_hpg_templates p ipver) pairs
      (guc_capture_alloc_steered_lists_xe_hpg p oom k gc lists ipver pairs).extlists := by
  have hlen : 0 < pairs.length := List.length_pos.mpr hp
  have hnum : (xe_extregs p).length +
      (if __has_xehpg_extregs p ipver then (xehpg_extregs p).length else 0) =
      (xe_hpg_templates p ipver).length := by
    unfold xe_hpg_templates
    split <;> simp
  have ht : 0 < (xe_hpg_templates p ipver).length := by
    rw [← hnum]
    exact Nat.add_pos_left (Nat.succ_pos 1) _
  have hpos : pairs.length * (xe_hpg_templates p ipver).length ≠ 0 :=
    Nat.pos_iff_ne_zero.mp (Nat.mul_pos hlen ht)
  have hfill := fill_steered_xe_hpg_spec p ipver pairs [] []
  simp only [List.nil_append, List.append_nil, List.length_nil] at hfill
  unfold guc_capture_alloc_steered_lists_xe_hpg
  rw [hroot]
  simp only [hnone, Option.isSome_none, Bool.false_eq_true, if_false, steer_count,
    Nat.zero_add, hnum, hpos, hoom, __alloc_ext_regs, ne_eq, not_true_eq_false,
    Option.getD_some, hfill]
  exact ⟨steered_descrs p (xe_hpg_templates p ipver) pairs, rfl,
    steered_descrs_length p _ pairs, steered_descrs_get p _ pairs⟩


/-! ## Lemmas on clones, repeated records and the finalisation rule -/

/-- Cloning with the EngineClass mask when no allocation fails. -/
theorem clone_node_class (oom : Nat → Bool) (k : Nat) (hoom : ∀ i, oom i = false)
    (orig : __guc_capture_parsed_output) :
    guc_capture_clone_node oom k (some orig) GCAP_PARSED_REGLIST_INDEX_ENGCLASS =
      (some { zero_node with
          is_partial := orig.is_partial
          eng_class := orig.eng_class
          reginfo := [zero_reginfo,
            ⟨(reginfo_at orig 1).vfid, (reginfo_at orig 1).num_regs,
              some (copy_regs (reginfo_at orig 1).regs (reginfo_at orig 1).num_regs)⟩,
            zero_reginfo] }, k + 2) := by
  have m0 : ¬ GCAP_PARSED_REGLIST_INDEX_ENGCLASS &&& BIT 0 ≠ 0 := by decide
  have m1 : GCAP_PARSED_REGLIST_INDEX_ENGCLASS &&& BIT 1 ≠ 0 := by decide
  have m2 : ¬ GCAP_PARSED_REGLIST_INDEX_ENGCLASS &&& BIT 2 ≠ 0 := by decide
  simp only [guc_capture_clone_node, guc_capture_alloc_one_node, hoom, Bool.false_eq_true,
    if_false, GUC_CAPTURE_LIST_TYPE_MAX, clone_reglists, m0, m1, m2, if_true, not_false_eq_true,
    GUC_CAPTURE_LIST_TYPE_ENGINE_CLASS, GUC_CAPTURE_LIST_TYPE_ENGINE_INSTANCE, zero_node,
    List.set_cons_zero, List.set_cons_succ, Nat.zero_ne_one, OfNat.zero_ne_ofNat, Nat.zero_add]
  rw [if_pos m1]

theorem global_node_regs (fw : guc_fwif) (ip : Bool)
    (r : guc_state_capture_header_t × List guc_mmio_reg) :
    (reginfo_at (global_node fw ip r) 0).regs ≠ none := by
  simp [global_node, reginfo_at]

/-- Folding the record rule over Global records, each with a register, and finalising. -/
theorem fold_globals (fw : guc_fwif) (ip : Bool) :
    ∀ (recs : List (guc_state_capture_header_t × List guc_mmio_reg))
      (nd : __guc_capture_parsed_output) (out : List __guc_capture_parsed_output),
      (∀ r ∈ recs, FIELD_GET fw.CAP_HDR_CAPTURE_TYPE r.1.info = GUC_CAPTURE_LIST_TYPE_GLOBAL ∧
        0 < r.2.length) →
      (reginfo_at nd 0).regs ≠ none →
      extract_bailout (recs.foldl (record_step fw ip) (some nd, out)).1
          (recs.foldl (record_step fw ip) (some nd, out)).2 =
        out ++ nd :: recs.map (global_node fw ip)
  | [], nd, out, _, hnd => by
    simp only [List.foldl_nil, List.map_nil]
    exact extract_bailout_global nd out hnd
  | r :: rest, nd, out, hr, _ => by
    obtain ⟨ht, hp⟩ := hr r (List.mem_cons_self _ _)
    rw [List.foldl_cons, record_step_global_some fw ip nd out r.1 r.2 ht,
      slot_of_regs fw r.1 r.2 hp]
    have ih := fold_globals fw ip rest (global_node fw ip r) (out ++ [nd])
      (fun r' hr' => hr r' (List.mem_cons_of_mem _ hr')) (global_node_regs fw ip r)
    simp only [global_node] at ih
    rw [ih]
    simp [global_node]

/-- The finalisation at the label `bailout` for a node none of whose slots has an array. -/
theorem extract_bailout_empty (nd : __guc_capture_parsed_output)
    (out : List __guc_capture_parsed_output)
    (h : ∀ i, i < GUC_CAPTURE_LIST_TYPE_MAX → (reginfo_at nd i).regs = none) :
    extract_bailout (some nd) out = out := by
  have h0 := h 0 (by decide)
  have h1 := h 1 (by decide)
  have h2 := h 2 (by decide)
  simp [extract_bailout, GUC_CAPTURE_LIST_TYPE_MAX, List.range_succ, h0, h1, h2]

/-- The finalisation at the label `bailout` for a node one of whose slots has an array. -/
theorem extract_bailout_filled (nd : __guc_capture_parsed_output)
    (out : List __guc_capture_parsed_output) (i : Nat) (hi : i < GUC_CAPTURE_LIST_TYPE_MAX)
    (h : (reginfo_at nd i).regs ≠ none) :
    extract_bailout (some nd) out = out ++ [nd] := by
  have hs : (reginfo_at nd i).regs.isSome = true := by
    cases hr : (reginfo_at nd i).regs with
    | none => exact absurd hr h
    | some _ => rfl
  have hany : (List.range GUC_CAPTURE_LIST_TYPE_MAX).any
      (fun j => (reginfo_at nd j).regs.isSome) = true :=
    List.any_eq_true.mpr ⟨i, List.mem_range.mpr hi, hs⟩
  simp only [extract_bailout, hany, if_true]

/-! ## Lemmas on the ring accesses -/

theorem remove_dw_tries_reads_lt (S W : Nat) : ∀ (n : Nat) (b : __guc_capture_bufstate),
    cursor_in_ring S W b → ∀ o ∈ remove_dw_tries_reads n b, o < S
  | 0, b, _, o, ho => by simp [remove_dw_tries_reads] at ho
  | n + 1, b, h, o, ho => by
    unfold remove_dw_tries_reads at ho
    split at ho
    · rename_i hc
      unfold guc_capture_buf_cnt_to_end at hc
      unfold cursor_in_ring at h
      rw [List.mem_range'_1] at ho
      split at hc <;> omega
    · refine remove_dw_tries_reads_lt S W n _ ?_ o ho
      unfold cursor_in_ring at h ⊢
      simp only
      omega

theorem remove_dw_reads_lt {S W : Nat} (b : __guc_capture_bufstate)
    (h : cursor_in_ring S W b) : ∀ o ∈ remove_dw_reads b, o < S := by
  intro o ho
  unfold remove_dw_reads at ho
  split at ho
  · simp at ho
  · exact remove_dw_tries_reads_lt S W 2 b h o ho

theorem data_extracted_reads_lt {S W : Nat} (b : __guc_capture_bufstate) (n : Nat)
    (h : cursor_in_ring S W b) : ∀ o ∈ data_extracted_reads b n, o < S := by
  intro o ho
  unfold data_extracted_reads at ho
  split at ho
  · rename_i hc
    unfold guc_capture_buf_cnt_to_end at hc
    unfold cursor_in_ring at h
    rw [List.mem_range'_1] at ho
    split at hc <;> omega
  · simp at ho

theorem get_group_hdr_reads_lt {S W : Nat} (b : __guc_capture_bufstate)
    (g : guc_state_capture_group_header_t) (h : cursor_in_ring S W b) :
    ∀ o ∈ get_group_hdr_reads b g, o < S := by
  intro o ho
  unfold get_group_hdr_reads at ho
  split at ho
  · simp at ho
  · split at ho
    · exact data_extracted_reads_lt b 8 h o ho
    · simp only [List.mem_append] at ho
      have h1 := remove_dw_in_ring b g.owner h
      rcases ho with ho | ho
      · exact remove_dw_reads_lt b h o ho
      · exact remove_dw_reads_lt _ h1 o ho

theorem get_data_hdr_reads_lt {S W : Nat} (b : __guc_capture_bufstate)
    (hdr : guc_state_capture_header_t) (h : cursor_in_ring S W b) :
    ∀ o ∈ get_data_hdr_reads b hdr, o < S := by
  intro o ho
  unfold get_data_hdr_reads at ho
  split at ho
  · simp at ho
  · split at ho
    · exact data_extracted_reads_lt b 20 h o ho
    · simp only [List.mem_append] at ho
      have h1 := remove_dw_in_ring b hdr.owner h
      have h2 := remove_dw_in_ring _ hdr.info h1
      have h3 := remove_dw_in_ring _ hdr.lrca h2
      have h4 := remove_dw_in_ring _ hdr.guc_id h3
      rcases ho with ho | ho | ho | ho | ho
      · exact remove_dw_reads_lt b h o ho
      · exact remove_dw_reads_lt _ h1 o ho
      · exact remove_dw_reads_lt _ h2 o ho
      · exact remove_dw_reads_lt _ h3 o ho
      · exact remove_dw_reads_lt _ h4 o ho

theorem get_register_reads_lt {S W : Nat} (b : __guc_capture_bufstate)
    (reg : guc_mmio_reg) (h : cursor_in_ring S W b) :
    ∀ o ∈ get_register_reads b reg, o < S := by
  intro o ho
  unfold get_register_reads at ho
  split at ho
  · simp at ho
  · split at ho
    · exact data_extracted_reads_lt b 16 h o ho
    · simp only [List.mem_append] at ho
      have h1 := remove_dw_in_ring b reg.offset h
      have h2 := remove_dw_in_ring _ reg.value h1
      have h3 := remove_dw_in_ring _ reg.flags h2
      rcases ho with ho | ho | ho | ho
      · exact remove_dw_reads_lt b h o ho
      · exact remove_dw_reads_lt _ h1 o ho
      · exact remove_dw_reads_lt _ h2 o ho
      · exact remove_dw_reads_lt _ h3 o ho

theorem remove_dw_reads_length (b : __guc_capture_bufstate) (dw : Nat) :
    (guc_capture_log_remove_dw b dw).ret = (remove_dw_reads b).length := by
  unfold guc_capture_log_remove_dw remove_dw_reads
  split
  · rfl
  · simp only [remove_dw_tries, remove_dw_tries_reads]
    split
    · simp
    · split
      · simp
      · rfl

theorem data_extracted_reads_length (b : __guc_capture_bufstate) (n : Nat)
    (img : Nat → Nat) (b1 : __guc_capture_bufstate)
    (he : guc_capture_data_extracted b n = some (img, b1)) :
    (data_extracted_reads b n).length = n ∧ ∀ j, j < n → img j = b.data (b.rd + j) := by
  unfold guc_capture_data_extracted at he
  unfold data_extracted_reads
  split at he
  · rename_i hc
    simp only [Option.some.injEq, Prod.mk.injEq] at he
    rw [if_pos hc, ← he.1]
    exact ⟨by simp, fun _ _ => rfl⟩
  · exact absurd he (by simp)

/-! ## Lemmas on failed reads and on the available byte count -/

theorem remove_dw_ret_cases (b : __guc_capture_bufstate) (dw : Nat) :
    (guc_capture_log_remove_dw b dw).ret = 0 ∨ (guc_capture_log_remove_dw b dw).ret = 4 := by
  unfold guc_capture_log_remove_dw
  split
  · exact Or.inl rfl
  · simp only [remove_dw_tries]
    split
    · exact Or.inr rfl
    · split
      · exact Or.inr rfl
      · exact Or.inl rfl

theorem drained_cnt {b : __guc_capture_bufstate} (h : drained b) :
    guc_capture_buf_cnt b < 4 := by
  unfold drained at h
  unfold guc_capture_buf_cnt at h ⊢
  split at h <;> split <;> omega

theorem remove_dw_fail (b : __guc_capture_bufstate) (dw : Nat)
    (h : (guc_capture_log_remove_dw b dw).ret = 0) :
    drained (guc_capture_log_remove_dw b dw).buf := by
  unfold guc_capture_log_remove_dw at h ⊢
  by_cases h0 : guc_capture_buf_cnt b = 0
  · rw [if_pos h0]
    exact Or.inl h0
  · rw [if_neg h0] at h ⊢
    simp only [remove_dw_tries] at h ⊢
    by_cases h1 : guc_capture_buf_cnt_to_end b ≥ 4
    · rw [if_pos h1] at h
      simp at h
    · rw [if_neg h1] at h ⊢
      by_cases h2 : guc_capture_buf_cnt_to_end { b with rd := 0 } ≥ 4
      · rw [if_pos h2] at h
        simp at h
      · rw [if_neg h2]
        refine Or.inr ⟨rfl, ?_⟩
        unfold guc_capture_buf_cnt_to_end at h2
        simp only at h2 ⊢
        rw [if_neg (Nat.not_lt_zero _)] at h2
        omega

theorem remove_dw_of_drained (b : __guc_capture_bufstate) (dw : Nat) (h : drained b) :
    (guc_capture_log_remove_dw b dw).ret = 0 := by
  unfold guc_capture_log_remove_dw
  by_cases h0 : guc_capture_buf_cnt b = 0
  · rw [if_pos h0]
  · rw [if_neg h0]
    rcases h with h | ⟨hr, hw⟩
    · exact absurd h h0
    · have h1 : ¬ guc_capture_buf_cnt_to_end b ≥ 4 := by
        unfold guc_capture_buf_cnt_to_end
        split <;> omega
      have h2 : ¬ guc_capture_buf_cnt_to_end { b with rd := 0 } ≥ 4 := by
        unfold guc_capture_buf_cnt_to_end
        simp only
        rw [if_neg (Nat.not_lt_zero _)]
        omega
      simp only [remove_dw_tries, if_neg h1, if_neg h2]

theorem remove_dw_drained (b : __guc_capture_bufstate) (dw : Nat)
    (h : drained b ∨ (guc_capture_log_remove_dw b dw).ret = 0) :
    drained (guc_capture_log_remove_dw b dw).buf := by
  rcases h with h | h
  · exact remove_dw_fail b dw (remove_dw_of_drained b dw h)
  · exact remove_dw_fail b dw h

theorem get_register_fail (b : __guc_capture_bufstate) (reg : guc_mmio_reg)
    (h : (guc_capture_log_get_register b reg).ret ≠ 0) :
    guc_capture_buf_cnt (guc_capture_log_get_register b reg).buf < 16 := by
  unfold guc_capture_log_get_register at h ⊢
  by_cases hc : 16 > guc_capture_buf_cnt b
  · rw [if_pos hc]
    exact hc
  · rw [if_neg hc] at h ⊢
    cases he : guc_capture_data_extracted b 16 with
    | some p =>
      rw [he] at h
      obtain ⟨img, b1⟩ := p
      simp at h
    | none =>
      rw [he] at h
      simp only at h ⊢
      have c1 := remove_dw_ret_cases b reg.offset
      have k1 := remove_dw_fail b reg.offset
      generalize guc_capture_log_remove_dw b reg.offset = r1 at h c1 k1 ⊢
      have c2 := remove_dw_ret_cases r1.buf reg.value
      have k2 := remove_dw_drained r1.buf reg.value
      generalize guc_capture_log_remove_dw r1.buf reg.value = r2 at h c2 k2 ⊢
      have c3 := remove_dw_ret_cases r2.buf reg.flags
      have k3 := remove_dw_drained r2.buf reg.flags
      generalize guc_capture_log_remove_dw r2.buf reg.flags = r3 at h c3 k3 ⊢
      have c4 := remove_dw_ret_cases r3.buf reg.mask
      have k4 := remove_dw_drained r3.buf reg.mask
      generalize guc_capture_log_remove_dw r3.buf reg.mask = r4 at h c4 k4 ⊢
      have hs : r1.ret + r2.ret + r3.ret + r4.ret ≠ 16 := by
        intro hs
        rw [if_neg (by simpa using hs)] at h
        exact h rfl
      have hd : drained r4.buf := by
        rcases c1 with z1 | f1
        · exact k4 (Or.inl (k3 (Or.inl (k2 (Or.inl (k1 z1))))))
        · rcases c2 with z2 | f2
          · exact k4 (Or.inl (k3 (Or.inl (k2 (Or.inr z2)))))
          · rcases c3 with z3 | f3
            · exact k4 (Or.inl (k3 (Or.inr z3)))
            · rcases c4 with z4 | f4
              · exact k4 (Or.inr z4)
              · omega
      have := drained_cnt hd
      omega

theorem get_data_hdr_short (b : __guc_capture_bufstate) (hdr : guc_state_capture_header_t)
    (h : guc_capture_buf_cnt b < 20) :
    guc_capture_log_get_data_hdr b hdr = ⟨-1, hdr, b⟩ := by
  unfold guc_capture_log_get_data_hdr
  rw [if_pos h]

theorem get_register_short (b : __guc_capture_bufstate) (reg : guc_mmio_reg)
    (h : guc_capture_buf_cnt b < 16) :
    guc_capture_log_get_register b reg = ⟨-1, reg, b⟩ := by
  unfold guc_capture_log_get_register
  rw [if_pos h]

theorem skip_regs_fail : ∀ (m : Nat) (b : __guc_capture_bufstate),
    (skip_regs m b 0).2 ≠ 0 → ∀ ret : Int,
      (skip_regs m b ret).2 = - EIO ∧ guc_capture_buf_cnt (skip_regs m b ret).1 < 16
  | 0, b, h, ret => absurd rfl h
  | m + 1, b, h, ret => by
    unfold skip_regs at h ⊢
    simp only at h ⊢
    by_cases hr : (guc_capture_log_get_register b zero_reg).ret ≠ 0
    · rw [if_pos hr]
      exact ⟨rfl, get_register_fail b zero_reg hr⟩
    · rw [if_neg hr] at h ⊢
      exact skip_regs_fail m _ h ret

theorem fill_regs_fail : ∀ (n i : Nat) (b : __guc_capture_bufstate)
    (regs : List guc_mmio_reg),
    (fill_regs n i b regs 0).ret ≠ 0 → ∀ ret : Int,
      (fill_regs n i b regs ret).ret = - EIO ∧
        guc_capture_buf_cnt (fill_regs n i b regs ret).buf < 16
  | 0, i, b, regs, h, ret => absurd rfl h
  | n + 1, i, b, regs, h, ret => by
    unfold fill_regs at h ⊢
    simp only at h ⊢
    by_cases hr : (guc_capture_log_get_register b (regs.getD i zero_reg)).ret ≠ 0
    · rw [if_pos hr]
      exact ⟨rfl, get_register_fail b _ hr⟩
    · rw [if_neg hr] at h ⊢
      exact fill_regs_fail n _ _ _ h ret

/-- Once the status is `-EIO` and fewer than 20 bytes are available, the rest of the record
loop changes nothing. -/
theorem extract_loop_drained (fw : guc_fwif) (oom : Nat → Bool) (ip : Bool) (n : Nat)
    (s : extract_state) (hc : guc_capture_buf_cnt s.buf < 20) (hr : s.ret = - EIO) :
    extract_loop fw oom ip n s = s := by
  cases n with
  | zero => rfl
  | succ n =>
    unfold extract_loop
    simp only [get_data_hdr_short s.buf s.hdr hc]
    obtain ⟨b, h, nd, out, k, ret⟩ := s
    simp only at hr
    subst hr
    simp

theorem fill_node_regs (fw : guc_fwif) (oom : Nat → Bool) (ip : Bool) (dt : Nat)
    (s : extract_state) (h : (fill_node fw oom ip dt s).1 = false) :
    (fill_node fw oom ip dt s).2.ret =
        (fill_regs (FIELD_GET fw.CAP_HDR_NUM_MMIOS s.hdr.num_mmios) 0 s.buf
          (List.replicate (FIELD_GET fw.CAP_HDR_NUM_MMIOS s.hdr.num_mmios) zero_reg)
          s.ret).ret ∧
      (fill_node fw oom ip dt s).2.buf =
        (fill_regs (FIELD_GET fw.CAP_HDR_NUM_MMIOS s.hdr.num_mmios) 0 s.buf
          (List.replicate (FIELD_GET fw.CAP_HDR_NUM_MMIOS s.hdr.num_mmios) zero_reg)
          s.ret).buf := by
  unfold fill_node at h ⊢
  simp only at h ⊢
  split
  · rename_i hn
    rw [hn] at h
    simp at h
  · rename_i nd hn
    rw [hn] at h
    simp only at h
    split
    · rename_i hb
      rw [if_pos hb] at h
      simp at h
    · exact ⟨rfl, rfl⟩

/-- After an iteration in which a register read fails the record loop changes nothing. -/
theorem extract_loop_after_reg_fail (fw : guc_fwif) (oom : Nat → Bool) (ip : Bool) (n : Nat)
    (s : extract_state) (hf : reg_read_fails fw oom ip s) :
    extract_loop fw oom ip (n + 1) s = extract_loop fw oom ip 1 s ∧
      (extract_loop fw oom ip 1 s).ret = - EIO ∧
      guc_capture_buf_cnt (extract_loop fw oom ip 1 s).buf < 16 := by
  obtain ⟨hh, hcase⟩ := hf
  generalize hrh : guc_capture_log_get_data_hdr s.buf s.hdr = rh at hh hcase
  have hne : ¬ rh.ret ≠ 0 := fun h => h hh
  by_cases ht : FIELD_GET fw.CAP_HDR_CAPTURE_TYPE rh.val.info >
      GUC_CAPTURE_LIST_TYPE_ENGINE_INSTANCE
  · rw [if_pos ht] at hcase
    obtain ⟨e, c⟩ := skip_regs_fail _ _ hcase s.ret
    generalize hsk : skip_regs (FIELD_GET fw.CAP_HDR_NUM_MMIOS rh.val.num_mmios) rh.buf
      s.ret = sk at e c
    have h1 : extract_loop fw oom ip 1 s =
        ⟨sk.1, rh.val, s.node, s.outlist, s.nalloc, sk.2⟩ := by
      simp only [extract_loop, hrh, if_neg hne, if_pos ht, hsk]
    have h2 : extract_loop fw oom ip (n + 1) s = extract_loop fw oom ip n
        ⟨sk.1, rh.val, s.node, s.outlist, s.nalloc, sk.2⟩ := by
      simp only [extract_loop, hrh, if_neg hne, if_pos ht, hsk]
    rw [h2, h1]
    exact ⟨extract_loop_drained fw oom ip n _ (by simp only; omega) e, e, c⟩
  · rw [if_neg ht] at hcase
    obtain ⟨hb, hfill⟩ := hcase
    generalize hc : node_continuity oom (FIELD_GET fw.CAP_HDR_CAPTURE_TYPE rh.val.info)
      s.node s.outlist s.nalloc = c at hb
    have hb1 : (fill_node fw oom ip (FIELD_GET fw.CAP_HDR_CAPTURE_TYPE rh.val.info)
        ⟨rh.buf, rh.val, c.1, c.2.1, c.2.2, s.ret⟩).1 = false := hb
    obtain ⟨fr, fb⟩ := fill_node_regs fw oom ip _ _ hb1
    simp only at fr fb
    obtain ⟨e, c1⟩ := fill_regs_fail _ _ _ _ hfill s.ret
    rw [← fr] at e
    rw [← fb] at c1
    have h1 : extract_loop fw oom ip 1 s =
        (fill_node fw oom ip (FIELD_GET fw.CAP_HDR_CAPTURE_TYPE rh.val.info)
          ⟨rh.buf, rh.val, c.1, c.2.1, c.2.2, s.ret⟩).2 := by
      simp only [extract_loop, hrh, if_neg hne, if_neg ht, hc, hb1, Bool.false_eq_true,
        if_false]
    have h2 : extract_loop fw oom ip (n + 1) s = extract_loop fw oom ip n
        (fill_node fw oom ip (FIELD_GET fw.CAP_HDR_CAPTURE_TYPE rh.val.info)
          ⟨rh.buf, rh.val, c.1, c.2.1, c.2.2, s.ret⟩).2 := by
      simp only [extract_loop, hrh, if_neg hne, if_neg ht, hc, hb1, Bool.false_eq_true,
        if_false]
    rw [h2, h1]
    exact ⟨extract_loop_drained fw oom ip n _ (by omega) e, e, c1⟩

theorem cnt_le_bound (b : __guc_capture_bufstate) : guc_capture_buf_cnt b ≤ cnt_bound b := by
  unfold guc_capture_buf_cnt cnt_bound
  split_ifs <;> omega

theorem remove_dw_success (b : __guc_capture_bufstate) (dw : Nat)
    (h : (guc_capture_log_remove_dw b dw).ret = 4) :
    (guc_capture_buf_cnt_to_end b ≥ 4 ∧
        (guc_capture_log_remove_dw b dw).buf = { b with rd := b.rd + 4 }) ∨
      (guc_capture_buf_cnt_to_end b < 4 ∧ b.wr ≥ 4 ∧
        (guc_capture_log_remove_dw b dw).buf = { b with rd := 4 }) := by
  unfold guc_capture_log_remove_dw at h ⊢
  by_cases h0 : guc_capture_buf_cnt b = 0
  · rw [if_pos h0] at h
    simp at h
  · rw [if_neg h0] at h ⊢
    simp only [remove_dw_tries] at h ⊢
    by_cases h1 : guc_capture_buf_cnt_to_end b ≥ 4
    · rw [if_pos h1]
      exact Or.inl ⟨h1, rfl⟩
    · rw [if_neg h1] at h ⊢
      by_cases h2 : guc_capture_buf_cnt_to_end { b with rd := 0 } ≥ 4
      · rw [if_pos h2]
        refine Or.inr ⟨by omega, ?_, rfl⟩
        unfold guc_capture_buf_cnt_to_end at h2
        simp only at h2
        rw [if_neg (Nat.not_lt_zero _)] at h2
        omega
      · rw [if_neg h2] at h
        simp at h

theorem remove_dw_bound (b : __guc_capture_bufstate) (dw : Nat)
    (h : (guc_capture_log_remove_dw b dw).ret = 4) :
    cnt_bound (guc_capture_log_remove_dw b dw).buf ≤ cnt_bound b := by
  rcases remove_dw_success b dw h with ⟨h1, e⟩ | ⟨h1, hw, e⟩
  · rw [e]
    unfold guc_capture_buf_cnt_to_end at h1
    unfold cnt_bound
    simp only
    split_ifs at h1 ⊢ <;> omega
  · rw [e]
    unfold guc_capture_buf_cnt_to_end at h1
    unfold cnt_bound
    simp only
    split_ifs at h1 ⊢ <;> omega

theorem data_extracted_cnt (b : __guc_capture_bufstate) (n : Nat) (img : Nat → Nat)
    (b1 : __guc_capture_bufstate) (he : guc_capture_data_extracted b n = some (img, b1)) :
    guc_capture_buf_cnt b1 + n = guc_capture_buf_cnt b := by
  unfold guc_capture_data_extracted at he
  split at he
  · rename_i hc
    simp only [Option.some.injEq, Prod.mk.injEq] at he
    rw [← he.2]
    unfold guc_capture_buf_cnt_to_end at hc
    unfold guc_capture_buf_cnt
    simp only
    split_ifs at hc ⊢ <;> omega
  · exact absurd he (by simp)

theorem data_extracted_none_wraps (b : __guc_capture_bufstate) (n : Nat)
    (he : guc_capture_data_extracted b n = none) (hc : ¬ n > guc_capture_buf_cnt b) :
    b.rd > b.wr ∧ cnt_bound b = guc_capture_buf_cnt b ∧ b.size - b.rd < n := by
  unfold guc_capture_data_extracted at he
  split at he
  · exact absurd he (by simp)
  · rename_i hce
    unfold guc_capture_buf_cnt_to_end at hce
    unfold guc_capture_buf_cnt at hc ⊢
    unfold cnt_bound
    split_ifs at hce hc ⊢ <;> omega

theorem get_register_le (b : __guc_capture_bufstate) (reg : guc_mmio_reg)
    (h : (guc_capture_log_get_register b reg).ret = 0) :
    guc_capture_buf_cnt (guc_capture_log_get_register b reg).buf ≤ guc_capture_buf_cnt b := by
  unfold guc_capture_log_get_register at h ⊢
  by_cases hc : 16 > guc_capture_buf_cnt b
  · rw [if_pos hc] at h
    simp at h
  · rw [if_neg hc] at h ⊢
    cases he : guc_capture_data_extracted b 16 with
    | some p =>
      obtain ⟨img, b1⟩ := p
      have := data_extracted_cnt b 16 img b1 he
      simp only
      omega
    | none =>
      rw [he] at h
      simp only at h ⊢
      obtain ⟨_, hb, _⟩ := data_extracted_none_wraps b 16 he hc
      have c1 := remove_dw_ret_cases b reg.offset
      have k1 := remove_dw_bound b reg.offset
      generalize guc_capture_log_remove_dw b reg.offset = r1 at h c1 k1 ⊢
      have c2 := remove_dw_ret_cases r1.buf reg.value
      have k2 := remove_dw_bound r1.buf reg.value
      generalize guc_capture_log_remove_dw r1.buf reg.value = r2 at h c2 k2 ⊢
      have c3 := remove_dw_ret_cases r2.buf reg.flags
      have k3 := remove_dw_bound r2.buf reg.flags
      generalize guc_capture_log_remove_dw r2.buf reg.flags = r3 at h c3 k3 ⊢
      have c4 := remove_dw_ret_cases r3.buf reg.mask
      have k4 := remove_dw_bound r3.buf reg.mask
      generalize guc_capture_log_remove_dw r3.buf reg.mask = r4 at h c4 k4 ⊢
      have hs : r1.ret + r2.ret + r3.ret + r4.ret = 16 := by
        by_contra hs
        rw [if_pos hs] at h
        simp at h
      have f1 : r1.ret = 4 := by omega
      have f2 : r2.ret = 4 := by omega
      have f3 : r3.ret = 4 := by omega
      have f4 : r4.ret = 4 := by omega
      have := cnt_le_bound r4.buf
      have := k1 f1
      have := k2 f2
      have := k3 f3
      have := k4 f4
      omega

theorem get_data_hdr_le (b : __guc_capture_bufstate) (hdr : guc_state_capture_header_t)
    (h : (guc_capture_log_get_data_hdr b hdr).ret = 0) :
    guc_capture_buf_cnt (guc_capture_log_get_data_hdr b hdr).buf ≤ guc_capture_buf_cnt b := by
  unfold guc_capture_log_get_data_hdr at h ⊢
  by_cases hc : 20 > guc_capture_buf_cnt b
  · rw [if_pos hc] at h
    simp at h
  · rw [if_neg hc] at h ⊢
    cases he : guc_capture_data_extracted b 20 with
    | some p =>
      obtain ⟨img, b1⟩ := p
      have := data_extracted_cnt b 20 img b1 he
      simp only
      omega
    | none =>
      rw [he] at h
      simp only at h ⊢
      obtain ⟨_, hb, _⟩ := data_extracted_none_wraps b 20 he hc
      have c1 := remove_dw_ret_cases b hdr.owner
      have k1 := remove_dw_bound b hdr.owner
      generalize guc_capture_log_remove_dw b hdr.owner = r1 at h c1 k1 ⊢
      have c2 := remove_dw_ret_cases r1.buf hdr.info
      have k2 := remove_dw_bound r1.buf hdr.info
      generalize guc_capture_log_remove_dw r1.buf hdr.info = r2 at h c2 k2 ⊢
      have c3 := remove_dw_ret_cases r2.buf hdr.lrca
      have k3 := remove_dw_bound r2.buf hdr.lrca
      generalize guc_capture_log_remove_dw r2.buf hdr.lrca = r3 at h c3 k3 ⊢
      have c4 := remove_dw_ret_cases r3.buf hdr.guc_id
      have k4 := remove_dw_bound r3.buf hdr.guc_id
      generalize guc_capture_log_remove_dw r3.buf hdr.guc_id = r4 at h c4 k4 ⊢
      have c5 := remove_dw_ret_cases r4.buf hdr.num_mmios
      have k5 := remove_dw_bound r4.buf hdr.num_mmios
      generalize guc_capture_log_remove_dw r4.buf hdr.num_mmios = r5 at h c5 k5 ⊢
      have hs : r1.ret + r2.ret + r3.ret + r4.ret + r5.ret = 20 := by
        by_contra hs
        rw [if_pos hs] at h
        simp at h
      have f1 : r1.ret = 4 := by omega
      have f2 : r2.ret = 4 := by omega
      have f3 : r3.ret = 4 := by omega
      have f4 : r4.ret = 4 := by omega
      have f5 : r5.ret = 4 := by omega
      have := cnt_le_bound r5.buf
      have := k1 f1
      have := k2 f2
      have := k3 f3
      have := k4 f4
      have := k5 f5
      omega

/-- A successful group-header read leaves at least 8 bytes fewer available, or fewer than 8
bytes at all. -/
theorem get_group_hdr_dec (b : __guc_capture_bufstate)
    (g : guc_state_capture_group_header_t)
    (h : (guc_capture_log_get_group_hdr b g).ret = 0) :
    8 ≤ guc_capture_buf_cnt b ∧
      (guc_capture_buf_cnt (guc_capture_log_get_group_hdr b g).buf + 8 ≤
          guc_capture_buf_cnt b ∨
        guc_capture_buf_cnt (guc_capture_log_get_group_hdr b g).buf < 8) := by
  unfold guc_capture_log_get_group_hdr at h ⊢
  by_cases hc : 8 > guc_capture_buf_cnt b
  · rw [if_pos hc] at h
    simp at h
  · rw [if_neg hc] at h ⊢
    refine ⟨by omega, ?_⟩
    cases he : guc_capture_data_extracted b 8 with
    | some p =>
      obtain ⟨img, b1⟩ := p
      have := data_extracted_cnt b 8 img b1 he
      simp only
      omega
    | none =>
      rw [he] at h
      simp only at h ⊢
      obtain ⟨hw, hb, ht⟩ := data_extracted_none_wraps b 8 he hc
      have c1 := remove_dw_ret_cases b g.owner
      have k1 := remove_dw_success b g.owner
      generalize guc_capture_log_remove_dw b g.owner = r1 at h c1 k1 ⊢
      have c2 := remove_dw_ret_cases r1.buf g.info
      have k2 := remove_dw_success r1.buf g.info
      generalize guc_capture_log_remove_dw r1.buf g.info = r2 at h c2 k2 ⊢
      have hs : r1.ret + r2.ret = 8 := by
        by_contra hs
        rw [if_pos hs] at h
        simp at h
      have f1 : r1.ret = 4 := by omega
      have f2 : r2.ret = 4 := by omega
      unfold guc_capture_buf_cnt at hc ⊢
      rcases k1 f1 with ⟨a1, e1⟩ | ⟨a1, w1, e1⟩
      · rcases k2 f2 with ⟨a2, e2⟩ | ⟨a2, w2, e2⟩
        · rw [e2, e1]
          rw [e1] at a2
          unfold guc_capture_buf_cnt_to_end at a1 a2
          simp only at a2 ⊢
          split_ifs at a1 a2 hc ⊢ <;> omega
        · rw [e2, e1]
          rw [e1] at a2 w2
          simp only at w2
          unfold guc_capture_buf_cnt_to_end at a1 a2
          simp only at a2 ⊢
          split_ifs at a1 a2 hc ⊢ <;> omega
      · rcases k2 f2 with ⟨a2, e2⟩ | ⟨a2, w2, e2⟩
        · rw [e2, e1]
          rw [e1] at a2
          unfold guc_capture_buf_cnt_to_end at a1 a2
          simp only at a2 ⊢
          split_ifs at a1 a2 hc ⊢ <;> omega
        · rw [e2, e1]
          rw [e1] at a2 w2
          simp only at w2
          unfold guc_capture_buf_cnt_to_end at a1 a2
          simp only at a2 ⊢
          split_ifs at a1 a2 hc ⊢ <;> omega

theorem skip_regs_nonneg : ∀ (m : Nat) (b : __guc_capture_bufstate) (ret : Int),
    0 ≤ (skip_regs m b ret).2 →
      0 ≤ ret ∧ guc_capture_buf_cnt (skip_regs m b ret).1 ≤ guc_capture_buf_cnt b
  | 0, b, ret, h => by
    simp only [skip_regs] at h ⊢
    exact ⟨h, Nat.le_refl _⟩
  | m + 1, b, ret, h => by
    simp only [skip_regs] at h ⊢
    by_cases hr : (guc_capture_log_get_register b zero_reg).ret ≠ 0
    · rw [if_pos hr] at h
      simp [ EIO] at h
    · rw [if_neg hr] at h ⊢
      have hle := get_register_le b zero_reg (not_not.mp hr)
      obtain ⟨h1, h2⟩ := skip_regs_nonneg m _ ret h
      exact ⟨h1, Nat.le_trans h2 hle⟩

theorem fill_regs_nonneg : ∀ (m i : Nat) (b : __guc_capture_bufstate)
    (regs : List guc_mmio_reg) (ret : Int),
    0 ≤ (fill_regs m i b regs ret).ret →
      0 ≤ ret ∧ guc_capture_buf_cnt (fill_regs m i b regs ret).buf ≤ guc_capture_buf_cnt b
  | 0, i, b, regs, ret, h => by
    simp only [fill_regs] at h ⊢
    exact ⟨h, Nat.le_refl _⟩
  | m + 1, i, b, regs, ret, h => by
    simp only [fill_regs] at h ⊢
    by_cases hr : (guc_capture_log_get_register b (regs.getD i zero_reg)).ret ≠ 0
    · rw [if_pos hr] at h
      simp [ EIO] at h
    · rw [if_neg hr] at h ⊢
      have hle := get_register_le b (regs.getD i zero_reg) (not_not.mp hr)
      obtain ⟨h1, h2⟩ := fill_regs_nonneg m (i + 1) _ _ ret h
      exact ⟨h1, Nat.le_trans h2 hle⟩

theorem fill_node_nonneg (fw : guc_fwif) (oom : Nat → Bool) (ip : Bool) (dt : Nat)
    (s : extract_state) (h : 0 ≤ (fill_node fw oom ip dt s).2.ret) :
    0 ≤ s.ret ∧
      guc_capture_buf_cnt (fill_node fw oom ip dt s).2.buf ≤ guc_capture_buf_cnt s.buf := by
  unfold fill_node at h ⊢
  simp only at h ⊢
  split at h
  · simp [ENOMEM] at h
  · split at h
    · simp [ENOMEM] at h
    · rename_i hn
      rw [if_neg hn]
      simp only at h ⊢
      exact fill_regs_nonneg _ _ _ _ _ h

theorem extract_loop_nonneg (fw : guc_fwif) (oom : Nat → Bool) (ip : Bool) :
    ∀ (n : Nat) (s : extract_state), 0 ≤ (extract_loop fw oom ip n s).ret →
      0 ≤ s.ret ∧
        guc_capture_buf_cnt (extract_loop fw oom ip n s).buf ≤ guc_capture_buf_cnt s.buf
  | 0, s, h => by
    simp only [extract_loop] at h ⊢
    exact ⟨h, Nat.le_refl _⟩
  | n + 1, s, h => by
    simp only [extract_loop] at h ⊢
    by_cases hr : (guc_capture_log_get_data_hdr s.buf s.hdr).ret ≠ 0
    · rw [if_pos hr] at h
      simp [ EIO] at h
    · rw [if_neg hr] at h ⊢
      have hle := get_data_hdr_le s.buf s.hdr (not_not.mp hr)
      generalize guc_capture_log_get_data_hdr s.buf s.hdr = rh at h hle ⊢
      by_cases hd : FIELD_GET fw.CAP_HDR_CAPTURE_TYPE rh.val.info >
          GUC_CAPTURE_LIST_TYPE_ENGINE_INSTANCE
      · rw [if_pos hd] at h ⊢
        obtain ⟨h1, h2⟩ := extract_loop_nonneg fw oom ip n _ h
        simp only at h1 h2
        obtain ⟨h3, h4⟩ := skip_regs_nonneg _ _ _ h1
        exact ⟨h3, Nat.le_trans h2 (Nat.le_trans h4 hle)⟩
      · rw [if_neg hd] at h ⊢
        generalize hc : node_continuity oom (FIELD_GET fw.CAP_HDR_CAPTURE_TYPE rh.val.info)
          s.node s.outlist s.nalloc = c at h ⊢
        have hf := fill_node_nonneg fw oom ip (FIELD_GET fw.CAP_HDR_CAPTURE_TYPE rh.val.info)
          ⟨rh.buf, rh.val, c.1, c.2.1, c.2.2, s.ret⟩
        generalize fill_node fw oom ip (FIELD_GET fw.CAP_HDR_CAPTURE_TYPE rh.val.info)
          ⟨rh.buf, rh.val, c.1, c.2.1, c.2.2, s.ret⟩ = r at h hf ⊢
        by_cases hb : r.1 = true
        · rw [if_pos hb] at h ⊢
          obtain ⟨h3, h4⟩ := hf h
          exact ⟨h3, Nat.le_trans h4 hle⟩
        · rw [if_neg hb] at h ⊢
          obtain ⟨h1, h2⟩ := extract_loop_nonneg fw oom ip n _ h
          obtain ⟨h3, h4⟩ := hf h1
          exact ⟨h3, Nat.le_trans h2 (Nat.le_trans h4 hle)⟩

/-- A pass that returns a non-negative status found at least 8 bytes and leaves at least 8
bytes fewer available, or fewer than 8 bytes at all. -/
theorem extract_reglists_dec (fw : guc_fwif) (oom : Nat → Bool) (k : Nat)
    (b : __guc_capture_bufstate) (out : List __guc_capture_parsed_output)
    (h : 0 ≤ (guc_capture_extract_reglists fw oom k b out).ret) :
    8 ≤ guc_capture_buf_cnt b ∧
      (guc_capture_buf_cnt (guc_capture_extract_reglists fw oom k b out).buf + 8 ≤
          guc_capture_buf_cnt b ∨
        guc_capture_buf_cnt (guc_capture_extract_reglists fw oom k b out).buf < 8) := by
  unfold guc_capture_extract_reglists at h ⊢
  simp only at h ⊢
  by_cases h0 : guc_capture_buf_cnt b = 0
  · rw [if_pos h0] at h
    simp [ENODATA] at h
  · rw [if_neg h0] at h ⊢
    by_cases h4 : guc_capture_buf_cnt b % 4 ≠ 0
    · rw [if_pos h4] at h
      simp [ EIO] at h
    · rw [if_neg h4] at h ⊢
      by_cases hg : (guc_capture_log_get_group_hdr b ⟨0, 0⟩).ret ≠ 0
      · rw [if_pos hg] at h
        simp [ EIO] at h
      · rw [if_neg hg] at h ⊢
        obtain ⟨d1, d2⟩ := get_group_hdr_dec b ⟨0, 0⟩ (not_not.mp hg)
        simp only at h ⊢
        obtain ⟨_, l2⟩ := extract_loop_nonneg fw oom _ _ _ h
        simp only at l2
        refine ⟨d1, ?_⟩
        omega

theorem process_output_loop_bound (fw : guc_fwif) (oom : Nat → Bool) :
    ∀ (fuel k : Nat) (b : __guc_capture_bufstate) (out : List __guc_capture_parsed_output),
      guc_capture_buf_cnt b / 8 + 1 ≤ fuel →
        ∃ n last, process_output_loop fw oom fuel k b out = some (n, last) ∧
          n ≤ guc_capture_buf_cnt b / 8 + 1 ∧ last.ret < 0
  | 0, k, b, out, hf => absurd hf (by omega)
  | fuel + 1, k, b, out, hf => by
    unfold process_output_loop
    by_cases hr : (guc_capture_extract_reglists fw oom k b out).ret ≥ 0
    · rw [if_pos hr]
      obtain ⟨d1, d2⟩ := extract_reglists_dec fw oom k b out hr
      obtain ⟨n, last, e, hn, hl⟩ := process_output_loop_bound fw oom fuel
        (guc_capture_extract_reglists fw oom k b out).nalloc
        (guc_capture_extract_reglists fw oom k b out).buf
        (guc_capture_extract_reglists fw oom k b out).outlist (by omega)
      rw [e]
      exact ⟨n + 1, last, rfl, by omega, hl⟩
    · rw [if_neg hr]
      exact ⟨1, _, rfl, by omega, by omega⟩

/-! ## Lemmas on a truncated register block -/

theorem getD_length_append {α : Type} (pre : List α) (x d : α) (tl : List α) :
    (pre ++ x :: tl).getD pre.length d = x := by
  induction pre with
  | nil => rfl
  | cons a pre ih => simpa using ih

/-- The fill loop over a block of which only the registers `rs` are in the ring: they are
stored, the entries after them stay zero, the status is the I/O error and the cursor is
after the registers read. -/
theorem fill_regs_trunc {rs : List guc_mmio_reg} (m : Nat) :
    ∀ {b : __guc_capture_bufstate} (pre post : List guc_mmio_reg) (ret : Int),
      ring_aligned b → ring_holds b (enc_regs rs) →
      guc_capture_buf_cnt b < 16 * rs.length + 16 →
      (fill_regs (rs.length + m + 1) pre.length b
          (pre ++ (List.replicate (rs.length + m + 1) zero_reg ++ post)) ret).ret = - EIO ∧
        (fill_regs (rs.length + m + 1) pre.length b
          (pre ++ (List.replicate (rs.length + m + 1) zero_reg ++ post)) ret).regs =
            pre ++ (rs ++ (List.replicate (m + 1) zero_reg ++ post)) ∧
        ring_adv b (fill_regs (rs.length + m + 1) pre.length b
          (pre ++ (List.replicate (rs.length + m + 1) zero_reg ++ post)) ret).buf
          (16 * rs.length) := by
  induction rs with
  | nil =>
    intro b pre post ret hal _ hs
    simp only [List.length_nil, Nat.zero_add, Nat.mul_zero] at hs ⊢
    simp only [fill_regs, List.replicate_succ, List.cons_append, getD_length_append,
      get_register_short b zero_reg hs, set_length_append]
    exact ⟨by simp, by simp, ring_adv_refl hal⟩
  | cons r rs ih =>
    intro b pre post ret hal hh hs
    have hh' : ring_holds b (enc_reg r ++ (enc_regs rs ++ [])) := by
      simpa only [enc_regs, List.append_nil] using hh
    rw [show (r :: rs).length + m + 1 = (rs.length + m + 1) + 1 by
      simp only [List.length_cons]; omega]
    rw [fill_regs]
    simp only [List.replicate_succ, List.cons_append, getD_length_append, set_length_append]
    obtain ⟨e, v, a, hh1⟩ := ring_holds_get_register zero_reg hal hh'
    rw [List.append_nil] at hh1
    simp only [e, v, ne_eq, not_true_eq_false, if_false]
    have hs1 : guc_capture_buf_cnt (guc_capture_log_get_register b zero_reg).buf <
        16 * rs.length + 16 := by
      have := a.2.2.2.2.2
      simp only [List.length_cons] at hs
      omega
    have ih1 := ih (pre ++ [r]) post ret (ring_adv_aligned a) hh1 hs1
    simp only [List.length_append, List.length_cons, List.length_nil, Nat.zero_add,
      List.append_assoc, List.singleton_append, List.replicate_succ, List.cons_append,
      List.nil_append] at ih1
    obtain ⟨e2, v2, a2⟩ := ih1
    refine ⟨e2, ?_, ?_⟩
    · rw [v2]
    · have := ring_adv_trans a a2
      rw [show 16 * (r :: rs).length = 16 + 16 * rs.length by
        simp only [List.length_cons]; omega]
      exact this

theorem extract_loop_unknown_step (fw : guc_fwif) (oom : Nat → Bool) (ip : Bool)
    (s : extract_state) {h : guc_state_capture_header_t} {rs : List guc_mmio_reg}
    {rest : List Nat} (hal : ring_aligned s.buf)
    (hh : ring_holds s.buf (enc_hdr h ++ (enc_regs rs ++ rest)))
    (ht : FIELD_GET fw.CAP_HDR_CAPTURE_TYPE h.info > GUC_CAPTURE_LIST_TYPE_ENGINE_INSTANCE)
    (hn : FIELD_GET fw.CAP_HDR_NUM_MMIOS h.num_mmios = rs.length) :
    ∃ b', ring_adv s.buf b' (20 + 16 * rs.length) ∧ ring_holds b' rest ∧
      ∀ n, extract_loop fw oom ip (n + 1) s =
        extract_loop fw oom ip n { s with buf := b', hdr := h } := by
  obtain ⟨e, v, a, hh1⟩ := ring_holds_get_data_hdr s.hdr hal hh
  obtain ⟨e2, a2, hh2⟩ := skip_regs_holds s.ret (ring_adv_aligned a) hh1
  refine ⟨_, ring_adv_trans a a2, hh2, ?_⟩
  intro n
  simp only [extract_loop, e, v, ne_eq, not_true_eq_false, if_false, ht, if_true, hn, e2]

theorem extract_loop_known_step (fw : guc_fwif) (oom : Nat → Bool) (ip : Bool)
    (s : extract_state) {h : guc_state_capture_header_t} {rs : List guc_mmio_reg}
    {rest : List Nat} (hoom : ∀ i, oom i = false) (hal : ring_aligned s.buf)
    (hh : ring_holds s.buf (enc_hdr h ++ (enc_regs rs ++ rest)))
    (ht : ¬ FIELD_GET fw.CAP_HDR_CAPTURE_TYPE h.info > GUC_CAPTURE_LIST_TYPE_ENGINE_INSTANCE)
    (hn : FIELD_GET fw.CAP_HDR_NUM_MMIOS h.num_mmios = rs.length) :
    ∃ b' k', ring_adv s.buf b' (20 + 16 * rs.length) ∧ ring_holds b' rest ∧
      ∀ n, extract_loop fw oom ip (n + 1) s =
        extract_loop fw oom ip n
          ⟨b', h, some (node_for_record fw oom ip s h rs),
            (node_continuity oom (FIELD_GET fw.CAP_HDR_CAPTURE_TYPE h.info)
              s.node s.outlist s.nalloc).2.1, k', s.ret⟩ := by
  obtain ⟨e, v, a, hh1⟩ := ring_holds_get_data_hdr s.hdr hal hh
  obtain ⟨e2, v2, a2, hh2⟩ := fill_regs_holds [] [] s.ret (ring_adv_aligned a) hh1
  simp only [List.length_nil, List.nil_append, List.append_nil] at e2 v2 a2 hh2
  simp only [node_for_record]
  generalize hc : node_continuity oom (FIELD_GET fw.CAP_HDR_CAPTURE_TYPE h.info)
    s.node s.outlist s.nalloc = c
  obtain ⟨c1, c2, c3⟩ := c
  cases c1 with
  | none =>
    refine ⟨_, if rs.length ≠ 0 then c3 + 1 + 1 else c3 + 1, ring_adv_trans a a2, hh2, ?_⟩
    intro n
    simp only [extract_loop, e, v, ne_eq, not_true_eq_false, if_false, ht, hc,
      fill_node, guc_capture_alloc_one_node, hoom, Bool.false_eq_true, hn,
      and_false, not_false_eq_true, e2, v2, Option.getD_none]
  | some nd =>
    refine ⟨_, if rs.length ≠ 0 then c3 + 1 else c3, ring_adv_trans a a2, hh2, ?_⟩
    intro n
    simp only [extract_loop, e, v, ne_eq, not_true_eq_false, if_false, ht, hc,
      fill_node, hoom, Bool.false_eq_true, hn,
      and_false, not_false_eq_true, e2, v2, Option.getD_some]

/-- After a run of complete records the record loop goes on with the remaining count. -/
theorem extract_loop_group_add (fw : guc_fwif) (oom : Nat → Bool) (ip : Bool)
    (hoom : ∀ i, oom i = false) (m : Nat) :
    ∀ (recs : List (guc_state_capture_header_t × List guc_mmio_reg)) (s : extract_state)
      (rest : List Nat), ring_aligned s.buf → ring_holds s.buf (enc_recs recs ++ rest) →
      (∀ r ∈ recs, FIELD_GET fw.CAP_HDR_NUM_MMIOS r.1.num_mmios = r.2.length) →
      extract_loop fw oom ip (recs.length + m) s =
        extract_loop fw oom ip m (extract_loop fw oom ip recs.length s) := by
  intro recs
  induction recs with
  | nil =>
    intro s rest _ _ _
    simp only [List.length_nil, Nat.zero_add, extract_loop]
  | cons r recs ih =>
    intro s rest hal hh hn
    simp only [enc_recs, List.append_assoc] at hh
    have hn0 := hn r (List.mem_cons_self _ _)
    have hn1 : ∀ r' ∈ recs, FIELD_GET fw.CAP_HDR_NUM_MMIOS r'.1.num_mmios = r'.2.length :=
      fun r' hr' => hn r' (List.mem_cons_of_mem _ hr')
    rw [show (r :: recs).length + m = (recs.length + m) + 1 by
      simp only [List.length_cons]; omega, List.length_cons]
    by_cases ht : FIELD_GET fw.CAP_HDR_CAPTURE_TYPE r.1.info >
        GUC_CAPTURE_LIST_TYPE_ENGINE_INSTANCE
    · obtain ⟨b', a, hh1, e⟩ := extract_loop_unknown_step fw oom ip s hal hh ht hn0
      rw [e, e]
      exact ih _ rest (ring_adv_aligned a) hh1 hn1
    · obtain ⟨b', k', a, hh1, e⟩ := extract_loop_known_step fw oom ip s hoom hal hh ht hn0
      rw [e, e]
      exact ih _ rest (ring_adv_aligned a) hh1 hn1

/-- One iteration of the record loop on a record of known capture type of which only the
registers `rs` are in the ring, allocations succeeding: the loop ends in the state whose
node has the zero-padded register array, with the I/O-error status. -/
theorem extract_loop_trunc (fw : guc_fwif) (oom : Nat → Bool) (ip : Bool)
    (s : extract_state) {h : guc_state_capture_header_t} {rs : List guc_mmio_reg} (m : Nat)
    (hoom : ∀ i, oom i = false) (hal : ring_aligned s.buf)
    (hh : ring_holds s.buf (enc_hdr h ++ enc_regs rs))
    (hs : guc_capture_buf_cnt s.buf < 20 + 16 * rs.length + 16)
    (ht : ¬ FIELD_GET fw.CAP_HDR_CAPTURE_TYPE h.info > GUC_CAPTURE_LIST_TYPE_ENGINE_INSTANCE)
    (hn : FIELD_GET fw.CAP_HDR_NUM_MMIOS h.num_mmios = rs.length + m + 1) :
    ∃ b' k', guc_capture_buf_cnt b' < 16 ∧
      ∀ j, extract_loop fw oom ip (j + 1) s =
        ⟨b', h, some (node_for_record fw oom ip s h (rs ++ List.replicate (m + 1) zero_reg)),
          (node_continuity oom (FIELD_GET fw.CAP_HDR_CAPTURE_TYPE h.info)
            s.node s.outlist s.nalloc).2.1, k', - EIO⟩ := by
  obtain ⟨e, v, a, hh1⟩ := ring_holds_get_data_hdr s.hdr hal hh
  have hs1 : guc_capture_buf_cnt (guc_capture_log_get_data_hdr s.buf s.hdr).buf <
      16 * rs.length + 16 := by
    have := a.2.2.2.2.2
    omega
  obtain ⟨e2, v2, a2⟩ := fill_regs_trunc m [] [] s.ret (ring_adv_aligned a) hh1 hs1
  simp only [List.length_nil, List.nil_append, List.append_nil] at e2 v2 a2
  have hc16 : guc_capture_buf_cnt (fill_regs (rs.length + m + 1) 0
      (guc_capture_log_get_data_hdr s.buf s.hdr).buf
      (List.replicate (rs.length + m + 1) zero_reg) s.ret).buf < 16 := by
    have := a2.2.2.2.2.2
    omega
  have hlen : (rs ++ List.replicate (m + 1) zero_reg).length = rs.length + m + 1 := by
    simp only [List.length_append, List.length_replicate]
    omega
  simp only [node_for_record, hlen]
  generalize hc : node_continuity oom (FIELD_GET fw.CAP_HDR_CAPTURE_TYPE h.info)
    s.node s.outlist s.nalloc = c
  obtain ⟨c1, c2, c3⟩ := c
  cases c1 with
  | none =>
    refine ⟨_, if rs.length + m + 1 ≠ 0 then c3 + 1 + 1 else c3 + 1, hc16, ?_⟩
    intro j
    have step : extract_loop fw oom ip (j + 1) s = extract_loop fw oom ip j
        ⟨(fill_regs (rs.length + m + 1) 0 (guc_capture_log_get_data_hdr s.buf s.hdr).buf
            (List.replicate (rs.length + m + 1) zero_reg) s.ret).buf, h,
          some (set_node_regs (FIELD_GET fw.CAP_HDR_CAPTURE_TYPE h.info) (rs.length + m + 1)
            (if rs.length + m + 1 ≠ 0 then some (rs ++ List.replicate (m + 1) zero_reg)
              else none)
            (set_node_header fw ip (FIELD_GET fw.CAP_HDR_CAPTURE_TYPE h.info) h zero_node)),
          c2, if rs.length + m + 1 ≠ 0 then c3 + 1 + 1 else c3 + 1, - EIO⟩ := by
      simp only [extract_loop, e, v, ne_eq, not_true_eq_false, if_false, ht, hc,
        fill_node, guc_capture_alloc_one_node, hoom, Bool.false_eq_true, hn,
        and_false, not_false_eq_true, e2, v2, Option.getD_none]
    rw [step]
    exact extract_loop_drained fw oom ip j _ (by simp only; omega) rfl
  | some nd =>
    refine ⟨_, if rs.length + m + 1 ≠ 0 then c3 + 1 else c3, hc16, ?_⟩
    intro j
    have step : extract_loop fw oom ip (j + 1) s = extract_loop fw oom ip j
        ⟨(fill_regs (rs.length + m + 1) 0 (guc_capture_log_get_data_hdr s.buf s.hdr).buf
            (List.replicate (rs.length + m + 1) zero_reg) s.ret).buf, h,
          some (set_node_regs (FIELD_GET fw.CAP_HDR_CAPTURE_TYPE h.info) (rs.length + m + 1)
            (if rs.length + m + 1 ≠ 0 then some (rs ++ List.replicate (m + 1) zero_reg)
              else none)
            (set_node_header fw ip (FIELD_GET fw.CAP_HDR_CAPTURE_TYPE h.info) h nd)),
          c2, if rs.length + m + 1 ≠ 0 then c3 + 1 else c3, - EIO⟩ := by
      simp only [extract_loop, e, v, ne_eq, not_true_eq_false, if_false, ht, hc,
        fill_node, hoom, Bool.false_eq_true, hn,
        and_false, not_false_eq_true, e2, v2, Option.getD_some]
    rw [step]
    exact extract_loop_drained fw oom ip j _ (by simp only; omega) rfl

theorem node_continuity_len (dt : Nat) (node : Option __guc_capture_parsed_output)
    (out : List __guc_capture_parsed_output)
    (h : ∀ nd, node = some nd → nd.reginfo.length = 3) :
    ∀ nd, (node_continuity (fun _ => false) dt node out 0).1 = some nd →
      nd.reginfo.length = 3 := by
  cases node with
  | none =>
    intro nd e
    simp [node_continuity] at e
  | some nd0 =>
    intro nd e
    simp only [node_continuity, clone_node_global (fun _ => false) 0 (fun _ => rfl),
      clone_node_global_class (fun _ => false) 0 (fun _ => rfl)] at e
    split at e
    · simp at e
    · split at e
      · simp only [Option.some.injEq] at e
        rw [← e]
        rfl
      · split at e
        · simp only [Option.some.injEq] at e
          rw [← e]
          rfl
        · simp only [Option.some.injEq] at e
          rw [← e]
          exact h nd0 rfl

theorem set_node_header_len (fw : guc_fwif) (ip : Bool) (dt : Nat)
    (h : guc_state_capture_header_t) (nd : __guc_capture_parsed_output) :
    (set_node_header fw ip dt h nd).reginfo.length = nd.reginfo.length := by
  unfold set_node_header
  simp only
  split
  · simp only [List.length_set]
  · split <;> simp only [List.length_set]

theorem record_step_len (fw : guc_fwif) (ip : Bool)
    (st : Option __guc_capture_parsed_output × List __guc_capture_parsed_output)
    (r : guc_state_capture_header_t × List guc_mmio_reg)
    (h : ∀ nd, st.1 = some nd → nd.reginfo.length = 3) :
    ∀ nd, (record_step fw ip st r).1 = some nd → nd.reginfo.length = 3 := by
  intro nd e
  unfold record_step at e
  split at e
  · exact h nd e
  · simp only [Option.some.injEq] at e
    rw [← e]
    simp only [set_node_regs, List.length_set, set_node_header_len]
    have hc := node_continuity_len (FIELD_GET fw.CAP_HDR_CAPTURE_TYPE r.1.info) st.1 st.2 h
    cases hn : (node_continuity (fun _ => false) (FIELD_GET fw.CAP_HDR_CAPTURE_TYPE r.1.info)
        st.1 st.2 0).1 with
    | none => rfl
    | some nd1 => exact hc nd1 hn

theorem foldl_record_step_len (fw : guc_fwif) (ip : Bool) :
    ∀ (recs : List (guc_state_capture_header_t × List guc_mmio_reg))
      (st : Option __guc_capture_parsed_output × List __guc_capture_parsed_output),
      (∀ nd, st.1 = some nd → nd.reginfo.length = 3) →
      ∀ nd, (recs.foldl (record_step fw ip) st).1 = some nd → nd.reginfo.length = 3
  | [], _, h => h
  | r :: recs, st, h => by
    rw [List.foldl_cons]
    exact foldl_record_step_len fw ip recs _ (record_step_len fw ip st r h)

/-- The slot a known-type record writes, in a node with three slots. -/
theorem slot_written (fw : guc_fwif) (ip : Bool) (dt n : Nat)
    (regs : Option (List guc_mmio_reg)) (h : guc_state_capture_header_t)
    (nd : __guc_capture_parsed_output) (hl : nd.reginfo.length = 3)
    (hd : dt ≤ GUC_CAPTURE_LIST_TYPE_ENGINE_INSTANCE) :
    reginfo_at (set_node_regs dt n regs (set_node_header fw ip dt h nd)) dt =
      ⟨FIELD_GET fw.CAP_HDR_CAPTURE_VFID h.owner, n, regs⟩ := by
  obtain ⟨p, c, i, gid, lr, ri⟩ := nd
  simp only at hl
  match ri, hl with
  | [s0, s1, s2], _ =>
    simp only [GUC_CAPTURE_LIST_TYPE_ENGINE_INSTANCE] at hd
    interval_cases dt <;>
      simp [set_node_regs, set_node_header, reginfo_at, GUC_CAPTURE_LIST_TYPE_ENGINE_INSTANCE,
        GUC_CAPTURE_LIST_TYPE_ENGINE_CLASS]

/-- The node a known-type record with a non-empty register block leaves in progress, in
terms of the record rule: its slot of that type holds the block. -/
theorem record_step_slot (fw : guc_fwif) (ip : Bool)
    (st : Option __guc_capture_parsed_output × List __guc_capture_parsed_output)
    (h : guc_state_capture_header_t) (rs : List guc_mmio_reg)
    (hst : ∀ nd, st.1 = some nd → nd.reginfo.length = 3)
    (ht : FIELD_GET fw.CAP_HDR_CAPTURE_TYPE h.info ≤ GUC_CAPTURE_LIST_TYPE_ENGINE_INSTANCE)
    (hp : 0 < rs.length) :
    ∃ nd, (record_step fw ip st (h, rs)).1 = some nd ∧
      reginfo_at nd (FIELD_GET fw.CAP_HDR_CAPTURE_TYPE h.info) =
        ⟨FIELD_GET fw.CAP_HDR_CAPTURE_VFID h.owner, rs.length, some rs⟩ := by
  have ht' : ¬ FIELD_GET fw.CAP_HDR_CAPTURE_TYPE h.info >
      GUC_CAPTURE_LIST_TYPE_ENGINE_INSTANCE := by omega
  simp only [record_step, if_neg ht']
  refine ⟨_, rfl, ?_⟩
  rw [if_pos (show rs.length ≠ 0 by omega)]
  apply slot_written fw ip _ _ _ h _ _ ht
  have hc := node_continuity_len (FIELD_GET fw.CAP_HDR_CAPTURE_TYPE h.info) st.1 st.2 hst
  cases hn : (node_continuity (fun _ => false) (FIELD_GET fw.CAP_HDR_CAPTURE_TYPE h.info)
      st.1 st.2 0).1 with
  | none => rfl
  | some nd1 => exact hc nd1 hn

/-- A parse pass over a dword-aligned ring that holds a group header, complete records and
then a known-type record of which only the registers `rs` are there, allocations succeeding:
the status is the I/O error, and the output list is obtained as for a complete group whose
last record has the register block padded with zero entries. -/
theorem extract_reglists_trunc (fw : guc_fwif) (oom : Nat → Bool) (k : Nat)
    (b : __guc_capture_bufstate) (outlist : List __guc_capture_parsed_output)
    (g : guc_state_capture_group_header_t)
    (recs : List (guc_state_capture_header_t × List guc_mmio_reg))
    (h : guc_state_capture_header_t) (rs : List guc_mmio_reg) (m : Nat)
    (hal : ring_aligned b) (hoom : ∀ i, oom i = false)
    (hN : recs.length < FIELD_GET fw.CAP_GRP_HDR_NUM_CAPTURES g.info)
    (hn : ∀ r ∈ recs, FIELD_GET fw.CAP_HDR_NUM_MMIOS r.1.num_mmios = r.2.length)
    (ht : ¬ FIELD_GET fw.CAP_HDR_CAPTURE_TYPE h.info > GUC_CAPTURE_LIST_TYPE_ENGINE_INSTANCE)
    (hm : FIELD_GET fw.CAP_HDR_NUM_MMIOS h.num_mmios = rs.length + m + 1)
    (hh : ring_holds b (enc_group g recs ++ (enc_hdr h ++ enc_regs rs)))
    (hs : guc_capture_buf_cnt b <
      8 + (recs.map (fun r => 20 + 16 * r.2.length)).sum + 20 + 16 * rs.length + 16) :
    (guc_capture_extract_reglists fw oom k b outlist).ret = - EIO ∧
      (guc_capture_extract_reglists fw oom k b outlist).outlist =
        extract_bailout
          (record_step fw (decide (FIELD_GET fw.CAP_GRP_HDR_CAPTURE_TYPE g.info ≠ 0))
            (recs.foldl (record_step fw
              (decide (FIELD_GET fw.CAP_GRP_HDR_CAPTURE_TYPE g.info ≠ 0))) (none, outlist))
            (h, rs ++ List.replicate (m + 1) zero_reg)).1
          (record_step fw (decide (FIELD_GET fw.CAP_GRP_HDR_CAPTURE_TYPE g.info ≠ 0))
            (recs.foldl (record_step fw
              (decide (FIELD_GET fw.CAP_GRP_HDR_CAPTURE_TYPE g.info ≠ 0))) (none, outlist))
            (h, rs ++ List.replicate (m + 1) zero_reg)).2 := by
  have hh0 : ring_holds b (enc_ghdr g ++ (enc_recs recs ++ (enc_hdr h ++ enc_regs rs))) := by
    simpa only [enc_group, List.append_assoc] using hh
  have hcnt : 8 ≤ guc_capture_buf_cnt b := by
    have := hh0.1
    simp only [enc_ghdr, List.length_append, List.length_cons, List.length_nil] at this
    omega
  have hc4 := cnt_aligned hal
  obtain ⟨e, v, a, hh1⟩ := ring_holds_get_group_hdr ⟨0, 0⟩ hal hh0
  obtain ⟨j, hj⟩ : ∃ j, FIELD_GET fw.CAP_GRP_HDR_NUM_CAPTURES g.info = recs.length + (j + 1) :=
    ⟨FIELD_GET fw.CAP_GRP_HDR_NUM_CAPTURES g.info - recs.length - 1, by omega⟩
  simp only [guc_capture_extract_reglists, show guc_capture_buf_cnt b ≠ 0 by omega, hc4, e, v,
    hj, ne_eq, not_true_eq_false, if_false]
  rw [extract_loop_group_add fw oom _ hoom (j + 1) recs _ _ (ring_adv_aligned a) hh1 hn]
  obtain ⟨e2, a2, hh2, f2⟩ := extract_loop_group fw oom
    (decide (¬ FIELD_GET fw.CAP_GRP_HDR_CAPTURE_TYPE g.info = 0)) hoom recs
    ⟨(guc_capture_log_get_group_hdr b ⟨0, 0⟩).buf, ⟨0, 0, 0, 0, 0⟩, none, outlist, k, 0⟩ _
    (ring_adv_aligned a) hh1 hn
  simp only at f2 a2
  generalize extract_loop fw oom (decide (¬ FIELD_GET fw.CAP_GRP_HDR_CAPTURE_TYPE g.info = 0))
    recs.length
    ⟨(guc_capture_log_get_group_hdr b ⟨0, 0⟩).buf, ⟨0, 0, 0, 0, 0⟩, none, outlist, k, 0⟩ = s1
    at e2 a2 hh2 f2 ⊢
  have hs1 : guc_capture_buf_cnt s1.buf < 20 + 16 * rs.length + 16 := by
    have h1 := a.2.2.2.2.2
    have h2 := a2.2.2.2.2.2
    omega
  obtain ⟨b', k', _, el⟩ := extract_loop_trunc fw oom
    (decide (¬ FIELD_GET fw.CAP_GRP_HDR_CAPTURE_TYPE g.info = 0)) s1 m hoom
    (ring_adv_aligned a2) hh2 hs1 ht hm
  rw [el j]
  refine ⟨rfl, ?_⟩
  simp only
  have rk := record_step_known fw oom
    (decide (¬ FIELD_GET fw.CAP_GRP_HDR_CAPTURE_TYPE g.info = 0)) hoom s1
    (h, rs ++ List.replicate (m + 1) zero_reg) ht
  simp only at rk
  rw [← f2, ← rk]

/-! ## Lemmas on a record that starts a fresh node -/

/-- Cloning with the Global mask returns `NULL` when the allocation of the node or of the
Global array fails. -/
theorem clone_node_global_fails (oom : Nat → Bool) (k : Nat)
    (orig : __guc_capture_parsed_output) (h : oom k = true ∨ oom (k + 1) = true) :
    (guc_capture_clone_node oom k (some orig) GCAP_PARSED_REGLIST_INDEX_GLOBAL).1 = none := by
  have m0 : GCAP_PARSED_REGLIST_INDEX_GLOBAL &&& BIT 0 ≠ 0 := by decide
  by_cases h0 : oom k = true
  · simp only [guc_capture_clone_node, guc_capture_alloc_one_node, h0, if_true]
  · have h1 : oom (k + 1) = true := by
      rcases h with h | h
      · exact absurd h h0
      · exact h
    simp only [guc_capture_clone_node, guc_capture_alloc_one_node, h0, Bool.false_eq_true,
      if_false, GUC_CAPTURE_LIST_TYPE_MAX, clone_reglists, h1, if_true]
    rw [if_pos m0]

/-- Cloning with the Global and EngineClass mask returns `NULL` when the allocation of the
node, of the Global array or of the EngineClass array fails. -/
theorem clone_node_global_class_fails (oom : Nat → Bool) (k : Nat)
    (orig : __guc_capture_parsed_output)
    (h : oom k = true ∨ oom (k + 1) = true ∨ oom (k + 2) = true) :
    (guc_capture_clone_node oom k (some orig)
      (GCAP_PARSED_REGLIST_INDEX_GLOBAL ||| GCAP_PARSED_REGLIST_INDEX_ENGCLASS)).1 = none := by
  have m0 : (GCAP_PARSED_REGLIST_INDEX_GLOBAL ||| GCAP_PARSED_REGLIST_INDEX_ENGCLASS) &&&
      BIT 0 ≠ 0 := by decide
  have m1 : (GCAP_PARSED_REGLIST_INDEX_GLOBAL ||| GCAP_PARSED_REGLIST_INDEX_ENGCLASS) &&&
      BIT 1 ≠ 0 := by decide
  by_cases h0 : oom k = true
  · simp only [guc_capture_clone_node, guc_capture_alloc_one_node, h0, if_true]
  · by_cases h1 : oom (k + 1) = true
    · simp only [guc_capture_clone_node, guc_capture_alloc_one_node, h0, Bool.false_eq_true,
        if_false, GUC_CAPTURE_LIST_TYPE_MAX, clone_reglists, h1, if_true]
      rw [if_pos m0]
    · have h2 : oom (k + 1 + 1) = true := by
        rcases h with h | h | h
        · exact absurd h h0
        · exact absurd h h1
        · exact h
      simp only [guc_capture_clone_node, guc_capture_alloc_one_node, h0, Bool.false_eq_true,
        if_false, GUC_CAPTURE_LIST_TYPE_MAX, clone_reglists, h1, h2, if_true, Nat.zero_add]
      rw [if_pos m0, if_pos m1]

/-- The known-type block entered without a node: the output list is kept, the node left in
progress (if any) is a fresh node whose slots other than the record's are empty, and a failed
node allocation ends the loop with `-ENOMEM`. -/
theorem fill_node_fresh (fw : guc_fwif) (oom : Nat → Bool) (ip : Bool) (dt : Nat)
    (b : __guc_capture_bufstate) (h : guc_state_capture_header_t)
    (o : List __guc_capture_parsed_output) (k : Nat) (ret : Int)
    (hdt : dt ≤ GUC_CAPTURE_LIST_TYPE_ENGINE_INSTANCE) :
    (fill_node fw oom ip dt ⟨b, h, none, o, k, ret⟩).2.outlist = o ∧
      (∀ nd, (fill_node fw oom ip dt ⟨b, h, none, o, k, ret⟩).2.node = some nd →
        ∀ i, i < GUC_CAPTURE_LIST_TYPE_MAX → i ≠ dt → reginfo_at nd i = zero_reginfo) ∧
      (oom k = true →
        (fill_node fw oom ip dt ⟨b, h, none, o, k, ret⟩).1 = true ∧
        (fill_node fw oom ip dt ⟨b, h, none, o, k, ret⟩).2.ret = - ENOMEM ∧
        (fill_node fw oom ip dt ⟨b, h, none, o, k, ret⟩).2.node = none) := by
  refine ⟨fill_node_outlist_eq fw oom ip dt _, ?_, ?_⟩
  · intro nd e i hi hne
    simp only [GUC_CAPTURE_LIST_TYPE_ENGINE_INSTANCE] at hdt
    simp only [GUC_CAPTURE_LIST_TYPE_MAX] at hi
    by_cases h0 : oom k = true
    · simp [fill_node, guc_capture_alloc_one_node, h0] at e
    · simp only [fill_node, guc_capture_alloc_one_node, h0, Bool.false_eq_true, if_false] at e
      split at e
      · simp only [Option.some.injEq] at e
        rw [← e]
        interval_cases dt <;> interval_cases i <;>
          first
          | exact absurd rfl hne
          | simp [set_node_header, reginfo_at, zero_node, GUC_CAPTURE_LIST_TYPE_ENGINE_INSTANCE,
              GUC_CAPTURE_LIST_TYPE_ENGINE_CLASS]
      · simp only [Option.some.injEq] at e
        rw [← e]
        interval_cases dt <;> interval_cases i <;>
          first
          | exact absurd rfl hne
          | simp [set_node_regs, set_node_header, reginfo_at, zero_node,
              GUC_CAPTURE_LIST_TYPE_ENGINE_INSTANCE, GUC_CAPTURE_LIST_TYPE_ENGINE_CLASS]
  · intro h0
    simp only [fill_node, guc_capture_alloc_one_node, h0, if_true]
    exact ⟨trivial, trivial, trivial⟩

/-- The record loop only appends to the output list. -/
theorem extract_loop_prefix (fw : guc_fwif) (oom : Nat → Bool) (ip : Bool) (n : Nat)
    (s : extract_state) : ∃ t, (extract_loop fw oom ip n s).outlist = s.outlist ++ t := by
  obtain ⟨b, h, nd, o, k, r⟩ := s
  have e := extract_loop_outlist fw oom ip n b h nd o [] k r
  simp only [List.append_nil] at e
  rw [e]
  exact ⟨_, rfl⟩

/-- An iteration of the record loop on a known-type record for which the continuity rule
leaves no node (a Global record, a failed clone, or no node so far): the output list is the
one the rule leaves, the node in progress afterwards (if any) is fresh, and a failed node
allocation ends the loop with `-ENOMEM`. -/
theorem extract_loop_fresh (fw : guc_fwif) (oom : Nat → Bool) (ip : Bool) (j : Nat)
    (s : extract_state)
    (hr : (guc_capture_log_get_data_hdr s.buf s.hdr).ret = 0)
    (hdt : FIELD_GET fw.CAP_HDR_CAPTURE_TYPE (guc_capture_log_get_data_hdr s.buf s.hdr).val.info ≤
      GUC_CAPTURE_LIST_TYPE_ENGINE_INSTANCE)
    (hc : (node_continuity oom
      (FIELD_GET fw.CAP_HDR_CAPTURE_TYPE (guc_capture_log_get_data_hdr s.buf s.hdr).val.info)
      s.node s.outlist s.nalloc).1 = none) :
    (extract_loop fw oom ip 1 s).outlist = (node_continuity oom
        (FIELD_GET fw.CAP_HDR_CAPTURE_TYPE (guc_capture_log_get_data_hdr s.buf s.hdr).val.info)
        s.node s.outlist s.nalloc).2.1 ∧
      (∀ nd, (extract_loop fw oom ip 1 s).node = some nd →
        ∀ i, i < GUC_CAPTURE_LIST_TYPE_MAX →
          i ≠ FIELD_GET fw.CAP_HDR_CAPTURE_TYPE
            (guc_capture_log_get_data_hdr s.buf s.hdr).val.info →
          reginfo_at nd i = zero_reginfo) ∧
      (oom (node_continuity oom
          (FIELD_GET fw.CAP_HDR_CAPTURE_TYPE (guc_capture_log_get_data_hdr s.buf s.hdr).val.info)
          s.node s.outlist s.nalloc).2.2 = true →
        (extract_loop fw oom ip (j + 1) s).ret = - ENOMEM ∧
        (extract_loop fw oom ip (j + 1) s).node = none ∧
        (extract_loop fw oom ip (j + 1) s).outlist = (node_continuity oom
          (FIELD_GET fw.CAP_HDR_CAPTURE_TYPE
            (guc_capture_log_get_data_hdr s.buf s.hdr).val.info)
          s.node s.outlist s.nalloc).2.1) ∧
      (∃ t, (extract_loop fw oom ip (j + 1) s).outlist = (node_continuity oom
          (FIELD_GET fw.CAP_HDR_CAPTURE_TYPE
            (guc_capture_log_get_data_hdr s.buf s.hdr).val.info)
          s.node s.outlist s.nalloc).2.1 ++ t) := by
  have hgt : ¬ FIELD_GET fw.CAP_HDR_CAPTURE_TYPE
      (guc_capture_log_get_data_hdr s.buf s.hdr).val.info >
      GUC_CAPTURE_LIST_TYPE_ENGINE_INSTANCE := by omega
  have step : ∀ n, extract_loop fw oom ip (n + 1) s =
      if (fill_node fw oom ip (FIELD_GET fw.CAP_HDR_CAPTURE_TYPE
          (guc_capture_log_get_data_hdr s.buf s.hdr).val.info)
          ⟨(guc_capture_log_get_data_hdr s.buf s.hdr).buf,
            (guc_capture_log_get_data_hdr s.buf s.hdr).val, none,
            (node_continuity oom (FIELD_GET fw.CAP_HDR_CAPTURE_TYPE
              (guc_capture_log_get_data_hdr s.buf s.hdr).val.info)
              s.node s.outlist s.nalloc).2.1,
            (node_continuity oom (FIELD_GET fw.CAP_HDR_CAPTURE_TYPE
              (guc_capture_log_get_data_hdr s.buf s.hdr).val.info)
              s.node s.outlist s.nalloc).2.2, s.ret⟩).1 = true then
        (fill_node fw oom ip (FIELD_GET fw.CAP_HDR_CAPTURE_TYPE
          (guc_capture_log_get_data_hdr s.buf s.hdr).val.info)
          ⟨(guc_capture_log_get_data_hdr s.buf s.hdr).buf,
            (guc_capture_log_get_data_hdr s.buf s.hdr).val, none,
            (node_continuity oom (FIELD_GET fw.CAP_HDR_CAPTURE_TYPE
              (guc_capture_log_get_data_hdr s.buf s.hdr).val.info)
              s.node s.outlist s.nalloc).2.1,
            (node_continuity oom (FIELD_GET fw.CAP_HDR_CAPTURE_TYPE
              (guc_capture_log_get_data_hdr s.buf s.hdr).val.info)
              s.node s.outlist s.nalloc).2.2, s.ret⟩).2
      else extract_loop fw oom ip n
        (fill_node fw oom ip (FIELD_GET fw.CAP_HDR_CAPTURE_TYPE
          (guc_capture_log_get_data_hdr s.buf s.hdr).val.info)
          ⟨(guc_capture_log_get_data_hdr s.buf s.hdr).buf,
            (guc_capture_log_get_data_hdr s.buf s.hdr).val, none,
            (node_continuity oom (FIELD_GET fw.CAP_HDR_CAPTURE_TYPE
              (guc_capture_log_get_data_hdr s.buf s.hdr).val.info)
              s.node s.outlist s.nalloc).2.1,
            (node_continuity oom (FIELD_GET fw.CAP_HDR_CAPTURE_TYPE
              (guc_capture_log_get_data_hdr s.buf s.hdr).val.info)
              s.node s.outlist s.nalloc).2.2, s.ret⟩).2 := by
    intro n
    simp only [extract_loop, hr, ne_eq, not_true_eq_false, if_false, if_neg hgt, hc]
  obtain ⟨f1, f2, f3⟩ := fill_node_fresh fw oom ip
    (FIELD_GET fw.CAP_HDR_CAPTURE_TYPE (guc_capture_log_get_data_hdr s.buf s.hdr).val.info)
    (guc_capture_log_get_data_hdr s.buf s.hdr).buf
    (guc_capture_log_get_data_hdr s.buf s.hdr).val
    (node_continuity oom (FIELD_GET fw.CAP_HDR_CAPTURE_TYPE
      (guc_capture_log_get_data_hdr s.buf s.hdr).val.info) s.node s.outlist s.nalloc).2.1
    (node_continuity oom (FIELD_GET fw.CAP_HDR_CAPTURE_TYPE
      (guc_capture_log_get_data_hdr s.buf s.hdr).val.info) s.node s.outlist s.nalloc).2.2
    s.ret hdt
  have one : extract_loop fw oom ip 1 s =
      (fill_node fw oom ip (FIELD_GET fw.CAP_HDR_CAPTURE_TYPE
          (guc_capture_log_get_data_hdr s.buf s.hdr).val.info)
          ⟨(guc_capture_log_get_data_hdr s.buf s.hdr).buf,
            (guc_capture_log_get_data_hdr s.buf s.hdr).val, none,
            (node_continuity oom (FIELD_GET fw.CAP_HDR_CAPTURE_TYPE
              (guc_capture_log_get_data_hdr s.buf s.hdr).val.info)
              s.node s.outlist s.nalloc).2.1,
            (node_continuity oom (FIELD_GET fw.CAP_HDR_CAPTURE_TYPE
              (guc_capture_log_get_data_hdr s.buf s.hdr).val.info)
              s.node s.outlist s.nalloc).2.2, s.ret⟩).2 := by
    rw [step 0]
    split
    · rfl
    · simp only [extract_loop]
  refine ⟨?_, ?_, ?_, ?_⟩
  · rw [one]
    exact f1
  · rw [one]
    exact f2
  · intro h0
    obtain ⟨g1, g2, g3⟩ := f3 h0
    rw [step j, if_pos g1]
    exact ⟨g2, g3, f1⟩
  · rw [step j]
    split
    · exact ⟨[], by rw [f1, List.append_nil]⟩
    · obtain ⟨t, ht⟩ := extract_loop_prefix fw oom ip j
        (fill_node fw oom ip (FIELD_GET fw.CAP_HDR_CAPTURE_TYPE
          (guc_capture_log_get_data_hdr s.buf s.hdr).val.info)
          ⟨(guc_capture_log_get_data_hdr s.buf s.hdr).buf,
            (guc_capture_log_get_data_hdr s.buf s.hdr).val, none,
            (node_continuity oom (FIELD_GET fw.CAP_HDR_CAPTURE_TYPE
              (guc_capture_log_get_data_hdr s.buf s.hdr).val.info)
              s.node s.outlist s.nalloc).2.1,
            (node_continuity oom (FIELD_GET fw.CAP_HDR_CAPTURE_TYPE
              (guc_capture_log_get_data_hdr s.buf s.hdr).val.info)
              s.node s.outlist s.nalloc).2.2, s.ret⟩).2
      rw [f1] at ht
      exact ⟨t, ht⟩

/-- An iteration of the record loop on a complete Global record while a node is in progress,
allocations succeeding: the node is appended and the registers go into a new node. -/
theorem extract_loop_global_step (fw : guc_fwif) (oom : Nat → Bool) (ip : Bool)
    (s : extract_state) (nd : __guc_capture_parsed_output)
    {h : guc_state_capture_header_t} {rs : List guc_mmio_reg} {rest : List Nat}
    (hoom : ∀ i, oom i = false) (hs : s.node = some nd) (hal : ring_aligned s.buf)
    (hh : ring_holds s.buf (enc_hdr h ++ (enc_regs rs ++ rest)))
    (ht : FIELD_GET fw.CAP_HDR_CAPTURE_TYPE h.info = GUC_CAPTURE_LIST_TYPE_GLOBAL)
    (hn : FIELD_GET fw.CAP_HDR_NUM_MMIOS h.num_mmios = rs.length) :
    (extract_loop fw oom ip 1 s).node =
        some ⟨ip, 0, 0, 0, 0, [slot_of fw h rs, zero_reginfo, zero_reginfo]⟩ ∧
      (extract_loop fw oom ip 1 s).outlist = s.outlist ++ [nd] ∧
      (extract_loop fw oom ip 1 s).ret = s.ret := by
  have hgt : ¬ FIELD_GET fw.CAP_HDR_CAPTURE_TYPE h.info >
      GUC_CAPTURE_LIST_TYPE_ENGINE_INSTANCE := by
    rw [ht]
    decide
  obtain ⟨b', k', _, _, e⟩ := extract_loop_known_step fw oom ip s hoom hal hh hgt hn
  have rk := record_step_known fw oom ip hoom s (h, rs) hgt
  simp only at rk
  rw [hs, record_step_global_some fw ip nd s.outlist h rs ht] at rk
  rw [e 0]
  simp only [extract_loop]
  have r1 := congrArg Prod.fst rk
  have r2 := congrArg Prod.snd rk
  simp only at r1 r2
  rw [hs]
  exact ⟨r1, r2, trivial⟩

/-- An iteration of the record loop on a Global record while a node is in progress, for any
allocator and ring content: the node is appended, and the node in progress afterwards (if
any) has empty EngineClass and EngineInstance slots. -/
theorem extract_loop_global_rule (fw : guc_fwif) (oom : Nat → Bool) (ip : Bool) (j : Nat)
    (s : extract_state) (nd : __guc_capture_parsed_output) (hs : s.node = some nd)
    (hr : (guc_capture_log_get_data_hdr s.buf s.hdr).ret = 0)
    (ht : FIELD_GET fw.CAP_HDR_CAPTURE_TYPE (guc_capture_log_get_data_hdr s.buf s.hdr).val.info =
      GUC_CAPTURE_LIST_TYPE_GLOBAL) :
    (extract_loop fw oom ip 1 s).outlist = s.outlist ++ [nd] ∧
      (∃ t, (extract_loop fw oom ip (j + 1) s).outlist = s.outlist ++ nd :: t) ∧
      (∀ nd', (extract_loop fw oom ip 1 s).node = some nd' →
        reginfo_at nd' GUC_CAPTURE_LIST_TYPE_ENGINE_CLASS = zero_reginfo ∧
          reginfo_at nd' GUC_CAPTURE_LIST_TYPE_ENGINE_INSTANCE = zero_reginfo) := by
  have hdt : FIELD_GET fw.CAP_HDR_CAPTURE_TYPE
      (guc_capture_log_get_data_hdr s.buf s.hdr).val.info ≤
      GUC_CAPTURE_LIST_TYPE_ENGINE_INSTANCE := by
    rw [ht]
    decide
  have hnc : node_continuity oom (FIELD_GET fw.CAP_HDR_CAPTURE_TYPE
      (guc_capture_log_get_data_hdr s.buf s.hdr).val.info) s.node s.outlist s.nalloc =
      (none, s.outlist ++ [nd], s.nalloc) := by
    rw [hs, ht]
    simp only [node_continuity, if_true]
  obtain ⟨e1, e2, _, t, e4⟩ := extract_loop_fresh fw oom ip j s hr hdt (by rw [hnc])
  rw [hnc] at e1 e4
  rw [ht] at e2
  refine ⟨e1, ⟨t, ?_⟩, ?_⟩
  · rw [e4]
    simp only [List.append_assoc, List.singleton_append]
  · intro nd' hnd'
    exact ⟨e2 nd' hnd' GUC_CAPTURE_LIST_TYPE_ENGINE_CLASS (by decide) (by decide),
      e2 nd' hnd' GUC_CAPTURE_LIST_TYPE_ENGINE_INSTANCE (by decide) (by decide)⟩

/-- An iteration of the record loop on a repeated EngineClass record when the clone of the
node in progress fails: the node is appended all the same, the node in progress afterwards
(if any) is fresh, and a failed allocation of that node ends the loop with `-ENOMEM`. -/
theorem extract_loop_class_clone_fails (fw : guc_fwif) (oom : Nat → Bool) (ip : Bool)
    (j : Nat) (s : extract_state) (nd : __guc_capture_parsed_output) (hs : s.node = some nd)
    (hr : (guc_capture_log_get_data_hdr s.buf s.hdr).ret = 0)
    (ht : FIELD_GET fw.CAP_HDR_CAPTURE_TYPE (guc_capture_log_get_data_hdr s.buf s.hdr).val.info =
      GUC_CAPTURE_LIST_TYPE_ENGINE_CLASS)
    (hreg : (reginfo_at nd GUC_CAPTURE_LIST_TYPE_ENGINE_CLASS).regs ≠ none)
    (hcl : (guc_capture_clone_node oom s.nalloc (some nd)
      GCAP_PARSED_REGLIST_INDEX_GLOBAL).1 = none) :
    (extract_loop fw oom ip 1 s).outlist = s.outlist ++ [nd] ∧
      (∀ nd', (extract_loop fw oom ip 1 s).node = some nd' →
        reginfo_at nd' GUC_CAPTURE_LIST_TYPE_GLOBAL = zero_reginfo ∧
          reginfo_at nd' GUC_CAPTURE_LIST_TYPE_ENGINE_INSTANCE = zero_reginfo) ∧
      (oom (guc_capture_clone_node oom s.nalloc (some nd)
          GCAP_PARSED_REGLIST_INDEX_GLOBAL).2 = true →
        (extract_loop fw oom ip (j + 1) s).ret = - ENOMEM ∧
          (extract_loop fw oom ip (j + 1) s).node = none ∧
          (extract_loop fw oom ip (j + 1) s).outlist = s.outlist ++ [nd]) := by
  have hdt : FIELD_GET fw.CAP_HDR_CAPTURE_TYPE
      (guc_capture_log_get_data_hdr s.buf s.hdr).val.info ≤
      GUC_CAPTURE_LIST_TYPE_ENGINE_INSTANCE := by
    rw [ht]
    decide
  have hnc : node_continuity oom (FIELD_GET fw.CAP_HDR_CAPTURE_TYPE
      (guc_capture_log_get_data_hdr s.buf s.hdr).val.info) s.node s.outlist s.nalloc =
      ((guc_capture_clone_node oom s.nalloc (some nd) GCAP_PARSED_REGLIST_INDEX_GLOBAL).1,
        s.outlist ++ [nd],
        (guc_capture_clone_node oom s.nalloc (some nd) GCAP_PARSED_REGLIST_INDEX_GLOBAL).2) := by
    rw [hs, ht]
    simp only [node_continuity]
    rw [if_neg (by decide), if_pos ⟨trivial, hreg⟩]
  obtain ⟨e1, e2, e3, _⟩ := extract_loop_fresh fw oom ip j s hr hdt (by rw [hnc]; exact hcl)
  rw [hnc] at e1 e3
  rw [ht] at e2
  refine ⟨e1, ?_, e3⟩
  intro nd' hnd'
  exact ⟨e2 nd' hnd' GUC_CAPTURE_LIST_TYPE_GLOBAL (by decide) (by decide),
    e2 nd' hnd' GUC_CAPTURE_LIST_TYPE_ENGINE_INSTANCE (by decide) (by decide)⟩

/-- An iteration of the record loop on a repeated EngineInstance record when the clone of the
node in progress fails: the node is appended all the same, the node in progress afterwards
(if any) is fresh, and a failed allocation of that node ends the loop with `-ENOMEM`. -/
theorem extract_loop_inst_clone_fails (fw : guc_fwif) (oom : Nat → Bool) (ip : Bool)
    (j : Nat) (s : extract_state) (nd : __guc_capture_parsed_output) (hs : s.node = some nd)
    (hr : (guc_capture_log_get_data_hdr s.buf s.hdr).ret = 0)
    (ht : FIELD_GET fw.CAP_HDR_CAPTURE_TYPE (guc_capture_log_get_data_hdr s.buf s.hdr).val.info =
      GUC_CAPTURE_LIST_TYPE_ENGINE_INSTANCE)
    (hreg : (reginfo_at nd GUC_CAPTURE_LIST_TYPE_ENGINE_INSTANCE).regs ≠ none)
    (hcl : (guc_capture_clone_node oom s.nalloc (some nd)
      (GCAP_PARSED_REGLIST_INDEX_GLOBAL ||| GCAP_PARSED_REGLIST_INDEX_ENGCLASS)).1 = none) :
    (extract_loop fw oom ip 1 s).outlist = s.outlist ++ [nd] ∧
      (∀ nd', (extract_loop fw oom ip 1 s).node = some nd' →
        reginfo_at nd' GUC_CAPTURE_LIST_TYPE_GLOBAL = zero_reginfo ∧
          reginfo_at nd' GUC_CAPTURE_LIST_TYPE_ENGINE_CLASS = zero_reginfo) ∧
      (oom (guc_capture_clone_node oom s.nalloc (some nd)
          (GCAP_PARSED_REGLIST_INDEX_GLOBAL ||| GCAP_PARSED_REGLIST_INDEX_ENGCLASS)).2 = true →
        (extract_loop fw oom ip (j + 1) s).ret = - ENOMEM ∧
          (extract_loop fw oom ip (j + 1) s).node = none ∧
          (extract_loop fw oom ip (j + 1) s).outlist = s.outlist ++ [nd]) := by
  have hdt : FIELD_GET fw.CAP_HDR_CAPTURE_TYPE
      (guc_capture_log_get_data_hdr s.buf s.hdr).val.info ≤
      GUC_CAPTURE_LIST_TYPE_ENGINE_INSTANCE := by
    rw [ht]
  have hnc : node_continuity oom (FIELD_GET fw.CAP_HDR_CAPTURE_TYPE
      (guc_capture_log_get_data_hdr s.buf s.hdr).val.info) s.node s.outlist s.nalloc =
      ((guc_capture_clone_node oom s.nalloc (some nd)
          (GCAP_PARSED_REGLIST_INDEX_GLOBAL ||| GCAP_PARSED_REGLIST_INDEX_ENGCLASS)).1,
        s.outlist ++ [nd],
        (guc_capture_clone_node oom s.nalloc (some nd)
          (GCAP_PARSED_REGLIST_INDEX_GLOBAL ||| GCAP_PARSED_REGLIST_INDEX_ENGCLASS)).2) := by
    rw [hs, ht]
    simp only [node_continuity]
    rw [if_neg (by decide), if_neg (fun h => absurd h.1 (by decide)),
      if_pos ⟨trivial, hreg⟩]
  obtain ⟨e1, e2, e3, _⟩ := extract_loop_fresh fw oom ip j s hr hdt (by rw [hnc]; exact hcl)
  rw [hnc] at e1 e3
  rw [ht] at e2
  refine ⟨e1, ?_, e3⟩
  intro nd' hnd'
  exact ⟨e2 nd' hnd' GUC_CAPTURE_LIST_TYPE_GLOBAL (by decide) (by decide),
    e2 nd' hnd' GUC_CAPTURE_LIST_TYPE_ENGINE_CLASS (by decide) (by decide)⟩

/-! ## Claims -/

/-- **C1** (group accounting).  On a dword-aligned ring that holds a complete capture
group (a group header declaring `N` captures, then `N` data headers each followed by exactly
its declared number of register records), with every allocation succeeding, one call of
`guc_capture_extract_reglists` returns 0 and lowers the available byte count by exactly
`8 + Σ (20 + 16 * num_mmios_i)`, whatever the capture-type tags of the records are. -/
theorem C1_group_accounting (fw : guc_fwif) (oom : Nat → Bool) (k : Nat)
    (b : __guc_capture_bufstate) (outlist : List __guc_capture_parsed_output)
    (g : guc_state_capture_group_header_t)
    (recs : List (guc_state_capture_header_t × List guc_mmio_reg))
    (hal : ring_aligned b) (hoom : ∀ i, oom i = false)
    (hN : FIELD_GET fw.CAP_GRP_HDR_NUM_CAPTURES g.info = recs.length)
    (hn : ∀ r ∈ recs, FIELD_GET fw.CAP_HDR_NUM_MMIOS r.1.num_mmios = r.2.length)
    (hh : ring_holds b (enc_group g recs)) :
    (guc_capture_extract_reglists fw oom k b outlist).ret = 0 ∧
      guc_capture_buf_cnt (guc_capture_extract_reglists fw oom k b outlist).buf +
          (8 + (recs.map (fun r => 20 + 16 * r.2.length)).sum) =
        guc_capture_buf_cnt b := by
  obtain ⟨e, a, _⟩ := extract_reglists_complete fw oom k b outlist g recs hal hoom hN hn hh
  exact ⟨e, a.2.2.2.2.2⟩

theorem C1_group_accounting_witness :
    (guc_capture_extract_reglists fwif_upstream (fun _ => false) 0
        (ring_with 64 52 (le_bytes (enc_group example_group_hdr example_recs))) []).ret = 0 ∧
      guc_capture_buf_cnt (guc_capture_extract_reglists fwif_upstream (fun _ => false) 0
        (ring_with 64 52 (le_bytes (enc_group example_group_hdr example_recs))) []).buf +
          (8 + (example_recs.map (fun r => 20 + 16 * r.2.length)).sum) =
        guc_capture_buf_cnt
          (ring_with 64 52 (le_bytes (enc_group example_group_hdr example_recs))) :=
  C1_group_accounting fwif_upstream (fun _ => false) 0
    (ring_with 64 52 (le_bytes (enc_group example_group_hdr example_recs))) []
    example_group_hdr example_recs (by unfold ring_aligned; decide) (fun _ => rfl)
    (by decide) (by decide) (by unfold ring_holds; decide)

/-- **C2** (node splitting, amended).  For every complete capture group whose five records
are, in order, Global, EngineClass (Class1), EngineInstance (Instance1), EngineClass (Class2),
EngineInstance (Instance2), each declaring at least one register, held by a dword-aligned
ring, with every allocation succeeding, the parse pass returns 0 and appends exactly two
nodes: `[Global + Class1 + Instance1]` and `[Global (clone) + Class2 + Instance2]`. -/
theorem C2_node_splitting (fw : guc_fwif) (oom : Nat → Bool) (k : Nat)
    (b : __guc_capture_bufstate) (outlist : List __guc_capture_parsed_output)
    (g : guc_state_capture_group_header_t)
    (hG hC1 hI1 hC2 hI2 : guc_state_capture_header_t)
    (rG rC1 rI1 rC2 rI2 : List guc_mmio_reg)
    (hal : ring_aligned b) (hoom : ∀ i, oom i = false)
    (hN : FIELD_GET fw.CAP_GRP_HDR_NUM_CAPTURES g.info = 5)
    (tG : FIELD_GET fw.CAP_HDR_CAPTURE_TYPE hG.info = GUC_CAPTURE_LIST_TYPE_GLOBAL)
    (tC1 : FIELD_GET fw.CAP_HDR_CAPTURE_TYPE hC1.info = GUC_CAPTURE_LIST_TYPE_ENGINE_CLASS)
    (tI1 : FIELD_GET fw.CAP_HDR_CAPTURE_TYPE hI1.info = GUC_CAPTURE_LIST_TYPE_ENGINE_INSTANCE)
    (tC2 : FIELD_GET fw.CAP_HDR_CAPTURE_TYPE hC2.info = GUC_CAPTURE_LIST_TYPE_ENGINE_CLASS)
    (tI2 : FIELD_GET fw.CAP_HDR_CAPTURE_TYPE hI2.info = GUC_CAPTURE_LIST_TYPE_ENGINE_INSTANCE)
    (nG : FIELD_GET fw.CAP_HDR_NUM_MMIOS hG.num_mmios = rG.length) (pG : 0 < rG.length)
    (nC1 : FIELD_GET fw.CAP_HDR_NUM_MMIOS hC1.num_mmios = rC1.length) (pC1 : 0 < rC1.length)
    (nI1 : FIELD_GET fw.CAP_HDR_NUM_MMIOS hI1.num_mmios = rI1.length) (pI1 : 0 < rI1.length)
    (nC2 : FIELD_GET fw.CAP_HDR_NUM_MMIOS hC2.num_mmios = rC2.length) (pC2 : 0 < rC2.length)
    (nI2 : FIELD_GET fw.CAP_HDR_NUM_MMIOS hI2.num_mmios = rI2.length) (pI2 : 0 < rI2.length)
    (hh : ring_holds b
      (enc_group g [(hG, rG), (hC1, rC1), (hI1, rI1), (hC2, rC2), (hI2, rI2)])) :
    (guc_capture_extract_reglists fw oom k b outlist).ret = 0 ∧
      (guc_capture_extract_reglists fw oom k b outlist).outlist = outlist ++
        [{ is_partial := decide (FIELD_GET fw.CAP_GRP_HDR_CAPTURE_TYPE g.info ≠ 0)
           eng_class := FIELD_GET fw.CAP_HDR_ENGINE_CLASS hI1.info
           eng_inst := FIELD_GET fw.CAP_HDR_ENGINE_INSTANCE hI1.info
           guc_id := hI1.guc_id
           lrca := hI1.lrca
           reginfo := [⟨FIELD_GET fw.CAP_HDR_CAPTURE_VFID hG.owner, rG.length, some rG⟩,
             ⟨FIELD_GET fw.CAP_HDR_CAPTURE_VFID hC1.owner, rC1.length, some rC1⟩,
             ⟨FIELD_GET fw.CAP_HDR_CAPTURE_VFID hI1.owner, rI1.length, some rI1⟩] },
         { is_partial := decide (FIELD_GET fw.CAP_GRP_HDR_CAPTURE_TYPE g.info ≠ 0)
           eng_class := FIELD_GET fw.CAP_HDR_ENGINE_CLASS hI2.info
           eng_inst := FIELD_GET fw.CAP_HDR_ENGINE_INSTANCE hI2.info
           guc_id := hI2.guc_id
           lrca := hI2.lrca
           reginfo := [⟨FIELD_GET fw.CAP_HDR_CAPTURE_VFID hG.owner, rG.length, some rG⟩,
             ⟨FIELD_GET fw.CAP_HDR_CAPTURE_VFID hC2.owner, rC2.length, some rC2⟩,
             ⟨FIELD_GET fw.CAP_HDR_CAPTURE_VFID hI2.owner, rI2.length, some rI2⟩] }] := by
  obtain ⟨e, _, f⟩ := extract_reglists_complete fw oom k b outlist g
    [(hG, rG), (hC1, rC1), (hI1, rI1), (hC2, rC2), (hI2, rI2)] hal hoom hN
    (by simp [nG, nC1, nI1, nC2, nI2]) hh
  refine ⟨e, ?_⟩
  rw [f]
  simp only [List.foldl_cons, List.foldl_nil]
  rw [record_step_global_none fw _ _ _ _ tG,
    record_step_class_cont fw _ _ _ _ _ _ _ _ _ _ _ _ tC1 rfl,
    record_step_inst_cont fw _ _ _ _ _ _ _ _ _ _ _ _ tI1 rfl,
    slot_of_regs fw hG rG pG, slot_of_regs fw hC1 rC1 pC1, slot_of_regs fw hI1 rI1 pI1,
    record_step_class_split fw _ _ _ _ _ _ _ _ _ _ _ _ tC2 (by simp),
    record_step_inst_cont fw _ _ _ _ _ _ _ _ _ _ _ _ tI2 rfl,
    slot_of_regs fw hC2 rC2 pC2, slot_of_regs fw hI2 rI2 pI2,
    extract_bailout_global _ _ (by simp [reginfo_at]), copy_regs_self]
  simp

set_option maxRecDepth 1000000 in
theorem C2_node_splitting_witness :
    (guc_capture_extract_reglists fwif_upstream (fun _ => false) 0 example5_ring []).ret = 0 ∧
      (guc_capture_extract_reglists fwif_upstream (fun _ => false) 0 example5_ring []).outlist =
        [] ++
        [{ is_partial := decide (FIELD_GET fwif_upstream.CAP_GRP_HDR_CAPTURE_TYPE 261 ≠ 0)
           eng_class := FIELD_GET fwif_upstream.CAP_HDR_ENGINE_CLASS 530
           eng_inst := FIELD_GET fwif_upstream.CAP_HDR_ENGINE_INSTANCE 530
           guc_id := 187
           lrca := 170
           reginfo := [⟨FIELD_GET fwif_upstream.CAP_HDR_CAPTURE_VFID 9, 1,
               some [⟨100, 101, 102, 103⟩]⟩,
             ⟨FIELD_GET fwif_upstream.CAP_HDR_CAPTURE_VFID 9, 1, some [⟨110, 111, 112, 113⟩]⟩,
             ⟨FIELD_GET fwif_upstream.CAP_HDR_CAPTURE_VFID 9, 1,
               some [⟨120, 121, 122, 123⟩]⟩] },
         { is_partial := decide (FIELD_GET fwif_upstream.CAP_GRP_HDR_CAPTURE_TYPE 261 ≠ 0)
           eng_class := FIELD_GET fwif_upstream.CAP_HDR_ENGINE_CLASS 802
           eng_inst := FIELD_GET fwif_upstream.CAP_HDR_ENGINE_INSTANCE 802
           guc_id := 221
           lrca := 204
           reginfo := [⟨FIELD_GET fwif_upstream.CAP_HDR_CAPTURE_VFID 9, 1,
               some [⟨100, 101, 102, 103⟩]⟩,
             ⟨FIELD_GET fwif_upstream.CAP_HDR_CAPTURE_VFID 9, 1, some [⟨130, 131, 132, 133⟩]⟩,
             ⟨FIELD_GET fwif_upstream.CAP_HDR_CAPTURE_VFID 9, 1,
               some [⟨140, 141, 142, 143⟩]⟩] }] :=
  C2_node_splitting fwif_upstream (fun _ => false) 0 example5_ring []
    example5_group_hdr ⟨9, 0, 0, 0, 1⟩ ⟨9, 17, 0, 0, 1⟩ ⟨9, 530, 170, 187, 1⟩ ⟨9, 33, 0, 0, 1⟩
    ⟨9, 802, 204, 221, 1⟩ [⟨100, 101, 102, 103⟩] [⟨110, 111, 112, 113⟩] [⟨120, 121, 122, 123⟩]
    [⟨130, 131, 132, 133⟩] [⟨140, 141, 142, 143⟩]
    (by unfold ring_aligned; decide) (fun _ => rfl) (by decide) (by decide) (by decide)
    (by decide) (by decide) (by decide) (by decide) (by decide) (by decide) (by decide)
    (by decide) (by decide) (by decide) (by decide) (by decide) (by decide)
    (by unfold ring_holds; decide)

set_option maxRecDepth 1000000 in
/-- Counterexample to C2 as stated: on the example group Global, Class, Instance, Class,
Instance the pass appends two nodes, not three. -/
theorem C2_counterexample :
    (guc_capture_extract_reglists fwif_upstream (fun _ => false) 0
        example5_ring []).outlist.length = 2 ∧
      ¬ (guc_capture_extract_reglists fwif_upstream (fun _ => false) 0
        example5_ring []).outlist.length = 3 := by
  decide

/-- **C3** (straddling scenario, amended).  For every ring size that is a multiple of 4 and
larger than 60, with the 60 bytes of `[GroupHeader{num_captures=1},
DataHeader{type=Global, num_mmios=2}, reg0, reg1]` written from read offset `size-12` on and
wrapping to the start of the ring, one parse pass returns 0, appends exactly one node whose
Global slot holds the two registers `reg0`, `reg1` (Class and Instance slots empty), and
leaves the read offset at `(size-12+60) mod size = 48`: the pass consumes the two 16-byte
register records as well. -/
theorem C3_straddling_scenario (fw : guc_fwif) (oom : Nat → Bool) (k : Nat)
    (size : Nat) (data : Nat → Nat) (outlist : List __guc_capture_parsed_output)
    (g : guc_state_capture_group_header_t) (h : guc_state_capture_header_t)
    (reg0 reg1 : guc_mmio_reg)
    (hs4 : size % 4 = 0) (hs : 60 < size) (hoom : ∀ i, oom i = false)
    (hN : FIELD_GET fw.CAP_GRP_HDR_NUM_CAPTURES g.info = 1)
    (ht : FIELD_GET fw.CAP_HDR_CAPTURE_TYPE h.info = GUC_CAPTURE_LIST_TYPE_GLOBAL)
    (hn : FIELD_GET fw.CAP_HDR_NUM_MMIOS h.num_mmios = 2)
    (hh : ring_holds ⟨size, data, size - 12, 48⟩ (enc_group g [(h, [reg0, reg1])])) :
    (guc_capture_extract_reglists fw oom k ⟨size, data, size - 12, 48⟩ outlist).ret = 0 ∧
      (guc_capture_extract_reglists fw oom k ⟨size, data, size - 12, 48⟩ outlist).outlist =
        outlist ++
          [{ is_partial := decide (FIELD_GET fw.CAP_GRP_HDR_CAPTURE_TYPE g.info ≠ 0)
             eng_class := 0
             eng_inst := 0
             guc_id := 0
             lrca := 0
             reginfo := [⟨FIELD_GET fw.CAP_HDR_CAPTURE_VFID h.owner, 2, some [reg0, reg1]⟩,
               ⟨0, 0, none⟩, ⟨0, 0, none⟩] }] ∧
      (guc_capture_extract_reglists fw oom k ⟨size, data, size - 12, 48⟩ outlist).buf.rd =
        (size - 12 + 60) % size ∧
      (size - 12 + 60) % size = 48 := by
  have hal : ring_aligned ⟨size, data, size - 12, 48⟩ := by
    refine ⟨hs4, ?_, ?_, ?_, ?_⟩ <;> simp only <;> omega
  obtain ⟨e, a, f⟩ := extract_reglists_complete fw oom k ⟨size, data, size - 12, 48⟩ outlist g
    [(h, [reg0, reg1])] hal hoom hN (by simp [hn]) hh
  have h48 : (size - 12 + 60) % size = 48 := by
    rw [show size - 12 + 60 = size + 48 by omega, Nat.add_mod_left]
    exact Nat.mod_eq_of_lt (by omega)
  refine ⟨e, ?_, ?_, h48⟩
  · rw [f]
    simp only [List.foldl_cons, List.foldl_nil]
    rw [record_step_global_none fw _ _ _ _ ht, slot_of_regs fw h [reg0, reg1] (by simp),
      extract_bailout_global _ _ (by simp [reginfo_at])]
    rfl
  · obtain ⟨hsz, _, _, hal', hrd, _⟩ := a
    simp only at hsz
    simp only [List.map_cons, List.map_nil, List.sum_cons, List.sum_nil, List.length_cons,
      List.length_nil] at hrd
    rw [show size - 12 + (8 + (20 + 16 * (0 + 1 + 1) + 0)) = size - 12 + 60 by omega, h48] at hrd
    rw [h48]
    generalize (guc_capture_extract_reglists fw oom k ⟨size, data, size - 12, 48⟩ outlist).buf
      = b' at hal' hrd hsz
    obtain ⟨_, _, _, h4, _⟩ := hal'
    rcases Nat.lt_or_ge b'.rd size with hlt | hge
    · rwa [Nat.mod_eq_of_lt hlt] at hrd
    · have he : b'.rd = size := by omega
      rw [he, Nat.mod_self] at hrd
      omega

set_option maxRecDepth 1000000 in
theorem C3_straddling_scenario_witness :
    (guc_capture_extract_reglists fwif_upstream (fun _ => false) 0
        ⟨64, (ring_with 64 52 (le_bytes (enc_group example_group_hdr example_recs))).data,
          64 - 12, 48⟩ []).ret = 0 ∧
      (guc_capture_extract_reglists fwif_upstream (fun _ => false) 0
        ⟨64, (ring_with 64 52 (le_bytes (enc_group example_group_hdr example_recs))).data,
          64 - 12, 48⟩ []).outlist =
        [] ++
          [{ is_partial := decide (FIELD_GET fwif_upstream.CAP_GRP_HDR_CAPTURE_TYPE 1 ≠ 0)
             eng_class := 0
             eng_inst := 0
             guc_id := 0
             lrca := 0
             reginfo := [⟨FIELD_GET fwif_upstream.CAP_HDR_CAPTURE_VFID 9, 2,
                 some [⟨100, 101, 102, 103⟩, ⟨200, 201, 202, 203⟩]⟩,
               ⟨0, 0, none⟩, ⟨0, 0, none⟩] }] ∧
      (guc_capture_extract_reglists fwif_upstream (fun _ => false) 0
        ⟨64, (ring_with 64 52 (le_bytes (enc_group example_group_hdr example_recs))).data,
          64 - 12, 48⟩ []).buf.rd = (64 - 12 + 60) % 64 ∧
      (64 - 12 + 60) % 64 = 48 :=
  C3_straddling_scenario fwif_upstream (fun _ => false) 0 64
    (ring_with 64 52 (le_bytes (enc_group example_group_hdr example_recs))).data []
    example_group_hdr ⟨9, 0, 4369, 8738, 2⟩ ⟨100, 101, 102, 103⟩ ⟨200, 201, 202, 203⟩
    (by decide) (by decide) (fun _ => rfl) (by decide) (by decide) (by decide)
    (by unfold ring_holds; decide)

set_option maxRecDepth 1000000 in
/-- Counterexample to C3 as stated: in a 64-byte ring the read offset ends at 48, not at
`(64 - 12 + 28) mod 64 = 16`. -/
theorem C3_counterexample :
    (guc_capture_extract_reglists fwif_upstream (fun _ => false) 0
        ⟨64, (ring_with 64 52 (le_bytes (enc_group example_group_hdr example_recs))).data,
          64 - 12, 48⟩ []).buf.rd = 48 ∧
      ¬ (guc_capture_extract_reglists fwif_upstream (fun _ => false) 0
        ⟨64, (ring_with 64 52 (le_bytes (enc_group example_group_hdr example_recs))).data,
          64 - 12, 48⟩ []).buf.rd = (64 - 12 + 28) % 64 := by
  decide

/-- **C4** (ring wraparound).  On a ring whose size, read offset and write offset are
multiples of 4 with `wr < rd ≤ size`, `k = available / 4` calls of
`guc_capture_log_remove_dw` each return 4 and yield, in order, exactly the dwords of the
reference buffer `data[rd..size) ++ data[0..wr)`; the next call returns 0. -/
theorem C4_ring_wraparound (b : __guc_capture_bufstate)
    (hs : b.size % 4 = 0) (hr : b.rd % 4 = 0) (hw : b.wr % 4 = 0)
    (hwr : b.wr < b.rd) (hrs : b.rd ≤ b.size) :
    (read_dwords (guc_capture_buf_cnt b / 4) b).1 =
        (dwords_of (ref_bytes b)).map (fun d => (4, d)) ∧
      (guc_capture_log_remove_dw (read_dwords (guc_capture_buf_cnt b / 4) b).2 0).ret = 0 := by
  have hal : ring_aligned b := ⟨hs, hr, hw, hrs, by omega⟩
  have hc4 := cnt_aligned hal
  obtain ⟨l, a⟩ := read_dwords_aligned (guc_capture_buf_cnt b / 4) b hal (by omega)
  refine ⟨?_, ?_⟩
  · rw [l, dwords_of_ref hal hwr, List.map_map]
    rfl
  · have hz : guc_capture_buf_cnt (read_dwords (guc_capture_buf_cnt b / 4) b).2 = 0 := by
      have := a.2.2.2.2.2
      omega
    simp only [guc_capture_log_remove_dw, hz, if_true]

theorem C4_ring_wraparound_witness :
    (read_dwords (guc_capture_buf_cnt example_wrap_ring / 4) example_wrap_ring).1 =
        (dwords_of (ref_bytes example_wrap_ring)).map (fun d => (4, d)) ∧
      (guc_capture_log_remove_dw
        (read_dwords (guc_capture_buf_cnt example_wrap_ring / 4) example_wrap_ring).2 0).ret
        = 0 :=
  C4_ring_wraparound example_wrap_ring (by decide) (by decide) (by decide) (by decide)
    (by decide)

/-- **C5** (record straddle, amended).  When a 20-byte capture data header starts at a
dword-aligned read offset of a dword-aligned ring (for instance at `S-8`, where it straddles
the wrap point), `guc_capture_log_get_data_hdr` succeeds and returns the same five fields as
it returns on a ring that stores the same 20 bytes contiguously. -/
theorem C5_record_straddle (b1 b2 : __guc_capture_bufstate)
    (old1 old2 : guc_state_capture_header_t)
    (hal : ring_aligned b1) (hc : 20 ≤ guc_capture_buf_cnt b1)
    (hc2 : 20 ≤ guc_capture_buf_cnt_to_end b2)
    (hsame : ∀ j, j < 20 → ring_byte b1 j = b2.data (b2.rd + j)) :
    (guc_capture_log_get_data_hdr b1 old1).ret = 0 ∧
      (guc_capture_log_get_data_hdr b2 old2).ret = 0 ∧
      (guc_capture_log_get_data_hdr b1 old1).val = (guc_capture_log_get_data_hdr b2 old2).val := by
  obtain ⟨e, v, _⟩ := get_data_hdr_aligned old1 hal hc
  have hpos : 0 < b1.size := by
    obtain ⟨h1, h2, h3, h4, h5⟩ := hal
    unfold guc_capture_buf_cnt at hc
    split at hc <;> omega
  have hcnt2 : ¬ 20 > guc_capture_buf_cnt b2 := by
    unfold guc_capture_buf_cnt_to_end at hc2
    unfold guc_capture_buf_cnt
    split at hc2 <;> split <;> omega
  have e2 : guc_capture_log_get_data_hdr b2 old2 =
      ⟨0, ⟨get_u32 b2.data (b2.rd + 0), get_u32 b2.data (b2.rd + 4), get_u32 b2.data (b2.rd + 8),
        get_u32 b2.data (b2.rd + 12), get_u32 b2.data (b2.rd + 16)⟩,
        { b2 with rd := b2.rd + 20 }⟩ := by
    simp only [guc_capture_log_get_data_hdr, if_neg hcnt2, guc_capture_data_extracted,
      ge_iff_le, hc2, if_true, get_u32_img]
  refine ⟨e, by rw [e2], ?_⟩
  rw [v, e2]
  simp only [ring_dw_bytes hal hpos, get_u32, Nat.mul_zero, Nat.mul_one, Nat.zero_add,
    hsame 0 (by omega), hsame 1 (by omega), hsame 2 (by omega), hsame 3 (by omega),
    hsame 4 (by omega), hsame 5 (by omega), hsame 6 (by omega), hsame 7 (by omega),
    hsame 8 (by omega), hsame 9 (by omega), hsame 10 (by omega), hsame 11 (by omega),
    hsame 12 (by omega), hsame 13 (by omega), hsame 14 (by omega), hsame 15 (by omega),
    hsame 16 (by omega), hsame 17 (by omega), hsame 18 (by omega), hsame 19 (by omega),
    Nat.add_assoc, Nat.reduceAdd, Nat.reduceMul, Nat.add_zero]

theorem C5_record_straddle_witness :
    (guc_capture_log_get_data_hdr (ring_with 24 16 example_hdr_bytes) ⟨0, 0, 0, 0, 0⟩).ret = 0 ∧
      (guc_capture_log_get_data_hdr (ring_with 24 0 example_hdr_bytes) ⟨0, 0, 0, 0, 0⟩).ret
        = 0 ∧
      (guc_capture_log_get_data_hdr (ring_with 24 16 example_hdr_bytes) ⟨0, 0, 0, 0, 0⟩).val =
        (guc_capture_log_get_data_hdr (ring_with 24 0 example_hdr_bytes) ⟨0, 0, 0, 0, 0⟩).val :=
  C5_record_straddle (ring_with 24 16 example_hdr_bytes) (ring_with 24 0 example_hdr_bytes)
    ⟨0, 0, 0, 0, 0⟩ ⟨0, 0, 0, 0, 0⟩ (by unfold ring_aligned; decide) (by decide) (by decide)
    (by decide)

/-- Counterexample to C5 as stated: in a 24-byte ring with the header at read offset
`24 - 7 = 17` (write offset 13) the reader returns 0, but its `info`, `lrca`, `guc_id` and
`num_mmios` differ from those of the same 20 bytes stored contiguously at offset 0. -/
theorem C5_counterexample :
    (ring_with 24 17 example_hdr_bytes).wr = 13 ∧
      (guc_capture_log_get_data_hdr (ring_with 24 17 example_hdr_bytes) ⟨0, 0, 0, 0, 0⟩).ret
        = 0 ∧
      (guc_capture_log_get_data_hdr (ring_with 24 0 example_hdr_bytes) ⟨0, 0, 0, 0, 0⟩).ret
        = 0 ∧
      (guc_capture_log_get_data_hdr (ring_with 24 17 example_hdr_bytes) ⟨0, 0, 0, 0, 0⟩).val ≠
        (guc_capture_log_get_data_hdr (ring_with 24 0 example_hdr_bytes) ⟨0, 0, 0, 0, 0⟩).val := by
  decide

/-- **C6** (cache idempotence).  If a `get_list` call succeeds, a second call with the same
key returns the same status and the same buffer (address and content), takes both from the
cache entry of the key, leaves the capture state unchanged, and would return the same even
if the catalog and the steering lists were replaced by any others: it does not look at
them. -/
theorem C6_cache_idempotence (PAGE_SIZE : Nat) (gc : intel_guc_state_capture)
    (owner type classid : Nat) (kz1 kz2 : Nat → Option Nat)
    (h1 : (intel_guc_capture_getlist PAGE_SIZE gc owner type classid kz1).ret = 0) :
    (intel_guc_capture_getlist PAGE_SIZE
        (intel_guc_capture_getlist PAGE_SIZE gc owner type classid kz1).gc
        owner type classid kz2).ret =
        (intel_guc_capture_getlist PAGE_SIZE gc owner type classid kz1).ret ∧
      (intel_guc_capture_getlist PAGE_SIZE
        (intel_guc_capture_getlist PAGE_SIZE gc owner type classid kz1).gc
        owner type classid kz2).outptr =
        (intel_guc_capture_getlist PAGE_SIZE gc owner type classid kz1).outptr ∧
      (intel_guc_capture_getlist PAGE_SIZE
        (intel_guc_capture_getlist PAGE_SIZE gc owner type classid kz1).gc
        owner type classid kz2).gc =
        (intel_guc_capture_getlist PAGE_SIZE gc owner type classid kz1).gc ∧
      (intel_guc_capture_getlist PAGE_SIZE
        (intel_guc_capture_getlist PAGE_SIZE gc owner type classid kz1).gc
        owner type classid kz2).ret =
        ((intel_guc_capture_getlist PAGE_SIZE gc owner type classid kz1).gc.ads_cache
          owner type classid).status ∧
      (intel_guc_capture_getlist PAGE_SIZE
        (intel_guc_capture_getlist PAGE_SIZE gc owner type classid kz1).gc
        owner type classid kz2).outptr =
        some ((intel_guc_capture_getlist PAGE_SIZE gc owner type classid kz1).gc.ads_cache
          owner type classid).ptr ∧
      ∀ (reglists : List __guc_mmio_reg_descr_group)
        (extlists : Option (List __guc_mmio_reg_descr_group)) (kz3 : Nat → Option Nat),
        (intel_guc_capture_getlist PAGE_SIZE
          { (intel_guc_capture_getlist PAGE_SIZE gc owner type classid kz1).gc with
            reglists := some reglists, extlists := extlists } owner type classid kz3).ret =
          (intel_guc_capture_getlist PAGE_SIZE gc owner type classid kz1).ret ∧
        (intel_guc_capture_getlist PAGE_SIZE
          { (intel_guc_capture_getlist PAGE_SIZE gc owner type classid kz1).gc with
            reglists := some reglists, extlists := extlists } owner type classid kz3).outptr =
          (intel_guc_capture_getlist PAGE_SIZE gc owner type classid kz1).outptr := by
  have hdev : (- ENODEV : Int) ≠ 0 := by decide
  have hdat : (- ENODATA : Int) ≠ 0 := by decide
  have hmem : (- ENOMEM : Int) ≠ 0 := by decide
  obtain ⟨rl0, xl0, cache0⟩ := gc
  cases hcat : rl0.isNone with
  | true =>
    simp only [intel_guc_capture_getlist, hcat, if_true] at h1
    exact absurd h1 hdev
  | false =>
    cases hv : (cache0 owner type classid).is_valid with
    | true =>
      rw [getlist_cached PAGE_SIZE ⟨rl0, xl0, cache0⟩ owner type classid kz1 hcat hv] at h1 ⊢
      simp only at h1 ⊢
      rw [getlist_cached PAGE_SIZE ⟨rl0, xl0, cache0⟩ owner type classid kz2 hcat hv]
      refine ⟨rfl, rfl, rfl, rfl, rfl, ?_⟩
      intro rl xl kz3
      rw [getlist_cached PAGE_SIZE ⟨some rl, xl, cache0⟩ owner type classid kz3 rfl hv]
      exact ⟨rfl, rfl⟩
    | false =>
      rcases getlist_fresh PAGE_SIZE ⟨rl0, xl0, cache0⟩ owner type classid kz1 hcat hv with
        ⟨_, e⟩ | ⟨_, _, e⟩ | ⟨_, buf, _, _, e⟩
      · rw [e] at h1
        exact absurd h1 hdat
      · rw [e] at h1
        exact absurd h1 hmem
      · rw [e]
        simp only
        generalize hsz : PAGE_ALIGN PAGE_SIZE
          (4 + guc_cap_list_num_regs ⟨rl0, xl0, cache0⟩ owner type classid * 16) = sz
        have hv2 : (ads_cache_set cache0 owner type classid ⟨true, some buf, sz, 0⟩
            owner type classid).is_valid = true := by
          simp only [ads_cache_set_same]
        rw [getlist_cached PAGE_SIZE
          ⟨rl0, xl0, ads_cache_set cache0 owner type classid ⟨true, some buf, sz, 0⟩⟩
          owner type classid kz2 hcat hv2]
        simp only [ads_cache_set_same, true_and]
        intro rl xl kz3
        rw [getlist_cached PAGE_SIZE
          ⟨some rl, xl, ads_cache_set cache0 owner type classid ⟨true, some buf, sz, 0⟩⟩
          owner type classid kz3 rfl hv2]
        simp only [ads_cache_set_same, and_self]

theorem C6_cache_idempotence_witness :
    (intel_guc_capture_getlist 4096
        (intel_guc_capture_getlist 4096 example_capture 0 0 0 example_kzalloc).gc
        0 0 0 example_kzalloc).outptr =
      (intel_guc_capture_getlist 4096 example_capture 0 0 0 example_kzalloc).outptr :=
  (C6_cache_idempotence 4096 example_capture 0 0 0 example_kzalloc example_kzalloc
    (by decide)).2.1


/-- **C7** (errors of `get_list`, amended).  Let a `get_list` call return an error.
Without a catalog the error is `-ENODEV`, nothing is stored and nothing is recorded.  With a
catalog and an entry that is not valid yet, a key with registers means the allocation failed:
the call returns `-ENOMEM` and records nothing, so a later call tries again; a key without
registers is a catalog miss: the call returns `-ENODATA` and the entry becomes valid with a
null buffer, size 0 and that status.  Whenever the entry was valid already or the key has no
registers, the entry is valid afterwards with the returned status, and after any further
`get_list` calls the next call with the same key returns that same status and the recorded
buffer pointer from the cache. -/
theorem C7_errors_recorded (PAGE_SIZE : Nat) (gc : intel_guc_state_capture)
    (owner type classid : Nat) (kz kz' : Nat → Option Nat)
    (ops : List (Nat × Nat × Nat × (Nat → Option Nat)))
    (herr : (intel_guc_capture_getlist PAGE_SIZE gc owner type classid kz).ret ≠ 0) :
    (gc.reglists.isNone = true →
      (intel_guc_capture_getlist PAGE_SIZE gc owner type classid kz).ret = - ENODEV ∧
      (intel_guc_capture_getlist PAGE_SIZE gc owner type classid kz).outptr = none ∧
      (intel_guc_capture_getlist PAGE_SIZE gc owner type classid kz).gc = gc) ∧
    (gc.reglists.isNone = false → (gc.ads_cache owner type classid).is_valid = false →
      guc_cap_list_num_regs gc owner type classid ≠ 0 →
      (intel_guc_capture_getlist PAGE_SIZE gc owner type classid kz).ret = - ENOMEM ∧
      (intel_guc_capture_getlist PAGE_SIZE gc owner type classid kz).outptr = none ∧
      (intel_guc_capture_getlist PAGE_SIZE gc owner type classid kz).gc = gc) ∧
    (gc.reglists.isNone = false → (gc.ads_cache owner type classid).is_valid = false →
      guc_cap_list_num_regs gc owner type classid = 0 →
      (intel_guc_capture_getlist PAGE_SIZE gc owner type classid kz).ret = - ENODATA ∧
      (intel_guc_capture_getlist PAGE_SIZE gc owner type classid kz).outptr = none ∧
      (intel_guc_capture_getlist PAGE_SIZE gc owner type classid kz).gc.ads_cache
        owner type classid = ⟨true, none, 0, - ENODATA⟩) ∧
    (gc.reglists.isNone = false →
      ((gc.ads_cache owner type classid).is_valid = true ∨
        guc_cap_list_num_regs gc owner type classid = 0) →
      ((intel_guc_capture_getlist PAGE_SIZE gc owner type classid kz).gc.ads_cache
        owner type classid).is_valid = true ∧
      ((intel_guc_capture_getlist PAGE_SIZE gc owner type classid kz).gc.ads_cache
        owner type classid).status =
        (intel_guc_capture_getlist PAGE_SIZE gc owner type classid kz).ret ∧
      (intel_guc_capture_getlist PAGE_SIZE
        (run_getlists PAGE_SIZE ops
          (intel_guc_capture_getlist PAGE_SIZE gc owner type classid kz).gc)
        owner type classid kz').ret =
        (intel_guc_capture_getlist PAGE_SIZE gc owner type classid kz).ret ∧
      (intel_guc_capture_getlist PAGE_SIZE
        (run_getlists PAGE_SIZE ops
          (intel_guc_capture_getlist PAGE_SIZE gc owner type classid kz).gc)
        owner type classid kz').outptr =
        some ((intel_guc_capture_getlist PAGE_SIZE gc owner type classid kz).gc.ads_cache
          owner type classid).ptr) := by
  refine ⟨?_, ?_, ?_, ?_⟩
  · intro hcat
    simp only [intel_guc_capture_getlist, hcat, if_true, and_self]
  · intro hcat hv hn
    rcases getlist_fresh PAGE_SIZE gc owner type classid kz hcat hv with
      ⟨h0, _⟩ | ⟨_, _, e⟩ | ⟨_, buf, _, _, e⟩
    · exact absurd h0 hn
    · rw [e]; exact ⟨rfl, rfl, rfl⟩
    · rw [e] at herr; exact absurd rfl herr
  · intro hcat hv hn
    rcases getlist_fresh PAGE_SIZE gc owner type classid kz hcat hv with
      ⟨_, e⟩ | ⟨h0, _, _⟩ | ⟨h0, _⟩
    · rw [e]; exact ⟨rfl, rfl, ads_cache_set_same _ _ _ _ _⟩
    · exact absurd hn h0
    · exact absurd hn h0
  · intro hcat hrec
    have hvalid : ((intel_guc_capture_getlist PAGE_SIZE gc owner type classid kz).gc.ads_cache
          owner type classid).is_valid = true ∧
        ((intel_guc_capture_getlist PAGE_SIZE gc owner type classid kz).gc.ads_cache
          owner type classid).status =
          (intel_guc_capture_getlist PAGE_SIZE gc owner type classid kz).ret := by
      cases hv : (gc.ads_cache owner type classid).is_valid with
      | true =>
        rw [getlist_cached PAGE_SIZE gc owner type classid kz hcat hv]
        exact ⟨hv, rfl⟩
      | false =>
        rcases hrec with h | hn
        · rw [hv] at h; exact absurd h (by decide)
        · rcases getlist_fresh PAGE_SIZE gc owner type classid kz hcat hv with
            ⟨_, e⟩ | ⟨h0, _, _⟩ | ⟨h0, _⟩
          · rw [e]
            simp only [ads_cache_set_same, and_self]
          · exact absurd hn h0
          · exact absurd hn h0
    obtain ⟨hval, hst⟩ := hvalid
    refine ⟨hval, hst, ?_⟩
    obtain ⟨p1, _⟩ := getlist_preserves PAGE_SIZE gc owner type classid kz
    obtain ⟨q1, q2⟩ := run_getlists_preserves PAGE_SIZE ops
      (intel_guc_capture_getlist PAGE_SIZE gc owner type classid kz).gc
    have hcat' : (run_getlists PAGE_SIZE ops
        (intel_guc_capture_getlist PAGE_SIZE gc owner type classid kz).gc).reglists.isNone
        = false := by rw [q1, p1]; exact hcat
    have hent := q2 owner type classid hval
    rw [getlist_cached PAGE_SIZE _ owner type classid kz' hcat' (by rw [hent]; exact hval)]
    simp only [hent, hst, and_self]

theorem C7_errors_recorded_witness :
    (intel_guc_capture_getlist 4096 example_capture 0 1 1 example_kzalloc).ret = - ENODATA ∧
      (intel_guc_capture_getlist 4096
        (run_getlists 4096 [(0, 0, 0, example_kzalloc), (0, 1, 0, fun _ => none)]
          (intel_guc_capture_getlist 4096 example_capture 0 1 1 example_kzalloc).gc)
        0 1 1 example_kzalloc).ret =
        (intel_guc_capture_getlist 4096 example_capture 0 1 1 example_kzalloc).ret :=
  ⟨by decide,
    ((C7_errors_recorded 4096 example_capture 0 1 1 example_kzalloc example_kzalloc
      [(0, 0, 0, example_kzalloc), (0, 1, 0, fun _ => none)] (by decide)).2.2.2
        (by decide) (Or.inr (by decide))).2.2.1⟩

/-- Counterexample to C7 as stated: a `get_list` call that fails with `-ENOMEM` records
nothing, and the next call with the same key, its allocation succeeding, returns 0. -/
theorem C7_counterexample :
    (intel_guc_capture_getlist 4096 example_capture 0 0 0 (fun _ => none)).ret = - ENOMEM ∧
      ((intel_guc_capture_getlist 4096 example_capture 0 0 0 (fun _ => none)).gc.ads_cache
        0 0 0).is_valid = false ∧
      (intel_guc_capture_getlist 4096
        (intel_guc_capture_getlist 4096 example_capture 0 0 0 (fun _ => none)).gc
        0 0 0 example_kzalloc).ret = 0 ∧
      (intel_guc_capture_getlist 4096
        (intel_guc_capture_getlist 4096 example_capture 0 0 0 (fun _ => none)).gc
        0 0 0 example_kzalloc).ret ≠
        (intel_guc_capture_getlist 4096 example_capture 0 0 0 (fun _ => none)).ret := by
  decide

/-- **C8** (catalog miss in `get_list_size`).  On a configured catalog, for a key whose
cache entry is not valid and for which the catalog has no matching list, or whose matching
base list and matching extension list (if any) hold no register, `get_list_size` returns
`-ENODATA`, stores nothing through `size` and leaves the capture state, hence every ADS
cache entry, unchanged. -/
theorem C8_catalog_miss (PAGE_SIZE : Nat) (gc : intel_guc_state_capture)
    (owner type classid : Nat)
    (hcat : gc.reglists.isNone = false)
    (hv : (gc.ads_cache owner type classid).is_valid = false)
    (hmiss : guc_capture_get_one_list gc.reglists owner type classid = none ∨
      ∃ m, guc_capture_get_one_list gc.reglists owner type classid = some m ∧
        m.num_regs = 0 ∧
        ∀ x, guc_capture_get_one_ext_list gc.extlists owner type classid = some x →
          x.num_regs = 0) :
    (intel_guc_capture_getlistsize PAGE_SIZE gc owner type classid).ret = - ENODATA ∧
      (intel_guc_capture_getlistsize PAGE_SIZE gc owner type classid).size = none ∧
      (intel_guc_capture_getlistsize PAGE_SIZE gc owner type classid).gc = gc ∧
      ∀ o t c, (intel_guc_capture_getlistsize PAGE_SIZE gc owner type classid).gc.ads_cache
        o t c = gc.ads_cache o t c := by
  have hn : guc_cap_list_num_regs gc owner type classid = 0 := by
    unfold guc_cap_list_num_regs
    rcases hmiss with h | ⟨m, h, h0, hx⟩
    · rw [h]
    · rw [h]
      cases hext : guc_capture_get_one_ext_list gc.extlists owner type classid with
      | none => exact h0
      | some x => simp only [h0, hx x hext]
  simp only [intel_guc_capture_getlistsize, hcat, hv, hn, Bool.false_eq_true, if_false, if_true,
    and_self, implies_true]

theorem C8_catalog_miss_witness :
    (intel_guc_capture_getlistsize 4096 example_capture 0 1 1).ret = - ENODATA ∧
      (intel_guc_capture_getlistsize 4096 example_capture 0 1 1).size = none :=
  ⟨(C8_catalog_miss 4096 example_capture 0 1 1 (by decide) (by decide)
      (Or.inr ⟨⟨some [], 0, 0, 1, 1, none⟩, by decide, by decide, by decide⟩)).1,
    (C8_catalog_miss 4096 example_capture 0 1 1 (by decide) (by decide)
      (Or.inr ⟨⟨some [], 0, 0, 1, 1, none⟩, by decide, by decide, by decide⟩)).2.1⟩


/-- **C9** (size formula of `get_list_size`).  On a configured catalog, for a key with an
invalid cache entry, a matching base list of `m.num_regs` registers and `e` registers in the
matching extension list (`e = 0` when there is none), `n = m.num_regs + e > 0`,
`get_list_size` returns 0 and stores the smallest multiple of the page size that is at least
`4 + 16 * n`; in particular the stored size is at least `4 + 16 * n`. -/
theorem C9_size_formula (PAGE_SIZE : Nat) (gc : intel_guc_state_capture)
    (owner type classid : Nat) (m : __guc_mmio_reg_descr_group) (e : Nat)
    (hp : 0 < PAGE_SIZE)
    (hcat : gc.reglists.isNone = false)
    (hv : (gc.ads_cache owner type classid).is_valid = false)
    (hm : guc_capture_get_one_list gc.reglists owner type classid = some m)
    (he : (guc_capture_get_one_ext_list gc.extlists owner type classid = none ∧ e = 0) ∨
      ∃ x, guc_capture_get_one_ext_list gc.extlists owner type classid = some x ∧
        e = x.num_regs)
    (hpos : 0 < m.num_regs + e) :
    (intel_guc_capture_getlistsize PAGE_SIZE gc owner type classid).ret = 0 ∧
      ∃ sz, (intel_guc_capture_getlistsize PAGE_SIZE gc owner type classid).size = some sz ∧
        PAGE_SIZE ∣ sz ∧ 4 + 16 * (m.num_regs + e) ≤ sz ∧
        ∀ y, PAGE_SIZE ∣ y → 4 + 16 * (m.num_regs + e) ≤ y → sz ≤ y := by
  have hn := num_regs_eq gc owner type classid m e hm he
  have hn0 : guc_cap_list_num_regs gc owner type classid ≠ 0 := by omega
  obtain ⟨d1, d2, d3⟩ := page_align_spec PAGE_SIZE (4 + 16 * (m.num_regs + e)) hp
  simp only [intel_guc_capture_getlistsize, hcat, hv, hn0, Bool.false_eq_true, if_false,
    true_and]
  refine ⟨_, rfl, ?_⟩
  rw [hn, Nat.mul_comm (m.num_regs + e) 16]
  exact ⟨d1, d2, d3⟩

theorem C9_size_formula_witness :
    (intel_guc_capture_getlistsize 4096 example_capture 0 1 0).ret = 0 ∧
      ∃ sz, (intel_guc_capture_getlistsize 4096 example_capture 0 1 0).size = some sz ∧
        4096 ∣ sz ∧ 4 + 16 * (1 + 2) ≤ sz ∧
        ∀ y, 4096 ∣ y → 4 + 16 * (1 + 2) ≤ y → sz ≤ y :=
  C9_size_formula 4096 example_capture 0 1 0 ⟨some [⟨8368, 0, 0, "EIR"⟩], 1, 0, 1, 0, none⟩ 2
    (by decide) (by decide) (by decide) (by decide)
    (Or.inr ⟨⟨none, 2, 0, 1, 0,
      some [⟨57616, 1052672, 0, "GEN7_SAMPLER_INSTDONE"⟩,
        ⟨57620, 1052672, 0, "GEN7_ROW_INSTDONE"⟩]⟩, by decide, by decide⟩)
    (by decide)

/-- **C10** (buffer layout of `get_list`).  For a key whose cache entry is not valid yet,
whose base list has `b` registers and whose matching extension list has `e` registers
(`e = 0` when there is none), `0 < b + e < 65536`, the buffer returned (and cached) by a
successful `get_list` has a header whose low 16 bits of `info` are `b + e`; record `i < b`
carries offset, flags and mask of base descriptor `i`; record `b + j`, `j < e`, those of
extension descriptor `j`; every written record has value `0xDEADF00D`; and everything after
record `b + e - 1` is zero. -/
theorem C10_buffer_layout (PAGE_SIZE : Nat) (gc : intel_guc_state_capture)
    (owner type classid : Nat) (kzalloc : Nat → Option Nat)
    (m : __guc_mmio_reg_descr_group) (bl el : List __guc_mmio_reg_descr)
    (hcat : gc.reglists.isNone = false)
    (hv : (gc.ads_cache owner type classid).is_valid = false)
    (hm : guc_capture_get_one_list gc.reglists owner type classid = some m)
    (hbl : m.list = some bl) (hb : m.num_regs = bl.length)
    (hx : (guc_capture_get_one_ext_list gc.extlists owner type classid = none ∧ el = []) ∨
      ∃ x, guc_capture_get_one_ext_list gc.extlists owner type classid = some x ∧
        x.extlist = some el ∧ x.num_regs = el.length)
    (hpos : 0 < bl.length + el.length) (hlt : bl.length + el.length < 65536)
    (hsucc : (intel_guc_capture_getlist PAGE_SIZE gc owner type classid kzalloc).ret = 0) :
    ∃ buf : caplist_buf,
      (intel_guc_capture_getlist PAGE_SIZE gc owner type classid kzalloc).outptr =
        some (some buf) ∧
      ((intel_guc_capture_getlist PAGE_SIZE gc owner type classid kzalloc).gc.ads_cache
        owner type classid).ptr = some buf ∧
      buf.dw 0 % 65536 = bl.length + el.length ∧
      (∀ i (hi : i < bl.length),
        buf.dw (1 + 4 * i) = bl[i].reg ∧ buf.dw (1 + 4 * i + 1) = 3735941133 ∧
        buf.dw (1 + 4 * i + 2) = bl[i].flags ∧ buf.dw (1 + 4 * i + 3) = bl[i].mask) ∧
      (∀ j (hj : j < el.length),
        buf.dw (1 + 4 * (bl.length + j)) = el[j].reg ∧
        buf.dw (1 + 4 * (bl.length + j) + 1) = 3735941133 ∧
        buf.dw (1 + 4 * (bl.length + j) + 2) = el[j].flags ∧
        buf.dw (1 + 4 * (bl.length + j) + 3) = el[j].mask) ∧
      ∀ a, 1 + 4 * (bl.length + el.length) ≤ a → buf.dw a = 0 := by
  have he : (guc_capture_get_one_ext_list gc.extlists owner type classid = none ∧
      el.length = 0) ∨
      ∃ x, guc_capture_get_one_ext_list gc.extlists owner type classid = some x ∧
        el.length = x.num_regs := by
    rcases hx with ⟨h, rfl⟩ | ⟨x, h, _, hxn⟩
    · exact Or.inl ⟨h, rfl⟩
    · exact Or.inr ⟨x, h, hxn.symm⟩
  have hn := num_regs_eq gc owner type classid m el.length hm he
  rw [hb] at hn
  have hdat : (- ENODATA : Int) ≠ 0 := by decide
  have hmem : (- ENOMEM : Int) ≠ 0 := by decide
  rcases getlist_fresh PAGE_SIZE gc owner type classid kzalloc hcat hv with
    ⟨_, e⟩ | ⟨_, _, e⟩ | ⟨_, buf, _, hdw, e⟩
  · rw [e] at hsucc; exact absurd hsucc hdat
  · rw [e] at hsucc; exact absurd hsucc hmem
  · rw [hn, Nat.mod_eq_of_lt hlt, Nat.mod_eq_of_lt (show bl.length + el.length < 4294967296
      by omega), field_prep_numdescr, Nat.mod_eq_of_lt hlt] at hdw
    obtain ⟨l1, l2, l3⟩ := list_init_mem gc owner type classid m bl el
      (set_cell (fun _ => 0) 0 (bl.length + el.length)) hcat hm hbl hb hx
    rw [← hdw] at l1 l2 l3
    refine ⟨buf, by rw [e], by rw [e]; simp only [ads_cache_set_same], ?_, l1, l2, ?_⟩
    · rw [l3 0 (by omega)]
      simp only [set_cell, if_true]
      exact Nat.mod_eq_of_lt hlt
    · intro a ha
      rw [l3 a (by omega)]
      simp only [set_cell]
      rw [if_neg (by omega)]

theorem C10_buffer_layout_witness :
    ∃ buf : caplist_buf,
      (intel_guc_capture_getlist 4096 example_capture 0 1 0 example_kzalloc).outptr =
        some (some buf) ∧
      ((intel_guc_capture_getlist 4096 example_capture 0 1 0 example_kzalloc).gc.ads_cache
        0 1 0).ptr = some buf ∧
      buf.dw 0 % 65536 = 1 + 2 ∧
      buf.dw (1 + 4 * 0) = 8368 ∧
      buf.dw (1 + 4 * (1 + 1)) = 57620 ∧
      buf.dw (1 + 4 * (1 + 1) + 2) = 1052672 ∧
      buf.dw 13 = 0 := by
  obtain ⟨buf, h1, h2, h3, h4, h5, h6⟩ :=
    C10_buffer_layout 4096 example_capture 0 1 0 example_kzalloc
      ⟨some [⟨8368, 0, 0, "EIR"⟩], 1, 0, 1, 0, none⟩ [⟨8368, 0, 0, "EIR"⟩]
      [⟨57616, 1052672, 0, "GEN7_SAMPLER_INSTDONE"⟩, ⟨57620, 1052672, 0, "GEN7_ROW_INSTDONE"⟩]
      (by decide) (by decide) (by decide) rfl rfl
      (Or.inr ⟨⟨none, 2, 0, 1, 0,
        some [⟨57616, 1052672, 0, "GEN7_SAMPLER_INSTDONE"⟩,
          ⟨57620, 1052672, 0, "GEN7_ROW_INSTDONE"⟩]⟩, by decide, rfl, rfl⟩)
      (by decide) (by decide) (by decide)
  exact ⟨buf, h1, h2, h3, (h4 0 (by decide)).1, (h5 1 (by decide)).1, (h5 1 (by decide)).2.2.1,
    h6 13 (by decide)⟩

/-- **C11** (lookup semantics of `guc_capture_get_one_list`).  With no catalog configured
the lookup returns not-found for every `(owner, type, class)`; on a catalog it returns the
first entry, in table order before the terminating entry, whose owner and type equal the
requested ones and whose engine class equals the requested class or whose type is Global,
and not-found when there is no such entry; hence a Global request returns the same entry
for every requested engine class. -/
theorem C11_lookup_semantics :
    (∀ owner type id : Nat, guc_capture_get_one_list none owner type id = none) ∧
      (∀ (l : List __guc_mmio_reg_descr_group) (owner type id : Nat),
        guc_capture_get_one_list (some l) owner type id =
          (catalog_entries l).find? (entry_matches owner type id)) ∧
      (∀ (reglists : Option (List __guc_mmio_reg_descr_group)) (owner c1 c2 : Nat),
        guc_capture_get_one_list reglists owner GUC_CAPTURE_LIST_TYPE_GLOBAL c1 =
          guc_capture_get_one_list reglists owner GUC_CAPTURE_LIST_TYPE_GLOBAL c2) := by
  refine ⟨fun _ _ _ => rfl, fun l owner type id => get_one_list_scan_find owner type id l, ?_⟩
  intro reglists owner c1 c2
  cases reglists with
  | none => rfl
  | some l =>
    show get_one_list_scan _ _ _ l = get_one_list_scan _ _ _ l
    rw [get_one_list_scan_find, get_one_list_scan_find]
    congr 1
    funext g
    exact entry_matches_global owner c1 c2 g

/-- **C12** (early failures are side-effect free).  For every cursor whose available byte
count is 0, or is not a multiple of 4, or is below the 8 bytes of a group header,
`guc_capture_extract_reglists` returns `-ENODATA` in the first case and `-EIO` in the
others, and leaves the cursor (hence its read offset), the output node store and the
allocation count unchanged. -/
theorem C12_early_failures (fw : guc_fwif) (oom : Nat → Bool) (k : Nat)
    (b : __guc_capture_bufstate) (outlist : List __guc_capture_parsed_output)
    (h : guc_capture_buf_cnt b = 0 ∨ guc_capture_buf_cnt b % 4 ≠ 0 ∨
      guc_capture_buf_cnt b < 8) :
    (guc_capture_extract_reglists fw oom k b outlist).ret =
        (if guc_capture_buf_cnt b = 0 then - ENODATA else - EIO) ∧
      (guc_capture_extract_reglists fw oom k b outlist).buf = b ∧
      (guc_capture_extract_reglists fw oom k b outlist).outlist = outlist ∧
      (guc_capture_extract_reglists fw oom k b outlist).nalloc = k := by
  unfold guc_capture_extract_reglists
  simp only
  by_cases h0 : guc_capture_buf_cnt b = 0
  · rw [if_pos h0, if_pos h0]
    exact ⟨rfl, rfl, rfl, rfl⟩
  · rw [if_neg h0, if_neg h0]
    by_cases h4 : guc_capture_buf_cnt b % 4 ≠ 0
    · rw [if_pos h4]
      exact ⟨rfl, rfl, rfl, rfl⟩
    · rw [if_neg h4]
      have h8 : 8 > guc_capture_buf_cnt b := by
        rcases h with h | h | h
        · exact absurd h h0
        · exact absurd h h4
        · exact h
      have hg : guc_capture_log_get_group_hdr b ⟨0, 0⟩ = ⟨-1, ⟨0, 0⟩, b⟩ := by
        unfold guc_capture_log_get_group_hdr
        rw [if_pos h8]
      rw [hg]
      exact ⟨rfl, rfl, rfl, rfl⟩

theorem C12_early_failures_witness :
    (guc_capture_buf_cnt example_short_ring = 0 ∨
        guc_capture_buf_cnt example_short_ring % 4 ≠ 0 ∨
        guc_capture_buf_cnt example_short_ring < 8) ∧
      (guc_capture_extract_reglists fwif_upstream (fun _ => false) 0 example_short_ring []).ret =
        (if guc_capture_buf_cnt example_short_ring = 0 then - ENODATA else - EIO) ∧
      (guc_capture_extract_reglists fwif_upstream (fun _ => false) 0 example_short_ring []).buf =
        example_short_ring ∧
      (guc_capture_extract_reglists fwif_upstream (fun _ => false) 0 example_short_ring
        []).outlist = [] ∧
      (guc_capture_extract_reglists fwif_upstream (fun _ => false) 0 example_short_ring
        []).nalloc = 0 :=
  ⟨by decide,
    C12_early_failures fwif_upstream (fun _ => false) 0 example_short_ring [] (by decide)⟩

/-- **C13** (the output node store is append-only).  For every parse pass of
`guc_capture_extract_reglists`, whatever the cursor holds, whichever allocations fail and
whatever status the pass returns, the store afterwards is the store before followed by the
nodes the pass finalizes, in stream order; every node appended earlier is still at its
place, unmodified. -/
theorem C13_append_only (fw : guc_fwif) (oom : Nat → Bool) (k : Nat)
    (b : __guc_capture_bufstate) (outlist : List __guc_capture_parsed_output) :
    (guc_capture_extract_reglists fw oom k b outlist).outlist =
        outlist ++ pass_nodes fw oom k b ∧
      ∀ i, i < outlist.length →
        (guc_capture_extract_reglists fw oom k b outlist).outlist.get? i = outlist.get? i := by
  have key : (guc_capture_extract_reglists fw oom k b outlist).outlist =
      outlist ++ pass_nodes fw oom k b := by
    unfold pass_nodes guc_capture_extract_reglists
    simp only
    split
    · simp
    · split
      · simp [extract_bailout]
      · split
        · simp [extract_bailout]
        · have h := extract_loop_outlist fw oom
            (decide (FIELD_GET fw.CAP_GRP_HDR_CAPTURE_TYPE
              (guc_capture_log_get_group_hdr b ⟨0, 0⟩).val.info ≠ 0))
            (FIELD_GET fw.CAP_GRP_HDR_NUM_CAPTURES
              (guc_capture_log_get_group_hdr b ⟨0, 0⟩).val.info)
            (guc_capture_log_get_group_hdr b ⟨0, 0⟩).buf ⟨0, 0, 0, 0, 0⟩ none outlist [] k 0
          rw [List.append_nil] at h
          rw [h]
          simp only
          rw [extract_bailout_append]
  refine ⟨key, ?_⟩
  intro i hi
  rw [key, List.get?_eq_getElem?, List.get?_eq_getElem?, List.getElem?_append_left hi]

/-- **C14** (short contiguous tail, amended).  For every non-empty cursor within its ring
in which fewer than 4 contiguous bytes remain before the wraparound point,
`guc_capture_log_remove_dw` resets the read offset to 0 and tries once more: when the write
offset is at least 4 it returns 4, stores the dword at offset 0 and leaves the read offset
at 4; otherwise it returns 0, stores no dword and leaves the read offset at 0. -/
theorem C14_short_tail (b : __guc_capture_bufstate) (dw : Nat)
    (_hin : b.rd ≤ b.size ∧ b.wr ≤ b.size)
    (hne : guc_capture_buf_cnt b ≠ 0) (ht : guc_capture_buf_cnt_to_end b < 4) :
    (4 ≤ b.wr → (guc_capture_log_remove_dw b dw).ret = 4 ∧
        (guc_capture_log_remove_dw b dw).dw = get_u32 b.data 0 ∧
        (guc_capture_log_remove_dw b dw).buf.rd = 4) ∧
      (b.wr < 4 → (guc_capture_log_remove_dw b dw).ret = 0 ∧
        (guc_capture_log_remove_dw b dw).dw = dw ∧
        (guc_capture_log_remove_dw b dw).buf.rd = 0) := by
  have h1 : ¬ guc_capture_buf_cnt_to_end b ≥ 4 := by omega
  have h2 : guc_capture_buf_cnt_to_end { b with rd := 0 } = b.wr := by
    simp [guc_capture_buf_cnt_to_end]
  unfold guc_capture_log_remove_dw
  rw [if_neg hne]
  simp only [remove_dw_tries, if_neg h1, h2]
  constructor
  · intro hw
    rw [if_pos hw]
    exact ⟨rfl, rfl, rfl⟩
  · intro hw
    rw [if_neg (by omega)]
    exact ⟨rfl, rfl, rfl⟩

theorem C14_short_tail_witness :
    (example_tail_ring.rd ≤ example_tail_ring.size ∧
        example_tail_ring.wr ≤ example_tail_ring.size) ∧
      guc_capture_buf_cnt example_tail_ring ≠ 0 ∧
      guc_capture_buf_cnt_to_end example_tail_ring < 4 ∧
      (4 ≤ example_tail_ring.wr → (guc_capture_log_remove_dw example_tail_ring 0).ret = 4 ∧
        (guc_capture_log_remove_dw example_tail_ring 0).dw =
          get_u32 example_tail_ring.data 0 ∧
        (guc_capture_log_remove_dw example_tail_ring 0).buf.rd = 4) ∧
      (example_tail_ring.wr < 4 → (guc_capture_log_remove_dw example_tail_ring 0).ret = 0 ∧
        (guc_capture_log_remove_dw example_tail_ring 0).dw = 0 ∧
        (guc_capture_log_remove_dw example_tail_ring 0).buf.rd = 0) :=
  ⟨by decide, by decide, by decide,
    C14_short_tail example_tail_ring 0 (by decide) (by decide) (by decide)⟩

/-- Counterexample to C14 as stated: in a 16-byte ring with read offset 14 and write offset
8 (10 bytes available, 2 of them before the end) the read returns 4 bytes, stores the dword
found at offset 0 and leaves the read offset at 4. -/
theorem C14_counterexample :
    guc_capture_buf_cnt example_tail_ring ≠ 0 ∧
      guc_capture_buf_cnt_to_end example_tail_ring < 4 ∧
      (guc_capture_log_remove_dw example_tail_ring 0).ret = 4 ∧
      (guc_capture_log_remove_dw example_tail_ring 0).dw = 67305985 ∧
      (guc_capture_log_remove_dw example_tail_ring 0).buf.rd = 4 ∧
      ¬ ((guc_capture_log_remove_dw example_tail_ring 0).ret = 0 ∧
        (guc_capture_log_remove_dw example_tail_ring 0).dw = 0 ∧
        (guc_capture_log_remove_dw example_tail_ring 0).buf.rd = 0) := by
  decide

/-- **C15** (available bytes, amended).  For every cursor with `size > 0`,
`0 ≤ rd < size` and `0 ≤ wr ≤ size`, the available byte count
`wr ≥ rd ? wr - rd : size - rd + wr` equals `(wr - rd) mod size`, except for the whole-buffer
cursor `rd = 0`, `wr = size`, where the count is `size` while `(wr - rd) mod size` is 0. -/
theorem C15_available_bytes (b : __guc_capture_bufstate) (_hs : 0 < b.size)
    (hrd : b.rd < b.size) (hwr : b.wr ≤ b.size) :
    (¬ (b.rd = 0 ∧ b.wr = b.size) → (guc_capture_buf_cnt b : Int) = mod_available b) ∧
      (b.rd = 0 ∧ b.wr = b.size →
        guc_capture_buf_cnt b = b.size ∧ mod_available b = 0) := by
  unfold guc_capture_buf_cnt mod_available
  constructor
  · intro hne
    by_cases hge : b.wr ≥ b.rd
    · rw [if_pos hge]
      rw [Int.emod_eq_of_lt (by omega) (by omega)]
      omega
    · rw [if_neg hge]
      rw [← Int.add_emod_self, Int.emod_eq_of_lt (by omega) (by omega)]
      omega
  · rintro ⟨h0, hw⟩
    rw [h0, hw]
    simp

theorem C15_available_bytes_witness :
    0 < example_tail_ring.size ∧ example_tail_ring.rd < example_tail_ring.size ∧
      example_tail_ring.wr ≤ example_tail_ring.size ∧
      (¬ (example_tail_ring.rd = 0 ∧ example_tail_ring.wr = example_tail_ring.size) →
        (guc_capture_buf_cnt example_tail_ring : Int) = mod_available example_tail_ring) ∧
      (example_tail_ring.rd = 0 ∧ example_tail_ring.wr = example_tail_ring.size →
        guc_capture_buf_cnt example_tail_ring = example_tail_ring.size ∧
          mod_available example_tail_ring = 0) :=
  ⟨by decide, by decide, by decide,
    C15_available_bytes example_tail_ring (by decide) (by decide) (by decide)⟩

/-- Counterexample to C15 as stated: for the whole-buffer cursor of a 16-byte ring
(`rd = 0`, `wr = 16`) 16 bytes are available, and `(wr - rd) mod size` is 0. -/
theorem C15_counterexample :
    0 < example_full_ring.size ∧ example_full_ring.rd < example_full_ring.size ∧
      example_full_ring.wr ≤ example_full_ring.size ∧
      guc_capture_buf_cnt example_full_ring = 16 ∧ mod_available example_full_ring = 0 ∧
      ¬ ((guc_capture_buf_cnt example_full_ring : Int) = mod_available example_full_ring) := by
  decide

/-- **C17** (output size estimate: the code at a failing input).  For the example catalog
(a Global list of 2 registers, a render-class list of 1 register with 2 steered registers,
no instance list), 4096-byte pages and one render engine,
`intel_guc_capture_output_min_size_est` returns `3 * (68 + 16 * (4096 + 4096)) = 393420`:
what it adds to `num_regs` is the page-aligned byte size that
`intel_guc_capture_getlistsize` stores through `size`, not a register count.  The estimate
by register counts is `3 * (68 + 16 * (2 + 3)) = 444`.  Without a capture context the
function returns `-ENODEV`. -/
theorem C17_min_size_est_example :
    intel_guc_capture_output_min_size_est 4096 (some example_capture) [0] = 393420 ∧
      min_size_est_by_count example_capture [0] = 444 ∧
      intel_guc_capture_output_min_size_est 4096 (some example_capture) [0] ≠
        min_size_est_by_count example_capture [0] ∧
      intel_guc_capture_output_min_size_est 4096 none [0] = - ENODEV := by
  decide

/-- **C18** (steering-list construction, amended).  For every enumeration `pairs` of
(slice, subslice) pairs, when the render-class list exists, no extension list was allocated
before, the enumeration is not empty and the allocations succeed, the extension list built
by `guc_capture_alloc_steered_lists_xe_lpd` / `_xe_hpg` holds exactly `|pairs| * t`
descriptors, where the number `t` of steering-register templates is 2 for `xe_lpd` and for
`xe_hpg` below IP version 12.55, and 3 for `xe_hpg` from IP version 12.55 on; the
descriptors of the `k`-th pair occupy the indices `k * t .. k * t + t - 1` in template
order, each with flags = steering-group field set to the slice combined with
steering-instance field set to the subslice.  When an extension list already exists, or
the enumeration is empty, the call changes nothing. -/
theorem C18_steering_lists (p : steer_consts) (oom : Nat → Bool) (k : Nat)
    (gc : intel_guc_state_capture) (lists : Option (List __guc_mmio_reg_descr_group))
    (ipver : Nat) (pairs : List (Nat × Nat)) :
    (∀ root, guc_capture_get_one_list lists p.GUC_CAPTURE_LIST_INDEX_PF
          GUC_CAPTURE_LIST_TYPE_ENGINE_CLASS p.GUC_RENDER_CLASS = some root →
        gc.extlists = none → pairs ≠ [] → (∀ i, oom i = false) →
        steered_table p root (xe_extregs p) pairs
            (guc_capture_alloc_steered_lists_xe_lpd p oom k gc lists pairs).extlists ∧
          steered_table p root (xe_hpg_templates p ipver) pairs
            (guc_capture_alloc_steered_lists_xe_hpg p oom k gc lists ipver pairs).extlists) ∧
      ((xe_extregs p).length = 2 ∧
        (xe_hpg_templates p ipver).length = if ipver ≥ p.IP_VER_12_55 then 3 else 2) ∧
      (gc.extlists ≠ none →
        guc_capture_alloc_steered_lists_xe_lpd p oom k gc lists pairs = gc ∧
          guc_capture_alloc_steered_lists_xe_hpg p oom k gc lists ipver pairs = gc) ∧
      (pairs = [] →
        guc_capture_alloc_steered_lists_xe_lpd p oom k gc lists pairs = gc ∧
          guc_capture_alloc_steered_lists_xe_hpg p oom k gc lists ipver pairs = gc) := by
  refine ⟨fun root hroot hnone hp hoom =>
      ⟨alloc_steered_xe_lpd_table p oom k gc lists pairs root hroot hnone hp hoom,
        alloc_steered_xe_hpg_table p oom k gc lists ipver pairs root hroot hnone hp hoom⟩,
    ⟨rfl, ?_⟩, ?_, ?_⟩
  · unfold xe_hpg_templates __has_xehpg_extregs
    by_cases h : ipver ≥ p.IP_VER_12_55
    · simp only [h, decide_True, if_true]
      rfl
    · simp only [h, decide_False, Bool.false_eq_true, if_false]
      rfl
  · intro hsome
    have hs : gc.extlists.isSome = true := by
      cases he : gc.extlists with
      | none => exact absurd he hsome
      | some _ => rfl
    unfold guc_capture_alloc_steered_lists_xe_lpd guc_capture_alloc_steered_lists_xe_hpg
    constructor <;> (split <;> [rfl; rw [if_pos hs]])
  · intro hp
    subst hp
    unfold guc_capture_alloc_steered_lists_xe_lpd guc_capture_alloc_steered_lists_xe_hpg
    constructor <;> (split <;> [rfl; (split <;> [rfl; simp])])

theorem C18_steering_lists_witness :
    steered_table steer_upstream ⟨some [⟨8368, 0, 0, "EIR"⟩], 1, 0, 1, 0, none⟩
      (xe_hpg_templates steer_upstream 3127) [(0, 1), (1, 0)]
      (guc_capture_alloc_steered_lists_xe_hpg steer_upstream (fun _ => false) 0
        example_capture_noext (some example_catalog) 3127 [(0, 1), (1, 0)]).extlists :=
  ((C18_steering_lists steer_upstream (fun _ => false) 0 example_capture_noext
    (some example_catalog) 3127 [(0, 1), (1, 0)]).1
      ⟨some [⟨8368, 0, 0, "EIR"⟩], 1, 0, 1, 0, none⟩ (by decide) rfl (by decide)
      (fun _ => rfl)).2

/-- Counterexample to C18 as stated: for `xe_hpg` at IP version 12.55 and the one pair
(slice 0, subslice 1) the extension list holds 3 descriptors, one per template of the
generation, which has 3 templates, not one or two. -/
theorem C18_counterexample :
    ext_descr_count (guc_capture_alloc_steered_lists_xe_hpg steer_upstream (fun _ => false) 0
        example_capture_noext (some example_catalog) 3127 [(0, 1)]).extlists = some 3 ∧
      (xe_hpg_templates steer_upstream 3127).length = 3 ∧
      ¬ (∃ t, (t = 1 ∨ t = 2) ∧
        ext_descr_count (guc_capture_alloc_steered_lists_xe_hpg steer_upstream
          (fun _ => false) 0 example_capture_noext (some example_catalog) 3127
          [(0, 1)]).extlists = some ([(0, 1)].length * t)) := by
  refine ⟨by decide, by decide, ?_⟩
  rintro ⟨t, ht | ht, h⟩ <;> subst ht <;> exact absurd h (by decide)

/-- **C19** (cleanup after init: the code at a failing input).  On a crtc whose helper was
initialised (init returned 0 and set `self_refresh_data`), `drm_self_refresh_helper_cleanup`
returns at once and leaves `self_refresh_data` set, so that a following
`drm_self_refresh_helper_init` returns `-EINVAL`. -/
theorem C19_cleanup_after_init :
    drm_self_refresh_helper_init ⟨none⟩ 100 true = (0, ⟨some ⟨100⟩⟩) ∧
      drm_self_refresh_helper_cleanup ⟨some ⟨100⟩⟩ = some ⟨some ⟨100⟩⟩ ∧
      (drm_self_refresh_helper_init ⟨some ⟨100⟩⟩ 100 true).1 = - EINVAL ∧
      (drm_self_refresh_helper_init ⟨some ⟨100⟩⟩ 100 true).1 ≠ 0 := by
  decide

/-- **C20** (unknown capture types are skipped, amended).  For every dword-aligned ring
holding one complete capture group, with every allocation succeeding,
`guc_capture_extract_reglists` returns 0 and appends exactly the same nodes as it does for
a dword-aligned ring holding the group obtained by deleting every record whose capture-type
tag is greater than EngineInstance (2), together with its register records, and lowering
the declared capture count accordingly (the rest of the group header unchanged). -/
theorem C20_unknown_types_skipped (fw : guc_fwif) (oom : Nat → Bool) (k k' : Nat)
    (b b' : __guc_capture_bufstate) (outlist : List __guc_capture_parsed_output)
    (g g' : guc_state_capture_group_header_t)
    (recs : List (guc_state_capture_header_t × List guc_mmio_reg))
    (hal : ring_aligned b) (hal' : ring_aligned b') (hoom : ∀ i, oom i = false)
    (hN : FIELD_GET fw.CAP_GRP_HDR_NUM_CAPTURES g.info = recs.length)
    (hn : ∀ r ∈ recs, FIELD_GET fw.CAP_HDR_NUM_MMIOS r.1.num_mmios = r.2.length)
    (hh : ring_holds b (enc_group g recs))
    (hN' : FIELD_GET fw.CAP_GRP_HDR_NUM_CAPTURES g'.info =
      (recs.filter (known_type fw)).length)
    (hT : FIELD_GET fw.CAP_GRP_HDR_CAPTURE_TYPE g'.info =
      FIELD_GET fw.CAP_GRP_HDR_CAPTURE_TYPE g.info)
    (hh' : ring_holds b' (enc_group g' (recs.filter (known_type fw)))) :
    (guc_capture_extract_reglists fw oom k b outlist).ret = 0 ∧
      (guc_capture_extract_reglists fw oom k' b' outlist).ret = 0 ∧
      (guc_capture_extract_reglists fw oom k b outlist).outlist =
        (guc_capture_extract_reglists fw oom k' b' outlist).outlist := by
  obtain ⟨e, _, o⟩ := extract_reglists_complete fw oom k b outlist g recs hal hoom hN hn hh
  obtain ⟨e', _, o'⟩ := extract_reglists_complete fw oom k' b' outlist g'
    (recs.filter (known_type fw)) hal' hoom hN' (filter_known_mmios fw recs hn) hh'
  refine ⟨e, e', ?_⟩
  rw [o, o', hT, foldl_filter_known fw _ recs]

set_option maxRecDepth 1000000 in
theorem C20_unknown_types_skipped_witness :
    (guc_capture_extract_reglists fwif_upstream (fun _ => false) 0 example_drift_ring
        []).ret = 0 ∧
      (guc_capture_extract_reglists fwif_upstream (fun _ => false) 0
        (ring_with 64 52 (le_bytes (enc_group example_group_hdr example_recs))) []).ret = 0 ∧
      (guc_capture_extract_reglists fwif_upstream (fun _ => false) 0 example_drift_ring
          []).outlist =
        (guc_capture_extract_reglists fwif_upstream (fun _ => false) 0
          (ring_with 64 52 (le_bytes (enc_group example_group_hdr example_recs))) []).outlist :=
  C20_unknown_types_skipped fwif_upstream (fun _ => false) 0 0 example_drift_ring
    (ring_with 64 52 (le_bytes (enc_group example_group_hdr example_recs))) []
    example_drift_group_hdr example_group_hdr example_drift_recs
    (by unfold ring_aligned; decide) (by unfold ring_aligned; decide) (fun _ => rfl)
    (by decide) (by decide) (by unfold ring_holds; decide) (by decide) (by decide)
    (by unfold ring_holds; decide)

set_option maxRecDepth 1000000 in
/-- Counterexample to C20 as stated: on a dword-aligned ring holding a complete group of an
unknown-type record and a Global record, the pass returns `-ENOMEM`, not success, when the
allocation of the node fails. -/
theorem C20_counterexample :
    (guc_capture_extract_reglists fwif_upstream (fun _ => true) 0 example_drift_ring []).ret =
        - ENOMEM ∧
      (guc_capture_extract_reglists fwif_upstream (fun _ => true) 0 example_drift_ring []).ret ≠
        0 := by
  decide


/-- **C21** (split on a repeated class or instance record, amended).  With every allocation
succeeding, for every complete group Global, Class1, Instance1, Instance2 (each with at
least one register) held by a dword-aligned ring, `guc_capture_extract_reglists` returns 0
and appends two nodes, the second having Global and EngineClass slots equal in register
count, register values and vfid to those of the first and its EngineInstance slot holding
Instance2's registers; and for every complete group Global, Class1, Class2 it appends two
nodes, the second having a Global slot equal to the first's, an EngineClass slot holding
Class2's registers and an empty EngineInstance slot.  For every allocator,
`guc_capture_clone_node`, called with the Global mask or with the Global and EngineClass
mask, returns `NULL` when the allocation of its node or of one of the arrays named in the
mask fails; in the record loop, when the clone made for a repeated
EngineClass or EngineInstance record is `NULL`, the node in progress is appended all the
same, the node in progress after that iteration, if any, is a fresh node whose slots other
than the record's are empty, and when the allocation of that fresh node fails too the loop
ends with `-ENOMEM` and no node in progress. -/
theorem C21_repeated_records (fw : guc_fwif) (oom : Nat → Bool) (k : Nat)
    (b b' : __guc_capture_bufstate) (outlist : List __guc_capture_parsed_output)
    (g g' : guc_state_capture_group_header_t)
    (hG hC hI hJ hG' hC' hD' : guc_state_capture_header_t)
    (rG rC rI rJ rG' rC' rD' : List guc_mmio_reg)
    (hoom : ∀ i, oom i = false)
    (hal : ring_aligned b) (hN : FIELD_GET fw.CAP_GRP_HDR_NUM_CAPTURES g.info = 4)
    (tG : FIELD_GET fw.CAP_HDR_CAPTURE_TYPE hG.info = GUC_CAPTURE_LIST_TYPE_GLOBAL)
    (tC : FIELD_GET fw.CAP_HDR_CAPTURE_TYPE hC.info = GUC_CAPTURE_LIST_TYPE_ENGINE_CLASS)
    (tI : FIELD_GET fw.CAP_HDR_CAPTURE_TYPE hI.info = GUC_CAPTURE_LIST_TYPE_ENGINE_INSTANCE)
    (tJ : FIELD_GET fw.CAP_HDR_CAPTURE_TYPE hJ.info = GUC_CAPTURE_LIST_TYPE_ENGINE_INSTANCE)
    (nG : FIELD_GET fw.CAP_HDR_NUM_MMIOS hG.num_mmios = rG.length) (pG : 0 < rG.length)
    (nC : FIELD_GET fw.CAP_HDR_NUM_MMIOS hC.num_mmios = rC.length) (pC : 0 < rC.length)
    (nI : FIELD_GET fw.CAP_HDR_NUM_MMIOS hI.num_mmios = rI.length) (pI : 0 < rI.length)
    (nJ : FIELD_GET fw.CAP_HDR_NUM_MMIOS hJ.num_mmios = rJ.length) (pJ : 0 < rJ.length)
    (hh : ring_holds b (enc_group g [(hG, rG), (hC, rC), (hI, rI), (hJ, rJ)]))
    (hal' : ring_aligned b') (hN' : FIELD_GET fw.CAP_GRP_HDR_NUM_CAPTURES g'.info = 3)
    (tG' : FIELD_GET fw.CAP_HDR_CAPTURE_TYPE hG'.info = GUC_CAPTURE_LIST_TYPE_GLOBAL)
    (tC' : FIELD_GET fw.CAP_HDR_CAPTURE_TYPE hC'.info = GUC_CAPTURE_LIST_TYPE_ENGINE_CLASS)
    (tD' : FIELD_GET fw.CAP_HDR_CAPTURE_TYPE hD'.info = GUC_CAPTURE_LIST_TYPE_ENGINE_CLASS)
    (nG' : FIELD_GET fw.CAP_HDR_NUM_MMIOS hG'.num_mmios = rG'.length) (pG' : 0 < rG'.length)
    (nC' : FIELD_GET fw.CAP_HDR_NUM_MMIOS hC'.num_mmios = rC'.length) (pC' : 0 < rC'.length)
    (nD' : FIELD_GET fw.CAP_HDR_NUM_MMIOS hD'.num_mmios = rD'.length) (pD' : 0 < rD'.length)
    (hh' : ring_holds b' (enc_group g' [(hG', rG'), (hC', rC'), (hD', rD')])) :
    ((guc_capture_extract_reglists fw oom k b outlist).ret = 0 ∧
      (guc_capture_extract_reglists fw oom k b outlist).outlist = outlist ++
        [{ is_partial := decide (FIELD_GET fw.CAP_GRP_HDR_CAPTURE_TYPE g.info ≠ 0)
           eng_class := FIELD_GET fw.CAP_HDR_ENGINE_CLASS hI.info
           eng_inst := FIELD_GET fw.CAP_HDR_ENGINE_INSTANCE hI.info
           guc_id := hI.guc_id
           lrca := hI.lrca
           reginfo := [⟨FIELD_GET fw.CAP_HDR_CAPTURE_VFID hG.owner, rG.length, some rG⟩,
             ⟨FIELD_GET fw.CAP_HDR_CAPTURE_VFID hC.owner, rC.length, some rC⟩,
             ⟨FIELD_GET fw.CAP_HDR_CAPTURE_VFID hI.owner, rI.length, some rI⟩] },
         { is_partial := decide (FIELD_GET fw.CAP_GRP_HDR_CAPTURE_TYPE g.info ≠ 0)
           eng_class := FIELD_GET fw.CAP_HDR_ENGINE_CLASS hJ.info
           eng_inst := FIELD_GET fw.CAP_HDR_ENGINE_INSTANCE hJ.info
           guc_id := hJ.guc_id
           lrca := hJ.lrca
           reginfo := [⟨FIELD_GET fw.CAP_HDR_CAPTURE_VFID hG.owner, rG.length, some rG⟩,
             ⟨FIELD_GET fw.CAP_HDR_CAPTURE_VFID hC.owner, rC.length, some rC⟩,
             ⟨FIELD_GET fw.CAP_HDR_CAPTURE_VFID hJ.owner, rJ.length, some rJ⟩] }]) ∧
    ((guc_capture_extract_reglists fw oom k b' outlist).ret = 0 ∧
      (guc_capture_extract_reglists fw oom k b' outlist).outlist = outlist ++
        [{ is_partial := decide (FIELD_GET fw.CAP_GRP_HDR_CAPTURE_TYPE g'.info ≠ 0)
           eng_class := FIELD_GET fw.CAP_HDR_ENGINE_CLASS hC'.info
           eng_inst := 0
           guc_id := 0
           lrca := 0
           reginfo := [⟨FIELD_GET fw.CAP_HDR_CAPTURE_VFID hG'.owner, rG'.length, some rG'⟩,
             ⟨FIELD_GET fw.CAP_HDR_CAPTURE_VFID hC'.owner, rC'.length, some rC'⟩,
             zero_reginfo] },
         { is_partial := decide (FIELD_GET fw.CAP_GRP_HDR_CAPTURE_TYPE g'.info ≠ 0)
           eng_class := FIELD_GET fw.CAP_HDR_ENGINE_CLASS hD'.info
           eng_inst := 0
           guc_id := 0
           lrca := 0
           reginfo := [⟨FIELD_GET fw.CAP_HDR_CAPTURE_VFID hG'.owner, rG'.length, some rG'⟩,
             ⟨FIELD_GET fw.CAP_HDR_CAPTURE_VFID hD'.owner, rD'.length, some rD'⟩,
             zero_reginfo] }]) ∧
    (∀ (oom' : Nat → Bool) (k' : Nat) (orig : __guc_capture_parsed_output),
      (oom' k' = true ∨ oom' (k' + 1) = true →
        (guc_capture_clone_node oom' k' (some orig)
          GCAP_PARSED_REGLIST_INDEX_GLOBAL).1 = none) ∧
      (oom' k' = true ∨ oom' (k' + 1) = true ∨ oom' (k' + 2) = true →
        (guc_capture_clone_node oom' k' (some orig)
          (GCAP_PARSED_REGLIST_INDEX_GLOBAL ||| GCAP_PARSED_REGLIST_INDEX_ENGCLASS)).1 =
            none)) ∧
    (∀ (oom' : Nat → Bool) (ip : Bool) (j : Nat) (s : extract_state)
        (nd : __guc_capture_parsed_output),
      s.node = some nd →
      (guc_capture_log_get_data_hdr s.buf s.hdr).ret = 0 →
      FIELD_GET fw.CAP_HDR_CAPTURE_TYPE
        (guc_capture_log_get_data_hdr s.buf s.hdr).val.info =
          GUC_CAPTURE_LIST_TYPE_ENGINE_CLASS →
      (reginfo_at nd GUC_CAPTURE_LIST_TYPE_ENGINE_CLASS).regs ≠ none →
      (guc_capture_clone_node oom' s.nalloc (some nd)
        GCAP_PARSED_REGLIST_INDEX_GLOBAL).1 = none →
      (extract_loop fw oom' ip 1 s).outlist = s.outlist ++ [nd] ∧
        (∀ nd', (extract_loop fw oom' ip 1 s).node = some nd' →
          reginfo_at nd' GUC_CAPTURE_LIST_TYPE_GLOBAL = zero_reginfo ∧
            reginfo_at nd' GUC_CAPTURE_LIST_TYPE_ENGINE_INSTANCE = zero_reginfo) ∧
        (oom' (guc_capture_clone_node oom' s.nalloc (some nd)
            GCAP_PARSED_REGLIST_INDEX_GLOBAL).2 = true →
          (extract_loop fw oom' ip (j + 1) s).ret = - ENOMEM ∧
            (extract_loop fw oom' ip (j + 1) s).node = none ∧
            (extract_loop fw oom' ip (j + 1) s).outlist = s.outlist ++ [nd])) ∧
    (∀ (oom' : Nat → Bool) (ip : Bool) (j : Nat) (s : extract_state)
        (nd : __guc_capture_parsed_output),
      s.node = some nd →
      (guc_capture_log_get_data_hdr s.buf s.hdr).ret = 0 →
      FIELD_GET fw.CAP_HDR_CAPTURE_TYPE
        (guc_capture_log_get_data_hdr s.buf s.hdr).val.info =
          GUC_CAPTURE_LIST_TYPE_ENGINE_INSTANCE →
      (reginfo_at nd GUC_CAPTURE_LIST_TYPE_ENGINE_INSTANCE).regs ≠ none →
      (guc_capture_clone_node oom' s.nalloc (some nd)
        (GCAP_PARSED_REGLIST_INDEX_GLOBAL ||| GCAP_PARSED_REGLIST_INDEX_ENGCLASS)).1 = none →
      (extract_loop fw oom' ip 1 s).outlist = s.outlist ++ [nd] ∧
        (∀ nd', (extract_loop fw oom' ip 1 s).node = some nd' →
          reginfo_at nd' GUC_CAPTURE_LIST_TYPE_GLOBAL = zero_reginfo ∧
            reginfo_at nd' GUC_CAPTURE_LIST_TYPE_ENGINE_CLASS = zero_reginfo) ∧
        (oom' (guc_capture_clone_node oom' s.nalloc (some nd)
            (GCAP_PARSED_REGLIST_INDEX_GLOBAL ||| GCAP_PARSED_REGLIST_INDEX_ENGCLASS)).2 =
              true →
          (extract_loop fw oom' ip (j + 1) s).ret = - ENOMEM ∧
            (extract_loop fw oom' ip (j + 1) s).node = none ∧
            (extract_loop fw oom' ip (j + 1) s).outlist = s.outlist ++ [nd])) := by
  refine ⟨?_, ?_,
    fun oom' k' orig => ⟨clone_node_global_fails oom' k' orig,
      clone_node_global_class_fails oom' k' orig⟩,
    fun oom' ip j s nd hs hr ht hreg hcl =>
      extract_loop_class_clone_fails fw oom' ip j s nd hs hr ht hreg hcl,
    fun oom' ip j s nd hs hr ht hreg hcl =>
      extract_loop_inst_clone_fails fw oom' ip j s nd hs hr ht hreg hcl⟩
  · obtain ⟨e, _, f⟩ := extract_reglists_complete fw oom k b outlist g
      [(hG, rG), (hC, rC), (hI, rI), (hJ, rJ)] hal hoom hN (by simp [nG, nC, nI, nJ]) hh
    refine ⟨e, ?_⟩
    rw [f]
    simp only [List.foldl_cons, List.foldl_nil]
    rw [record_step_global_none fw _ _ _ _ tG,
      record_step_class_cont fw _ _ _ _ _ _ _ _ _ _ _ _ tC rfl,
      record_step_inst_cont fw _ _ _ _ _ _ _ _ _ _ _ _ tI rfl,
      slot_of_regs fw hG rG pG, slot_of_regs fw hC rC pC, slot_of_regs fw hI rI pI,
      record_step_inst_split fw _ _ _ _ _ _ _ _ _ _ _ _ tJ (by simp),
      slot_of_regs fw hJ rJ pJ,
      extract_bailout_global _ _ (by simp [reginfo_at]), copy_regs_self, copy_regs_self]
    simp
  · obtain ⟨e, _, f⟩ := extract_reglists_complete fw oom k b' outlist g'
      [(hG', rG'), (hC', rC'), (hD', rD')] hal' hoom hN' (by simp [nG', nC', nD']) hh'
    refine ⟨e, ?_⟩
    rw [f]
    simp only [List.foldl_cons, List.foldl_nil]
    rw [record_step_global_none fw _ _ _ _ tG',
      record_step_class_cont fw _ _ _ _ _ _ _ _ _ _ _ _ tC' rfl,
      slot_of_regs fw hG' rG' pG', slot_of_regs fw hC' rC' pC',
      record_step_class_split fw _ _ _ _ _ _ _ _ _ _ _ _ tD' (by simp),
      slot_of_regs fw hD' rD' pD',
      extract_bailout_global _ _ (by simp [reginfo_at]), copy_regs_self]
    simp [zero_reginfo]

set_option maxRecDepth 1000000 in
theorem C21_repeated_records_witness :
    ((guc_capture_extract_reglists fwif_upstream (fun _ => false) 0 example4_ring []).ret = 0 ∧
      ((guc_capture_extract_reglists fwif_upstream (fun _ => false) 0 example4_ring
          []).outlist.map (fun nd => nd.reginfo)) =
        [[⟨9, 1, some [⟨100, 101, 102, 103⟩]⟩, ⟨9, 1, some [⟨110, 111, 112, 113⟩]⟩,
            ⟨9, 1, some [⟨120, 121, 122, 123⟩]⟩],
          [⟨9, 1, some [⟨100, 101, 102, 103⟩]⟩, ⟨9, 1, some [⟨110, 111, 112, 113⟩]⟩,
            ⟨9, 1, some [⟨140, 141, 142, 143⟩]⟩]]) ∧
      (guc_capture_clone_node (fun i => decide (i = 4)) example4_state.nalloc
        (some (example4_state.node.getD zero_node))
        (GCAP_PARSED_REGLIST_INDEX_GLOBAL ||| GCAP_PARSED_REGLIST_INDEX_ENGCLASS)).1 = none ∧
      (extract_loop fwif_upstream (fun i => decide (i = 4)) false 1 example4_state).outlist =
        example4_state.outlist ++ [example4_state.node.getD zero_node] := by
  obtain ⟨⟨e, o⟩, _, cl, _, ri⟩ := C21_repeated_records fwif_upstream (fun _ => false) 0 example4_ring
    example3_ring [] example4_group_hdr example3_group_hdr
    ⟨9, 0, 0, 0, 1⟩ ⟨9, 17, 0, 0, 1⟩ ⟨9, 530, 170, 187, 1⟩ ⟨9, 802, 204, 221, 1⟩
    ⟨9, 0, 0, 0, 1⟩ ⟨9, 17, 0, 0, 1⟩ ⟨9, 33, 0, 0, 1⟩
    [⟨100, 101, 102, 103⟩] [⟨110, 111, 112, 113⟩] [⟨120, 121, 122, 123⟩]
    [⟨140, 141, 142, 143⟩] [⟨100, 101, 102, 103⟩] [⟨110, 111, 112, 113⟩]
    [⟨130, 131, 132, 133⟩] (fun _ => rfl)
    (by unfold ring_aligned; decide) (by decide) (by decide) (by decide) (by decide)
    (by decide) (by decide) (by decide) (by decide) (by decide) (by decide) (by decide)
    (by decide) (by decide) (by unfold ring_holds; decide)
    (by unfold ring_aligned; decide) (by decide) (by decide) (by decide) (by decide)
    (by decide) (by decide) (by decide) (by decide) (by decide) (by decide)
    (by unfold ring_holds; decide)
  refine ⟨⟨e, ?_⟩, ?_, ?_⟩
  · rw [o]
    decide
  · exact (cl (fun i => decide (i = 4)) example4_state.nalloc
      (example4_state.node.getD zero_node)).2 (Or.inl (by decide))
  · exact (ri (fun i => decide (i = 4)) false 0 example4_state
      (example4_state.node.getD zero_node) (by decide) (by decide) (by decide) (by decide)
      (by decide)).1

set_option maxRecDepth 1000000 in
/-- Counterexample to C21 as stated: on the example group Global, Class1, Instance1,
Instance2, when the allocation of the clone fails (the fifth allocation of the pass) and
the following ones succeed, the pass returns 0 and appends two nodes, the second with
empty Global and EngineClass slots. -/
theorem C21_counterexample :
    (guc_capture_extract_reglists fwif_upstream (fun i => decide (i = 4)) 0 example4_ring
        []).ret = 0 ∧
      ((guc_capture_extract_reglists fwif_upstream (fun i => decide (i = 4)) 0 example4_ring
          []).outlist.map (fun nd => nd.reginfo)) =
        [[⟨9, 1, some [⟨100, 101, 102, 103⟩]⟩, ⟨9, 1, some [⟨110, 111, 112, 113⟩]⟩,
            ⟨9, 1, some [⟨120, 121, 122, 123⟩]⟩],
          [⟨0, 0, none⟩, ⟨0, 0, none⟩, ⟨9, 1, some [⟨140, 141, 142, 143⟩]⟩]] := by
  decide

/-- **C22** (fields of a clone, amended).  With every allocation succeeding, for every
original node and every keep mask (Global, EngineClass, or both), `guc_capture_clone_node`
returns a node whose `is_partial` equals the original's, whose `eng_class` equals the
original's when the mask names EngineClass and is 0 otherwise, whose `eng_inst`, `guc_id`
and `lrca` are 0, and whose register slots are copied (same count, values and vfid) exactly
for the slots named in the mask and empty for the others. -/
theorem C22_clone_fields (oom : Nat → Bool) (k : Nat) (hoom : ∀ i, oom i = false)
    (original : __guc_capture_parsed_output) :
    (guc_capture_clone_node oom k (some original) GCAP_PARSED_REGLIST_INDEX_GLOBAL).1 =
        some ⟨original.is_partial, 0, 0, 0, 0,
          [cloned_slot original 0, zero_reginfo, zero_reginfo]⟩ ∧
      (guc_capture_clone_node oom k (some original) GCAP_PARSED_REGLIST_INDEX_ENGCLASS).1 =
        some ⟨original.is_partial, original.eng_class, 0, 0, 0,
          [zero_reginfo, cloned_slot original 1, zero_reginfo]⟩ ∧
      (guc_capture_clone_node oom k (some original)
          (GCAP_PARSED_REGLIST_INDEX_GLOBAL ||| GCAP_PARSED_REGLIST_INDEX_ENGCLASS)).1 =
        some ⟨original.is_partial, original.eng_class, 0, 0, 0,
          [cloned_slot original 0, cloned_slot original 1, zero_reginfo]⟩ := by
  rw [clone_node_global oom k hoom, clone_node_class oom k hoom,
    clone_node_global_class oom k hoom]
  exact ⟨rfl, rfl, rfl⟩

theorem C22_clone_fields_witness :
    (guc_capture_clone_node (fun _ => false) 0 (some example_node)
        GCAP_PARSED_REGLIST_INDEX_GLOBAL).1 =
      some ⟨example_node.is_partial, 0, 0, 0, 0,
        [cloned_slot example_node 0, zero_reginfo, zero_reginfo]⟩ :=
  (C22_clone_fields (fun _ => false) 0 (fun _ => rfl) example_node).1

/-- Counterexample to C22 as stated: the clone of the example node (engine class 3,
instance 1, context 5, LRCA 7) with the Global and EngineClass mask has instance, context
and LRCA 0, and its clone with the Global mask also has engine class 0. -/
theorem C22_counterexample :
    (guc_capture_clone_node (fun _ => false) 0 (some example_node)
        (GCAP_PARSED_REGLIST_INDEX_GLOBAL ||| GCAP_PARSED_REGLIST_INDEX_ENGCLASS)).1.map
        (fun nd => (nd.eng_class, nd.eng_inst, nd.guc_id, nd.lrca)) = some (3, 0, 0, 0) ∧
      (guc_capture_clone_node (fun _ => false) 0 (some example_node)
        GCAP_PARSED_REGLIST_INDEX_GLOBAL).1.map
        (fun nd => (nd.eng_class, nd.eng_inst, nd.guc_id, nd.lrca)) = some (0, 0, 0, 0) ∧
      (example_node.eng_class, example_node.eng_inst, example_node.guc_id,
        example_node.lrca) = (3, 1, 5, 7) := by
  decide

/-- **C23** (a Global record starts a fresh node, amended).  In the record loop of
`guc_capture_extract_reglists`, whenever the data header of a Global record is read while a
node is in progress, that node is appended to the output list, whatever its slots hold and
for every allocator and ring content, it stays in the list for the rest of the loop, and the
node in progress after that iteration, if any, is a new node whose EngineClass and
EngineInstance slots are empty; with every allocation succeeding and the record complete in
a dword-aligned ring, that new node holds the record's registers in its Global slot.  So,
with every allocation succeeding, for every complete group of Global records, each with at
least one register, held by a dword-aligned ring, `guc_capture_extract_reglists` returns 0
and appends exactly one node per record, in stream order, the `i`-th holding exactly the
`i`-th record's registers in its Global slot and nothing in its EngineClass and
EngineInstance slots. -/
theorem C23_global_fresh_node (fw : guc_fwif) (oom : Nat → Bool) (k : Nat)
    (b : __guc_capture_bufstate) (outlist : List __guc_capture_parsed_output)
    (g : guc_state_capture_group_header_t)
    (recs : List (guc_state_capture_header_t × List guc_mmio_reg))
    (hal : ring_aligned b) (hoom : ∀ i, oom i = false)
    (hN : FIELD_GET fw.CAP_GRP_HDR_NUM_CAPTURES g.info = recs.length)
    (hn : ∀ r ∈ recs, FIELD_GET fw.CAP_HDR_NUM_MMIOS r.1.num_mmios = r.2.length)
    (hg : ∀ r ∈ recs, FIELD_GET fw.CAP_HDR_CAPTURE_TYPE r.1.info =
      GUC_CAPTURE_LIST_TYPE_GLOBAL ∧ 0 < r.2.length)
    (hh : ring_holds b (enc_group g recs)) :
    (∀ (oom' : Nat → Bool) (ip : Bool) (j : Nat) (s : extract_state)
        (nd : __guc_capture_parsed_output),
        s.node = some nd →
        (guc_capture_log_get_data_hdr s.buf s.hdr).ret = 0 →
        FIELD_GET fw.CAP_HDR_CAPTURE_TYPE
          (guc_capture_log_get_data_hdr s.buf s.hdr).val.info = GUC_CAPTURE_LIST_TYPE_GLOBAL →
        (extract_loop fw oom' ip 1 s).outlist = s.outlist ++ [nd] ∧
          (∃ t, (extract_loop fw oom' ip (j + 1) s).outlist = s.outlist ++ nd :: t) ∧
          (∀ nd', (extract_loop fw oom' ip 1 s).node = some nd' →
            reginfo_at nd' GUC_CAPTURE_LIST_TYPE_ENGINE_CLASS = zero_reginfo ∧
              reginfo_at nd' GUC_CAPTURE_LIST_TYPE_ENGINE_INSTANCE = zero_reginfo)) ∧
      (∀ (ip : Bool) (s : extract_state) (nd : __guc_capture_parsed_output)
        (h : guc_state_capture_header_t) (rs : List guc_mmio_reg) (rest : List Nat),
        s.node = some nd → ring_aligned s.buf →
        ring_holds s.buf (enc_hdr h ++ (enc_regs rs ++ rest)) →
        FIELD_GET fw.CAP_HDR_CAPTURE_TYPE h.info = GUC_CAPTURE_LIST_TYPE_GLOBAL →
        FIELD_GET fw.CAP_HDR_NUM_MMIOS h.num_mmios = rs.length →
        (extract_loop fw oom ip 1 s).node =
            some ⟨ip, 0, 0, 0, 0, [slot_of fw h rs, zero_reginfo, zero_reginfo]⟩ ∧
          (extract_loop fw oom ip 1 s).outlist = s.outlist ++ [nd] ∧
          (extract_loop fw oom ip 1 s).ret = s.ret) ∧
      (guc_capture_extract_reglists fw oom k b outlist).ret = 0 ∧
      (guc_capture_extract_reglists fw oom k b outlist).outlist =
        outlist ++ recs.map (global_node fw
          (decide (FIELD_GET fw.CAP_GRP_HDR_CAPTURE_TYPE g.info ≠ 0))) := by
  refine ⟨fun oom' ip j s nd hs hr ht => extract_loop_global_rule fw oom' ip j s nd hs hr ht,
    fun ip s nd h rs rest hs hal' hh' ht hn' =>
      extract_loop_global_step fw oom ip s nd hoom hs hal' hh' ht hn', ?_⟩
  obtain ⟨e, _, f⟩ := extract_reglists_complete fw oom k b outlist g recs hal hoom hN hn hh
  refine ⟨e, ?_⟩
  rw [f]
  cases recs with
  | nil => simp [extract_bailout]
  | cons r rest =>
    obtain ⟨ht, hp⟩ := hg r (List.mem_cons_self _ _)
    rw [List.foldl_cons, record_step_global_none fw _ outlist r.1 r.2 ht,
      slot_of_regs fw r.1 r.2 hp]
    have h := fold_globals fw (decide (FIELD_GET fw.CAP_GRP_HDR_CAPTURE_TYPE g.info ≠ 0))
      rest (global_node fw (decide (FIELD_GET fw.CAP_GRP_HDR_CAPTURE_TYPE g.info ≠ 0)) r)
      outlist (fun r' hr' => hg r' (List.mem_cons_of_mem _ hr')) (global_node_regs fw _ r)
    simp only [global_node] at h
    rw [h]
    simp [global_node]

set_option maxRecDepth 1000000 in
theorem C23_global_fresh_node_witness :
    ((guc_capture_extract_reglists fwif_upstream (fun _ => false) 0 example_globals_ring
        []).ret = 0 ∧
      (guc_capture_extract_reglists fwif_upstream (fun _ => false) 0 example_globals_ring
        []).outlist =
        [] ++ example_globals.map (global_node fwif_upstream
          (decide (FIELD_GET fwif_upstream.CAP_GRP_HDR_CAPTURE_TYPE
            example_drift_group_hdr.info ≠ 0)))) ∧
      (extract_loop fwif_upstream (fun _ => true) false 1 example_node_state).outlist =
        example_node_state.outlist ++ [example_node] := by
  have T := C23_global_fresh_node fwif_upstream (fun _ => false) 0 example_globals_ring []
    example_drift_group_hdr example_globals (by unfold ring_aligned; decide) (fun _ => rfl)
    (by decide) (by decide) (by decide) (by unfold ring_holds; decide)
  exact ⟨T.2.2,
    (T.1 (fun _ => true) false 0 example_node_state example_node rfl (by decide)
      (by decide)).1⟩

set_option maxRecDepth 1000000 in
/-- Counterexample to C23 as stated: on a complete group of two Global records, when the
allocation of the second node fails, the pass appends one node, not two, and returns
`-ENOMEM`. -/
theorem C23_counterexample :
    (guc_capture_extract_reglists fwif_upstream (fun i => decide (i = 2)) 0
        example_globals_ring []).outlist.length = 1 ∧
      (guc_capture_extract_reglists fwif_upstream (fun i => decide (i = 2)) 0
        example_globals_ring []).ret = - ENOMEM ∧
      example_globals.length = 2 := by
  decide

/-- **C24** (finalisation rule, amended).  At the label `bailout`, reached when the record
loop ends normally or after a failure, the node in progress is appended to the output store
if and only if at least one of its three register slots holds a register array, and is
otherwise discarded; in particular a complete group, held by a dword-aligned ring, whose
only record is a known-type record declaring zero registers appends no node and, its node
allocation succeeding, returns success. -/
theorem C24_finalisation_rule (fw : guc_fwif) (oom : Nat → Bool) (k : Nat)
    (b : __guc_capture_bufstate) (outlist : List __guc_capture_parsed_output)
    (g : guc_state_capture_group_header_t) (h : guc_state_capture_header_t) :
    (∀ (nd : __guc_capture_parsed_output) (out : List __guc_capture_parsed_output),
        ((∃ i, i < GUC_CAPTURE_LIST_TYPE_MAX ∧ (reginfo_at nd i).regs ≠ none) →
          extract_bailout (some nd) out = out ++ [nd]) ∧
        ((¬ ∃ i, i < GUC_CAPTURE_LIST_TYPE_MAX ∧ (reginfo_at nd i).regs ≠ none) →
          extract_bailout (some nd) out = out) ∧
        extract_bailout none out = out) ∧
      (guc_capture_buf_cnt b ≠ 0 → guc_capture_buf_cnt b % 4 = 0 →
        (guc_capture_log_get_group_hdr b ⟨0, 0⟩).ret = 0 →
        (guc_capture_extract_reglists fw oom k b outlist).outlist =
          extract_bailout
            (extract_loop fw oom
              (decide (FIELD_GET fw.CAP_GRP_HDR_CAPTURE_TYPE
                (guc_capture_log_get_group_hdr b ⟨0, 0⟩).val.info ≠ 0))
              (FIELD_GET fw.CAP_GRP_HDR_NUM_CAPTURES
                (guc_capture_log_get_group_hdr b ⟨0, 0⟩).val.info)
              ⟨(guc_capture_log_get_group_hdr b ⟨0, 0⟩).buf, ⟨0, 0, 0, 0, 0⟩, none,
                outlist, k, 0⟩).node
            (extract_loop fw oom
              (decide (FIELD_GET fw.CAP_GRP_HDR_CAPTURE_TYPE
                (guc_capture_log_get_group_hdr b ⟨0, 0⟩).val.info ≠ 0))
              (FIELD_GET fw.CAP_GRP_HDR_NUM_CAPTURES
                (guc_capture_log_get_group_hdr b ⟨0, 0⟩).val.info)
              ⟨(guc_capture_log_get_group_hdr b ⟨0, 0⟩).buf, ⟨0, 0, 0, 0, 0⟩, none,
                outlist, k, 0⟩).outlist) ∧
      (ring_aligned b → (∀ i, oom i = false) →
        FIELD_GET fw.CAP_GRP_HDR_NUM_CAPTURES g.info = 1 →
        FIELD_GET fw.CAP_HDR_CAPTURE_TYPE h.info ≤ GUC_CAPTURE_LIST_TYPE_ENGINE_INSTANCE →
        FIELD_GET fw.CAP_HDR_NUM_MMIOS h.num_mmios = 0 →
        ring_holds b (enc_group g [(h, [])]) →
        (guc_capture_extract_reglists fw oom k b outlist).ret = 0 ∧
          (guc_capture_extract_reglists fw oom k b outlist).outlist = outlist) := by
  refine ⟨fun nd out => ⟨?_, ?_, rfl⟩, ?_, ?_⟩
  · rintro ⟨i, hi, hr⟩
    exact extract_bailout_filled nd out i hi hr
  · intro hno
    apply extract_bailout_empty
    intro i hi
    by_contra hr
    exact hno ⟨i, hi, hr⟩
  · intro h0 h4 hg
    unfold guc_capture_extract_reglists
    simp only [h0, h4, hg, if_false, ne_eq, not_true_eq_false]
  · intro hal hoom hN ht hn hh
    obtain ⟨e, _, f⟩ := extract_reglists_complete fw oom k b outlist g [(h, [])] hal hoom hN
      (by simpa using hn) hh
    refine ⟨e, ?_⟩
    rw [f]
    simp only [List.foldl_cons, List.foldl_nil]
    have hcases : FIELD_GET fw.CAP_HDR_CAPTURE_TYPE h.info = GUC_CAPTURE_LIST_TYPE_GLOBAL ∨
        FIELD_GET fw.CAP_HDR_CAPTURE_TYPE h.info = GUC_CAPTURE_LIST_TYPE_ENGINE_CLASS ∨
        FIELD_GET fw.CAP_HDR_CAPTURE_TYPE h.info = GUC_CAPTURE_LIST_TYPE_ENGINE_INSTANCE := by
      simp only [GUC_CAPTURE_LIST_TYPE_GLOBAL, GUC_CAPTURE_LIST_TYPE_ENGINE_CLASS,
        GUC_CAPTURE_LIST_TYPE_ENGINE_INSTANCE] at ht ⊢
      omega
    rcases hcases with t | t | t
    · rw [record_step_global_none fw _ _ _ _ t]
      apply extract_bailout_empty
      intro i hi
      simp only [GUC_CAPTURE_LIST_TYPE_MAX] at hi
      interval_cases i <;> simp [reginfo_at, slot_of, zero_reginfo]
    · rw [record_step_class_none fw _ _ _ _ t]
      apply extract_bailout_empty
      intro i hi
      simp only [GUC_CAPTURE_LIST_TYPE_MAX] at hi
      interval_cases i <;> simp [reginfo_at, slot_of, zero_reginfo]
    · rw [record_step_inst_none fw _ _ _ _ t]
      apply extract_bailout_empty
      intro i hi
      simp only [GUC_CAPTURE_LIST_TYPE_MAX] at hi
      interval_cases i <;> simp [reginfo_at, slot_of, zero_reginfo]

set_option maxRecDepth 1000000 in
theorem C24_finalisation_rule_witness :
    (guc_capture_extract_reglists fwif_upstream (fun _ => false) 0 example_empty_ring
        []).ret = 0 ∧
      (guc_capture_extract_reglists fwif_upstream (fun _ => false) 0 example_empty_ring
        []).outlist = [] :=
  (C24_finalisation_rule fwif_upstream (fun _ => false) 0 example_empty_ring []
    example_group_hdr ⟨9, 17, 0, 0, 0⟩).2.2 (by unfold ring_aligned; decide) (fun _ => rfl)
    (by decide) (by decide) (by decide) (by unfold ring_holds; decide)

set_option maxRecDepth 1000000 in
/-- Counterexample to C24 as stated: on a complete group whose only record is an
EngineClass record declaring zero registers, the pass returns `-ENOMEM`, not success, when
the allocation of the node fails. -/
theorem C24_counterexample :
    (guc_capture_extract_reglists fwif_upstream (fun _ => true) 0 example_empty_ring
        []).ret = - ENOMEM ∧
      (guc_capture_extract_reglists fwif_upstream (fun _ => true) 0 example_empty_ring
        []).ret ≠ 0 := by
  decide

/-- **C25** (typed-record readers on a dword-aligned ring).  On every ring whose size, read
offset and write offset are multiples of 4 with `rd ≤ size` and `wr ≤ size`, each reader
(`guc_capture_log_get_group_hdr`, 8 bytes; `_get_data_hdr`, 20 bytes; `_get_register`, 16
bytes) whose record size `F` is available succeeds, whether or not the record straddles the
wrap point, returns fields equal to the `F / 4` dwords at the logical offsets
`(rd + 4 * i) mod size`, and leaves the available byte count reduced by exactly `F`. -/
theorem C25_typed_readers (b : __guc_capture_bufstate)
    (ghdr : guc_state_capture_group_header_t) (hdr : guc_state_capture_header_t)
    (reg : guc_mmio_reg)
    (hal : b.size % 4 = 0 ∧ b.rd % 4 = 0 ∧ b.wr % 4 = 0 ∧ b.rd ≤ b.size ∧ b.wr ≤ b.size) :
    (8 ≤ guc_capture_buf_cnt b →
        (guc_capture_log_get_group_hdr b ghdr).ret = 0 ∧
        (guc_capture_log_get_group_hdr b ghdr).val =
          ⟨get_u32 b.data (b.rd % b.size), get_u32 b.data ((b.rd + 4) % b.size)⟩ ∧
        guc_capture_buf_cnt (guc_capture_log_get_group_hdr b ghdr).buf + 8 =
          guc_capture_buf_cnt b) ∧
      (20 ≤ guc_capture_buf_cnt b →
        (guc_capture_log_get_data_hdr b hdr).ret = 0 ∧
        (guc_capture_log_get_data_hdr b hdr).val =
          ⟨get_u32 b.data (b.rd % b.size), get_u32 b.data ((b.rd + 4) % b.size),
            get_u32 b.data ((b.rd + 8) % b.size), get_u32 b.data ((b.rd + 12) % b.size),
            get_u32 b.data ((b.rd + 16) % b.size)⟩ ∧
        guc_capture_buf_cnt (guc_capture_log_get_data_hdr b hdr).buf + 20 =
          guc_capture_buf_cnt b) ∧
      (16 ≤ guc_capture_buf_cnt b →
        (guc_capture_log_get_register b reg).ret = 0 ∧
        (guc_capture_log_get_register b reg).val =
          ⟨get_u32 b.data (b.rd % b.size), get_u32 b.data ((b.rd + 4) % b.size),
            get_u32 b.data ((b.rd + 8) % b.size), get_u32 b.data ((b.rd + 12) % b.size)⟩ ∧
        guc_capture_buf_cnt (guc_capture_log_get_register b reg).buf + 16 =
          guc_capture_buf_cnt b) := by
  have hal' : ring_aligned b := hal
  refine ⟨fun hc => ?_, fun hc => ?_, fun hc => ?_⟩
  · obtain ⟨e, v, a⟩ := get_group_hdr_aligned ghdr hal' hc
    exact ⟨e, by rw [v]; rfl, a.2.2.2.2.2⟩
  · obtain ⟨e, v, a⟩ := get_data_hdr_aligned hdr hal' hc
    exact ⟨e, by rw [v]; rfl, a.2.2.2.2.2⟩
  · obtain ⟨e, v, a⟩ := get_register_aligned reg hal' hc
    exact ⟨e, by rw [v]; rfl, a.2.2.2.2.2⟩

theorem C25_typed_readers_witness :
    (guc_capture_log_get_data_hdr example_straddle_ring ⟨0, 0, 0, 0, 0⟩).ret = 0 ∧
      (guc_capture_log_get_data_hdr example_straddle_ring ⟨0, 0, 0, 0, 0⟩).val =
        ⟨get_u32 example_straddle_ring.data
            (example_straddle_ring.rd % example_straddle_ring.size),
          get_u32 example_straddle_ring.data
            ((example_straddle_ring.rd + 4) % example_straddle_ring.size),
          get_u32 example_straddle_ring.data
            ((example_straddle_ring.rd + 8) % example_straddle_ring.size),
          get_u32 example_straddle_ring.data
            ((example_straddle_ring.rd + 12) % example_straddle_ring.size),
          get_u32 example_straddle_ring.data
            ((example_straddle_ring.rd + 16) % example_straddle_ring.size)⟩ ∧
      guc_capture_buf_cnt
          (guc_capture_log_get_data_hdr example_straddle_ring ⟨0, 0, 0, 0, 0⟩).buf + 20 =
        guc_capture_buf_cnt example_straddle_ring :=
  (C25_typed_readers example_straddle_ring ⟨0, 0⟩ ⟨0, 0, 0, 0, 0⟩ ⟨0, 0, 0, 0⟩
    (by decide)).2.1 (by decide)

/-- **C26** (no out-of-bounds ring access).  For every cursor with `rd ≤ size` and
`wr ≤ size` and any alignment, every ring offset that `guc_capture_data_extracted`,
`guc_capture_log_remove_dw` and the three typed-record readers load lies in `[0, size)`,
and each of them leaves `rd ≤ size`.  The offsets are those of the copy made:
`guc_capture_data_extracted` loads its `n` bytes from the offsets `rd .. rd + n - 1`, and
`guc_capture_log_remove_dw` loads as many bytes as it returns. -/
theorem C26_no_out_of_bounds (b : __guc_capture_bufstate) (n dw : Nat)
    (g : guc_state_capture_group_header_t) (hdr : guc_state_capture_header_t)
    (reg : guc_mmio_reg) (hrd : b.rd ≤ b.size) (hwr : b.wr ≤ b.size) :
    ((∀ o ∈ data_extracted_reads b n, o < b.size) ∧
        (∀ o ∈ remove_dw_reads b, o < b.size) ∧
        (∀ o ∈ get_group_hdr_reads b g, o < b.size) ∧
        (∀ o ∈ get_data_hdr_reads b hdr, o < b.size) ∧
        (∀ o ∈ get_register_reads b reg, o < b.size)) ∧
      ((∀ img b1, guc_capture_data_extracted b n = some (img, b1) →
          b1.size = b.size ∧ b1.rd ≤ b.size) ∧
        ((guc_capture_log_remove_dw b dw).buf.size = b.size ∧
          (guc_capture_log_remove_dw b dw).buf.rd ≤ b.size) ∧
        ((guc_capture_log_get_group_hdr b g).buf.size = b.size ∧
          (guc_capture_log_get_group_hdr b g).buf.rd ≤ b.size) ∧
        ((guc_capture_log_get_data_hdr b hdr).buf.size = b.size ∧
          (guc_capture_log_get_data_hdr b hdr).buf.rd ≤ b.size) ∧
        ((guc_capture_log_get_register b reg).buf.size = b.size ∧
          (guc_capture_log_get_register b reg).buf.rd ≤ b.size)) ∧
      ((∀ img b1, guc_capture_data_extracted b n = some (img, b1) →
          (data_extracted_reads b n).length = n ∧ ∀ j, j < n → img j = b.data (b.rd + j)) ∧
        (guc_capture_log_remove_dw b dw).ret = (remove_dw_reads b).length) := by
  have h : cursor_in_ring b.size b.wr b := ⟨rfl, rfl, hrd, hwr⟩
  refine ⟨⟨data_extracted_reads_lt b n h, remove_dw_reads_lt b h,
      get_group_hdr_reads_lt b g h, get_data_hdr_reads_lt b hdr h,
      get_register_reads_lt b reg h⟩,
    ⟨fun img b1 he => ?_, ?_, ?_, ?_, ?_⟩,
    ⟨fun img b1 he => data_extracted_reads_length b n img b1 he,
      remove_dw_reads_length b dw⟩⟩
  · have := data_extracted_in_ring b n h img b1 he
    exact ⟨this.1, this.2.2.1⟩
  · have := remove_dw_in_ring b dw h
    exact ⟨this.1, this.2.2.1⟩
  · have := get_group_hdr_in_ring b g h
    exact ⟨this.1, this.2.2.1⟩
  · have := get_data_hdr_in_ring b hdr h
    exact ⟨this.1, this.2.2.1⟩
  · have := get_register_in_ring b reg h
    exact ⟨this.1, this.2.2.1⟩

theorem C26_no_out_of_bounds_witness :
    (∀ o ∈ get_group_hdr_reads example_odd_ring ⟨0, 0⟩, o < example_odd_ring.size) ∧
      get_group_hdr_reads example_odd_ring ⟨0, 0⟩ = [0, 1, 2, 3, 0, 1, 2, 3] :=
  ⟨(C26_no_out_of_bounds example_odd_ring 4 0 ⟨0, 0⟩ ⟨0, 0, 0, 0, 0⟩ ⟨0, 0, 0, 0⟩
    (by decide) (by decide)).1.2.2.1, by decide⟩

/-- **C27** (the processing loop terminates).  For every ring content and every cursor with
read and write offset at most `size`, a pass of `guc_capture_extract_reglists` (a total
function: the pass terminates) leaves a cursor with the same bounds; a pass that returns a
non-negative status found at least 8 available bytes and leaves strictly fewer available,
in fact at least 8 fewer or fewer than 8; and the loop of `__guc_capture_process_output`,
which repeats the pass while its status is non-negative, ends after at most
`available / 8 + 1` passes, the last of negative status. -/
theorem C27_process_loop_terminates (fw : guc_fwif) (oom : Nat → Bool) (k : Nat)
    (b : __guc_capture_bufstate) (out : List __guc_capture_parsed_output)
    (hrd : b.rd ≤ b.size) (hwr : b.wr ≤ b.size) :
    ((guc_capture_extract_reglists fw oom k b out).buf.size = b.size ∧
        (guc_capture_extract_reglists fw oom k b out).buf.wr = b.wr ∧
        (guc_capture_extract_reglists fw oom k b out).buf.rd ≤ b.size) ∧
      (0 ≤ (guc_capture_extract_reglists fw oom k b out).ret →
        8 ≤ guc_capture_buf_cnt b ∧
          guc_capture_buf_cnt (guc_capture_extract_reglists fw oom k b out).buf <
            guc_capture_buf_cnt b ∧
          (guc_capture_buf_cnt (guc_capture_extract_reglists fw oom k b out).buf + 8 ≤
              guc_capture_buf_cnt b ∨
            guc_capture_buf_cnt (guc_capture_extract_reglists fw oom k b out).buf < 8)) ∧
      (∀ fuel, guc_capture_buf_cnt b / 8 + 1 ≤ fuel →
        ∃ n last, process_output_loop fw oom fuel k b out = some (n, last) ∧
          n ≤ guc_capture_buf_cnt b / 8 + 1 ∧ last.ret < 0) := by
  refine ⟨?_, ?_, ?_⟩
  · have h := extract_reglists_in_ring fw oom k b out
      (show cursor_in_ring b.size b.wr b from ⟨rfl, rfl, hrd, hwr⟩)
    exact ⟨h.1, h.2.1, h.2.2.1⟩
  · intro h
    obtain ⟨d1, d2⟩ := extract_reglists_dec fw oom k b out h
    exact ⟨d1, by omega, d2⟩
  · intro fuel hf
    exact process_output_loop_bound fw oom fuel k b out hf

/-- On the drifting example ring (one complete group, 96 bytes available) the loop ends
within `96 / 8 + 1 = 13` passes. -/
theorem C27_process_loop_terminates_witness :
    example_drift_ring.rd ≤ example_drift_ring.size ∧
      example_drift_ring.wr ≤ example_drift_ring.size ∧
      ∃ n last, process_output_loop fwif_upstream (fun _ => false) 13 0 example_drift_ring
          [] = some (n, last) ∧
        n ≤ guc_capture_buf_cnt example_drift_ring / 8 + 1 ∧ last.ret < 0 :=
  ⟨by decide, by decide,
    (C27_process_loop_terminates fwif_upstream (fun _ => false) 0 example_drift_ring []
      (by decide) (by decide)).2.2 13 (by decide)⟩

/-- **C28** (a parse pass stops at the first register-read failure).  Let `s` be the state
of the record loop of `guc_capture_extract_reglists` at the start of an iteration in which
the data header is read and a register-record read then fails, in the skip loop of an
unknown-type record or in the fill loop of a known-type record, and let `n` be the number of
iterations left after it.  Then the remaining iterations change nothing: the loop ends in
the state this iteration leaves, so no further node is started, the status is `-EIO`, and
no later header or register read succeeds, fewer than 16 bytes being available. -/
theorem C28_stops_at_read_failure (fw : guc_fwif) (oom : Nat → Bool) ( is_partial : Bool)
    (n : Nat) (s : extract_state) (hf : reg_read_fails fw oom is_partial s) :
    extract_loop fw oom is_partial (n + 1) s = extract_loop fw oom is_partial 1 s ∧
      (extract_loop fw oom is_partial (n + 1) s).ret = - EIO ∧
      guc_capture_buf_cnt (extract_loop fw oom is_partial 1 s).buf < 16 ∧
      (∀ hdr, (guc_capture_log_get_data_hdr
        (extract_loop fw oom is_partial 1 s).buf hdr).ret ≠ 0) ∧
      (∀ reg, (guc_capture_log_get_register
        (extract_loop fw oom is_partial 1 s).buf reg).ret ≠ 0) := by
  obtain ⟨h1, h2, h3⟩ := extract_loop_after_reg_fail fw oom is_partial n s hf
  refine ⟨h1, by rw [h1]; exact h2, h3, fun hdr => ?_, fun reg => ?_⟩
  · rw [get_data_hdr_short _ hdr (by omega)]
    simp
  · rw [get_register_short _ reg h3]
    simp

set_option maxRecDepth 1000000 in
theorem C28_stops_at_read_failure_witness :
    (extract_loop fwif_upstream (fun _ => false) false (2 + 1) example_trunc_state).ret =
        - EIO ∧
      guc_capture_buf_cnt
        (extract_loop fwif_upstream (fun _ => false) false 1 example_trunc_state).buf < 16 :=
  ⟨(C28_stops_at_read_failure fwif_upstream (fun _ => false) false 2 example_trunc_state
      (by unfold reg_read_fails; decide)).2.1,
    (C28_stops_at_read_failure fwif_upstream (fun _ => false) false 2 example_trunc_state
      (by unfold reg_read_fails; decide)).2.2.1⟩

/-- **C29** (bounded writes of `guc_capture_list_init`).  For every requested record count
`num_entries` and every base list of `b` registers with a matching extension list of `e`
registers (`e = 0` when there is none), `guc_capture_list_init` returns 0 and writes exactly
the records at the indices `i < min(num_entries, b + e)`: the records below `b` come from
the base list, the records from `b` on from the extension list (so only when
`num_entries > b`), and every cell outside these records, in particular every record at an
index `≥ num_entries`, is left as it was. -/
theorem C29_bounded_writes (gc : intel_guc_state_capture) (owner type classid : Nat)
    (m : __guc_mmio_reg_descr_group) (bl el : List __guc_mmio_reg_descr) (mem : Nat → Nat)
    (base num_entries : Nat)
    (hcat : gc.reglists.isNone = false)
    (hm : guc_capture_get_one_list gc.reglists owner type classid = some m)
    (hbl : m.list = some bl) (hb : m.num_regs = bl.length)
    (hx : (guc_capture_get_one_ext_list gc.extlists owner type classid = none ∧ el = []) ∨
      ∃ x, guc_capture_get_one_ext_list gc.extlists owner type classid = some x ∧
        x.extlist = some el ∧ x.num_regs = el.length) :
    (guc_capture_list_init gc owner type classid mem base num_entries).1 = 0 ∧
    (∀ i (hi : i < bl.length), i < num_entries →
      (guc_capture_list_init gc owner type classid mem base num_entries).2
          (base + 4 * i) = bl[i].reg ∧
        (guc_capture_list_init gc owner type classid mem base num_entries).2
          (base + 4 * i + 1) = 3735941133 ∧
        (guc_capture_list_init gc owner type classid mem base num_entries).2
          (base + 4 * i + 2) = bl[i].flags ∧
        (guc_capture_list_init gc owner type classid mem base num_entries).2
          (base + 4 * i + 3) = bl[i].mask) ∧
    (∀ j (hj : j < el.length), bl.length + j < num_entries →
      (guc_capture_list_init gc owner type classid mem base num_entries).2
          (base + 4 * (bl.length + j)) = el[j].reg ∧
        (guc_capture_list_init gc owner type classid mem base num_entries).2
          (base + 4 * (bl.length + j) + 1) = 3735941133 ∧
        (guc_capture_list_init gc owner type classid mem base num_entries).2
          (base + 4 * (bl.length + j) + 2) = el[j].flags ∧
        (guc_capture_list_init gc owner type classid mem base num_entries).2
          (base + 4 * (bl.length + j) + 3) = el[j].mask) ∧
    ∀ a, (a < base ∨ base + 4 * min num_entries (bl.length + el.length) ≤ a) →
      (guc_capture_list_init gc owner type classid mem base num_entries).2 a = mem a := by
  obtain ⟨rl0, xl0, cache0⟩ := gc
  cases rl0 with
  | none => simp at hcat
  | some rl =>
    simp only at hm hx
    obtain ⟨b1, b2⟩ := foldl_write_descr base 0 (fun i => descr_at m.list i)
      (min num_entries bl.length) mem
    simp only [Nat.zero_add] at b1 b2
    rcases hx with ⟨hnone, rfl⟩ | ⟨x, hsome, hel, hxn⟩
    · simp only [guc_capture_list_init, hm, hnone, hb, List.length_nil, Nat.add_zero]
      refine ⟨trivial, ?_, fun j hj => absurd hj (Nat.not_lt_zero j), ?_⟩
      · intro i hi hin
        have := b1 i (by omega)
        rw [hbl, descr_at_some bl i hi] at this
        rw [hbl]
        exact this
      · intro a ha
        exact b2 a (by omega)
    · obtain ⟨c1, c2⟩ := foldl_write_descr base bl.length (fun j => descr_at x.extlist j)
        (min (min num_entries (bl.length + el.length) - bl.length) el.length)
        ((List.range (min num_entries bl.length)).foldl
          (fun acc i => write_descr acc base i (descr_at m.list i)) mem)
      simp only [guc_capture_list_init, hm, hsome, hb, hxn]
      refine ⟨trivial, ?_, ?_, ?_⟩
      · intro i hi hin
        have := b1 i (by omega)
        rw [hbl, descr_at_some bl i hi] at this
        rw [c2 _ (by omega), c2 _ (by omega), c2 _ (by omega), c2 _ (by omega), hbl]
        exact this
      · intro j hj hjn
        have := c1 j (by omega)
        rw [hel, descr_at_some el j hj] at this
        rw [hel]
        exact this
      · intro a ha
        rw [c2 a (by omega)]
        exact b2 a (by omega)

theorem C29_bounded_writes_witness :
    (guc_capture_list_init example_capture 0 1 0 (fun _ => 7) 1 2).1 = 0 ∧
      (guc_capture_list_init example_capture 0 1 0 (fun _ => 7) 1 2).2 (1 + 4 * (1 + 0)) =
        57616 ∧
      (guc_capture_list_init example_capture 0 1 0 (fun _ => 7) 1 2).2 (1 + 4 * 2) = 7 := by
  obtain ⟨h1, _, h3, h4⟩ :=
    C29_bounded_writes example_capture 0 1 0
      ⟨some [⟨8368, 0, 0, "EIR"⟩], 1, 0, 1, 0, none⟩ [⟨8368, 0, 0, "EIR"⟩]
      [⟨57616, 1052672, 0, "GEN7_SAMPLER_INSTDONE"⟩, ⟨57620, 1052672, 0, "GEN7_ROW_INSTDONE"⟩]
      (fun _ => 7) 1 2 (by decide) (by decide) rfl rfl
      (Or.inr ⟨⟨none, 2, 0, 1, 0,
        some [⟨57616, 1052672, 0, "GEN7_SAMPLER_INSTDONE"⟩,
          ⟨57620, 1052672, 0, "GEN7_ROW_INSTDONE"⟩]⟩, by decide, rfl, rfl⟩)
  exact ⟨h1, (h3 0 (by decide) (by decide)).1, h4 (1 + 4 * 2) (by decide)⟩

/-- **C30** (truncated register block, amended).  With every allocation succeeding, for every
dword-aligned ring that holds a group header, complete records and then the data header of a
known-type record that declares `n` registers followed by only `rs.length < n` register
records (fewer than 16 bytes follow the last of them), `guc_capture_extract_reglists`
returns `-EIO` and appends the node of that record: the output list ends with a node `nd`
whose slot of the record's type has `num_regs = n` and the array made of the registers
read followed by `n - rs.length` zero entries; the node and the list before it are those the
record rule gives for the record with that padded block. -/
theorem C30_truncated_block (fw : guc_fwif) (oom : Nat → Bool) (k : Nat)
    (b : __guc_capture_bufstate) (out : List __guc_capture_parsed_output)
    (g : guc_state_capture_group_header_t)
    (recs : List (guc_state_capture_header_t × List guc_mmio_reg))
    (h : guc_state_capture_header_t) (rs : List guc_mmio_reg) (n : Nat)
    (hal : ring_aligned b) (hoom : ∀ i, oom i = false)
    (hN : recs.length < FIELD_GET fw.CAP_GRP_HDR_NUM_CAPTURES g.info)
    (hn : ∀ r ∈ recs, FIELD_GET fw.CAP_HDR_NUM_MMIOS r.1.num_mmios = r.2.length)
    (ht : FIELD_GET fw.CAP_HDR_CAPTURE_TYPE h.info ≤ GUC_CAPTURE_LIST_TYPE_ENGINE_INSTANCE)
    (hm : FIELD_GET fw.CAP_HDR_NUM_MMIOS h.num_mmios = n) (hk : rs.length < n)
    (hh : ring_holds b (enc_group g recs ++ (enc_hdr h ++ enc_regs rs)))
    (hs : guc_capture_buf_cnt b <
      8 + (recs.map (fun r => 20 + 16 * r.2.length)).sum + 20 + 16 * rs.length + 16) :
    (guc_capture_extract_reglists fw oom k b out).ret = - EIO ∧
      ∃ nd pre, (guc_capture_extract_reglists fw oom k b out).outlist = pre ++ [nd] ∧
        (some nd, pre) =
          record_step fw (decide (FIELD_GET fw.CAP_GRP_HDR_CAPTURE_TYPE g.info ≠ 0))
            (recs.foldl (record_step fw
              (decide (FIELD_GET fw.CAP_GRP_HDR_CAPTURE_TYPE g.info ≠ 0))) (none, out))
            (h, rs ++ List.replicate (n - rs.length) zero_reg) ∧
        reginfo_at nd (FIELD_GET fw.CAP_HDR_CAPTURE_TYPE h.info) =
          ⟨FIELD_GET fw.CAP_HDR_CAPTURE_VFID h.owner, n,
            some (rs ++ List.replicate (n - rs.length) zero_reg)⟩ := by
  obtain ⟨m, rfl⟩ : ∃ m, n = rs.length + m + 1 := ⟨n - rs.length - 1, by omega⟩
  rw [show rs.length + m + 1 - rs.length = m + 1 by omega]
  have ht' : ¬ FIELD_GET fw.CAP_HDR_CAPTURE_TYPE h.info >
      GUC_CAPTURE_LIST_TYPE_ENGINE_INSTANCE := by omega
  obtain ⟨e1, e2⟩ := extract_reglists_trunc fw oom k b out g recs h rs m hal hoom hN hn ht' hm
    hh hs
  have inv := foldl_record_step_len fw
    (decide (FIELD_GET fw.CAP_GRP_HDR_CAPTURE_TYPE g.info ≠ 0)) recs (none, out)
    (fun nd e => absurd e (by simp))
  have hlen : (rs ++ List.replicate (m + 1) zero_reg).length = rs.length + m + 1 := by
    simp only [List.length_append, List.length_replicate]
    omega
  obtain ⟨nd, hnd, hslot⟩ := record_step_slot fw
    (decide (FIELD_GET fw.CAP_GRP_HDR_CAPTURE_TYPE g.info ≠ 0)) _ h
    (rs ++ List.replicate (m + 1) zero_reg) inv ht (by omega)
  rw [hlen] at hslot
  generalize record_step fw (decide (FIELD_GET fw.CAP_GRP_HDR_CAPTURE_TYPE g.info ≠ 0))
    (recs.foldl (record_step fw
      (decide (FIELD_GET fw.CAP_GRP_HDR_CAPTURE_TYPE g.info ≠ 0))) (none, out))
    (h, rs ++ List.replicate (m + 1) zero_reg) = st at e2 hnd ⊢
  obtain ⟨x1, x2⟩ := st
  simp only at hnd e2
  subst hnd
  refine ⟨e1, nd, x2, ?_, rfl, hslot⟩
  rw [e2]
  refine extract_bailout_filled nd _ (FIELD_GET fw.CAP_HDR_CAPTURE_TYPE h.info) ?_ ?_
  · simp only [GUC_CAPTURE_LIST_TYPE_MAX]
    simp only [GUC_CAPTURE_LIST_TYPE_ENGINE_INSTANCE] at ht
    omega
  · rw [hslot]
    simp

set_option maxRecDepth 1000000 in
theorem C30_truncated_block_witness :
    (guc_capture_extract_reglists fwif_upstream (fun _ => false) 0 example_trunc_ring
        []).ret = - EIO ∧
      ∃ nd pre,
        (guc_capture_extract_reglists fwif_upstream (fun _ => false) 0 example_trunc_ring
          []).outlist = pre ++ [nd] ∧
        (some nd, pre) =
          record_step fwif_upstream
            (decide (FIELD_GET fwif_upstream.CAP_GRP_HDR_CAPTURE_TYPE example_group_hdr.info
              ≠ 0))
            (([] : List (guc_state_capture_header_t × List guc_mmio_reg)).foldl
              (record_step fwif_upstream
                (decide (FIELD_GET fwif_upstream.CAP_GRP_HDR_CAPTURE_TYPE
                  example_group_hdr.info ≠ 0))) (none, []))
            (⟨9, 0, 4369, 8738, 2⟩,
              [⟨100, 101, 102, 103⟩] ++ List.replicate (2 - [(⟨100, 101, 102, 103⟩ :
                guc_mmio_reg)].length) zero_reg) ∧
        reginfo_at nd (FIELD_GET fwif_upstream.CAP_HDR_CAPTURE_TYPE
            (⟨9, 0, 4369, 8738, 2⟩ : guc_state_capture_header_t).info) =
          ⟨FIELD_GET fwif_upstream.CAP_HDR_CAPTURE_VFID
              (⟨9, 0, 4369, 8738, 2⟩ : guc_state_capture_header_t).owner, 2,
            some ([⟨100, 101, 102, 103⟩] ++ List.replicate (2 - [(⟨100, 101, 102, 103⟩ :
              guc_mmio_reg)].length) zero_reg)⟩ :=
  C30_truncated_block fwif_upstream (fun _ => false) 0 example_trunc_ring []
    example_group_hdr [] ⟨9, 0, 4369, 8738, 2⟩ [⟨100, 101, 102, 103⟩] 2
    (by unfold ring_aligned; decide) (fun _ => rfl) (by decide) (by simp) (by decide)
    (by decide) (by decide) (by unfold ring_holds; decide) (by decide)

set_option maxRecDepth 1000000 in
/-- Counterexample to C30 as stated: on the dword-aligned example ring, whose Global record
declares two registers with only one register record available, the pass returns `-ENOMEM`,
not `-EIO`, and appends no node when the allocation of the node fails. -/
theorem C30_counterexample :
    ring_aligned example_trunc_ring ∧
      ring_holds example_trunc_ring
        (enc_group example_group_hdr [] ++
          (enc_hdr ⟨9, 0, 4369, 8738, 2⟩ ++ enc_regs [⟨100, 101, 102, 103⟩])) ∧
      guc_capture_buf_cnt example_trunc_ring = 44 ∧
      (guc_capture_extract_reglists fwif_upstream (fun _ => true) 0 example_trunc_ring
        []).ret = - ENOMEM ∧
      (guc_capture_extract_reglists fwif_upstream (fun _ => true) 0 example_trunc_ring
        []).ret ≠ - EIO ∧
      (guc_capture_extract_reglists fwif_upstream (fun _ => true) 0 example_trunc_ring
        []).outlist = [] := by
  unfold ring_aligned ring_holds
  decide

end DrmKmod
